import Mathlib

/-!
# QEMU 9p local backend (hw/9pfs/9p-local.c, hw/9pfs/9p-util.h)

A shallow embedding of the local filesystem backend and of the helpers of
`9p-util.h`.  C strings are lists of characters, machine integers are `Nat`
or `Int` with explicit reduction modulo a power of two where a C conversion
changes the width, and every host system call goes through `sys`, which asks
a host (an arbitrary deterministic transition system) for the result and
records the call in a trace.
-/

namespace NinePLocal

/-! ## C strings and constants of the host ABI (Linux, glibc) -/

/-- C strings, as the list of their characters without the terminating NUL. -/
abbrev CStr := List Char

def O_RDONLY : Nat := 0
def O_WRONLY : Nat := 1
def O_RDWR : Nat := 2
def O_CREAT : Nat := 0o100
def O_EXCL : Nat := 0o200
def O_NOCTTY : Nat := 0o400
def O_NONBLOCK : Nat := 0o4000
def O_DIRECTORY : Nat := 0o200000
def O_NOFOLLOW : Nat := 0o400000
def O_PATH : Nat := 0o10000000

/-- `O_PATH_9P_UTIL` of 9p-util.h: `O_PATH` where the host defines it. -/
def O_PATH_9P_UTIL : Nat := O_PATH

def S_IFMT : Nat := 0o170000
def S_IFDIR : Nat := 0o040000
def S_IFREG : Nat := 0o100000
def S_IFLNK : Nat := 0o120000

def S_ISREG (m : Nat) : Bool := m &&& S_IFMT == S_IFREG
def S_ISDIR (m : Nat) : Bool := m &&& S_IFMT == S_IFDIR

def ENOENT : Int := 2
def EINTR : Int := 4
def ENXIO : Int := 6
def EEXIST : Int := 17
def EOPNOTSUPP : Int := 95
def EBADF : Int := 9
def EISDIR : Int := 21
def ENOTEMPTY : Int := 39

def AT_REMOVEDIR : Nat := 0x200
def PATH_MAX : Nat := 4096

/-- The part of `struct stat` the backend touches; `rest` stands for all the
other fields (inode, size, times, ...), which the backend never writes. -/
structure Stat where
  st_uid : Nat
  st_gid : Nat
  st_mode : Nat
  st_rdev : Nat
  rest : Nat
deriving DecidableEq, Repr

/-! ## The host -/

/-- Host calls issued by the backend, with the arguments the code passes. -/
inductive HostCall
  | openat (dirfd : Int) (name : CStr) (flags mode : Nat)
  | open_ (path : CStr) (flags mode : Nat)
  | fstat (fd : Int)
  | close (fd : Int)
  | fcntl_setfl (fd : Int) (flags : Nat)
  | relative_openat_nofollow (dirfd : Int) (path : CStr) (flags mode : Nat)
  | lstat (path : CStr)
  | getxattr (path name : CStr) (size : Nat)
  | setxattr (path name : CStr) (value size flags : Nat)
  | fopen (path mode : CStr)
  | fclose (fp : Int)
  | fprintf (fp : Int) (text : CStr)
  | mkdir (path : CStr) (mode : Nat)
  | mknod (path : CStr) (mode rdev : Nat)
  | lchown (path : CStr) (uid gid : Nat)
  | chmod (path : CStr) (mode : Nat)
  | read (fd : Int) (count : Nat)
  | write (fd : Int) (data : CStr)
  | readlink (path : CStr) (bufsz : Nat)
  | symlink (target path : CStr)
  | remove (path : CStr)
  | rename (oldpath newpath : CStr)
  | readdir_r (stream : Int)
  | link (oldpath newpath : CStr)
  | unlinkat (dirfd : Int) (name : CStr) (flags : Nat)
  | fgetxattr (fd : Int) (name : CStr) (size : Nat)
  | fstatat (dirfd : Int) (path : CStr) (flags : Nat)
  | fdopendir (fd : Int)
deriving DecidableEq, Repr

/-- What the host answers to a call: the return value, the value it leaves in
`errno` when it sets it, and what it writes to the output buffer of the call
(`stat` for the stat family, `data` for bytes and names, `val` for a fixed
width value such as an extended attribute). -/
structure HostRes where
  ret : Int
  err : Option Int
  stat : Stat
  data : CStr
  val : Nat
deriving DecidableEq, Repr

/-- A host: any deterministic transition system answering host calls. -/
structure Host (σ : Type) where
  step : σ → HostCall → HostRes × σ

/-- The state threaded through the backend code: the host state, the C
`errno`, the trace of host calls made so far, and the descriptors that were
opened and not closed. -/
structure World (σ : Type) where
  hs : σ
  errno : Int
  trace : List HostCall
  fds : List Int
deriving DecidableEq

/-- Bookkeeping of the open descriptors across one host call. -/
def updFds (c : HostCall) (r : HostRes) (fds : List Int) : List Int :=
  match c with
  | .openat _ _ _ _ => if r.ret = -1 then fds else r.ret :: fds
  | .open_ _ _ _ => if r.ret = -1 then fds else r.ret :: fds
  | .relative_openat_nofollow _ _ _ _ => if r.ret = -1 then fds else r.ret :: fds
  | .close fd => fds.filter (fun x => x != fd)
  | _ => fds

/-- One host call: the host answers, `errno` follows the answer, the call is
appended to the trace. -/
def sys {σ : Type} (H : Host σ) (c : HostCall) (w : World σ) : HostRes × World σ :=
  let r := H.step w.hs c
  (r.1, { hs := r.2, errno := r.1.err.getD w.errno, trace := w.trace ++ [c],
          fds := updFds c r.1 w.fds })

/-! ## 9p-util.h -/

/-- `close_preserve_errno` of 9p-util.h. -/
def close_preserve_errno {σ : Type} (H : Host σ) (fd : Int) (w : World σ) : World σ :=
  let serrno := w.errno
  let w1 := (sys H (.close fd) w).2
  { w1 with errno := serrno }

/-- `close_if_special_file` of 9p-util.h. -/
def close_if_special_file {σ : Type} (H : Host σ) (fd : Int) (w : World σ) : Int × World σ :=
  let r := sys H (.fstat fd) w
  if r.1.ret < 0 then
    (-1, close_preserve_errno H fd r.2)
  else if !S_ISREG r.1.stat.st_mode && !S_ISDIR r.1.stat.st_mode then
    let w2 := (sys H (.close fd) r.2).2
    (-1, { w2 with errno := ENXIO })
  else
    (0, r.2)

/-- `openat_dir` of 9p-util.h. -/
def openat_dir {σ : Type} (H : Host σ) (dirfd : Int) (name : CStr) (w : World σ) :
    Int × World σ :=
  let r := sys H (.openat dirfd name (O_DIRECTORY ||| O_RDONLY ||| O_NOFOLLOW ||| O_PATH_9P_UTIL) 0) w
  (r.1.ret, r.2)

/-- `openat_file` of 9p-util.h; `none` is the failed `assert(!ret)` after
`fcntl`. -/
def openat_file {σ : Type} (H : Host σ) (dirfd : Int) (name : CStr) (flags mode : Nat)
    (w : World σ) : Option (Int × World σ) :=
  let r := sys H (.openat dirfd name (flags ||| O_NOFOLLOW ||| O_NOCTTY ||| O_NONBLOCK) mode) w
  let fd := r.1.ret
  if fd = -1 then
    some (-1, r.2)
  else
    let c := close_if_special_file H fd r.2
    if c.1 < 0 then
      some (-1, c.2)
    else
      let serrno := c.2.errno
      if flags &&& O_PATH_9P_UTIL = 0 then
        let f := sys H (.fcntl_setfl fd flags) c.2
        if f.1.ret ≠ 0 then none
        else some (fd, { f.2 with errno := serrno })
      else
        some (fd, { c.2 with errno := serrno })

/-- A host that answers from a fixed script, one answer per call, whatever
the call; once the script is used up every call fails. -/
def scriptHost : Host (List HostRes) where
  step s _ := (s.headD { ret := -1, err := some 5, stat := ⟨0, 0, 0, 0, 0⟩, data := [], val := 0 }, s.tail)

/-- An answer that carries only a return value. -/
def okRes (ret : Int) : HostRes := { ret := ret, err := none, stat := ⟨0, 0, 0, 0, 0⟩, data := [], val := 0 }

/-- An answer of a failed call: -1 and the given `errno`. -/
def failRes (e : Int) : HostRes := { ret := -1, err := some e, stat := ⟨0, 0, 0, 0, 0⟩, data := [], val := 0 }

/-- An answer of a successful `stat` family call with the given mode. -/
def statRes (mode : Nat) : HostRes := { ret := 0, err := none, stat := ⟨0, 0, mode, 0, 0⟩, data := [], val := 0 }

/-- The initial state over a script. -/
def scriptWorld (s : List HostRes) : World (List HostRes) :=
  { hs := s, errno := 0, trace := [], fds := [] }

/-! ## C integer conversions and the libc text helpers -/

/-- Conversion to `int` (32 bits, two's complement): the representative of
`v` modulo 2^32 in the range from -2^31 to 2^31 - 1. -/
def toInt32 (v : Int) : Int := (v + 2147483648) % 4294967296 - 2147483648

/-- Conversion of an `int` to a 32-bit unsigned type (`uid_t`, `gid_t`,
`mode_t`). -/
def toU32 (v : Int) : Nat := (v % 4294967296).toNat

/-- Conversion of an `int` to `dev_t` (64 bits, unsigned, glibc). -/
def toU64 (v : Int) : Nat := (v % 18446744073709551616).toNat

/-- The value `-1` after conversion to a 32-bit unsigned type, 2^32 - 1. -/
def U32_MINUS_ONE : Nat := 4294967295

/-- The value `-1` after conversion to `dev_t`, 2^64 - 1. -/
def U64_MINUS_ONE : Nat := 18446744073709551615

/-- The C string held in a buffer: its characters up to the first NUL. -/
def cstr (s : CStr) : CStr := s.takeWhile (fun c => c != '\x00')

/-- `strncmp(a, b, n) == 0`: the first `n` characters of the two C strings,
terminator included, agree. -/
def strncmp0 (a b : CStr) (n : Nat) : Bool :=
  (cstr a ++ ['\x00']).take n == (cstr b ++ ['\x00']).take n

/-- `isspace` in the C locale. -/
def isspace (c : Char) : Bool :=
  c == ' ' || c == '\t' || c == '\n' || c == '\x0b' || c == '\x0c' || c == '\r'

def isdigit (c : Char) : Bool := decide ('0'.toNat ≤ c.toNat ∧ c.toNat ≤ '9'.toNat)

/-- The digits at the head of a string, accumulated in base 10. -/
def parseDigits : Nat → CStr → Nat
  | acc, [] => acc
  | acc, c :: s => if isdigit c then parseDigits (acc * 10 + (c.toNat - '0'.toNat)) s else acc

/-- `strtol(s, NULL, 10)` on a 64-bit `long`: white space, optional sign,
digits, clamped to the range of `long`. -/
def strtol (s : CStr) : Int :=
  let clamp (v : Int) : Int := max (-9223372036854775808) (min 9223372036854775807 v)
  match s.dropWhile isspace with
  | '-' :: t => clamp (-(parseDigits 0 t : Int))
  | '+' :: t => clamp (parseDigits 0 t)
  | t => clamp (parseDigits 0 t)

/-- `atoi` of glibc: `(int) strtol(s, NULL, 10)`. -/
def atoi (s : CStr) : Int := toInt32 (strtol s)

/-- The text `printf` produces for `%d`. -/
def fmt_d (v : Int) : CStr :=
  if v < 0 then '-' :: Nat.toDigits 10 (-v).toNat else Nat.toDigits 10 v.toNat

/-- `fgets(buf, n, fp)` on the rest of a stream: at most `n - 1` characters,
stopping after a newline; the characters read and the rest of the stream. -/
def fgets : Nat → CStr → CStr × CStr
  | 0, s => ([], s)
  | 1, s => ([], s)
  | _, [] => ([], [])
  | n + 1, c :: s =>
    if c = '\n' then ([c], s) else ((c :: (fgets n s).1), (fgets n s).2)

def ATTR_MAX : Nat := 100

/-- The successive buffers `while (fgets(buf, ATTR_MAX, fp))` sees on a
stream; `fuel` bounds the number of iterations. -/
def fgetsLoop : Nat → CStr → List CStr
  | 0, _ => []
  | fuel + 1, s =>
    if s = [] then [] else (fgets ATTR_MAX s).1 :: fgetsLoop fuel (fgets ATTR_MAX s).2

/-- All buffers of a stream: every `fgets` on a non-empty stream consumes a
character, so `length` iterations reach the end of the stream. -/
def fgetsAll (s : CStr) : List CStr := fgetsLoop s.length s

/-! ## Context, credentials, paths -/

/-- Modelled from the spec: the security-model bits of `export_flags` are
declared outside the examined sources; the spec names four models selected
once per export, modelled as four distinct bits of the flags word, with
`V9FS_SEC_MASK` their union. -/
def V9FS_SM_PASSTHROUGH : Nat := 0x4

/-- Modelled from the spec: the bit of the mapped (xattr) security model. -/
def V9FS_SM_MAPPED : Nat := 0x8

/-- Modelled from the spec: the bit of the none security model. -/
def V9FS_SM_NONE : Nat := 0x10

/-- Modelled from the spec: the bit of the mapped-file security model. -/
def V9FS_SM_MAPPED_FILE : Nat := 0x20

/-- Modelled from the spec: the union of the four security-model bits. -/
def V9FS_SEC_MASK : Nat := 0x3C

/-- Modelled from the spec: the benign fixed mode of host files created under
the mapped models (declared outside the examined sources). -/
def SM_LOCAL_MODE_BITS : Nat := 0o600

/-- Modelled from the spec: the benign fixed mode of host directories created
under the mapped models (declared outside the examined sources). -/
def SM_LOCAL_DIR_MODE_BITS : Nat := 0o700

/-- `FsContext`: the export root, the export flags, and the descriptor of the
root (`LocalData.mountfd`). -/
structure FsContext where
  fs_root : CStr
  export_flags : Nat
  mountfd : Int
deriving DecidableEq, Repr

/-- `FsCred`: `fc_uid : uid_t`, `fc_gid : gid_t`, `fc_mode : mode_t` (32 bits,
unsigned) and `fc_rdev : dev_t` (64 bits, unsigned); a field holding `-1`
(all bits set) is unset. -/
structure FsCred where
  fc_uid : Nat
  fc_gid : Nat
  fc_mode : Nat
  fc_rdev : Nat
deriving DecidableEq, Repr

/-- The test `export_flags & bit` of the C code. -/
def flagSet (flags bit : Nat) : Bool := flags &&& bit != 0

def VIRTFS_META_DIR : CStr := ".virtfs_metadata".toList

/-- `snprintf(buffer, PATH_MAX, ...)`: the text, cut to the buffer. -/
def snprintf_PATH_MAX (text : CStr) : CStr := text.take (PATH_MAX - 1)

/-- Modelled from the spec: `rpath` is declared outside the examined sources;
it yields the root-prefixed host path `root/path` in a `PATH_MAX` buffer. -/
def rpath (ctx : FsContext) (path : CStr) : CStr :=
  snprintf_PATH_MAX (ctx.fs_root ++ "/".toList ++ path)

/-- A string without its trailing slashes. -/
def stripTrailingSlashes (s : CStr) : CStr :=
  (s.reverse.dropWhile (fun c => c == '/')).reverse

/-- Index of the last `/` of a string (`strrchr`). -/
def lastSlash (s : CStr) : Option Nat :=
  let tail := s.reverse.takeWhile (fun c => c != '/')
  if tail.length = s.length then none else some (s.length - tail.length - 1)

/-- The effect of `base_name = basename(tmp_path); *(base_name - 1) = 0` with
the POSIX `basename` of glibc (`libgen.h`): the directory part left in
`tmp_path` and the base name.  `none` where `base_name - 1` lies outside the
string (no slash before the base name, empty path, the path `/`), where the
C code writes out of bounds. -/
def basenameSplit (path : CStr) : Option (CStr × CStr) :=
  if path = [] then none
  else
    let t := stripTrailingSlashes path
    if t = [] then
      if path.length = 1 then none
      else some (List.replicate (path.length - 2) '/', ['/'])
    else
      let base := (t.reverse.takeWhile (fun c => c != '/')).reverse
      if base.length = t.length then none
      else some (t.take (t.length - base.length - 1), base)

/-- `dirname` of glibc. -/
def dirname (path : CStr) : CStr :=
  let skipBack (i : Nat) : Nat := (stripTrailingSlashes (path.take i)).length
  let last1 : Option Nat :=
    match lastSlash path with
    | none => none
    | some i =>
      if i ≠ 0 ∧ i + 1 = path.length then
        if skipBack i ≠ 0 then lastSlash (path.take (skipBack i)) else some i
      else some i
  match last1 with
  | none => ".".toList
  | some i =>
    if skipBack i = 0 then (if i = 1 then path.take 2 else path.take 1)
    else path.take (skipBack i)

/-- `local_mapped_attr_path`: `root/dir/.virtfs_metadata/base`. -/
def local_mapped_attr_path (ctx : FsContext) (path : CStr) : Option CStr :=
  match basenameSplit path with
  | none => none
  | some (dir_name, base_name) =>
    some (snprintf_PATH_MAX
      (ctx.fs_root ++ "/".toList ++ dir_name ++ "/".toList ++ VIRTFS_META_DIR ++ "/".toList ++ base_name))

/-! ## The shadow record (mapped-file) -/

/-- One iteration of the read loop of `local_mapped_file_attr` on the buffer
`buf` filled by `fgets`. -/
def mapped_file_attr_line (stbuf : Stat) (buf : CStr) : Stat :=
  if strncmp0 buf "virtfs.uid".toList 10 then
    { stbuf with st_uid := toU32 (atoi (buf.drop 11)) }
  else if strncmp0 buf "virtfs.gid".toList 10 then
    { stbuf with st_gid := toU32 (atoi (buf.drop 11)) }
  else if strncmp0 buf "virtfs.mode".toList 11 then
    { stbuf with st_mode := toU32 (atoi (buf.drop 12)) }
  else if strncmp0 buf "virtfs.rdev".toList 11 then
    { stbuf with st_rdev := toU64 (atoi (buf.drop 12)) }
  else stbuf

/-- The read loop of `local_mapped_file_attr` over the content of the record. -/
def mapped_file_attr_read (content : CStr) (stbuf : Stat) : Stat :=
  (fgetsAll content).foldl mapped_file_attr_line stbuf

/-- `local_mapped_file_attr`.  `fopen` answers with the stream (0 is `NULL`)
and, for reading, with the content `fgets` will deliver. -/
def local_mapped_file_attr {σ : Type} (H : Host σ) (ctx : FsContext) (path : CStr)
    (stbuf : Stat) (w : World σ) : Option (Stat × World σ) :=
  match local_mapped_attr_path ctx path with
  | none => none
  | some attr_path =>
    let r := sys H (.fopen attr_path "r".toList) w
    if r.1.ret = 0 then some (stbuf, r.2)
    else
      some (mapped_file_attr_read r.1.data stbuf, (sys H (.fclose r.1.ret) r.2).2)

/-- The local variables `uid`, `gid`, `mode`, `rdev` (all `int`) of
`local_set_mapped_file_attr`. -/
structure AttrInts where
  uid : Int
  gid : Int
  mode : Int
  rdev : Int
deriving DecidableEq, Repr

/-- One iteration of the read loop of `local_set_mapped_file_attr`. -/
def set_attr_line (a : AttrInts) (buf : CStr) : AttrInts :=
  if strncmp0 buf "virtfs.uid".toList 10 then { a with uid := atoi (buf.drop 11) }
  else if strncmp0 buf "virtfs.gid".toList 10 then { a with gid := atoi (buf.drop 11) }
  else if strncmp0 buf "virtfs.mode".toList 11 then { a with mode := atoi (buf.drop 12) }
  else if strncmp0 buf "virtfs.rdev".toList 11 then { a with rdev := atoi (buf.drop 12) }
  else a

/-- The values of the four variables when `update_map_file` is reached: `-1`
each when there is no previous record, else what the read loop leaves. -/
def set_attr_read (prev : Option CStr) : AttrInts :=
  match prev with
  | none => ⟨-1, -1, -1, -1⟩
  | some content => (fgetsAll content).foldl set_attr_line ⟨-1, -1, -1, -1⟩

/-- The four `if (credp->fc_x != -1) x = credp->fc_x;` statements. -/
def set_attr_merge (a : AttrInts) (credp : FsCred) : AttrInts :=
  let a1 := if credp.fc_uid ≠ U32_MINUS_ONE then { a with uid := toInt32 credp.fc_uid } else a
  let a2 := if credp.fc_gid ≠ U32_MINUS_ONE then { a1 with gid := toInt32 credp.fc_gid } else a1
  let a3 := if credp.fc_mode ≠ U32_MINUS_ONE then { a2 with mode := toInt32 credp.fc_mode } else a2
  if credp.fc_rdev ≠ U64_MINUS_ONE then { a3 with rdev := toInt32 credp.fc_rdev } else a3

/-- The texts of the `fprintf` calls of `local_set_mapped_file_attr`, in
order. -/
def set_attr_prints (a : AttrInts) : List CStr :=
  (if a.uid ≠ -1 then ["virtfs.uid=".toList ++ fmt_d a.uid ++ ['\n']] else []) ++
  (if a.gid ≠ -1 then ["virtfs.gid=".toList ++ fmt_d a.gid ++ ['\n']] else []) ++
  (if a.mode ≠ -1 then ["virtfs.mode=".toList ++ fmt_d a.mode ++ ['\n']] else []) ++
  (if a.rdev ≠ -1 then ["virtfs.rdev=".toList ++ fmt_d a.rdev ++ ['\n']] else [])

/-- The content of the record after a successful `local_set_mapped_file_attr`:
the stream opened with mode `w` starts empty and receives the `fprintf` texts. -/
def set_attr_content (prev : Option CStr) (credp : FsCred) : CStr :=
  (set_attr_prints (set_attr_merge (set_attr_read prev) credp)).flatten

/-- `local_create_mapped_attr_dir`. -/
def local_create_mapped_attr_dir {σ : Type} (H : Host σ) (ctx : FsContext) (path : CStr)
    (w : World σ) : Int × World σ :=
  let attr_dir := snprintf_PATH_MAX
    (ctx.fs_root ++ "/".toList ++ dirname path ++ "/".toList ++ VIRTFS_META_DIR)
  let r := sys H (.mkdir attr_dir 0o700) w
  if r.1.ret < 0 ∧ r.2.errno = EEXIST then (0, r.2) else (r.1.ret, r.2)

/-- The `fprintf` calls on stream `fp`, in order. -/
def fprintfAll {σ : Type} (H : Host σ) (fp : Int) : List CStr → World σ → World σ
  | [], w => w
  | t :: ts, w => fprintfAll H fp ts (sys H (.fprintf fp t) w).2

/-- `local_set_mapped_file_attr`. -/
def local_set_mapped_file_attr {σ : Type} (H : Host σ) (ctx : FsContext) (path : CStr)
    (credp : FsCred) (w : World σ) : Option (Int × World σ) :=
  match local_mapped_attr_path ctx path with
  | none => none
  | some attr_path =>
    let r := sys H (.fopen attr_path "r".toList) w
    -- the previous record, and the state at `update_map_file` (or the early exit)
    let pre : Option CStr × (Int × World σ) :=
      if r.1.ret = 0 then (none, local_create_mapped_attr_dir H ctx path r.2)
      else (some r.1.data, (0, (sys H (.fclose r.1.ret) r.2).2))
    if pre.2.1 < 0 then some (pre.2.1, pre.2.2)
    else
      let f := sys H (.fopen attr_path "w".toList) pre.2.2
      if f.1.ret = 0 then some (-1, f.2)
      else
        let w3 := fprintfAll H f.1.ret
          (set_attr_prints (set_attr_merge (set_attr_read pre.1) credp)) f.2
        some (pre.2.1, (sys H (.fclose f.1.ret) w3).2)

/-- The previous record as `local_set_mapped_file_attr` finds it: the content
the stream opened for reading delivers, `none` when that `fopen` fails. -/
def prev_record {σ : Type} (H : Host σ) (attr_path : CStr) (w : World σ) : Option CStr :=
  if (sys H (.fopen attr_path "r".toList) w).1.ret = 0 then none
  else some (sys H (.fopen attr_path "r".toList) w).1.data

/-! ### The read loops, key by key

The two read loops of the code (`local_mapped_file_attr` and
`local_set_mapped_file_attr`) written out per key.  These definitions describe
the code; what the specification says a record holds follows below. -/

/-- The branch of the read loops for one key, over the buffers `fgets` fills:
the last buffer whose first `key.length` characters are the key (`strncmp`)
decides, and the value is `atoi` of the buffer from one character after the
key on; `none` when no buffer begins with the key. -/
def read_loop_value (key : CStr) (content : CStr) : Option Int :=
  (fgetsAll content).foldl
    (fun acc buf => if strncmp0 buf key key.length then some (atoi (buf.drop (key.length + 1))) else acc)
    none

/-- The variable of `local_set_mapped_file_attr` for one key when
`update_map_file` is reached, as an optional value: what the read loop left,
where `-1` (also the initial value) means that nothing is written. -/
def read_loop_prev_field (key : CStr) (prev : Option CStr) : Option Int :=
  match prev with
  | none => none
  | some content => (read_loop_value key content).filter (fun v => v != -1)

/-! ### The record as the specification words it

Second definitions, following the words of the specification rather than the
code: the record is line-oriented text, a line of the form
`virtfs.<field>=<value>` gives the field its value, and every other line is
ignored. -/

/-- Specification side: the lines of a text, each without the newline that
ends it; a last line without a newline counts when it is not empty. -/
def spec_lines : CStr → List CStr
  | [] => []
  | c :: s =>
    if c = '\n' then [] :: spec_lines s
    else
      match spec_lines s with
      | [] => [[c]]
      | l :: ls => (c :: l) :: ls

/-- Specification side: the candidate for the integer a decimal text denotes,
read off its digits after an optional `-`. -/
def spec_decimal_candidate (t : CStr) : Int :=
  match t with
  | '-' :: d => -(parseDigits 0 d : Int)
  | d => (parseDigits 0 d : Int)

/-- Specification side: the integer a decimal text denotes, that is the
integer whose rendering as a decimal number (digits, with a leading `-` for a
negative number) is the text; `none` for every other text.  The candidate
counts only when its rendering is the text itself, so a text denotes `v`
exactly when it is the rendering of `v`. -/
def spec_decimal (t : CStr) : Option Int :=
  if fmt_d (spec_decimal_candidate t) = t then some (spec_decimal_candidate t) else none

/-- Specification side: the value of a line of the form `key=value`; `none`
for a line of another form. -/
def spec_line_value (key line : CStr) : Option Int :=
  if (key ++ "=".toList).isPrefixOf line then spec_decimal (line.drop (key.length + 1)) else none

/-- Specification side: the value a record holds for the key of a field: the
value of its last line of the form `key=value`; `none` when the record has no
such line. -/
def spec_record_value (key : CStr) (content : CStr) : Option Int :=
  ((spec_lines content).filterMap (spec_line_value key)).getLast?

/-- Specification side: the optional fields of a record or credential. -/
structure SpecFields where
  uid : Option Int
  gid : Option Int
  mode : Option Int
  rdev : Option Int
deriving DecidableEq, Repr

/-- Specification side: a field of the previous record, where a stored `-1`
counts as absent. -/
def spec_prev_field (key : CStr) (prev : Option CStr) : Option Int :=
  match prev with
  | none => none
  | some content => (spec_record_value key content).filter (fun v => v != -1)

/-- The keys of the four fields. -/
def record_keys : List CStr :=
  ["virtfs.uid".toList, "virtfs.gid".toList, "virtfs.mode".toList, "virtfs.rdev".toList]

/-- A line on which reader and specification can be compared: it has at most
98 characters (with its newline and the terminator it fits the buffer of
`ATTR_MAX` characters), and when it begins with the characters of a key it is
of the form `key=value` with a value in the range of `int`. -/
def well_formed_line (line : CStr) : Bool :=
  decide (line.length + 2 ≤ ATTR_MAX) &&
  record_keys.all (fun key =>
    !key.isPrefixOf line ||
      match spec_line_value key line with
      | some v => decide (-2147483648 ≤ v ∧ v < 2147483648)
      | none => false)

/-- A record all of whose lines are well formed. -/
def well_formed_record (content : CStr) : Bool := (spec_lines content).all well_formed_line

/-- Specification side: a 32-bit credential field, absent when it is `-1`,
else its value as a C `int`. -/
def spec_cred_field (v : Nat) : Option Int :=
  if v = U32_MINUS_ONE then none else some (toInt32 v)

/-- Specification side: the device field of a credential, absent when it is
`-1` as a `dev_t`. -/
def spec_cred_rdev (v : Nat) : Option Int :=
  if v = U64_MINUS_ONE then none else some (toInt32 v)

/-- Specification side: the merged fields, the credential first, else the
previous record. -/
def spec_merge (prev : Option CStr) (credp : FsCred) : SpecFields :=
  { uid := (spec_cred_field credp.fc_uid).orElse (fun _ => spec_prev_field "virtfs.uid".toList prev),
    gid := (spec_cred_field credp.fc_gid).orElse (fun _ => spec_prev_field "virtfs.gid".toList prev),
    mode := (spec_cred_field credp.fc_mode).orElse (fun _ => spec_prev_field "virtfs.mode".toList prev),
    rdev := (spec_cred_rdev credp.fc_rdev).orElse (fun _ => spec_prev_field "virtfs.rdev".toList prev) }

/-- The fields `local_set_mapped_file_attr` writes, with the previous record
read as the read loop reads it: the credential first, else what the loop
left. -/
def read_loop_merge (prev : Option CStr) (credp : FsCred) : SpecFields :=
  { uid := (spec_cred_field credp.fc_uid).orElse
      (fun _ => read_loop_prev_field "virtfs.uid".toList prev),
    gid := (spec_cred_field credp.fc_gid).orElse
      (fun _ => read_loop_prev_field "virtfs.gid".toList prev),
    mode := (spec_cred_field credp.fc_mode).orElse
      (fun _ => read_loop_prev_field "virtfs.mode".toList prev),
    rdev := (spec_cred_rdev credp.fc_rdev).orElse
      (fun _ => read_loop_prev_field "virtfs.rdev".toList prev) }

/-- Specification side: one line `key=value` with a newline for a field that
is present, nothing for an absent field. -/
def spec_render_field (key : CStr) : Option Int → CStr
  | none => []
  | some v => key ++ "=".toList ++ fmt_d v ++ "\n".toList

/-- Specification side: the record, one line per present field, in the order
uid, gid, mode, rdev. -/
def spec_render (f : SpecFields) : CStr :=
  spec_render_field "virtfs.uid".toList f.uid ++ spec_render_field "virtfs.gid".toList f.gid ++
  spec_render_field "virtfs.mode".toList f.mode ++ spec_render_field "virtfs.rdev".toList f.rdev

/-- Specification side, the claim of C5 read to the letter: a field of the
previous record is present whenever the record has a line for it, whatever
the value (also `-1`). -/
def spec_merge_literal (prev : Option CStr) (credp : FsCred) : SpecFields :=
  { uid := (spec_cred_field credp.fc_uid).orElse
      (fun _ => prev.bind (spec_record_value "virtfs.uid".toList)),
    gid := (spec_cred_field credp.fc_gid).orElse
      (fun _ => prev.bind (spec_record_value "virtfs.gid".toList)),
    mode := (spec_cred_field credp.fc_mode).orElse
      (fun _ => prev.bind (spec_record_value "virtfs.mode".toList)),
    rdev := (spec_cred_rdev credp.fc_rdev).orElse
      (fun _ => prev.bind (spec_record_value "virtfs.rdev".toList)) }

/-- The fields of a credential lie in the range of their C types (below 2^32,
the device number below 2^64). -/
def FsCred.wf (c : FsCred) : Prop :=
  c.fc_uid < 4294967296 ∧ c.fc_gid < 4294967296 ∧ c.fc_mode < 4294967296 ∧
    c.fc_rdev < 18446744073709551616

instance (c : FsCred) : Decidable c.wf := by
  unfold FsCred.wf; infer_instance

/-! ## `local_lstat` -/

/-- One `if (getxattr(...) > 0) field = tmp;` of `local_lstat`: the value
the host delivered, when the call returned a positive size. -/
def xattrValue (r : HostRes) : Option Nat := if r.ret > 0 then some r.val else none

/-- `local_lstat`: the return value and the content of `stbuf` afterwards
(`stbuf0` is what the caller's buffer held before the call). -/
def local_lstat {σ : Type} (H : Host σ) (fs_ctx : FsContext) (path : CStr) (stbuf0 : Stat)
    (w : World σ) : Option (Int × Stat × World σ) :=
  let r := sys H (.lstat (rpath fs_ctx path)) w
  if r.1.ret ≠ 0 then some (r.1.ret, stbuf0, r.2)
  else
    let stbuf := r.1.stat
    if flagSet fs_ctx.export_flags V9FS_SM_MAPPED then
      let g1 := sys H (.getxattr (rpath fs_ctx path) "user.virtfs.uid".toList 4) r.2
      let stbuf1 := if g1.1.ret > 0 then { stbuf with st_uid := g1.1.val } else stbuf
      let g2 := sys H (.getxattr (rpath fs_ctx path) "user.virtfs.gid".toList 4) g1.2
      let stbuf2 := if g2.1.ret > 0 then { stbuf1 with st_gid := g2.1.val } else stbuf1
      let g3 := sys H (.getxattr (rpath fs_ctx path) "user.virtfs.mode".toList 4) g2.2
      let stbuf3 := if g3.1.ret > 0 then { stbuf2 with st_mode := g3.1.val } else stbuf2
      let g4 := sys H (.getxattr (rpath fs_ctx path) "user.virtfs.rdev".toList 8) g3.2
      let stbuf4 := if g4.1.ret > 0 then { stbuf3 with st_rdev := g4.1.val } else stbuf3
      some (0, stbuf4, g4.2)
    else if flagSet fs_ctx.export_flags V9FS_SM_MAPPED_FILE then
      match local_mapped_file_attr H fs_ctx path stbuf r.2 with
      | none => none
      | some res => some (0, res.1, res.2)
    else some (0, stbuf, r.2)

/-- Specification side: the host stat with the stored fields laid over it,
field by field, only where a field is stored. -/
def spec_overlay (host : Stat) (uid gid mode rdev : Option Nat) : Stat :=
  { st_uid := uid.getD host.st_uid, st_gid := gid.getD host.st_gid,
    st_mode := mode.getD host.st_mode, st_rdev := rdev.getD host.st_rdev, rest := host.rest }

/-! ## The host's view of a path

How the host resolves a path in a tree without symbolic links: empty and `.`
components are skipped, `..` steps to the parent (the parent of `/` is `/`). -/

/-- The components of a path, split at `/`. -/
def splitSlash : CStr → List CStr
  | [] => [[]]
  | c :: s =>
    if c = '/' then [] :: splitSlash s
    else
      match splitSlash s with
      | [] => [[c]]
      | h :: t => (c :: h) :: t

/-- The location an absolute host path denotes, as the list of directory
names from `/`. -/
def hostLocation (p : CStr) : List CStr :=
  (splitSlash p).foldl
    (fun loc comp =>
      if comp = [] ∨ comp = ".".toList then loc
      else if comp = "..".toList then loc.dropLast
      else loc ++ [comp])
    []

/-- A host path denotes a location inside (or equal to) the export root. -/
def insideRoot (root p : CStr) : Bool := (hostLocation root).isPrefixOf (hostLocation p)

/-- Specification side: the host stat with the fields laid over it that the
shadow record holds (a line `virtfs.<field>=<value>`), each converted to the
C type of the stat field (`uid_t`, `gid_t`, `mode_t`: 32 bits; `dev_t`: 64
bits). -/
def spec_record_overlay (host : Stat) (content : CStr) : Stat :=
  spec_overlay host
    ((spec_record_value "virtfs.uid".toList content).map toU32)
    ((spec_record_value "virtfs.gid".toList content).map toU32)
    ((spec_record_value "virtfs.mode".toList content).map toU32)
    ((spec_record_value "virtfs.rdev".toList content).map toU64)

/-- The host stat with the fields laid over it that the read loop of
`local_mapped_file_attr` takes from the record. -/
def read_loop_overlay (host : Stat) (content : CStr) : Stat :=
  spec_overlay host
    ((read_loop_value "virtfs.uid".toList content).map toU32)
    ((read_loop_value "virtfs.gid".toList content).map toU32)
    ((read_loop_value "virtfs.mode".toList content).map toU32)
    ((read_loop_value "virtfs.rdev".toList content).map toU64)

/-- The host's answers to `lstat` and to the four `getxattr` calls of
`local_lstat` under the mapped model, in the order the code asks. -/
def lstat_answers {σ : Type} (H : Host σ) (fs_ctx : FsContext) (path : CStr) (w : World σ) :
    HostRes × HostRes × HostRes × HostRes × HostRes × World σ :=
  let r := sys H (.lstat (rpath fs_ctx path)) w
  let g1 := sys H (.getxattr (rpath fs_ctx path) "user.virtfs.uid".toList 4) r.2
  let g2 := sys H (.getxattr (rpath fs_ctx path) "user.virtfs.gid".toList 4) g1.2
  let g3 := sys H (.getxattr (rpath fs_ctx path) "user.virtfs.mode".toList 4) g2.2
  let g4 := sys H (.getxattr (rpath fs_ctx path) "user.virtfs.rdev".toList 8) g3.2
  (r.1, g1.1, g2.1, g3.1, g4.1, g4.2)

/-! ## Confined opens -/

/-- `local_open_nofollow`.  `relative_openat_nofollow` lies outside the
examined sources and is recorded as a call with the arguments it receives. -/
def local_open_nofollow {σ : Type} (H : Host σ) (fs_ctx : FsContext) (path : CStr)
    (flags mode : Nat) (w : World σ) : Int × World σ :=
  let r := sys H (.relative_openat_nofollow fs_ctx.mountfd (path.dropWhile (fun c => c == '/'))
    flags mode) w
  (r.1.ret, r.2)

/-- `local_opendir_nofollow`. -/
def local_opendir_nofollow {σ : Type} (H : Host σ) (fs_ctx : FsContext) (path : CStr)
    (w : World σ) : Int × World σ :=
  local_open_nofollow H fs_ctx path (O_DIRECTORY ||| O_RDONLY) 0 w

/-! ## Concrete inputs used in the evaluations -/

/-- An export of `/export` under the mapped-file model. -/
def exCtxMappedFile : FsContext :=
  { fs_root := "/export".toList, export_flags := V9FS_SM_MAPPED_FILE, mountfd := 3 }

/-- A host that answers `lstat` with a regular file of uid 1000, gid 100 and
mode 0600, then `fopen` with stream 9 holding the given record, then succeeds. -/
def exLstatWorld (record : CStr) : World (List HostRes) :=
  scriptWorld [{ ret := 0, err := none, stat := ⟨1000, 100, 0o100600, 0, 9⟩, data := [], val := 0 },
               { ret := 9, err := none, stat := ⟨0, 0, 0, 0, 0⟩, data := record, val := 0 },
               okRes 0]

/-! ## Directory enumeration -/

/-- `local_readdir_r`: the return value and `*result` (`none` is `NULL`).  The
host answers `readdir_r` with the return value, with `val` non-zero when it
sets `*result` to the entry, and with the name of the entry in `data`.  Each
`goto again` uses one unit of `fuel`; `none` means the fuel ran out. -/
def local_readdir_r {σ : Type} (H : Host σ) (ctx : FsContext) (stream : Int) :
    Nat → World σ → Option (Int × Option CStr × World σ)
  | 0, _ => none
  | fuel + 1, w =>
    let r := sys H (.readdir_r stream) w
    if flagSet ctx.export_flags V9FS_SM_MAPPED_FILE &&
        (r.1.ret == 0 && r.1.val != 0 && r.1.data == VIRTFS_META_DIR) then
      local_readdir_r H ctx stream fuel r.2
    else
      some (r.1.ret, if r.1.val != 0 then some r.1.data else none, r.2)

/-- The entries a caller obtains by calling `local_readdir_r` until it
reports the end of the stream or an error; `calls` bounds the number of
calls, `fuel` the iterations within one call. -/
def readdir_all {σ : Type} (H : Host σ) (ctx : FsContext) (stream : Int) (fuel : Nat) :
    Nat → World σ → Option (List CStr)
  | 0, _ => none
  | calls + 1, w =>
    match local_readdir_r H ctx stream fuel w with
    | none => none
    | some (_, none, _) => some []
    | some (ret, some e, w2) =>
      if ret ≠ 0 then some []
      else (readdir_all H ctx stream fuel calls w2).map (fun l => e :: l)

/-- A host holding one finite directory stream: its state is the list of the
names not yet delivered; `readdir_r` delivers the next name, or `NULL` at the
end of the stream. -/
def dirHost : Host (List CStr) where
  step s c :=
    match c, s with
    | .readdir_r _, [] => ({ ret := 0, err := none, stat := ⟨0, 0, 0, 0, 0⟩, data := [], val := 0 }, [])
    | .readdir_r _, e :: rest =>
      ({ ret := 0, err := none, stat := ⟨0, 0, 0, 0, 0⟩, data := e, val := 1 }, rest)
    | _, s => (failRes 38, s)

/-! ## Credential persistence and object creation -/

/-- One `if (credp->fc_x != -1) { err = setxattr(...); if (err) return err; }`
of `local_set_xattr`: `none` when the function goes on, the returned value
otherwise. -/
def set_xattr_step {σ : Type} (H : Host σ) (present : Bool) (c : HostCall) (w : World σ) :
    Option Int × World σ :=
  if present then
    let r := sys H c w
    if r.1.ret ≠ 0 then (some r.1.ret, r.2) else (none, r.2)
  else (none, w)

/-- `local_set_xattr`. -/
def local_set_xattr {σ : Type} (H : Host σ) (path : CStr) (credp : FsCred) (w : World σ) :
    Int × World σ :=
  let s1 := set_xattr_step H (credp.fc_uid != U32_MINUS_ONE)
    (.setxattr path "user.virtfs.uid".toList credp.fc_uid 4 0) w
  match s1.1 with
  | some err => (err, s1.2)
  | none =>
    let s2 := set_xattr_step H (credp.fc_gid != U32_MINUS_ONE)
      (.setxattr path "user.virtfs.gid".toList credp.fc_gid 4 0) s1.2
    match s2.1 with
    | some err => (err, s2.2)
    | none =>
      let s3 := set_xattr_step H (credp.fc_mode != U32_MINUS_ONE)
        (.setxattr path "user.virtfs.mode".toList credp.fc_mode 4 0) s2.2
      match s3.1 with
      | some err => (err, s3.2)
      | none =>
        let s4 := set_xattr_step H (credp.fc_rdev != U64_MINUS_ONE)
          (.setxattr path "user.virtfs.rdev".toList credp.fc_rdev 8 0) s3.2
        match s4.1 with
        | some err => (err, s4.2)
        | none => (0, s4.2)

/-- `local_post_create_passthrough`. -/
def local_post_create_passthrough {σ : Type} (H : Host σ) (fs_ctx : FsContext) (path : CStr)
    (credp : FsCred) (w : World σ) : Int × World σ :=
  let r := sys H (.lchown (rpath fs_ctx path) credp.fc_uid credp.fc_gid) w
  if r.1.ret < 0 ∧ fs_ctx.export_flags &&& V9FS_SEC_MASK ≠ V9FS_SM_NONE then (-1, r.2)
  else
    let c := sys H (.chmod (rpath fs_ctx path) (credp.fc_mode &&& 0o7777)) r.2
    if c.1.ret < 0 then (-1, c.2) else (0, c.2)

/-- The label `err_end` of the create operations: `remove(rpath(...))`, then
`errno = serrno`, where `serrno` was taken from `errno` at the failure. -/
def err_end {σ : Type} (H : Host σ) (fs_ctx : FsContext) (path : CStr) (serrno : Int)
    (w : World σ) : World σ :=
  { (sys H (.remove (rpath fs_ctx path)) w).2 with errno := serrno }

/-- The path `dir_path/name` built by `v9fs_string_sprintf`. -/
def fullname (dir_path name : CStr) : CStr := dir_path ++ "/".toList ++ name

/-- `local_mknod`. -/
def local_mknod {σ : Type} (H : Host σ) (fs_ctx : FsContext) (dir_path name : CStr)
    (credp : FsCred) (w : World σ) : Option (Int × World σ) :=
  let path := fullname dir_path name
  if flagSet fs_ctx.export_flags V9FS_SM_MAPPED then
    let m := sys H (.mknod (rpath fs_ctx path) (SM_LOCAL_MODE_BITS ||| S_IFREG) 0) w
    if m.1.ret = -1 then some (m.1.ret, m.2)
    else
      let p := local_set_xattr H (rpath fs_ctx path) credp m.2
      if p.1 = -1 then some (p.1, err_end H fs_ctx path p.2.errno p.2)
      else some (p.1, p.2)
  else if flagSet fs_ctx.export_flags V9FS_SM_MAPPED_FILE then
    let m := sys H (.mknod (rpath fs_ctx path) (SM_LOCAL_MODE_BITS ||| S_IFREG) 0) w
    if m.1.ret = -1 then some (m.1.ret, m.2)
    else
      match local_set_mapped_file_attr H fs_ctx path credp m.2 with
      | none => none
      | some p =>
        if p.1 = -1 then some (p.1, err_end H fs_ctx path p.2.errno p.2)
        else some (p.1, p.2)
  else if flagSet fs_ctx.export_flags V9FS_SM_PASSTHROUGH ||
      flagSet fs_ctx.export_flags V9FS_SM_NONE then
    let m := sys H (.mknod (rpath fs_ctx path) credp.fc_mode credp.fc_rdev) w
    if m.1.ret = -1 then some (m.1.ret, m.2)
    else
      let p := local_post_create_passthrough H fs_ctx path credp m.2
      if p.1 = -1 then some (p.1, err_end H fs_ctx path p.2.errno p.2)
      else some (p.1, p.2)
  else some (-1, w)

/-- `local_mkdir`. -/
def local_mkdir {σ : Type} (H : Host σ) (fs_ctx : FsContext) (dir_path name : CStr)
    (credp : FsCred) (w : World σ) : Option (Int × World σ) :=
  let path := fullname dir_path name
  if flagSet fs_ctx.export_flags V9FS_SM_MAPPED then
    let m := sys H (.mkdir (rpath fs_ctx path) SM_LOCAL_DIR_MODE_BITS) w
    if m.1.ret = -1 then some (m.1.ret, m.2)
    else
      let p := local_set_xattr H (rpath fs_ctx path)
        { credp with fc_mode := credp.fc_mode ||| S_IFDIR } m.2
      if p.1 = -1 then some (p.1, err_end H fs_ctx path p.2.errno p.2)
      else some (p.1, p.2)
  else if flagSet fs_ctx.export_flags V9FS_SM_MAPPED_FILE then
    let m := sys H (.mkdir (rpath fs_ctx path) SM_LOCAL_DIR_MODE_BITS) w
    if m.1.ret = -1 then some (m.1.ret, m.2)
    else
      match local_set_mapped_file_attr H fs_ctx path
          { credp with fc_mode := credp.fc_mode ||| S_IFDIR } m.2 with
      | none => none
      | some p =>
        if p.1 = -1 then some (p.1, err_end H fs_ctx path p.2.errno p.2)
        else some (p.1, p.2)
  else if flagSet fs_ctx.export_flags V9FS_SM_PASSTHROUGH ||
      flagSet fs_ctx.export_flags V9FS_SM_NONE then
    let m := sys H (.mkdir (rpath fs_ctx path) credp.fc_mode) w
    if m.1.ret = -1 then some (m.1.ret, m.2)
    else
      let p := local_post_create_passthrough H fs_ctx path credp m.2
      if p.1 = -1 then some (p.1, err_end H fs_ctx path p.2.errno p.2)
      else some (p.1, p.2)
  else some (-1, w)

/-- The label `err_end` of `local_open2`: `close(fd)`, `remove(rpath(...))`,
`errno = serrno`. -/
def err_end_open2 {σ : Type} (H : Host σ) (fs_ctx : FsContext) (path : CStr) (fd : Int)
    (serrno : Int) (w : World σ) : World σ :=
  { (sys H (.remove (rpath fs_ctx path)) (sys H (.close fd) w).2).2 with errno := serrno }

/-- `local_open2`: the return value, the descriptor stored in `fs->fd` (`none`
when the handle is not written), and the state. -/
def local_open2 {σ : Type} (H : Host σ) (fs_ctx : FsContext) (dir_path name : CStr)
    (flags : Nat) (credp : FsCred) (w : World σ) : Option (Int × Option Int × World σ) :=
  let path := fullname dir_path name
  if flagSet fs_ctx.export_flags V9FS_SM_MAPPED then
    let o := sys H (.open_ (rpath fs_ctx path) flags SM_LOCAL_MODE_BITS) w
    if o.1.ret = -1 then some (o.1.ret, none, o.2)
    else
      let p := local_set_xattr H (rpath fs_ctx path)
        { credp with fc_mode := credp.fc_mode ||| S_IFREG } o.2
      if p.1 = -1 then some (p.1, none, err_end_open2 H fs_ctx path o.1.ret p.2.errno p.2)
      else some (o.1.ret, some o.1.ret, p.2)
  else if flagSet fs_ctx.export_flags V9FS_SM_MAPPED_FILE then
    let o := sys H (.open_ (rpath fs_ctx path) flags SM_LOCAL_MODE_BITS) w
    if o.1.ret = -1 then some (o.1.ret, none, o.2)
    else
      match local_set_mapped_file_attr H fs_ctx path
          { credp with fc_mode := credp.fc_mode ||| S_IFREG } o.2 with
      | none => none
      | some p =>
        if p.1 = -1 then some (p.1, none, err_end_open2 H fs_ctx path o.1.ret p.2.errno p.2)
        else some (o.1.ret, some o.1.ret, p.2)
  else if flagSet fs_ctx.export_flags V9FS_SM_PASSTHROUGH ||
      flagSet fs_ctx.export_flags V9FS_SM_NONE then
    let o := sys H (.open_ (rpath fs_ctx path) flags credp.fc_mode) w
    if o.1.ret = -1 then some (o.1.ret, none, o.2)
    else
      let p := local_post_create_passthrough H fs_ctx path credp o.2
      if p.1 = -1 then some (p.1, none, err_end_open2 H fs_ctx path o.1.ret p.2.errno p.2)
      else some (o.1.ret, some o.1.ret, p.2)
  else some (-1, some (-1), w)

/-- The loop `do { n = write(fd, data, size); } while (n == -1 && errno == EINTR)`;
each repetition uses one unit of `fuel`, `none` means the fuel ran out. -/
def write_retry {σ : Type} (H : Host σ) (fd : Int) (data : CStr) :
    Nat → World σ → Option (Int × World σ)
  | 0, _ => none
  | fuel + 1, w =>
    let r := sys H (.write fd data) w
    if r.1.ret = -1 ∧ r.2.errno = EINTR then write_retry H fd data fuel r.2
    else some (r.1.ret, r.2)

/-- The loop `do { n = read(fd, buf, bufsz); } while (n == -1 && errno == EINTR)`:
the return value, the bytes delivered, and the state. -/
def read_retry {σ : Type} (H : Host σ) (fd : Int) (bufsz : Nat) :
    Nat → World σ → Option (Int × CStr × World σ)
  | 0, _ => none
  | fuel + 1, w =>
    let r := sys H (.read fd bufsz) w
    if r.1.ret = -1 ∧ r.2.errno = EINTR then read_retry H fd bufsz fuel r.2
    else some (r.1.ret, r.1.data, r.2)

/-- The mapped and mapped-file branches of `local_symlink` up to the
credential step: create the file that stores the target, write the target,
close.  `Sum.inl` is the early return (of `-1`), `Sum.inr` the state in which
the credentials are persisted next. -/
def symlink_store_target {σ : Type} (H : Host σ) (fs_ctx : FsContext) (oldpath newpath : CStr)
    (fuel : Nat) (w : World σ) : Option (Sum (Int × World σ) (World σ)) :=
  let o := sys H (.open_ (rpath fs_ctx newpath) (O_CREAT ||| O_EXCL ||| O_RDWR) SM_LOCAL_MODE_BITS) w
  if o.1.ret = -1 then some (Sum.inl (o.1.ret, o.2))
  else
    match write_retry H o.1.ret oldpath fuel o.2 with
    | none => none
    | some wr =>
      if wr.1 ≠ oldpath.length then
        some (Sum.inl (-1, err_end H fs_ctx newpath wr.2.errno (sys H (.close o.1.ret) wr.2).2))
      else some (Sum.inr (sys H (.close o.1.ret) wr.2).2)

/-- `local_symlink`. -/
def local_symlink {σ : Type} (H : Host σ) (fs_ctx : FsContext) (oldpath dir_path name : CStr)
    (credp : FsCred) (fuel : Nat) (w : World σ) : Option (Int × World σ) :=
  let newpath := fullname dir_path name
  if flagSet fs_ctx.export_flags V9FS_SM_MAPPED then
    match symlink_store_target H fs_ctx oldpath newpath fuel w with
    | none => none
    | some (Sum.inl early) => some early
    | some (Sum.inr w1) =>
      let p := local_set_xattr H (rpath fs_ctx newpath)
        { credp with fc_mode := credp.fc_mode ||| S_IFLNK } w1
      if p.1 = -1 then some (p.1, err_end H fs_ctx newpath p.2.errno p.2)
      else some (p.1, p.2)
  else if flagSet fs_ctx.export_flags V9FS_SM_MAPPED_FILE then
    match symlink_store_target H fs_ctx oldpath newpath fuel w with
    | none => none
    | some (Sum.inl early) => some early
    | some (Sum.inr w1) =>
      match local_set_mapped_file_attr H fs_ctx newpath
          { credp with fc_mode := credp.fc_mode ||| S_IFLNK } w1 with
      | none => none
      | some p =>
        if p.1 = -1 then some (p.1, err_end H fs_ctx newpath p.2.errno p.2)
        else some (p.1, p.2)
  else if flagSet fs_ctx.export_flags V9FS_SM_PASSTHROUGH ||
      flagSet fs_ctx.export_flags V9FS_SM_NONE then
    let s := sys H (.symlink oldpath (rpath fs_ctx newpath)) w
    if s.1.ret ≠ 0 then some (s.1.ret, s.2)
    else
      let c := sys H (.lchown (rpath fs_ctx newpath) credp.fc_uid credp.fc_gid) s.2
      if c.1.ret = -1 then
        if fs_ctx.export_flags &&& V9FS_SEC_MASK ≠ V9FS_SM_NONE then
          some (c.1.ret, err_end H fs_ctx newpath c.2.errno c.2)
        else some (0, c.2)
      else some (c.1.ret, c.2)
  else some (-1, w)

/-- `local_readlink`: the return value, the bytes left in `buf`, the state. -/
def local_readlink {σ : Type} (H : Host σ) (fs_ctx : FsContext) (path : CStr) (bufsz : Nat)
    (fuel : Nat) (w : World σ) : Option (Int × CStr × World σ) :=
  if flagSet fs_ctx.export_flags V9FS_SM_MAPPED ||
      flagSet fs_ctx.export_flags V9FS_SM_MAPPED_FILE then
    let o := sys H (.open_ (rpath fs_ctx path) (O_RDONLY ||| O_NOFOLLOW) 0) w
    if o.1.ret = -1 then some (-1, [], o.2)
    else
      match read_retry H o.1.ret bufsz fuel o.2 with
      | none => none
      | some rd => some (rd.1, rd.2.1, (sys H (.close o.1.ret) rd.2.2).2)
  else if flagSet fs_ctx.export_flags V9FS_SM_PASSTHROUGH ||
      flagSet fs_ctx.export_flags V9FS_SM_NONE then
    let r := sys H (.readlink (rpath fs_ctx path) bufsz) w
    some (r.1.ret, r.1.data, r.2)
  else some (-1, [], w)

/-! ### The two phases of a create operation, as the specification words them -/

/-- Specification side: the security model an export is configured with, read
off the flags in the order the code tests them. -/
inductive SecModel
  | mapped | mapped_file | passthrough | none_
deriving DecidableEq, Repr

/-- Specification side: the model of a context, `none` when no model bit is
set. -/
def secModel (fs_ctx : FsContext) : Option SecModel :=
  if flagSet fs_ctx.export_flags V9FS_SM_MAPPED then some .mapped
  else if flagSet fs_ctx.export_flags V9FS_SM_MAPPED_FILE then some .mapped_file
  else if flagSet fs_ctx.export_flags V9FS_SM_PASSTHROUGH then some .passthrough
  else if flagSet fs_ctx.export_flags V9FS_SM_NONE then some .none_
  else none

/-- Specification side: phase 2 of `local_mknod`, `local_mkdir` and
`local_open2`, the persistence of the credential for the object at `path`;
`kind` is the file type bit the mapped models add to the stored mode. -/
def spec_persist {σ : Type} (H : Host σ) (fs_ctx : FsContext) (path : CStr) (kind : Nat)
    (credp : FsCred) (w : World σ) : Option (Int × World σ) :=
  match secModel fs_ctx with
  | some .mapped =>
    some (local_set_xattr H (rpath fs_ctx path) { credp with fc_mode := credp.fc_mode ||| kind } w)
  | some .mapped_file =>
    local_set_mapped_file_attr H fs_ctx path { credp with fc_mode := credp.fc_mode ||| kind } w
  | some _ => some (local_post_create_passthrough H fs_ctx path credp w)
  | none => none

/-- Specification side: phase 1 of the create operations, the host call that
creates the object; `mappedCall` under the mapped models, `plainCall` under
passthrough and none. -/
def spec_create (fs_ctx : FsContext) (mappedCall plainCall : HostCall) : HostCall :=
  match secModel fs_ctx with
  | some .mapped => mappedCall
  | some .mapped_file => mappedCall
  | _ => plainCall

/-- An export of `/export` under the mapped (xattr) model. -/
def exCtxMapped : FsContext :=
  { fs_root := "/export".toList, export_flags := V9FS_SM_MAPPED, mountfd := 3 }

/-- An export of `/export` under the none model. -/
def exCtxNone : FsContext :=
  { fs_root := "/export".toList, export_flags := V9FS_SM_NONE, mountfd := 3 }

/-- An export of `/export` under the passthrough model. -/
def exCtxPassthrough : FsContext :=
  { fs_root := "/export".toList, export_flags := V9FS_SM_PASSTHROUGH, mountfd := 3 }

/-- A credential with every field set: uid 1000, gid 100, mode 0644, no device. -/
def exCred : FsCred := ⟨1000, 100, 0o644, 0⟩

/-! ## Rename (mapped-file) and a host file tree -/

/-- `local_rename`. -/
def local_rename {σ : Type} (H : Host σ) (ctx : FsContext) (oldpath newpath : CStr)
    (w : World σ) : Option (Int × World σ) :=
  if flagSet ctx.export_flags V9FS_SM_MAPPED_FILE then
    let d := local_create_mapped_attr_dir H ctx newpath w
    if d.1 < 0 then some (d.1, d.2)
    else
      match local_mapped_attr_path ctx oldpath, local_mapped_attr_path ctx newpath with
      | some attr_old, some attr_new =>
        let r := sys H (.rename attr_old attr_new) d.2
        if r.1.ret < 0 ∧ r.2.errno ≠ ENOENT then some (r.1.ret, r.2)
        else
          let o := sys H (.rename (rpath ctx oldpath) (rpath ctx newpath)) r.2
          some (o.1.ret, o.2)
      | _, _ => none
  else
    let o := sys H (.rename (rpath ctx oldpath) (rpath ctx newpath)) w
    some (o.1.ret, o.2)

/-- The path of the hidden directory `local_create_mapped_attr_dir` creates. -/
def mapped_attr_dir (ctx : FsContext) (path : CStr) : CStr :=
  snprintf_PATH_MAX (ctx.fs_root ++ "/".toList ++ dirname path ++ "/".toList ++ VIRTFS_META_DIR)

/-- A node of the host file tree. -/
inductive Node
  | dir
  | file (content : CStr)
deriving DecidableEq, Repr

/-- A host file tree without symbolic links: what exists at each location
(`hostLocation` of a path); the root always is a directory. -/
abbrev HostFS := List CStr → Option Node

/-- The node at a location. -/
def fsGet (fs : HostFS) (loc : List CStr) : Option Node :=
  if loc = [] then some .dir else fs loc

def ENOTDIR : Int := 20
def EINVAL : Int := 22
def EBUSY : Int := 16
def ENOSYS : Int := 38

/-- The host's `mkdir` on the tree: fails with EEXIST when the location
exists, with ENOENT or ENOTDIR when the parent is missing or no directory. -/
def fsMkdir (fs : HostFS) (loc : List CStr) : Except Int HostFS :=
  if fsGet fs loc ≠ none then .error EEXIST
  else
    match fsGet fs loc.dropLast with
    | none => .error ENOENT
    | some (.file _) => .error ENOTDIR
    | some .dir => .ok (fun q => if q = loc then some .dir else fs q)

/-- The host's `rename` on the tree: fails with ENOENT when the source is
missing or the parent of the destination is missing, with ENOTDIR when that
parent is no directory, with EINVAL when the destination lies inside the
source; renaming a location to itself does nothing; otherwise the source
and what lies below it replace the destination. -/
def fsRename (fs : HostFS) (src dst : List CStr) : Except Int HostFS :=
  if fsGet fs src = none then .error ENOENT
  else if dst = [] ∨ src = [] then .error EBUSY
  else
    match fsGet fs dst.dropLast with
    | none => .error ENOENT
    | some (.file _) => .error ENOTDIR
    | some .dir =>
      if src = dst then .ok fs
      else if src.isPrefixOf dst then .error EINVAL
      else .ok (fun q =>
        if dst.isPrefixOf q then fs (src ++ q.drop dst.length)
        else if src.isPrefixOf q then none
        else fs q)

/-- The answer and next state for a tree operation. -/
def fsAnswer (fs : HostFS) (r : Except Int HostFS) : HostRes × HostFS :=
  match r with
  | .ok fs2 => (okRes 0, fs2)
  | .error e => (failRes e, fs)

/-- A host that is a file tree; it answers `mkdir` and `rename`. -/
def fsHost : Host HostFS where
  step fs c :=
    match c with
    | .mkdir p _ => fsAnswer fs (fsMkdir fs (hostLocation p))
    | .rename a b => fsAnswer fs (fsRename fs (hostLocation a) (hostLocation b))
    | _ => (failRes ENOSYS, fs)

/-- Two locations of which neither is the other or an ancestor of the other. -/
def unnested (a b : List CStr) : Prop := a.isPrefixOf b = false ∧ b.isPrefixOf a = false

instance (a b : List CStr) : Decidable (unnested a b) := by
  unfold unnested; infer_instance

/-- A tree for the evaluations: the export `/export` holds the directory `d`,
`d` holds the hidden directory, and the hidden directory holds a record for
the name `.virtfs_metadata` itself (written when the guest created an object
of that name in `d`) and a record for `f`; `d/f` is a file. -/
def exTree : HostFS := fun q =>
  if q = ["export".toList] then some .dir
  else if q = ["export".toList, "d".toList] then some .dir
  else if q = ["export".toList, "d".toList, "f".toList] then some (.file "data".toList)
  else if q = ["export".toList, "d".toList, VIRTFS_META_DIR] then some .dir
  else if q = ["export".toList, "d".toList, VIRTFS_META_DIR, VIRTFS_META_DIR] then
    some (.file "virtfs.mode=16877\n".toList)
  else if q = ["export".toList, "d".toList, VIRTFS_META_DIR, "f".toList] then
    some (.file "virtfs.uid=1000\n".toList)
  else none

/-- The state of the evaluations on `exTree`. -/
def exRenameWorld : World HostFS := { hs := exTree, errno := 0, trace := [], fds := [] }

/-- The state after `local_rename` of `/d/f` to `/d/g` on `exTree`. -/
def exRenamed : World HostFS :=
  ((local_rename fsHost exCtxMappedFile "/d/f".toList "/d/g".toList exRenameWorld).map
    (fun r => r.2)).getD exRenameWorld

/-- Specification side: the lines of a rendered field, none or one. -/
def spec_field_lines (key : CStr) (o : Option Int) : List CStr :=
  match o with
  | none => []
  | some v => [key ++ "=".toList ++ fmt_d v ++ "\n".toList]

/-- Specification side: the values of the fields lie in the range of `int`. -/
def SpecFields.inRange (f : SpecFields) : Prop :=
  (∀ v, f.uid = some v → -2147483648 ≤ v ∧ v < 2147483648) ∧
  (∀ v, f.gid = some v → -2147483648 ≤ v ∧ v < 2147483648) ∧
  (∀ v, f.mode = some v → -2147483648 ≤ v ∧ v < 2147483648) ∧
  (∀ v, f.rdev = some v → -2147483648 ≤ v ∧ v < 2147483648)

/-- Specification side: a credential field as an optional value of its C
type, absent when it holds the unset marker `minusOne`. -/
def spec_cred_value (minusOne v : Nat) : Option Nat := if v = minusOne then none else some v

/-! ## Handles, link, chown, unlink -/

/-- Modelled from the spec: the handle type tag of a directory handle,
declared outside the examined sources (`P9_FID_DIR`). -/
def P9_FID_DIR : Nat := 2

/-- `V9fsFidOpenState`: the descriptor of a file handle (`fs->fd`) and, for a
directory handle, the descriptor of its stream (`dirfd(fs->dir.stream)`). -/
structure V9fsFidOpenState where
  fd : Int
  dir_stream_fd : Int
deriving DecidableEq, Repr

/-- `local_fstat`: the return value and the content of `stbuf` afterwards
(`stbuf0` is what the caller's buffer held before the call). -/
def local_fstat {σ : Type} (H : Host σ) (fs_ctx : FsContext) (fid_type : Nat)
    (fs : V9fsFidOpenState) (stbuf0 : Stat) (w : World σ) : Int × Stat × World σ :=
  let fd := if fid_type = P9_FID_DIR then fs.dir_stream_fd else fs.fd
  let r := sys H (.fstat fd) w
  if r.1.ret ≠ 0 then (r.1.ret, stbuf0, r.2)
  else
    let stbuf := r.1.stat
    if flagSet fs_ctx.export_flags V9FS_SM_MAPPED then
      let g1 := sys H (.fgetxattr fd "user.virtfs.uid".toList 4) r.2
      let stbuf1 := if g1.1.ret > 0 then { stbuf with st_uid := g1.1.val } else stbuf
      let g2 := sys H (.fgetxattr fd "user.virtfs.gid".toList 4) g1.2
      let stbuf2 := if g2.1.ret > 0 then { stbuf1 with st_gid := g2.1.val } else stbuf1
      let g3 := sys H (.fgetxattr fd "user.virtfs.mode".toList 4) g2.2
      let stbuf3 := if g3.1.ret > 0 then { stbuf2 with st_mode := g3.1.val } else stbuf2
      let g4 := sys H (.fgetxattr fd "user.virtfs.rdev".toList 8) g3.2
      let stbuf4 := if g4.1.ret > 0 then { stbuf3 with st_rdev := g4.1.val } else stbuf3
      (0, stbuf4, g4.2)
    else if flagSet fs_ctx.export_flags V9FS_SM_MAPPED_FILE then
      (-1, stbuf, { r.2 with errno := EOPNOTSUPP })
    else (0, stbuf, r.2)

/-- `local_link`. -/
def local_link {σ : Type} (H : Host σ) (ctx : FsContext) (oldpath dirpath name : CStr)
    (w : World σ) : Option (Int × World σ) :=
  let newpath := fullname dirpath name
  let l := sys H (.link (rpath ctx oldpath) (rpath ctx newpath)) w
  if l.1.ret = 0 ∧ flagSet ctx.export_flags V9FS_SM_MAPPED_FILE then
    let d := local_create_mapped_attr_dir H ctx newpath l.2
    if d.1 < 0 then some (d.1, d.2)
    else
      match local_mapped_attr_path ctx oldpath, local_mapped_attr_path ctx newpath with
      | some attr_old, some attr_new =>
        let r := sys H (.link attr_old attr_new) d.2
        -- `if (ret < 0 && errno != ENOENT) goto err_out;` and the fall through
        -- both reach `err_out: return ret;`
        if r.1.ret < 0 ∧ r.2.errno ≠ ENOENT then some (r.1.ret, r.2)
        else some (r.1.ret, r.2)
      | _, _ => none
  else some (l.1.ret, l.2)

/-- `local_chown`. -/
def local_chown {σ : Type} (H : Host σ) (fs_ctx : FsContext) (path : CStr) (credp : FsCred)
    (w : World σ) : Option (Int × World σ) :=
  if (credp.fc_uid = U32_MINUS_ONE ∧ credp.fc_gid = U32_MINUS_ONE) ∨
      flagSet fs_ctx.export_flags V9FS_SM_PASSTHROUGH ∨
      flagSet fs_ctx.export_flags V9FS_SM_NONE then
    let r := sys H (.lchown (rpath fs_ctx path) credp.fc_uid credp.fc_gid) w
    some (r.1.ret, r.2)
  else if flagSet fs_ctx.export_flags V9FS_SM_MAPPED then
    some (local_set_xattr H (rpath fs_ctx path) credp w)
  else if flagSet fs_ctx.export_flags V9FS_SM_MAPPED_FILE then
    local_set_mapped_file_attr H fs_ctx path credp w
  else some (-1, w)

/-- The first step of `local_unlinkat_common` under mapped-file, taken for
`AT_REMOVEDIR`: the removal of the hidden directory inside the directory.
`Sum.inl` is the exit through `err_out` with the value of `ret`. -/
def unlinkat_own_meta {σ : Type} (H : Host σ) (dirfd : Int) (name : CStr) (flags : Nat)
    (w : World σ) : Sum (Int × World σ) (World σ) :=
  if flags = AT_REMOVEDIR then
    let o := sys H (.openat dirfd name (O_RDONLY ||| O_DIRECTORY ||| O_PATH) 0) w
    if o.1.ret = -1 then Sum.inl (-1, o.2)
    else
      let u := sys H (.unlinkat o.1.ret VIRTFS_META_DIR AT_REMOVEDIR) o.2
      let w2 := close_preserve_errno H o.1.ret u.2
      if u.1.ret < 0 ∧ w2.errno ≠ ENOENT then Sum.inl (u.1.ret, w2) else Sum.inr w2
  else Sum.inr w

/-- `local_unlinkat_common`. -/
def local_unlinkat_common {σ : Type} (H : Host σ) (ctx : FsContext) (dirfd : Int) (name : CStr)
    (flags : Nat) (w : World σ) : Int × World σ :=
  if flagSet ctx.export_flags V9FS_SM_MAPPED_FILE then
    match unlinkat_own_meta H dirfd name flags w with
    | Sum.inl e => e
    | Sum.inr w1 =>
      let m := openat_dir H dirfd VIRTFS_META_DIR w1
      let u := sys H (.unlinkat m.1 name 0) m.2
      let w2 := close_preserve_errno H m.1 u.2
      if u.1.ret < 0 ∧ w2.errno ≠ ENOENT then (u.1.ret, w2)
      else
        let f := sys H (.unlinkat dirfd name flags) w2
        (f.1.ret, f.2)
  else
    let f := sys H (.unlinkat dirfd name flags) w
    (f.1.ret, f.2)

/-! ## Configuration -/

/-- Modelled from the spec: `QemuOpts` and `qemu_opt_get` are declared outside
the examined sources; an option set yields the value of an option by name,
or `NULL` (`none`) when the option is not given. -/
structure QemuOpts where
  qemu_opt_get : CStr → Option CStr

/-- The fields of `struct FsDriverEntry` that `local_parse_opts` writes:
`path` (`none` is `NULL`) and `export_flags`. -/
structure FsDriverEntry where
  path : Option CStr
  export_flags : Nat
deriving DecidableEq, Repr

/-- `strcmp(a, b) == 0` on C strings: the same characters up to the
terminator. -/
def strcmp0 (a b : CStr) : Bool := cstr a ++ ['\x00'] == cstr b ++ ['\x00']

/-- `local_parse_opts`: the return value and the driver entry afterwards;
`g_strdup` yields a copy of the string. -/
def local_parse_opts (opts : QemuOpts) (fse : FsDriverEntry) : Int × FsDriverEntry :=
  let sec_model := opts.qemu_opt_get "security_model".toList
  let path := opts.qemu_opt_get "path".toList
  match sec_model with
  | none => (-1, fse)
  | some sm =>
    let flagged : Option FsDriverEntry :=
      if strcmp0 sm "passthrough".toList then
        some { fse with export_flags := fse.export_flags ||| V9FS_SM_PASSTHROUGH }
      else if strcmp0 sm "mapped".toList || strcmp0 sm "mapped-xattr".toList then
        some { fse with export_flags := fse.export_flags ||| V9FS_SM_MAPPED }
      else if strcmp0 sm "none".toList then
        some { fse with export_flags := fse.export_flags ||| V9FS_SM_NONE }
      else if strcmp0 sm "mapped-file".toList then
        some { fse with export_flags := fse.export_flags ||| V9FS_SM_MAPPED_FILE }
      else none
    match flagged with
    | none => (-1, fse)
    | some fse1 =>
      match path with
      | none => (-1, fse1)
      | some p => (0, { fse1 with path := some (cstr p) })

/-- Specification side: the accepted spellings of the security model, each
with the flag bit it selects. -/
def spec_sec_models : List (CStr × Nat) :=
  [("passthrough".toList, V9FS_SM_PASSTHROUGH), ("mapped".toList, V9FS_SM_MAPPED),
   ("mapped-xattr".toList, V9FS_SM_MAPPED), ("mapped-file".toList, V9FS_SM_MAPPED_FILE),
   ("none".toList, V9FS_SM_NONE)]

/-- An option set giving `security_model` and `path`, each possibly absent. -/
def exOpts (sec_model path : Option CStr) : QemuOpts :=
  { qemu_opt_get := fun k =>
      if k = "security_model".toList then sec_model
      else if k = "path".toList then path else none }

/-- Host calls that create an object and take its mode (and type, device)
from the caller: `mknod`, `mkdir`, `open`, `openat`, `symlink`. -/
def isCreateCall : HostCall → Bool
  | .mknod _ _ _ => true
  | .mkdir _ _ => true
  | .open_ _ _ _ => true
  | .openat _ _ _ _ => true
  | .symlink _ _ => true
  | _ => false

/-- The object-creating calls that persisting the credential of `path` adds
when it starts in state `w`: none under the mapped model; under mapped-file
the `mkdir` of the hidden directory, made when the record cannot be opened
for reading. -/
def hiddenDirCreation {σ : Type} (H : Host σ) (ctx : FsContext) (path : CStr) (w : World σ) :
    List HostCall :=
  if flagSet ctx.export_flags V9FS_SM_MAPPED then []
  else
    match local_mapped_attr_path ctx path with
    | none => []
    | some attr_path =>
      if (sys H (.fopen attr_path "r".toList) w).1.ret = 0 then
        [.mkdir (mapped_attr_dir ctx path) 0o700]
      else []

/-! ## A host file tree with descriptors

A second, richer host for the operations that work through descriptors and
file contents: a tree without symbolic links, a table of open descriptors
and streams, and the calls `open`, `openat`, `read`, `write`, `close`,
`fopen`, `fprintf`, `fclose`, `mkdir`, `setxattr`, `unlinkat` and `remove`.
Paths are resolved lexically (`hostLocation`); relative names are resolved
from the directory a descriptor refers to. -/

def EPERM : Int := 1

/-- `AT_FDCWD`. -/
def AT_FDCWD : Int := -100

/-- What an open descriptor or stream refers to: a directory, or a file with
the current offset and the access mode (`O_RDONLY`, `O_WRONLY`, `O_RDWR`). -/
inductive Handle
  | dirAt (loc : List CStr)
  | fileAt (loc : List CStr) (pos : Nat) (acc : Nat)
deriving DecidableEq, Repr

/-- The state of the host: the tree as a list of locations with their nodes
(the first entry of a location counts), the open descriptors and streams,
and the number of handles given out so far. -/
structure Fsys where
  tree : List (List CStr × Node)
  handles : List (Int × Handle)
  next : Nat
deriving DecidableEq, Repr

/-- The node at a location; the root is a directory. -/
def tGet (t : List (List CStr × Node)) (loc : List CStr) : Option Node :=
  if loc = [] then some .dir else t.lookup loc

/-- The tree with `node` at `loc`. -/
def tSet (t : List (List CStr × Node)) (loc : List CStr) (node : Node) : List (List CStr × Node) :=
  (loc, node) :: t

/-- The tree without `loc`. -/
def tDel (t : List (List CStr × Node)) (loc : List CStr) : List (List CStr × Node) :=
  t.filter (fun e => e.1 != loc)

/-- No entry of the tree lies directly in the directory `loc`. -/
def tEmptyDir (t : List (List CStr × Node)) (loc : List CStr) : Bool :=
  t.all (fun e => e.1 == [] || e.1.dropLast != loc)

/-- The location a name denotes when resolved from the location `base`. -/
def resolveFrom (base : List CStr) (p : CStr) : List CStr :=
  (splitSlash p).foldl
    (fun loc comp =>
      if comp = [] ∨ comp = ".".toList then loc
      else if comp = "..".toList then loc.dropLast
      else loc ++ [comp])
    base

/-- The location that `name` denotes for an `*at` call: absolute names from
the root, relative names from the directory of `dirfd`; the error when
`dirfd` is no open descriptor (EBADF) or no directory (ENOTDIR). -/
def resolveAt (s : Fsys) (dirfd : Int) (name : CStr) : Except Int (List CStr) :=
  if name.head? = some '/' then .ok (hostLocation name)
  else if dirfd = AT_FDCWD then .ok (hostLocation name)
  else
    match s.handles.lookup dirfd with
    | none => .error EBADF
    | some (.fileAt _ _ _) => .error ENOTDIR
    | some (.dirAt base) => .ok (resolveFrom base name)

/-- A new handle: numbered from 1 upwards, so never `-1` and never `NULL`. -/
def fsysAlloc (s : Fsys) (tree : List (List CStr × Node)) (h : Handle) : HostRes × Fsys :=
  (okRes ((s.next : Int) + 1),
   { tree := tree, handles := ((s.next : Int) + 1, h) :: s.handles, next := s.next + 1 })

/-- The host's `open` of a location: `O_CREAT | O_EXCL` on an existing object
fails with EEXIST, opening a directory with `O_CREAT` or for writing (unless
`O_PATH`) fails with EISDIR, `O_DIRECTORY` on a file fails with ENOTDIR; a
missing object is created as an empty file under `O_CREAT` when its parent is
a directory. -/
def fsysOpen (s : Fsys) (loc : List CStr) (flags : Nat) : HostRes × Fsys :=
  match tGet s.tree loc with
  | some .dir =>
    if flags &&& O_CREAT ≠ 0 ∧ flags &&& O_EXCL ≠ 0 then (failRes EEXIST, s)
    else if flags &&& O_CREAT ≠ 0 ∨ (flags &&& 3 ≠ O_RDONLY ∧ flags &&& O_PATH = 0) then
      (failRes EISDIR, s)
    else fsysAlloc s s.tree (.dirAt loc)
  | some (.file _) =>
    if flags &&& O_CREAT ≠ 0 ∧ flags &&& O_EXCL ≠ 0 then (failRes EEXIST, s)
    else if flags &&& O_DIRECTORY ≠ 0 then (failRes ENOTDIR, s)
    else fsysAlloc s s.tree (.fileAt loc 0 (flags &&& 3))
  | none =>
    if flags &&& O_CREAT = 0 then (failRes ENOENT, s)
    else
      match tGet s.tree loc.dropLast with
      | none => (failRes ENOENT, s)
      | some (.file _) => (failRes ENOTDIR, s)
      | some .dir => fsysAlloc s (tSet s.tree loc (.file [])) (.fileAt loc 0 (flags &&& 3))

/-- The host's `write` (and `fprintf`) through a handle: the bytes replace
the content from the offset on, the offset moves on, the count is returned. -/
def fsysWrite (s : Fsys) (fd : Int) (data : CStr) : HostRes × Fsys :=
  match s.handles.lookup fd with
  | some (.fileAt loc pos acc) =>
    if acc = O_RDONLY then (failRes EBADF, s)
    else
      match tGet s.tree loc with
      | some (.file content) =>
        (okRes data.length,
         { s with
           tree := tSet s.tree loc (.file (content.take pos ++ data ++ content.drop (pos + data.length))),
           handles := (fd, .fileAt loc (pos + data.length) acc) :: s.handles })
      | _ => (failRes EBADF, s)
  | _ => (failRes EBADF, s)

/-- The host's `read` through a handle: up to `count` bytes from the offset. -/
def fsysRead (s : Fsys) (fd : Int) (count : Nat) : HostRes × Fsys :=
  match s.handles.lookup fd with
  | some (.fileAt loc pos acc) =>
    if acc = O_WRONLY then (failRes EBADF, s)
    else
      match tGet s.tree loc with
      | some (.file content) =>
        ({ ret := ((content.drop pos).take count).length, err := none, stat := ⟨0, 0, 0, 0, 0⟩,
           data := (content.drop pos).take count, val := 0 },
         { s with handles :=
             (fd, .fileAt loc (pos + ((content.drop pos).take count).length) acc) :: s.handles })
      | _ => (failRes EBADF, s)
  | some (.dirAt _) => (failRes EISDIR, s)
  | none => (failRes EBADF, s)

/-- The host's `close` (and `fclose`). -/
def fsysClose (s : Fsys) (fd : Int) : HostRes × Fsys :=
  match s.handles.lookup fd with
  | none => (failRes EBADF, s)
  | some _ => (okRes 0, { s with handles := s.handles.filter (fun e => e.1 != fd) })

/-- The host's `fopen`: mode `r` opens an existing file and delivers its
content (a directory opens too and delivers nothing); mode `w` truncates the
file or creates it in an existing directory; `NULL` (0) with `errno` on
failure. -/
def fsysFopen (s : Fsys) (loc : List CStr) (mode : CStr) : HostRes × Fsys :=
  if mode = "r".toList then
    match tGet s.tree loc with
    | some (.file content) =>
      let a := fsysAlloc s s.tree (.fileAt loc 0 O_RDONLY)
      ({ a.1 with data := content }, a.2)
    | some .dir => fsysAlloc s s.tree (.dirAt loc)
    | none => ({ failRes ENOENT with ret := 0 }, s)
  else if mode = "w".toList then
    match tGet s.tree loc with
    | some .dir => ({ failRes EISDIR with ret := 0 }, s)
    | some (.file _) => fsysAlloc s (tSet s.tree loc (.file [])) (.fileAt loc 0 O_WRONLY)
    | none =>
      match tGet s.tree loc.dropLast with
      | none => ({ failRes ENOENT with ret := 0 }, s)
      | some (.file _) => ({ failRes ENOTDIR with ret := 0 }, s)
      | some .dir => fsysAlloc s (tSet s.tree loc (.file [])) (.fileAt loc 0 O_WRONLY)
  else ({ failRes EINVAL with ret := 0 }, s)

/-- The host's `mkdir`. -/
def fsysMkdir (s : Fsys) (loc : List CStr) : HostRes × Fsys :=
  match tGet s.tree loc with
  | some _ => (failRes EEXIST, s)
  | none =>
    match tGet s.tree loc.dropLast with
    | none => (failRes ENOENT, s)
    | some (.file _) => (failRes ENOTDIR, s)
    | some .dir => (okRes 0, { s with tree := tSet s.tree loc .dir })

/-- The host's removal of a location: with `rmdir` set the object must be an
empty directory, without it a file. -/
def fsysUnlink (s : Fsys) (loc : List CStr) (rmdir : Bool) : HostRes × Fsys :=
  if loc = [] then (failRes EBUSY, s)
  else
    match tGet s.tree loc with
    | none => (failRes ENOENT, s)
    | some .dir =>
      if !rmdir then (failRes EISDIR, s)
      else if !tEmptyDir s.tree loc then (failRes ENOTEMPTY, s)
      else (okRes 0, { s with tree := tDel s.tree loc })
    | some (.file _) =>
      if rmdir then (failRes ENOTDIR, s)
      else (okRes 0, { s with tree := tDel s.tree loc })

/-- The file-tree host with descriptors.  Calls it does not implement fail
with ENOSYS. -/
def fsysHost : Host Fsys where
  step s c :=
    match c with
    | .open_ p flags _ => fsysOpen s (hostLocation p) flags
    | .openat dirfd name flags _ =>
      match resolveAt s dirfd name with
      | .error e => (failRes e, s)
      | .ok loc => fsysOpen s loc flags
    | .write fd data => fsysWrite s fd data
    | .fprintf fp text => fsysWrite s fp text
    | .read fd count => fsysRead s fd count
    | .close fd => fsysClose s fd
    | .fclose fp => fsysClose s fp
    | .fopen p mode => fsysFopen s (hostLocation p) mode
    | .mkdir p _ => fsysMkdir s (hostLocation p)
    | .setxattr p _ _ _ _ =>
      match tGet s.tree (hostLocation p) with
      | none => (failRes ENOENT, s)
      | some _ => (okRes 0, s)
    | .unlinkat dirfd name flags =>
      match resolveAt s dirfd name with
      | .error e => (failRes e, s)
      | .ok loc => fsysUnlink s loc (flags == AT_REMOVEDIR)
    | .remove p =>
      match tGet s.tree (hostLocation p) with
      | some .dir => fsysUnlink s (hostLocation p) true
      | _ => fsysUnlink s (hostLocation p) false
    | _ => (failRes ENOSYS, s)

/-- The state of the backend over a state of the file-tree host. -/
def fsysWorld (s : Fsys) : World Fsys := { hs := s, errno := 0, trace := [], fds := [] }

/-- A tree for the evaluations: `/export` holds the directory `d`, `d` holds
the file `f` and no hidden directory (the file was created outside the
mapped-file model); descriptor 5 is open on `/export/d`. -/
def exAlienTree : Fsys :=
  { tree := [(["export".toList], .dir), (["export".toList, "d".toList], .dir),
             (["export".toList, "d".toList, "f".toList], .file "data".toList)],
    handles := [(5, .dirAt ["export".toList, "d".toList])],
    next := 5 }

/-- A directory path of 4089 characters: sixteen components of 254
characters and one of 8. -/
@[irreducible] def exLongDir : CStr :=
  (List.replicate 16 ('/' :: List.replicate 254 'd')).flatten ++ '/' :: List.replicate 8 'd'

/-- An export of `/e` under the mapped-file model. -/
def exCtxShortRoot : FsContext :=
  { fs_root := "/e".toList, export_flags := V9FS_SM_MAPPED_FILE, mountfd := 3 }

/-- The path of the name `.v` in `exLongDir`. -/
def exLongPath : CStr := fullname exLongDir ".v".toList

/-- A host tree in which every directory above the host path of `exLongPath`
exists and nothing else; no descriptor is open. -/
def exLongTree : Fsys :=
  { tree := (List.inits (hostLocation (rpath exCtxShortRoot exLongPath)).dropLast).map
      (fun l => (l, Node.dir)),
    handles := [],
    next := 3 }

/-- The shadow record written for `exCred` with the symlink type bit, after a
previous content that holds no field: uid 1000, gid 100, mode 0120644,
device 0. -/
def exLinkRecord : CStr := "virtfs.uid=1000\nvirtfs.gid=100\nvirtfs.mode=41380\nvirtfs.rdev=0\n".toList

/-- A small host tree: `/export` holds the empty directory `d`. -/
def exLinkTree : Fsys :=
  { tree := [(["export".toList], .dir), (["export".toList, "d".toList], .dir)],
    handles := [],
    next := 3 }

/-- The state after `local_symlink` of the target `target` at `/d/ln` under
mapped-file on `exLinkTree`. -/
def exLinked : World Fsys :=
  ((local_symlink fsysHost exCtxMappedFile "target".toList "/d".toList "ln".toList exCred 1
    (fsysWorld exLinkTree)).map (fun r => r.2)).getD (fsysWorld exLinkTree)

/-! ## The stripping loop of `local_open_nofollow` -/

/-- The loop `while (*path == '/') { path++; }` of `local_open_nofollow`, one
unit of `fuel` per test of the condition; `none` means the fuel ran out.  At
the end of the string the character tested is the terminator and the loop
stops. -/
def skip_leading_slashes : Nat → CStr → Option CStr
  | 0, _ => none
  | fuel + 1, p =>
    match p with
    | c :: rest => if c = '/' then skip_leading_slashes fuel rest else some p
    | [] => some p

/-! ## 9p-util.h: error codes and device numbers -/

/-- The host the backend is built for: `CONFIG_LINUX`, `CONFIG_DARWIN`, or
neither. -/
inductive HostKind
  | linux
  | darwin
  | other
deriving DecidableEq, Repr

/-- The values the host's headers give to the error codes `errno_to_dotl`
names (they are macros of the host's `errno.h`). -/
structure HostErrno where
  ENAMETOOLONG : Int
  ENOTEMPTY : Int
  ELOOP : Int
  ENOATTR : Int
  ENOTSUP : Int
  EOPNOTSUPP : Int
deriving DecidableEq, Repr

/-- The error codes of macOS (`sys/errno.h`). -/
def macosErrno : HostErrno :=
  { ENAMETOOLONG := 63, ENOTEMPTY := 66, ELOOP := 62, ENOATTR := 93, ENOTSUP := 45,
    EOPNOTSUPP := 102 }

/-- `errno_to_dotl` of 9p-util.h; `none` is the `#error` of a host that is
neither Linux nor macOS. -/
def errno_to_dotl (host : HostKind) (e : HostErrno) (err : Int) : Option Int :=
  match host with
  | .linux => some err
  | .darwin =>
    some (
      if err = e.ENAMETOOLONG then 36
      else if err = e.ENOTEMPTY then 39
      else if err = e.ELOOP then 40
      else if err = e.ENOATTR then 61
      else if err = e.ENOTSUP then 95
      else if err = e.EOPNOTSUPP then 95
      else err)
  | .other => none

/-- `makedev_dotl` of 9p-util.h on `uint32_t` arguments; every intermediate
value fits 64 bits, so no reduction modulo 2^64 takes place. -/
def makedev_dotl (dev_major dev_minor : Nat) : Nat :=
  let dev0 := (dev_major &&& 0x00000fff) <<< 8
  let dev1 := dev0 ||| ((dev_major &&& 0xfffff000) <<< 32)
  let dev2 := dev1 ||| ((dev_minor &&& 0x000000ff) <<< 0)
  dev2 ||| ((dev_minor &&& 0xffffff00) <<< 12)

/-- Specification side: the major number of a device number in the encoding
of glibc. -/
def spec_major (dev : Nat) : Nat := ((dev >>> 32) &&& 0xfffff000) ||| ((dev >>> 8) &&& 0xfff)

/-- Specification side: the minor number of a device number in the encoding
of glibc. -/
def spec_minor (dev : Nat) : Nat := ((dev >>> 12) &&& 0xffffff00) ||| (dev &&& 0xff)

/-- Specification side: the 32-bit device number format of Linux; `~0xff` on
32 bits is `0xffffff00`. -/
def spec_linux_dev (major minor : Nat) : Nat :=
  (minor &&& 0xff) ||| (major <<< 8) ||| ((minor &&& 0xffffff00) <<< 12)

/-! ## Remove and opendir -/

def AT_SYMLINK_NOFOLLOW : Nat := 0x100

/-- `g_path_get_dirname` of GLib: `.` when the name has no slash; otherwise
the name up to its last slash, without the slashes that end this part, and
`/` when nothing else is left. -/
def g_path_get_dirname (file_name : CStr) : CStr :=
  match lastSlash file_name with
  | none => ".".toList
  | some i =>
    let head := stripTrailingSlashes (file_name.take (i + 1))
    if head = [] then file_name.take 1 else head

/-- `g_path_get_basename` of GLib: `.` for the empty name, `/` for a name of
slashes only, otherwise the last component, trailing slashes left out. -/
def g_path_get_basename (file_name : CStr) : CStr :=
  if file_name = [] then ".".toList
  else
    let t := stripTrailingSlashes file_name
    if t = [] then "/".toList
    else (t.reverse.takeWhile (fun c => c != '/')).reverse

/-- `local_remove`.  The test after the open is `if (dirfd) goto out;`, and
`fstatat` is given `path`, as in the source. -/
def local_remove {σ : Type} (H : Host σ) (ctx : FsContext) (path : CStr) (w : World σ) :
    Int × World σ :=
  let dirpath := g_path_get_dirname path
  let name := g_path_get_basename path
  let d := local_opendir_nofollow H ctx dirpath w
  if d.1 ≠ 0 then (-1, d.2)
  else
    let s := sys H (.fstatat d.1 path AT_SYMLINK_NOFOLLOW) d.2
    if s.1.ret < 0 then (-1, close_preserve_errno H d.1 s.2)
    else
      let flags := if S_ISDIR s.1.stat.st_mode then 0 ||| AT_REMOVEDIR else 0
      let u := local_unlinkat_common H ctx d.1 name flags s.2
      (u.1, close_preserve_errno H d.1 u.2)

/-- `local_unlinkat`, the sibling of `local_remove` that takes the directory
and the name apart. -/
def local_unlinkat {σ : Type} (H : Host σ) (ctx : FsContext) (dir name : CStr) (flags : Nat)
    (w : World σ) : Int × World σ :=
  let d := local_opendir_nofollow H ctx dir w
  if d.1 = -1 then (-1, d.2)
  else
    let u := local_unlinkat_common H ctx d.1 name flags d.2
    (u.1, close_preserve_errno H d.1 u.2)

/-- `local_opendir`: the return value, the stream stored in `fs->dir.stream`
(`none` when the handle is not written), and the state.  `fdopendir` answers
with the stream, 0 for `NULL`. -/
def local_opendir {σ : Type} (H : Host σ) (ctx : FsContext) (path : CStr) (w : World σ) :
    Int × Option Int × World σ :=
  let d := local_opendir_nofollow H ctx path w
  if d.1 = -1 then (-1, none, d.2)
  else
    let s := sys H (.fdopendir d.1) d.2
    if s.1.ret = 0 then (-1, none, s.2)
    else (0, some s.1.ret, s.2)

/-- A tree for the removal of a directory that is not empty: `/export/d`
holds the directory `sub` and the hidden directory with the record of `sub`;
`sub` holds the file `f` and its own hidden directory with the record of
`f`; descriptor 5 is open on `/export/d`. -/
def exRmdirTree : Fsys :=
  { tree := [(["export".toList], .dir), (["export".toList, "d".toList], .dir),
             (["export".toList, "d".toList, "sub".toList], .dir),
             (["export".toList, "d".toList, "sub".toList, "f".toList], .file "data".toList),
             (["export".toList, "d".toList, "sub".toList, VIRTFS_META_DIR], .dir),
             (["export".toList, "d".toList, "sub".toList, VIRTFS_META_DIR, "f".toList],
               .file "virtfs.uid=1000\n".toList),
             (["export".toList, "d".toList, VIRTFS_META_DIR], .dir),
             (["export".toList, "d".toList, VIRTFS_META_DIR, "sub".toList],
               .file "virtfs.mode=16877\n".toList)],
    handles := [(5, .dirAt ["export".toList, "d".toList])],
    next := 5 }

/-- The same directory once it is empty: `sub` holds only its own, empty,
hidden directory. -/
def exRmdirEmptyTree : Fsys :=
  { tree := [(["export".toList], .dir), (["export".toList, "d".toList], .dir),
             (["export".toList, "d".toList, "sub".toList], .dir),
             (["export".toList, "d".toList, "sub".toList, VIRTFS_META_DIR], .dir),
             (["export".toList, "d".toList, VIRTFS_META_DIR], .dir),
             (["export".toList, "d".toList, VIRTFS_META_DIR, "sub".toList],
               .file "virtfs.mode=16877\n".toList)],
    handles := [(5, .dirAt ["export".toList, "d".toList])],
    next := 5 }

/-- A tree for the evaluation of a rename of a directory into itself: the
export `/export` holds the directory `d`, `d` holds the directory `a` and the
hidden directory, and the hidden directory holds the record of `a`. -/
def exNestTree : HostFS := fun q =>
  if q = ["export".toList] then some .dir
  else if q = ["export".toList, "d".toList] then some .dir
  else if q = ["export".toList, "d".toList, "a".toList] then some .dir
  else if q = ["export".toList, "d".toList, VIRTFS_META_DIR] then some .dir
  else if q = ["export".toList, "d".toList, VIRTFS_META_DIR, "a".toList] then
    some (.file "virtfs.mode=16877\n".toList)
  else none

/-- The state of the evaluations on `exNestTree`. -/
def exNestWorld : World HostFS := { hs := exNestTree, errno := 0, trace := [], fds := [] }

/-! ## Trees with a shadow record -/

/-- A host tree with a record: `/export/d` holds the file `f` and the hidden
directory, which holds the record of `f` with the given content. -/
def exRecordTree (record : CStr) : Fsys :=
  { tree := [(["export".toList], .dir), (["export".toList, "d".toList], .dir),
             (["export".toList, "d".toList, "f".toList], .file "data".toList),
             (["export".toList, "d".toList, VIRTFS_META_DIR], .dir),
             (["export".toList, "d".toList, VIRTFS_META_DIR, "f".toList], .file record)],
    handles := [],
    next := 3 }

/-- A host tree without records: `/export/d` holds the file `f` and nothing
else. -/
def exPlainTree : Fsys :=
  { tree := [(["export".toList], .dir), (["export".toList, "d".toList], .dir),
             (["export".toList, "d".toList, "f".toList], .file "data".toList)],
    handles := [],
    next := 3 }

/-! # Theorems -/

/-! ## C3: special files -/

theorem mem_filter_ne_self (fd : Int) (l : List Int) : fd ∉ l.filter (fun x => x != fd) := by
  simp [List.mem_filter]

/-- C3: `close_if_special_file` returns 0 exactly when the host `fstat` of the
descriptor succeeds and reports a regular file or a directory, and then the
set of open descriptors is unchanged and no `close` is issued; otherwise it
returns -1, has issued `close(fd)` and the descriptor is no longer open, with
`errno = ENXIO` when the stat succeeded and reported a special file.  As a
consequence `openat_file` returns -1 and leaves the descriptor it opened
closed whenever the opened object is neither regular file nor directory. -/
theorem close_if_special_file_spec {σ : Type} (H : Host σ) (fd : Int) (w : World σ) :
    ((close_if_special_file H fd w).1 = 0 ↔
        (¬ (H.step w.hs (.fstat fd)).1.ret < 0 ∧
          (S_ISREG (H.step w.hs (.fstat fd)).1.stat.st_mode = true ∨
           S_ISDIR (H.step w.hs (.fstat fd)).1.stat.st_mode = true))) ∧
    ((close_if_special_file H fd w).1 = 0 →
        (close_if_special_file H fd w).2.fds = w.fds ∧
        (close_if_special_file H fd w).2.trace = w.trace ++ [.fstat fd]) ∧
    ((close_if_special_file H fd w).1 ≠ 0 →
        (close_if_special_file H fd w).1 = -1 ∧
        fd ∉ (close_if_special_file H fd w).2.fds ∧
        (close_if_special_file H fd w).2.trace = w.trace ++ [.fstat fd, .close fd]) ∧
    (¬ (H.step w.hs (.fstat fd)).1.ret < 0 →
        S_ISREG (H.step w.hs (.fstat fd)).1.stat.st_mode = false →
        S_ISDIR (H.step w.hs (.fstat fd)).1.stat.st_mode = false →
        (close_if_special_file H fd w).2.errno = ENXIO) ∧
    (∀ (dirfd : Int) (name : CStr) (flags mode : Nat),
        (sys H (.openat dirfd name (flags ||| O_NOFOLLOW ||| O_NOCTTY ||| O_NONBLOCK) mode) w).1.ret ≠ -1 →
        (close_if_special_file H
          (sys H (.openat dirfd name (flags ||| O_NOFOLLOW ||| O_NOCTTY ||| O_NONBLOCK) mode) w).1.ret
          (sys H (.openat dirfd name (flags ||| O_NOFOLLOW ||| O_NOCTTY ||| O_NONBLOCK) mode) w).2).1 ≠ 0 →
        ∃ w2, openat_file H dirfd name flags mode w = some (-1, w2) ∧
          (sys H (.openat dirfd name (flags ||| O_NOFOLLOW ||| O_NOCTTY ||| O_NONBLOCK) mode) w).1.ret
            ∉ w2.fds) := by
  have key : ∀ (fd : Int) (w : World σ), (close_if_special_file H fd w).1 ≠ 0 →
        (close_if_special_file H fd w).1 = -1 ∧
        fd ∉ (close_if_special_file H fd w).2.fds ∧
        (close_if_special_file H fd w).2.trace = w.trace ++ [.fstat fd, .close fd] := by
    intro fd w
    unfold close_if_special_file
    by_cases h1 : (H.step w.hs (.fstat fd)).1.ret < 0
    · intro _
      simp [sys, h1, close_preserve_errno, updFds, mem_filter_ne_self]
    · by_cases h2 : (!S_ISREG (H.step w.hs (.fstat fd)).1.stat.st_mode &&
          !S_ISDIR (H.step w.hs (.fstat fd)).1.stat.st_mode) = true
      · intro _
        simp only [sys, h1, h2, if_false, if_true]
        simp [updFds, mem_filter_ne_self]
      · simp only [sys, h1, h2, if_false]
        simp
  refine ⟨?_, ?_, key fd w, ?_, ?_⟩
  · unfold close_if_special_file
    by_cases h1 : (H.step w.hs (.fstat fd)).1.ret < 0
    · simp [sys, h1]
    · cases h3 : S_ISREG (H.step w.hs (.fstat fd)).1.stat.st_mode <;>
        cases h4 : S_ISDIR (H.step w.hs (.fstat fd)).1.stat.st_mode <;>
        simp [sys, h1, h3, h4]
  · unfold close_if_special_file
    by_cases h1 : (H.step w.hs (.fstat fd)).1.ret < 0
    · simp [sys, h1]
    · cases h3 : S_ISREG (H.step w.hs (.fstat fd)).1.stat.st_mode <;>
        cases h4 : S_ISDIR (H.step w.hs (.fstat fd)).1.stat.st_mode <;>
        simp [sys, h1, h3, h4, updFds]
  · intro h1 h2 h3
    unfold close_if_special_file
    simp [sys, h1, h2, h3]
  · intro dirfd name flags mode hopen hspecial
    have hk := key _ _ hspecial
    unfold openat_file
    simp only [hopen, if_false]
    have hneg : (close_if_special_file H
          (sys H (.openat dirfd name (flags ||| O_NOFOLLOW ||| O_NOCTTY ||| O_NONBLOCK) mode) w).1.ret
          (sys H (.openat dirfd name (flags ||| O_NOFOLLOW ||| O_NOCTTY ||| O_NONBLOCK) mode) w).2).1 < 0 := by
      rw [hk.1]; decide
    simp only [hneg, if_true]
    exact ⟨_, rfl, hk.2.1⟩

/-- C3 at a concrete host: `openat` returns descriptor 7, `fstat` reports a
character device (mode 0o020644); `openat_file` returns -1, descriptor 7 is
closed again and `errno` is `ENXIO`. -/
theorem close_if_special_file_spec_witness :
    openat_file scriptHost 3 "tty".toList O_RDWR 0 (scriptWorld [okRes 7, statRes 0o020644, okRes 0])
      = some (-1, { hs := [], errno := ENXIO,
                    trace := [.openat 3 "tty".toList (O_RDWR ||| O_NOFOLLOW ||| O_NOCTTY ||| O_NONBLOCK) 0,
                              .fstat 7, .close 7],
                    fds := [] }) ∧
    ∃ w2, openat_file scriptHost 3 "tty".toList O_RDWR 0
        (scriptWorld [okRes 7, statRes 0o020644, okRes 0]) = some (-1, w2) ∧
      (7 : Int) ∉ w2.fds :=
  ⟨by decide,
   (close_if_special_file_spec scriptHost 7 (scriptWorld [okRes 7, statRes 0o020644, okRes 0])).2.2.2.2
      3 "tty".toList O_RDWR 0 (by decide) (by decide)⟩

/-! ## The record writer, field by field -/

theorem toInt32_ne_neg_one (v : Nat) (h1 : v < 4294967296) (h2 : v ≠ U32_MINUS_ONE) :
    toInt32 v ≠ -1 := by
  unfold toInt32
  unfold U32_MINUS_ONE at h2
  omega

theorem strncmp0_excl (buf k1 k2 : CStr) (n1 n2 : Nat)
    (hk : ((cstr k1 ++ ['\x00']).take n1).take (min n1 n2) ≠ ((cstr k2 ++ ['\x00']).take n2).take (min n1 n2))
    (h1 : strncmp0 buf k1 n1 = true) : strncmp0 buf k2 n2 = false := by
  unfold strncmp0 at *
  simp only [beq_iff_eq] at h1
  by_contra h2
  simp only [Bool.not_eq_false, beq_iff_eq] at h2
  apply hk
  rw [← h1, ← h2, List.take_take, List.take_take]
  congr 1
  omega

/-- The per-key reading of the buffers, as a fold with an optional result. -/
theorem read_loop_value_fold (key : CStr) (content : CStr) :
    read_loop_value key content = (fgetsAll content).foldl
      (fun acc buf => if strncmp0 buf key key.length then some (atoi (buf.drop (key.length + 1))) else acc)
      none := rfl

theorem set_attr_fold_eq (bufs : List CStr) :
    ∀ (a : AttrInts) (ou og om od : Option Int) (d : AttrInts),
      a.uid = ou.getD d.uid → a.gid = og.getD d.gid → a.mode = om.getD d.mode →
      a.rdev = od.getD d.rdev →
      (bufs.foldl set_attr_line a).uid =
        (bufs.foldl (fun acc buf => if strncmp0 buf "virtfs.uid".toList 10
            then some (atoi (buf.drop 11)) else acc) ou).getD d.uid ∧
      (bufs.foldl set_attr_line a).gid =
        (bufs.foldl (fun acc buf => if strncmp0 buf "virtfs.gid".toList 10
            then some (atoi (buf.drop 11)) else acc) og).getD d.gid ∧
      (bufs.foldl set_attr_line a).mode =
        (bufs.foldl (fun acc buf => if strncmp0 buf "virtfs.mode".toList 11
            then some (atoi (buf.drop 12)) else acc) om).getD d.mode ∧
      (bufs.foldl set_attr_line a).rdev =
        (bufs.foldl (fun acc buf => if strncmp0 buf "virtfs.rdev".toList 11
            then some (atoi (buf.drop 12)) else acc) od).getD d.rdev := by
  induction bufs with
  | nil => intro a ou og om od d hu hg hm hd; exact ⟨hu, hg, hm, hd⟩
  | cons buf rest ih =>
    intro a ou og om od d hu hg hm hd
    simp only [List.foldl_cons]
    have e12 : strncmp0 buf "virtfs.uid".toList 10 = true →
        strncmp0 buf "virtfs.gid".toList 10 = false :=
      strncmp0_excl buf _ _ 10 10 (by decide)
    have e13 : strncmp0 buf "virtfs.uid".toList 10 = true →
        strncmp0 buf "virtfs.mode".toList 11 = false :=
      strncmp0_excl buf _ _ 10 11 (by decide)
    have e14 : strncmp0 buf "virtfs.uid".toList 10 = true →
        strncmp0 buf "virtfs.rdev".toList 11 = false :=
      strncmp0_excl buf _ _ 10 11 (by decide)
    have e23 : strncmp0 buf "virtfs.gid".toList 10 = true →
        strncmp0 buf "virtfs.mode".toList 11 = false :=
      strncmp0_excl buf _ _ 10 11 (by decide)
    have e24 : strncmp0 buf "virtfs.gid".toList 10 = true →
        strncmp0 buf "virtfs.rdev".toList 11 = false :=
      strncmp0_excl buf _ _ 10 11 (by decide)
    have e34 : strncmp0 buf "virtfs.mode".toList 11 = true →
        strncmp0 buf "virtfs.rdev".toList 11 = false :=
      strncmp0_excl buf _ _ 11 11 (by decide)
    apply ih <;> unfold set_attr_line
    all_goals
      cases h1 : strncmp0 buf "virtfs.uid".toList 10 <;>
      cases h2 : strncmp0 buf "virtfs.gid".toList 10 <;>
      cases h3 : strncmp0 buf "virtfs.mode".toList 11 <;>
      cases h4 : strncmp0 buf "virtfs.rdev".toList 11 <;>
      simp only [h1, h2, h3, h4, Bool.true_eq_false, Bool.false_eq_true, imp_false, not_true_eq_false,
        false_implies, true_implies, imp_self] at e12 e13 e14 e23 e24 e34 <;>
      simp only [Bool.false_eq_true, ↓reduceIte, Option.getD_some] <;>
      assumption
theorem set_attr_merge_fields (a : AttrInts) (c : FsCred) :
    (set_attr_merge a c).uid = (if c.fc_uid ≠ U32_MINUS_ONE then toInt32 c.fc_uid else a.uid) ∧
    (set_attr_merge a c).gid = (if c.fc_gid ≠ U32_MINUS_ONE then toInt32 c.fc_gid else a.gid) ∧
    (set_attr_merge a c).mode = (if c.fc_mode ≠ U32_MINUS_ONE then toInt32 c.fc_mode else a.mode) ∧
    (set_attr_merge a c).rdev = (if c.fc_rdev ≠ U64_MINUS_ONE then toInt32 c.fc_rdev else a.rdev) := by
  unfold set_attr_merge
  refine ⟨?_, ?_, ?_, ?_⟩ <;> split_ifs <;> rfl

theorem set_attr_read_fields (prev : Option CStr) :
    (set_attr_read prev).uid = ((prev.bind (read_loop_value "virtfs.uid".toList)).getD (-1)) ∧
    (set_attr_read prev).gid = ((prev.bind (read_loop_value "virtfs.gid".toList)).getD (-1)) ∧
    (set_attr_read prev).mode = ((prev.bind (read_loop_value "virtfs.mode".toList)).getD (-1)) ∧
    (set_attr_read prev).rdev = ((prev.bind (read_loop_value "virtfs.rdev".toList)).getD (-1)) := by
  cases prev with
  | none => exact ⟨rfl, rfl, rfl, rfl⟩
  | some content =>
    exact set_attr_fold_eq (fgetsAll content) ⟨-1, -1, -1, -1⟩ none none none none ⟨-1, -1, -1, -1⟩
      rfl rfl rfl rfl

theorem read_loop_prev_field_eq (key : CStr) (prev : Option CStr) :
    read_loop_prev_field key prev = (prev.bind (read_loop_value key)).filter (fun v => v != -1) := by
  cases prev <;> rfl

theorem attr_line_eq (key : CStr) (cv ro : Option Int) (hcv : ∀ v, cv = some v → v ≠ -1) :
    (if cv.getD (ro.getD (-1)) ≠ -1 then
        [(key ++ "=".toList) ++ fmt_d (cv.getD (ro.getD (-1))) ++ ['\n']] else []).flatten
      = spec_render_field key (cv.orElse (fun _ => ro.filter (fun v => v != -1))) := by
  cases cv with
  | some v =>
    have := hcv v rfl
    simp [spec_render_field, this]
  | none =>
    cases ro with
    | none => simp [spec_render_field]
    | some r =>
      by_cases hr : r = -1
      · subst hr; simp [spec_render_field, Option.filter]
      · simp [spec_render_field, Option.filter, hr]

theorem cred_field_getD (v : Nat) (r : Int) :
    (if v ≠ U32_MINUS_ONE then toInt32 v else r) = (spec_cred_field v).getD r := by
  unfold spec_cred_field
  by_cases h : v = U32_MINUS_ONE
  · rw [if_neg (not_not.mpr h), if_pos h, Option.getD_none]
  · rw [if_neg h, if_pos h, Option.getD_some]

theorem cred_rdev_getD (v : Nat) (r : Int) :
    (if v ≠ U64_MINUS_ONE then toInt32 v else r) = (spec_cred_rdev v).getD r := by
  unfold spec_cred_rdev
  by_cases h : v = U64_MINUS_ONE
  · rw [if_neg (not_not.mpr h), if_pos h, Option.getD_none]
  · rw [if_neg h, if_pos h, Option.getD_some]

theorem cred_field_ne_neg_one (v : Nat) (hv : v < 4294967296) (x : Int)
    (hx : spec_cred_field v = some x) : x ≠ -1 := by
  unfold spec_cred_field at hx
  by_cases h : v = U32_MINUS_ONE
  · rw [if_pos h] at hx; exact absurd hx (by simp)
  · rw [if_neg h, Option.some.injEq] at hx
    rw [← hx]
    exact toInt32_ne_neg_one v hv h

theorem toInt32_of_lt (v : Nat) (h : v < 2147483648) : toInt32 v = v := by
  unfold toInt32
  omega

theorem cred_rdev_ne_neg_one (v : Nat) (hv : v < 2147483648 ∨ v = U64_MINUS_ONE) (x : Int)
    (hx : spec_cred_rdev v = some x) : x ≠ -1 := by
  unfold spec_cred_rdev at hx
  by_cases h : v = U64_MINUS_ONE
  · rw [if_pos h] at hx; exact absurd hx (by simp)
  · rw [if_neg h, Option.some.injEq] at hx
    rw [← hx]
    rcases hv with h31 | h64
    · rw [toInt32_of_lt v h31]; omega
    · exact absurd h64 h

/-- The record written is the rendering of the merged fields, the previous
record read as the read loop reads it (shared by the statements on the record
writer and on the round trip). -/
theorem set_attr_content_render (prev : Option CStr) (credp : FsCred) (hwf : credp.wf)
    (hrdev : credp.fc_rdev < 2147483648 ∨ credp.fc_rdev = U64_MINUS_ONE) :
    set_attr_content prev credp = spec_render (read_loop_merge prev credp) := by
  obtain ⟨hu, hg, hm, _⟩ := hwf
  obtain ⟨mu, mg, mm, md⟩ := set_attr_merge_fields (set_attr_read prev) credp
  obtain ⟨ru, rg, rm, rd⟩ := set_attr_read_fields prev
  have e1 := attr_line_eq "virtfs.uid".toList (spec_cred_field credp.fc_uid)
    (prev.bind (read_loop_value "virtfs.uid".toList)) (cred_field_ne_neg_one _ hu)
  have e2 := attr_line_eq "virtfs.gid".toList (spec_cred_field credp.fc_gid)
    (prev.bind (read_loop_value "virtfs.gid".toList)) (cred_field_ne_neg_one _ hg)
  have e3 := attr_line_eq "virtfs.mode".toList (spec_cred_field credp.fc_mode)
    (prev.bind (read_loop_value "virtfs.mode".toList)) (cred_field_ne_neg_one _ hm)
  have e4 := attr_line_eq "virtfs.rdev".toList (spec_cred_rdev credp.fc_rdev)
    (prev.bind (read_loop_value "virtfs.rdev".toList)) (cred_rdev_ne_neg_one _ hrdev)
  unfold set_attr_content set_attr_prints spec_render read_loop_merge
  rw [mu, mg, mm, md, ru, rg, rm, rd, cred_field_getD, cred_field_getD, cred_field_getD,
    cred_rdev_getD]
  simp only [List.flatten_append, read_loop_prev_field_eq]
  have k1 : "virtfs.uid=".toList = "virtfs.uid".toList ++ "=".toList := by decide
  have k2 : "virtfs.gid=".toList = "virtfs.gid".toList ++ "=".toList := by decide
  have k3 : "virtfs.mode=".toList = "virtfs.mode".toList ++ "=".toList := by decide
  have k4 : "virtfs.rdev=".toList = "virtfs.rdev".toList ++ "=".toList := by decide
  rw [← e1, ← e2, ← e3, ← e4, k1, k2, k3, k4]

/-! ## C4: the credential round trip through the shadow record -/

/-- C4, evaluation at failing inputs: a credential that sets only the device
number is written with no previous record and read back over a host stat
whose `st_rdev` is 4.  The device number 2^31 (minor 524288, major 0) comes
back as 2^64 - 2^31; 2^32 + 5 comes back as 5; 2^32 - 1 is not stored at all
and the host value 4 stays. -/
theorem mapped_file_rdev_round_trip_fails :
    mapped_file_attr_read
        (set_attr_content none ⟨U32_MINUS_ONE, U32_MINUS_ONE, U32_MINUS_ONE, 2147483648⟩) ⟨1, 2, 3, 4, 5⟩
      = ⟨1, 2, 3, 18446744071562067968, 5⟩ ∧
    mapped_file_attr_read
        (set_attr_content none ⟨U32_MINUS_ONE, U32_MINUS_ONE, U32_MINUS_ONE, 4294967301⟩) ⟨1, 2, 3, 4, 5⟩
      = ⟨1, 2, 3, 5, 5⟩ ∧
    set_attr_content none ⟨U32_MINUS_ONE, U32_MINUS_ONE, U32_MINUS_ONE, 4294967295⟩ = [] ∧
    mapped_file_attr_read
        (set_attr_content none ⟨U32_MINUS_ONE, U32_MINUS_ONE, U32_MINUS_ONE, 4294967295⟩) ⟨1, 2, 3, 4, 5⟩
      = ⟨1, 2, 3, 4, 5⟩ := by
  decide

/-! ## C6: lines the reader should ignore -/

/-- C6, evaluation at failing inputs: the line `virtfs.uidmap=7` is not of
the form `virtfs.uid=<value>`, yet the reader takes it for the uid and stores
`atoi("ap=7") = 0`; with the line deleted the host uid 1000 stays.  A line of
99 characters followed by `virtfs.gid=5` on the same line is read in two
buffers and the second one sets the gid.  The reader of
`local_set_mapped_file_attr` behaves the same. -/
theorem mapped_file_attr_read_unrecognized_line :
    mapped_file_attr_read "virtfs.uidmap=7\n".toList ⟨1000, 100, 0o100644, 0, 9⟩
      = ⟨0, 100, 0o100644, 0, 9⟩ ∧
    mapped_file_attr_read [] ⟨1000, 100, 0o100644, 0, 9⟩ = ⟨1000, 100, 0o100644, 0, 9⟩ ∧
    mapped_file_attr_read (List.replicate 99 'x' ++ "virtfs.gid=5\n".toList)
        ⟨1000, 100, 0o100644, 0, 9⟩ = ⟨1000, 5, 0o100644, 0, 9⟩ ∧
    set_attr_read (some "virtfs.uidmap=7\n".toList) = ⟨0, -1, -1, -1⟩ ∧
    set_attr_read (some []) = ⟨-1, -1, -1, -1⟩ := by
  decide
theorem mapped_file_attr_fold_eq (bufs : List CStr) (host : Stat) :
    ∀ (st : Stat) (ou og om od : Option Int),
      st.st_uid = (ou.map toU32).getD host.st_uid → st.st_gid = (og.map toU32).getD host.st_gid →
      st.st_mode = (om.map toU32).getD host.st_mode →
      st.st_rdev = (od.map toU64).getD host.st_rdev → st.rest = host.rest →
      bufs.foldl mapped_file_attr_line st =
        spec_overlay host
          ((bufs.foldl (fun acc buf => if strncmp0 buf "virtfs.uid".toList 10
            then some (atoi (buf.drop 11)) else acc) ou).map toU32)
          ((bufs.foldl (fun acc buf => if strncmp0 buf "virtfs.gid".toList 10
            then some (atoi (buf.drop 11)) else acc) og).map toU32)
          ((bufs.foldl (fun acc buf => if strncmp0 buf "virtfs.mode".toList 11
            then some (atoi (buf.drop 12)) else acc) om).map toU32)
          ((bufs.foldl (fun acc buf => if strncmp0 buf "virtfs.rdev".toList 11
            then some (atoi (buf.drop 12)) else acc) od).map toU64) := by
  induction bufs with
  | nil =>
    intro st ou og om od hu hg hm hd hr
    cases st
    simp only [List.foldl_nil, spec_overlay, Stat.mk.injEq]
    exact ⟨hu, hg, hm, hd, hr⟩
  | cons buf rest ih =>
    intro st ou og om od hu hg hm hd hr
    simp only [List.foldl_cons]
    have e12 : strncmp0 buf "virtfs.uid".toList 10 = true →
        strncmp0 buf "virtfs.gid".toList 10 = false :=
      strncmp0_excl buf _ _ 10 10 (by decide)
    have e13 : strncmp0 buf "virtfs.uid".toList 10 = true →
        strncmp0 buf "virtfs.mode".toList 11 = false :=
      strncmp0_excl buf _ _ 10 11 (by decide)
    have e14 : strncmp0 buf "virtfs.uid".toList 10 = true →
        strncmp0 buf "virtfs.rdev".toList 11 = false :=
      strncmp0_excl buf _ _ 10 11 (by decide)
    have e23 : strncmp0 buf "virtfs.gid".toList 10 = true →
        strncmp0 buf "virtfs.mode".toList 11 = false :=
      strncmp0_excl buf _ _ 10 11 (by decide)
    have e24 : strncmp0 buf "virtfs.gid".toList 10 = true →
        strncmp0 buf "virtfs.rdev".toList 11 = false :=
      strncmp0_excl buf _ _ 10 11 (by decide)
    have e34 : strncmp0 buf "virtfs.mode".toList 11 = true →
        strncmp0 buf "virtfs.rdev".toList 11 = false :=
      strncmp0_excl buf _ _ 11 11 (by decide)
    apply ih <;> unfold mapped_file_attr_line
    all_goals
      cases h1 : strncmp0 buf "virtfs.uid".toList 10 <;>
      cases h2 : strncmp0 buf "virtfs.gid".toList 10 <;>
      cases h3 : strncmp0 buf "virtfs.mode".toList 11 <;>
      cases h4 : strncmp0 buf "virtfs.rdev".toList 11 <;>
      simp only [h1, h2, h3, h4, Bool.true_eq_false, Bool.false_eq_true, imp_false, not_true_eq_false,
        false_implies, true_implies, imp_self] at e12 e13 e14 e23 e24 e34 <;>
      simp only [Bool.false_eq_true, ↓reduceIte, Option.getD_some, Option.map_some'] <;>
      assumption

theorem mapped_file_attr_read_eq_loop (content : CStr) (host : Stat) :
    mapped_file_attr_read content host = read_loop_overlay host content :=
  mapped_file_attr_fold_eq (fgetsAll content) host host none none none none rfl rfl rfl rfl rfl

theorem spec_overlay_none (host : Stat) : spec_overlay host none none none none = host := by
  cases host; rfl

/-! ## C1: confinement of the paths handed to the host -/

/-- C1, evaluation at a failing input: `local_lstat` under mapped-file on the
guest path `/../outside/f` of the export `/export` reports no error; it hands
the host the paths `/export//../outside/f` and
`/export//../outside/.virtfs_metadata/f`, which denote locations outside the
export root, and overlays the uid stored in that outside file. -/
theorem local_lstat_escapes_root :
    local_lstat scriptHost exCtxMappedFile "/../outside/f".toList ⟨0, 0, 0, 0, 0⟩
        (exLstatWorld "virtfs.uid=0\n".toList)
      = some (0, ⟨0, 100, 0o100600, 0, 9⟩,
          { hs := [], errno := 0,
            trace := [.lstat "/export//../outside/f".toList,
                      .fopen "/export//../outside/.virtfs_metadata/f".toList "r".toList,
                      .fclose 9],
            fds := [] }) ∧
    rpath exCtxMappedFile "/../outside/f".toList = "/export//../outside/f".toList ∧
    local_mapped_attr_path exCtxMappedFile "/../outside/f".toList
      = some "/export//../outside/.virtfs_metadata/f".toList ∧
    hostLocation "/export//../outside/f".toList = ["outside".toList, "f".toList] ∧
    insideRoot "/export".toList "/export//../outside/f".toList = false ∧
    insideRoot "/export".toList "/export//../outside/.virtfs_metadata/f".toList = false := by
  decide

/-! ## C8: the hidden directory in enumerations -/

theorem local_readdir_r_dirHost (ctx : FsContext) (stream : Int)
    (hmf : flagSet ctx.export_flags V9FS_SM_MAPPED_FILE = true) (names : List CStr) :
    ∀ (fuel : Nat) (w : World (List CStr)), w.hs = names → names.length < fuel →
      ∃ w2, local_readdir_r dirHost ctx stream fuel w =
          some (0, (names.dropWhile (fun n => n == VIRTFS_META_DIR)).head?, w2) ∧
        w2.hs = (names.dropWhile (fun n => n == VIRTFS_META_DIR)).tail := by
  induction names with
  | nil =>
    intro fuel w hw hf
    cases fuel with
    | zero => omega
    | succ k =>
      simp [local_readdir_r, sys, dirHost, hw]
  | cons e rest ih =>
    intro fuel w hw hf
    cases fuel with
    | zero => omega
    | succ k =>
      by_cases he : e = VIRTFS_META_DIR
      · have hk : rest.length < k := by simp at hf; omega
        obtain ⟨w2, h1, h2⟩ := ih k (sys dirHost (.readdir_r stream) w).2
          (by simp [sys, dirHost, hw]) hk
        refine ⟨w2, ?_, ?_⟩
        · simp [local_readdir_r, hmf, sys, dirHost, hw, he]
          simpa [sys, dirHost, hw, he] using h1
        · simpa [he] using h2
      · simp [local_readdir_r, sys, dirHost, hw, he]

theorem filter_dropWhile_hidden (names : List CStr) :
    names.filter (fun n => n != VIRTFS_META_DIR) =
      (names.dropWhile (fun n => n == VIRTFS_META_DIR)).filter (fun n => n != VIRTFS_META_DIR) := by
  induction names with
  | nil => rfl
  | cons e rest ih =>
    by_cases he : e = VIRTFS_META_DIR
    · simp [he, ih]
    · simp [he]

theorem dropWhile_hidden_head (names : List CStr) (e : CStr) (rest : List CStr)
    (h : names.dropWhile (fun n => n == VIRTFS_META_DIR) = e :: rest) : e ≠ VIRTFS_META_DIR := by
  induction names with
  | nil => simp at h
  | cons a l ih =>
    by_cases ha : a = VIRTFS_META_DIR
    · simp [ha] at h; exact ih h
    · simp [ha] at h; rw [← h.1]; exact ha

theorem readdir_all_dirHost (ctx : FsContext) (stream : Int)
    (hmf : flagSet ctx.export_flags V9FS_SM_MAPPED_FILE = true) (fuel : Nat) :
    ∀ (calls : Nat) (names : List CStr) (w : World (List CStr)), w.hs = names →
      names.length < fuel → names.length < calls →
      readdir_all dirHost ctx stream fuel calls w =
        some (names.filter (fun n => n != VIRTFS_META_DIR)) := by
  intro calls
  induction calls with
  | zero => intro names w _ _ hc; omega
  | succ k ih =>
    intro names w hw hf hc
    obtain ⟨w2, h1, h2⟩ := local_readdir_r_dirHost ctx stream hmf names fuel w hw hf
    have hlen : (names.dropWhile (fun n => n == VIRTFS_META_DIR)).length ≤ names.length :=
      (List.dropWhile_sublist _).length_le
    rw [filter_dropWhile_hidden]
    cases hd : names.dropWhile (fun n => n == VIRTFS_META_DIR) with
    | nil =>
      rw [hd] at h1
      simp [readdir_all, h1]
    | cons e rest =>
      rw [hd] at h1 h2 hlen
      have he := dropWhile_hidden_head names e rest hd
      simp only [List.length_cons] at hlen
      have hrec := ih rest w2 (by simpa using h2) (by omega) (by omega)
      simp [readdir_all, h1, hrec, he]

/-- C8: under the mapped-file model, on a host holding a finite directory
stream `names`, repeated `local_readdir_r` calls deliver exactly the names
other than `.virtfs_metadata`, in their order; the hidden name is never
delivered, and every single call returns (the skipping loop ends) once the
fuel exceeds the number of names left. -/
theorem local_readdir_r_hides_metadata (ctx : FsContext) (stream : Int) (names : List CStr)
    (fuel calls : Nat) (w : World (List CStr))
    (hmf : flagSet ctx.export_flags V9FS_SM_MAPPED_FILE = true)
    (hw : w.hs = names) (hf : names.length < fuel) (hc : names.length < calls) :
    readdir_all dirHost ctx stream fuel calls w =
        some (names.filter (fun n => n != VIRTFS_META_DIR)) ∧
    VIRTFS_META_DIR ∉ names.filter (fun n => n != VIRTFS_META_DIR) ∧
    (∃ r, local_readdir_r dirHost ctx stream fuel w = some r ∧ r.2.1 ≠ some VIRTFS_META_DIR) := by
  refine ⟨readdir_all_dirHost ctx stream hmf fuel calls names w hw hf hc, ?_, ?_⟩
  · simp [List.mem_filter]
  · obtain ⟨w2, h1, _⟩ := local_readdir_r_dirHost ctx stream hmf names fuel w hw hf
    refine ⟨_, h1, ?_⟩
    cases hd : names.dropWhile (fun n => n == VIRTFS_META_DIR) with
    | nil => simp
    | cons e rest =>
      have he := dropWhile_hidden_head names e rest hd
      simpa using he

/-- C8 at a concrete stream: the hidden name occurs three times, once twice in
a row, next to a name that extends it. -/
theorem local_readdir_r_hides_metadata_witness :
    readdir_all dirHost exCtxMappedFile 5 7 7
        ⟨["a".toList, VIRTFS_META_DIR, VIRTFS_META_DIR, ".virtfs_metadata2".toList, "b".toList,
          VIRTFS_META_DIR], 0, [], []⟩
      = some ["a".toList, ".virtfs_metadata2".toList, "b".toList] :=
  (local_readdir_r_hides_metadata exCtxMappedFile 5
    ["a".toList, VIRTFS_META_DIR, VIRTFS_META_DIR, ".virtfs_metadata2".toList, "b".toList,
      VIRTFS_META_DIR] 7 7 _ (by decide) rfl (by decide) (by decide)).1

/-! ## C9: rollback when the credential step fails -/

theorem err_end_errno_trace {σ : Type} (H : Host σ) (ctx : FsContext) (path : CStr) (e : Int)
    (w : World σ) :
    (err_end H ctx path e w).errno = e ∧
    (err_end H ctx path e w).trace = w.trace ++ [.remove (rpath ctx path)] := by
  simp [err_end, sys]

theorem err_end_open2_facts {σ : Type} (H : Host σ) (ctx : FsContext) (path : CStr) (fd e : Int)
    (w : World σ) :
    (err_end_open2 H ctx path fd e w).errno = e ∧
    (err_end_open2 H ctx path fd e w).trace = w.trace ++ [.close fd, .remove (rpath ctx path)] ∧
    fd ∉ (err_end_open2 H ctx path fd e w).fds := by
  simp [err_end_open2, sys, updFds]

theorem cred_or_zero (credp : FsCred) : { credp with fc_mode := credp.fc_mode ||| 0 } = credp := by
  cases credp; simp

theorem local_mknod_rollback {σ : Type} (H : Host σ) (ctx : FsContext) (dir_path name : CStr)
    (credp : FsCred) (w : World σ) (wp : World σ)
    (hc : (sys H (spec_create ctx
        (.mknod (rpath ctx (fullname dir_path name)) (SM_LOCAL_MODE_BITS ||| S_IFREG) 0)
        (.mknod (rpath ctx (fullname dir_path name)) credp.fc_mode credp.fc_rdev)) w).1.ret ≠ -1)
    (hp : spec_persist H ctx (fullname dir_path name) 0 credp
      (sys H (spec_create ctx
        (.mknod (rpath ctx (fullname dir_path name)) (SM_LOCAL_MODE_BITS ||| S_IFREG) 0)
        (.mknod (rpath ctx (fullname dir_path name)) credp.fc_mode credp.fc_rdev)) w).2
      = some (-1, wp)) :
    local_mknod H ctx dir_path name credp w =
      some (-1, err_end H ctx (fullname dir_path name) wp.errno wp) := by
  unfold spec_persist spec_create secModel at *
  unfold local_mknod
  rw [cred_or_zero] at hp
  cases hm : flagSet ctx.export_flags V9FS_SM_MAPPED <;>
  cases hf : flagSet ctx.export_flags V9FS_SM_MAPPED_FILE <;>
  cases h1 : flagSet ctx.export_flags V9FS_SM_PASSTHROUGH <;>
  cases h2 : flagSet ctx.export_flags V9FS_SM_NONE <;>
  simp only [hm, hf, h1, h2, Bool.false_eq_true, ↓reduceIte, Bool.or_false, Bool.or_true,
    Bool.or_self, Option.some.injEq, reduceCtorEq] at hc hp ⊢ <;>
  simp only [hc, ↓reduceIte, hp]

theorem local_mkdir_rollback {σ : Type} (H : Host σ) (ctx : FsContext) (dir_path name : CStr)
    (credp : FsCred) (w : World σ) (wp : World σ)
    (hc : (sys H (spec_create ctx
        (.mkdir (rpath ctx (fullname dir_path name)) SM_LOCAL_DIR_MODE_BITS)
        (.mkdir (rpath ctx (fullname dir_path name)) credp.fc_mode)) w).1.ret ≠ -1)
    (hp : spec_persist H ctx (fullname dir_path name) S_IFDIR credp
      (sys H (spec_create ctx
        (.mkdir (rpath ctx (fullname dir_path name)) SM_LOCAL_DIR_MODE_BITS)
        (.mkdir (rpath ctx (fullname dir_path name)) credp.fc_mode)) w).2
      = some (-1, wp)) :
    local_mkdir H ctx dir_path name credp w =
      some (-1, err_end H ctx (fullname dir_path name) wp.errno wp) := by
  unfold spec_persist spec_create secModel at *
  unfold local_mkdir
  cases hm : flagSet ctx.export_flags V9FS_SM_MAPPED <;>
  cases hf : flagSet ctx.export_flags V9FS_SM_MAPPED_FILE <;>
  cases h1 : flagSet ctx.export_flags V9FS_SM_PASSTHROUGH <;>
  cases h2 : flagSet ctx.export_flags V9FS_SM_NONE <;>
  simp only [hm, hf, h1, h2, Bool.false_eq_true, ↓reduceIte, Bool.or_false, Bool.or_true,
    Bool.or_self, Option.some.injEq, reduceCtorEq] at hc hp ⊢ <;>
  simp only [hc, ↓reduceIte, hp]

theorem local_open2_rollback {σ : Type} (H : Host σ) (ctx : FsContext) (dir_path name : CStr)
    (flags : Nat) (credp : FsCred) (w : World σ) (wp : World σ)
    (hc : (sys H (spec_create ctx
        (.open_ (rpath ctx (fullname dir_path name)) flags SM_LOCAL_MODE_BITS)
        (.open_ (rpath ctx (fullname dir_path name)) flags credp.fc_mode)) w).1.ret ≠ -1)
    (hp : spec_persist H ctx (fullname dir_path name) S_IFREG credp
      (sys H (spec_create ctx
        (.open_ (rpath ctx (fullname dir_path name)) flags SM_LOCAL_MODE_BITS)
        (.open_ (rpath ctx (fullname dir_path name)) flags credp.fc_mode)) w).2
      = some (-1, wp)) :
    local_open2 H ctx dir_path name flags credp w =
      some (-1, none, err_end_open2 H ctx (fullname dir_path name)
        (sys H (spec_create ctx
          (.open_ (rpath ctx (fullname dir_path name)) flags SM_LOCAL_MODE_BITS)
          (.open_ (rpath ctx (fullname dir_path name)) flags credp.fc_mode)) w).1.ret
        wp.errno wp) := by
  unfold spec_persist spec_create secModel at *
  unfold local_open2
  cases hm : flagSet ctx.export_flags V9FS_SM_MAPPED <;>
  cases hf : flagSet ctx.export_flags V9FS_SM_MAPPED_FILE <;>
  cases h1 : flagSet ctx.export_flags V9FS_SM_PASSTHROUGH <;>
  cases h2 : flagSet ctx.export_flags V9FS_SM_NONE <;>
  simp only [hm, hf, h1, h2, Bool.false_eq_true, ↓reduceIte, Bool.or_false, Bool.or_true,
    Bool.or_self, Option.some.injEq, reduceCtorEq] at hc hp ⊢ <;>
  simp only [hc, ↓reduceIte, hp]

theorem local_symlink_mapped_rollback {σ : Type} (H : Host σ) (ctx : FsContext)
    (oldpath dir_path name : CStr) (credp : FsCred) (fuel : Nat) (w w1 wp : World σ)
    (hmodel : secModel ctx = some .mapped ∨ secModel ctx = some .mapped_file)
    (hc : symlink_store_target H ctx oldpath (fullname dir_path name) fuel w = some (Sum.inr w1))
    (hp : spec_persist H ctx (fullname dir_path name) S_IFLNK credp w1 = some (-1, wp)) :
    local_symlink H ctx oldpath dir_path name credp fuel w =
      some (-1, err_end H ctx (fullname dir_path name) wp.errno wp) := by
  unfold spec_persist at hp
  unfold secModel at *
  unfold local_symlink
  cases hm : flagSet ctx.export_flags V9FS_SM_MAPPED <;>
  cases hf : flagSet ctx.export_flags V9FS_SM_MAPPED_FILE <;>
  cases h1 : flagSet ctx.export_flags V9FS_SM_PASSTHROUGH <;>
  cases h2 : flagSet ctx.export_flags V9FS_SM_NONE <;>
  simp only [hm, hf, h1, h2, Bool.false_eq_true, ↓reduceIte, Bool.or_false, Bool.or_true,
    Bool.or_self, Option.some.injEq, reduceCtorEq, or_self, or_false, false_or] at hmodel hp ⊢ <;>
  simp only [hc, ↓reduceIte, hp]

theorem local_symlink_plain {σ : Type} (H : Host σ) (ctx : FsContext)
    (oldpath dir_path name : CStr) (credp : FsCred) (fuel : Nat) (w : World σ)
    (hmodel : secModel ctx = some .passthrough ∨ secModel ctx = some .none_)
    (hc : (sys H (.symlink oldpath (rpath ctx (fullname dir_path name))) w).1.ret = 0)
    (hp : (sys H (.lchown (rpath ctx (fullname dir_path name)) credp.fc_uid credp.fc_gid)
      (sys H (.symlink oldpath (rpath ctx (fullname dir_path name))) w).2).1.ret = -1) :
    (ctx.export_flags &&& V9FS_SEC_MASK ≠ V9FS_SM_NONE →
      local_symlink H ctx oldpath dir_path name credp fuel w =
        some (-1, err_end H ctx (fullname dir_path name)
          (sys H (.lchown (rpath ctx (fullname dir_path name)) credp.fc_uid credp.fc_gid)
            (sys H (.symlink oldpath (rpath ctx (fullname dir_path name))) w).2).2.errno
          (sys H (.lchown (rpath ctx (fullname dir_path name)) credp.fc_uid credp.fc_gid)
            (sys H (.symlink oldpath (rpath ctx (fullname dir_path name))) w).2).2)) ∧
    (ctx.export_flags &&& V9FS_SEC_MASK = V9FS_SM_NONE →
      local_symlink H ctx oldpath dir_path name credp fuel w =
        some (0, (sys H (.lchown (rpath ctx (fullname dir_path name)) credp.fc_uid credp.fc_gid)
            (sys H (.symlink oldpath (rpath ctx (fullname dir_path name))) w).2).2)) := by
  unfold secModel at hmodel
  unfold local_symlink
  cases hm : flagSet ctx.export_flags V9FS_SM_MAPPED <;>
  cases hf : flagSet ctx.export_flags V9FS_SM_MAPPED_FILE <;>
  cases h1 : flagSet ctx.export_flags V9FS_SM_PASSTHROUGH <;>
  cases h2 : flagSet ctx.export_flags V9FS_SM_NONE <;>
  simp only [hm, hf, h1, h2, Bool.false_eq_true, ↓reduceIte, Bool.or_false, Bool.or_true,
    Bool.or_self, Option.some.injEq, reduceCtorEq, or_self, or_false, false_or] at hmodel ⊢ <;>
  simp only [hc, hp, ne_eq, not_true_eq_false, ↓reduceIte] <;>
  constructor <;> intro hs <;> simp only [hs, ne_eq, not_true_eq_false, not_false_eq_true, ↓reduceIte]

/-- C9 (amended): for `local_mknod`, `local_mkdir`, `local_open2` and, under
the mapped models, `local_symlink`: when the host call of phase 1 creates the
object and the credential step then returns -1, the operation returns -1
after `remove` of the created path (for `local_open2` after `close` of the
descriptor, which is not stored in the handle and is no longer open), and
`errno` is the value the credential step left, whatever the host answers to
`remove`.  For `local_symlink` under passthrough a failed `lchown` is rolled
back in the same way; under none the failed `lchown` is ignored, the call
returns 0 and the symbolic link stays. -/
theorem create_rollback_on_persist_failure {σ : Type} (H : Host σ) (ctx : FsContext)
    (oldpath dir_path name : CStr) (flags : Nat) (credp : FsCred) (fuel : Nat)
    (w w1 wp : World σ) :
    ((sys H (spec_create ctx
        (.mknod (rpath ctx (fullname dir_path name)) (SM_LOCAL_MODE_BITS ||| S_IFREG) 0)
        (.mknod (rpath ctx (fullname dir_path name)) credp.fc_mode credp.fc_rdev)) w).1.ret ≠ -1 →
      spec_persist H ctx (fullname dir_path name) 0 credp
        (sys H (spec_create ctx
          (.mknod (rpath ctx (fullname dir_path name)) (SM_LOCAL_MODE_BITS ||| S_IFREG) 0)
          (.mknod (rpath ctx (fullname dir_path name)) credp.fc_mode credp.fc_rdev)) w).2
        = some (-1, wp) →
      local_mknod H ctx dir_path name credp w =
        some (-1, err_end H ctx (fullname dir_path name) wp.errno wp)) ∧
    ((sys H (spec_create ctx
        (.mkdir (rpath ctx (fullname dir_path name)) SM_LOCAL_DIR_MODE_BITS)
        (.mkdir (rpath ctx (fullname dir_path name)) credp.fc_mode)) w).1.ret ≠ -1 →
      spec_persist H ctx (fullname dir_path name) S_IFDIR credp
        (sys H (spec_create ctx
          (.mkdir (rpath ctx (fullname dir_path name)) SM_LOCAL_DIR_MODE_BITS)
          (.mkdir (rpath ctx (fullname dir_path name)) credp.fc_mode)) w).2
        = some (-1, wp) →
      local_mkdir H ctx dir_path name credp w =
        some (-1, err_end H ctx (fullname dir_path name) wp.errno wp)) ∧
    ((sys H (spec_create ctx
        (.open_ (rpath ctx (fullname dir_path name)) flags SM_LOCAL_MODE_BITS)
        (.open_ (rpath ctx (fullname dir_path name)) flags credp.fc_mode)) w).1.ret ≠ -1 →
      spec_persist H ctx (fullname dir_path name) S_IFREG credp
        (sys H (spec_create ctx
          (.open_ (rpath ctx (fullname dir_path name)) flags SM_LOCAL_MODE_BITS)
          (.open_ (rpath ctx (fullname dir_path name)) flags credp.fc_mode)) w).2
        = some (-1, wp) →
      local_open2 H ctx dir_path name flags credp w =
        some (-1, none, err_end_open2 H ctx (fullname dir_path name)
          (sys H (spec_create ctx
            (.open_ (rpath ctx (fullname dir_path name)) flags SM_LOCAL_MODE_BITS)
            (.open_ (rpath ctx (fullname dir_path name)) flags credp.fc_mode)) w).1.ret
          wp.errno wp)) ∧
    ((secModel ctx = some .mapped ∨ secModel ctx = some .mapped_file) →
      symlink_store_target H ctx oldpath (fullname dir_path name) fuel w = some (Sum.inr w1) →
      spec_persist H ctx (fullname dir_path name) S_IFLNK credp w1 = some (-1, wp) →
      local_symlink H ctx oldpath dir_path name credp fuel w =
        some (-1, err_end H ctx (fullname dir_path name) wp.errno wp)) ∧
    ((secModel ctx = some .passthrough ∨ secModel ctx = some .none_) →
      (sys H (.symlink oldpath (rpath ctx (fullname dir_path name))) w).1.ret = 0 →
      (sys H (.lchown (rpath ctx (fullname dir_path name)) credp.fc_uid credp.fc_gid)
        (sys H (.symlink oldpath (rpath ctx (fullname dir_path name))) w).2).1.ret = -1 →
      (ctx.export_flags &&& V9FS_SEC_MASK ≠ V9FS_SM_NONE →
        local_symlink H ctx oldpath dir_path name credp fuel w =
          some (-1, err_end H ctx (fullname dir_path name)
            (sys H (.lchown (rpath ctx (fullname dir_path name)) credp.fc_uid credp.fc_gid)
              (sys H (.symlink oldpath (rpath ctx (fullname dir_path name))) w).2).2.errno
            (sys H (.lchown (rpath ctx (fullname dir_path name)) credp.fc_uid credp.fc_gid)
              (sys H (.symlink oldpath (rpath ctx (fullname dir_path name))) w).2).2)) ∧
      (ctx.export_flags &&& V9FS_SEC_MASK = V9FS_SM_NONE →
        local_symlink H ctx oldpath dir_path name credp fuel w =
          some (0, (sys H (.lchown (rpath ctx (fullname dir_path name)) credp.fc_uid credp.fc_gid)
              (sys H (.symlink oldpath (rpath ctx (fullname dir_path name))) w).2).2))) ∧
    (∀ (path : CStr) (fd e : Int) (v : World σ),
      (err_end H ctx path e v).errno = e ∧
      (err_end H ctx path e v).trace = v.trace ++ [.remove (rpath ctx path)] ∧
      (err_end_open2 H ctx path fd e v).errno = e ∧
      (err_end_open2 H ctx path fd e v).trace = v.trace ++ [.close fd, .remove (rpath ctx path)] ∧
      fd ∉ (err_end_open2 H ctx path fd e v).fds) :=
  ⟨local_mknod_rollback H ctx dir_path name credp w wp,
   local_mkdir_rollback H ctx dir_path name credp w wp,
   local_open2_rollback H ctx dir_path name flags credp w wp,
   local_symlink_mapped_rollback H ctx oldpath dir_path name credp fuel w w1 wp,
   local_symlink_plain H ctx oldpath dir_path name credp fuel w,
   fun path fd e v =>
     ⟨(err_end_errno_trace H ctx path e v).1, (err_end_errno_trace H ctx path e v).2,
      err_end_open2_facts H ctx path fd e v⟩⟩

/-- C9 at a concrete host: under the mapped model `mknod` succeeds, the first
`setxattr` fails with EACCES (13) and the cleanup `remove` fails with ENOENT
(2); `local_mknod` returns -1 with `errno` 13 after the `remove`. -/
theorem create_rollback_on_persist_failure_witness :
    local_mknod scriptHost exCtxMapped "/d".toList "f".toList exCred
        (scriptWorld [okRes 0, failRes 13, failRes 2])
      = some (-1, { hs := [], errno := 13,
                    trace := [.mknod "/export//d/f".toList (SM_LOCAL_MODE_BITS ||| S_IFREG) 0,
                              .setxattr "/export//d/f".toList "user.virtfs.uid".toList 1000 4 0,
                              .remove "/export//d/f".toList],
                    fds := [] }) :=
  ((create_rollback_on_persist_failure scriptHost exCtxMapped [] "/d".toList "f".toList 0 exCred 0
      (scriptWorld [okRes 0, failRes 13, failRes 2]) (scriptWorld [])
      { hs := [failRes 2], errno := 13,
        trace := [.mknod "/export//d/f".toList (SM_LOCAL_MODE_BITS ||| S_IFREG) 0,
                  .setxattr "/export//d/f".toList "user.virtfs.uid".toList 1000 4 0],
        fds := [] }).1 (by decide) (by decide)).trans (by decide)

/-- C9, the claim as written fails for `local_symlink` under the none model:
the host creates the symbolic link, `lchown` then fails with EPERM (1), and
the call returns 0 without removing the link. -/
theorem local_symlink_none_ignores_lchown_failure :
    local_symlink scriptHost exCtxNone "target".toList "/d".toList "ln".toList exCred 1
        (scriptWorld [okRes 0, failRes 1])
      = some (0, { hs := [], errno := 1,
                   trace := [.symlink "target".toList "/export//d/ln".toList,
                             .lchown "/export//d/ln".toList 1000 100],
                   fds := [] }) ∧
    ¬ (∃ v, local_symlink scriptHost exCtxNone "target".toList "/d".toList "ln".toList exCred 1
        (scriptWorld [okRes 0, failRes 1]) = some (-1, v)) := by
  constructor
  · decide
  · rintro ⟨v, hv⟩
    have h : local_symlink scriptHost exCtxNone "target".toList "/d".toList "ln".toList exCred 1
        (scriptWorld [okRes 0, failRes 1])
      = some (0, { hs := [], errno := 1,
                   trace := [.symlink "target".toList "/export//d/ln".toList,
                             .lchown "/export//d/ln".toList 1000 100],
                   fds := [] }) := by decide
    rw [h] at hv
    simp at hv

/-! ## C2: the no-follow flag on host opens -/

theorem or_and_self_bit (a b c n : Nat) : (a ||| n ||| b ||| c) &&& n = n := by
  apply Nat.eq_of_testBit_eq
  intro i
  simp only [Nat.testBit_and, Nat.testBit_or]
  cases a.testBit i <;> cases b.testBit i <;> cases c.testBit i <;> cases n.testBit i <;> rfl

/-- C2, evaluation at a failing input: `openat_file`, `openat_dir` and
`local_readlink` pass `O_NOFOLLOW` to the host, but `local_open2` passes the
caller's flags unchanged under every security model: with the flags
`O_CREAT | O_WRONLY` the host `open` of the caller-named path carries no
`O_NOFOLLOW`. -/
theorem local_open2_open_lacks_nofollow :
    (∀ flags : Nat, (flags ||| O_NOFOLLOW ||| O_NOCTTY ||| O_NONBLOCK) &&& O_NOFOLLOW = O_NOFOLLOW) ∧
    (O_DIRECTORY ||| O_RDONLY ||| O_NOFOLLOW ||| O_PATH_9P_UTIL) &&& O_NOFOLLOW = O_NOFOLLOW ∧
    (O_DIRECTORY ||| O_RDONLY ||| O_NOFOLLOW ||| O_PATH_9P_UTIL) &&& O_DIRECTORY = O_DIRECTORY ∧
    (O_RDONLY ||| O_NOFOLLOW) &&& O_NOFOLLOW = O_NOFOLLOW ∧
    (O_CREAT ||| O_WRONLY) &&& O_NOFOLLOW = 0 ∧
    (local_open2 scriptHost exCtxMapped "/d".toList "f".toList (O_CREAT ||| O_WRONLY) exCred
        (scriptWorld [okRes 7, okRes 0, okRes 0, okRes 0, okRes 0])).map (fun r => r.2.2.trace.head?)
      = some (some (.open_ "/export//d/f".toList (O_CREAT ||| O_WRONLY) SM_LOCAL_MODE_BITS)) ∧
    (local_open2 scriptHost exCtxMappedFile "/d".toList "f".toList (O_CREAT ||| O_WRONLY) exCred
        (scriptWorld [okRes 7, okRes 0, okRes 0, okRes 9, okRes 0, okRes 0, okRes 0, okRes 0, okRes 0])).map
        (fun r => r.2.2.trace.head?)
      = some (some (.open_ "/export//d/f".toList (O_CREAT ||| O_WRONLY) SM_LOCAL_MODE_BITS)) ∧
    (local_open2 scriptHost exCtxPassthrough "/d".toList "f".toList (O_CREAT ||| O_WRONLY) exCred
        (scriptWorld [okRes 7, okRes 0, okRes 0])).map (fun r => r.2.2.trace.head?)
      = some (some (.open_ "/export//d/f".toList (O_CREAT ||| O_WRONLY) 0o644)) ∧
    (local_open2 scriptHost exCtxNone "/d".toList "f".toList (O_CREAT ||| O_WRONLY) exCred
        (scriptWorld [okRes 7, okRes 0, okRes 0])).map (fun r => r.2.2.trace.head?)
      = some (some (.open_ "/export//d/f".toList (O_CREAT ||| O_WRONLY) 0o644)) ∧
    (local_open2 scriptHost exCtxMapped "/d".toList "f".toList (O_CREAT ||| O_WRONLY) exCred
        (scriptWorld [okRes 7, okRes 0, okRes 0, okRes 0, okRes 0])).map (fun r => (r.1, r.2.1))
      = some (7, some 7) := by
  refine ⟨fun flags => or_and_self_bit flags O_NOCTTY O_NONBLOCK O_NOFOLLOW, ?_, ?_, ?_, ?_, ?_, ?_,
    ?_, ?_, ?_⟩ <;> decide

/-! ## C10: rename under mapped-file -/

theorem isPrefixOf_self (a : List CStr) : a.isPrefixOf a = true := by
  induction a with
  | nil => rfl
  | cons x l ih => simp [List.isPrefixOf, ih]

theorem sys_rename_ok (w : World HostFS) (a b : CStr) (fs2 : HostFS)
    (h : fsRename w.hs (hostLocation a) (hostLocation b) = .ok fs2) :
    sys fsHost (.rename a b) w =
      (okRes 0, { hs := fs2, errno := w.errno, trace := w.trace ++ [.rename a b], fds := w.fds }) := by
  simp [sys, fsHost, fsAnswer, h, okRes, updFds]

theorem sys_rename_err (w : World HostFS) (a b : CStr) (e : Int)
    (h : fsRename w.hs (hostLocation a) (hostLocation b) = .error e) :
    sys fsHost (.rename a b) w =
      (failRes e, { hs := w.hs, errno := e, trace := w.trace ++ [.rename a b], fds := w.fds }) := by
  simp [sys, fsHost, fsAnswer, h, failRes, updFds]

/-- What a successful `rename` of un-nested locations leaves in the tree. -/
theorem fsRename_ok_effect (fs fs2 : HostFS) (src dst : List CStr)
    (h : fsRename fs src dst = .ok fs2) (hsd : src.isPrefixOf dst = false) :
    fsGet fs src ≠ none ∧ src ≠ [] ∧ dst ≠ [] ∧
    fs2 = (fun q => if dst.isPrefixOf q then fs (src ++ q.drop dst.length)
        else if src.isPrefixOf q then none else fs q) := by
  unfold fsRename at h
  have hne : src ≠ dst := by
    intro e; rw [e, isPrefixOf_self] at hsd; exact absurd hsd (by decide)
  by_cases h1 : fsGet fs src = none
  · simp [h1] at h
  · by_cases h2 : dst = [] ∨ src = []
    · simp [h1, h2] at h
    · simp only [h1, h2, if_false] at h
      push_neg at h2
      cases h3 : fsGet fs dst.dropLast with
      | none => simp [h3] at h
      | some n =>
        cases n with
        | file c => simp [h3] at h
        | dir =>
          simp only [h3, hne, if_false, hsd, Bool.false_eq_true] at h
          injection h with h
          exact ⟨h1, h2.2, h2.1, h.symm⟩

/-- When `rename` of an existing source to an un-nested destination whose
parent is a directory succeeds. -/
theorem fsRename_ok_of (fs : HostFS) (src dst : List CStr)
    (h1 : fsGet fs src ≠ none) (hs : src ≠ []) (hd : dst ≠ [])
    (hp : fsGet fs dst.dropLast = some .dir) (hsd : src.isPrefixOf dst = false) :
    fsRename fs src dst = .ok (fun q => if dst.isPrefixOf q then fs (src ++ q.drop dst.length)
        else if src.isPrefixOf q then none else fs q) := by
  have hne : src ≠ dst := by
    intro e; rw [e, isPrefixOf_self] at hsd; exact absurd hsd (by decide)
  unfold fsRename
  simp [h1, hs, hd, hp, hne, hsd]

theorem sys_mkdir_ok (w : World HostFS) (p : CStr) (m : Nat) (fs2 : HostFS)
    (h : fsMkdir w.hs (hostLocation p) = .ok fs2) :
    sys fsHost (.mkdir p m) w =
      (okRes 0, { hs := fs2, errno := w.errno, trace := w.trace ++ [.mkdir p m], fds := w.fds }) := by
  simp [sys, fsHost, fsAnswer, h, okRes, updFds]

theorem sys_mkdir_err (w : World HostFS) (p : CStr) (m : Nat) (e : Int)
    (h : fsMkdir w.hs (hostLocation p) = .error e) :
    sys fsHost (.mkdir p m) w =
      (failRes e, { hs := w.hs, errno := e, trace := w.trace ++ [.mkdir p m], fds := w.fds }) := by
  simp [sys, fsHost, fsAnswer, h, failRes, updFds]

theorem fsMkdir_cases (fs : HostFS) (loc : List CStr) :
    (fsGet fs loc ≠ none ∧ fsMkdir fs loc = .error EEXIST) ∨
    (fsGet fs loc = none ∧
      ((∃ e, e ≠ EEXIST ∧ fsMkdir fs loc = .error e) ∨
        fsMkdir fs loc = .ok (fun q => if q = loc then some .dir else fs q))) := by
  unfold fsMkdir
  by_cases h1 : fsGet fs loc = none
  · right
    refine ⟨h1, ?_⟩
    cases h2 : fsGet fs loc.dropLast with
    | none => left; exact ⟨ENOENT, by decide, by simp [h1]⟩
    | some n =>
      cases n with
      | file c => left; exact ⟨ENOTDIR, by decide, by simp [h1]⟩
      | dir => right; simp [h1]
  · left
    exact ⟨h1, by simp [h1]⟩

theorem local_create_mapped_attr_dir_eq {σ : Type} (H : Host σ) (ctx : FsContext) (path : CStr)
    (w : World σ) :
    local_create_mapped_attr_dir H ctx path w =
      if (sys H (.mkdir (mapped_attr_dir ctx path) 0o700) w).1.ret < 0 ∧
          (sys H (.mkdir (mapped_attr_dir ctx path) 0o700) w).2.errno = EEXIST
      then (0, (sys H (.mkdir (mapped_attr_dir ctx path) 0o700) w).2)
      else ((sys H (.mkdir (mapped_attr_dir ctx path) 0o700) w).1.ret,
        (sys H (.mkdir (mapped_attr_dir ctx path) 0o700) w).2) := rfl

/-- The two outcomes of `local_create_mapped_attr_dir` on a tree when it does
not fail: the hidden directory existed and the tree is unchanged, or it did
not exist and was added. -/
theorem create_mapped_attr_dir_tree (ctx : FsContext) (path : CStr) (w : World HostFS)
    (h : ¬ (local_create_mapped_attr_dir fsHost ctx path w).1 < 0) :
    (fsGet w.hs (hostLocation (mapped_attr_dir ctx path)) ≠ none ∧
      (local_create_mapped_attr_dir fsHost ctx path w).2.hs = w.hs) ∨
    (fsGet w.hs (hostLocation (mapped_attr_dir ctx path)) = none ∧
      (local_create_mapped_attr_dir fsHost ctx path w).2.hs =
        (fun q => if q = hostLocation (mapped_attr_dir ctx path) then some .dir else w.hs q)) := by
  rw [local_create_mapped_attr_dir_eq] at h ⊢
  generalize mapped_attr_dir ctx path = p at h ⊢
  rcases fsMkdir_cases w.hs (hostLocation p) with ⟨h1, h2⟩ | ⟨h1, ⟨e, he, h2⟩ | h2⟩
  · left
    refine ⟨h1, ?_⟩
    rw [sys_mkdir_err w p _ _ h2]
    simp [failRes]
  · exfalso
    rw [sys_mkdir_err w p _ _ h2] at h
    simp [failRes, he] at h
  · right
    refine ⟨h1, ?_⟩
    rw [sys_mkdir_ok w p _ _ h2]
    simp [okRes]

theorem create_mapped_attr_dir_keeps (ctx : FsContext) (path : CStr) (w : World HostFS)
    (h : ¬ (local_create_mapped_attr_dir fsHost ctx path w).1 < 0) :
    (∀ q, fsGet w.hs q ≠ none →
      fsGet (local_create_mapped_attr_dir fsHost ctx path w).2.hs q = fsGet w.hs q) ∧
    (∀ q, q ≠ hostLocation (mapped_attr_dir ctx path) →
      fsGet (local_create_mapped_attr_dir fsHost ctx path w).2.hs q = fsGet w.hs q) ∧
    fsGet (local_create_mapped_attr_dir fsHost ctx path w).2.hs
      (hostLocation (mapped_attr_dir ctx path)) ≠ none := by
  rcases create_mapped_attr_dir_tree ctx path w h with ⟨h1, h2⟩ | ⟨h1, h2⟩
  · rw [h2]
    exact ⟨fun _ _ => rfl, fun _ _ => rfl, h1⟩
  · rw [h2]
    refine ⟨?_, ?_, ?_⟩
    · intro q hq
      have hne : q ≠ hostLocation (mapped_attr_dir ctx path) := by
        intro e; rw [e] at hq; exact hq h1
      unfold fsGet
      simp only [hne, if_false]
    · intro q hne
      unfold fsGet
      simp only [hne, if_false]
    · unfold fsGet
      split_ifs <;> simp

theorem local_rename_mapped_file_eq {σ : Type} (H : Host σ) (ctx : FsContext)
    (oldpath newpath attr_old attr_new : CStr) (w : World σ)
    (hmf : flagSet ctx.export_flags V9FS_SM_MAPPED_FILE = true)
    (hao : local_mapped_attr_path ctx oldpath = some attr_old)
    (han : local_mapped_attr_path ctx newpath = some attr_new) :
    local_rename H ctx oldpath newpath w =
      if (local_create_mapped_attr_dir H ctx newpath w).1 < 0 then
        some ((local_create_mapped_attr_dir H ctx newpath w).1,
          (local_create_mapped_attr_dir H ctx newpath w).2)
      else if (sys H (.rename attr_old attr_new) (local_create_mapped_attr_dir H ctx newpath w).2).1.ret < 0 ∧
          (sys H (.rename attr_old attr_new) (local_create_mapped_attr_dir H ctx newpath w).2).2.errno
            ≠ ENOENT then
        some ((sys H (.rename attr_old attr_new) (local_create_mapped_attr_dir H ctx newpath w).2).1.ret,
          (sys H (.rename attr_old attr_new) (local_create_mapped_attr_dir H ctx newpath w).2).2)
      else
        some ((sys H (.rename (rpath ctx oldpath) (rpath ctx newpath))
            (sys H (.rename attr_old attr_new) (local_create_mapped_attr_dir H ctx newpath w).2).2).1.ret,
          (sys H (.rename (rpath ctx oldpath) (rpath ctx newpath))
            (sys H (.rename attr_old attr_new) (local_create_mapped_attr_dir H ctx newpath w).2).2).2) := by
  unfold local_rename
  simp only [hmf, hao, han, if_true]

/-- The outcome of a `rename` on the tree host, in terms of `fsRename`. -/
theorem sys_rename_cases (w : World HostFS) (a b : CStr) :
    (∃ fs2, fsRename w.hs (hostLocation a) (hostLocation b) = .ok fs2 ∧
      (sys fsHost (.rename a b) w).1.ret = 0 ∧ (sys fsHost (.rename a b) w).2.hs = fs2) ∨
    (∃ e, fsRename w.hs (hostLocation a) (hostLocation b) = .error e ∧
      (sys fsHost (.rename a b) w).1.ret = -1 ∧ (sys fsHost (.rename a b) w).2.errno = e ∧
      (sys fsHost (.rename a b) w).2.hs = w.hs) := by
  cases h : fsRename w.hs (hostLocation a) (hostLocation b) with
  | ok fs2 =>
    left
    refine ⟨fs2, rfl, ?_, ?_⟩
    · rw [sys_rename_ok w a b fs2 h]; rfl
    · rw [sys_rename_ok w a b fs2 h]
  | error e =>
    right
    refine ⟨e, rfl, ?_, ?_, ?_⟩
    · rw [sys_rename_err w a b e h]; rfl
    · rw [sys_rename_err w a b e h]
    · rw [sys_rename_err w a b e h]

theorem fsRename_error_of_existing (fs : HostFS) (src dst : List CStr) (e : Int)
    (h1 : fsGet fs src ≠ none) (hs : src ≠ []) (hd : dst ≠ [])
    (hp : fsGet fs dst.dropLast ≠ none) (hsd : src.isPrefixOf dst = false)
    (h : fsRename fs src dst = .error e) : e = ENOTDIR := by
  cases h3 : fsGet fs dst.dropLast with
  | none => exact absurd h3 hp
  | some n =>
    cases n with
    | file c =>
      unfold fsRename at h
      simp [h1, hs, hd, h3] at h
      exact h.symm
    | dir =>
      rw [fsRename_ok_of fs src dst h1 hs hd h3 hsd] at h
      cases h

theorem fsRename_error_of_missing (fs : HostFS) (src dst : List CStr)
    (h1 : fsGet fs src = none) : fsRename fs src dst = .error ENOENT := by
  unfold fsRename
  simp [h1]

theorem fsGet_ne_nil (fs : HostFS) (loc : List CStr) (c : CStr)
    (h : fsGet fs loc = some (.file c)) : loc ≠ [] := by
  intro e
  rw [e] at h
  simp [fsGet] at h

theorem fsGet_of_ne_nil (fs : HostFS) (loc : List CStr) (h : loc ≠ []) : fsGet fs loc = fs loc := by
  simp [fsGet, h]

/-- The tree after a successful `rename` of un-nested locations, location by
location. -/
theorem fsRename_ok_get (fs fs2 : HostFS) (src dst : List CStr)
    (h : fsRename fs src dst = .ok fs2) (hsd : unnested src dst) :
    fsGet fs2 dst = fsGet fs src ∧ fsGet fs2 src = none ∧
    (∀ q, unnested src q → unnested dst q → fsGet fs2 q = fsGet fs q) := by
  obtain ⟨_, hs, hd, hfs⟩ := fsRename_ok_effect fs fs2 src dst h hsd.1
  subst hfs
  refine ⟨?_, ?_, ?_⟩
  · rw [fsGet_of_ne_nil _ _ hd, fsGet_of_ne_nil _ _ hs]
    simp [isPrefixOf_self]
  · rw [fsGet_of_ne_nil _ _ hs]
    simp [isPrefixOf_self, hsd.2]
  · intro q h1 h2
    by_cases hq : q = []
    · subst hq; simp [fsGet]
    · rw [fsGet_of_ne_nil _ _ hq, fsGet_of_ne_nil _ _ hq]
      simp [h1.1, h2.1]

theorem unnested_symm (a b : List CStr) (h : unnested a b) : unnested b a := ⟨h.2, h.1⟩

/-- C10 (amended): under mapped-file on a host file tree, for an existing
object whose old and new path and old and new record location are pairwise
un-nested (none is another or an ancestor of another: the object is not a
hidden directory or a record, and the new path differs from the old one) and
whose new record location lies directly in the hidden directory made for the
new path: when `local_rename` returns 0 and the object had a shadow record,
the record is afterwards at the location derived from the new path and absent
at the one derived from the old path, and the object is at the new path; when
the object had no shadow record, `local_rename` returns 0 whenever the host
rename of the object succeeds, and the object is at the new path. -/
theorem local_rename_moves_record (ctx : FsContext) (oldpath newpath attr_old attr_new : CStr)
    (w w2 : World HostFS) (node : Node)
    (hmf : flagSet ctx.export_flags V9FS_SM_MAPPED_FILE = true)
    (hao : local_mapped_attr_path ctx oldpath = some attr_old)
    (han : local_mapped_attr_path ctx newpath = some attr_new)
    (hpar : hostLocation attr_new ≠ [] ∧
      (hostLocation attr_new).dropLast = hostLocation (mapped_attr_dir ctx newpath))
    (h1 : unnested (hostLocation attr_old) (hostLocation attr_new))
    (h2 : unnested (hostLocation (rpath ctx oldpath)) (hostLocation attr_old))
    (h3 : unnested (hostLocation (rpath ctx oldpath)) (hostLocation attr_new))
    (h4 : unnested (hostLocation (rpath ctx newpath)) (hostLocation attr_old))
    (h5 : unnested (hostLocation (rpath ctx newpath)) (hostLocation attr_new))
    (h6 : unnested (hostLocation (rpath ctx oldpath)) (hostLocation (rpath ctx newpath)))
    (hobj : fsGet w.hs (hostLocation (rpath ctx oldpath)) = some node) :
    (∀ content, fsGet w.hs (hostLocation attr_old) = some (.file content) →
      local_rename fsHost ctx oldpath newpath w = some (0, w2) →
        fsGet w2.hs (hostLocation attr_new) = some (.file content) ∧
        fsGet w2.hs (hostLocation attr_old) = none ∧
        fsGet w2.hs (hostLocation (rpath ctx newpath)) = some node ∧
        fsGet w2.hs (hostLocation (rpath ctx oldpath)) = none) ∧
    (fsGet w.hs (hostLocation attr_old) = none →
      ¬ (local_create_mapped_attr_dir fsHost ctx newpath w).1 < 0 →
      ∀ fs3, fsRename (local_create_mapped_attr_dir fsHost ctx newpath w).2.hs
          (hostLocation (rpath ctx oldpath)) (hostLocation (rpath ctx newpath)) = .ok fs3 →
        ∃ w3, local_rename fsHost ctx oldpath newpath w = some (0, w3) ∧ w3.hs = fs3 ∧
          fsGet fs3 (hostLocation (rpath ctx newpath)) = some node ∧
          fsGet fs3 (hostLocation (rpath ctx oldpath)) = none ∧
          fsGet fs3 (hostLocation attr_old) = none) := by
  constructor
  · intro content hrec hsucc
    rw [local_rename_mapped_file_eq fsHost ctx _ _ _ _ w hmf hao han] at hsucc
    by_cases hneg : (local_create_mapped_attr_dir fsHost ctx newpath w).1 < 0
    · rw [if_pos hneg] at hsucc
      injection hsucc with hsucc
      injection hsucc with hz _
      omega
    · rw [if_neg hneg] at hsucc
      obtain ⟨k1, _, k3⟩ := create_mapped_attr_dir_keeps ctx newpath w hneg
      have hsrc : fsGet (local_create_mapped_attr_dir fsHost ctx newpath w).2.hs
          (hostLocation attr_old) = some (.file content) := by
        rw [k1 _ (by rw [hrec]; simp)]; exact hrec
      have hobj1 : fsGet (local_create_mapped_attr_dir fsHost ctx newpath w).2.hs
          (hostLocation (rpath ctx oldpath)) = some node := by
        rw [k1 _ (by rw [hobj]; simp)]; exact hobj
      rcases sys_rename_cases (local_create_mapped_attr_dir fsHost ctx newpath w).2 attr_old attr_new
        with ⟨fs2, hr, hret, hhs⟩ | ⟨e, hr, hret, herr, _⟩
      · rw [if_neg (by rw [hret]; simp)] at hsucc
        obtain ⟨g1, g2, g3⟩ := fsRename_ok_get _ _ _ _ hr h1
        rcases sys_rename_cases
            (sys fsHost (.rename attr_old attr_new) (local_create_mapped_attr_dir fsHost ctx newpath w).2).2
            (rpath ctx oldpath) (rpath ctx newpath)
          with ⟨fs3, hr3, hret3, hhs3⟩ | ⟨e, _, hret3, _, _⟩
        · injection hsucc with hsucc
          injection hsucc with _ hw2
          rw [hhs] at hr3
          obtain ⟨f1, f2, f3⟩ := fsRename_ok_get _ _ _ _ hr3 h6
          rw [← hw2, hhs3]
          refine ⟨?_, ?_, ?_, f2⟩
          · rw [f3 _ h3 h5, g1, hsrc]
          · rw [f3 _ h2 h4, g2]
          · rw [f1, g3 _ (unnested_symm _ _ h2) (unnested_symm _ _ h3), hobj1]
        · injection hsucc with hsucc
          injection hsucc with hz _
          rw [hret3] at hz
          omega
      · have he : e = ENOTDIR := by
          apply fsRename_error_of_existing _ _ _ e _ (fsGet_ne_nil _ _ _ hsrc) hpar.1 _ h1.1 hr
          · rw [hsrc]; simp
          · rw [hpar.2]; exact k3
        rw [if_pos ⟨by rw [hret]; decide, by rw [herr, he]; decide⟩] at hsucc
        injection hsucc with hsucc
        injection hsucc with hz _
        rw [hret] at hz
        omega
  · intro hnorec hneg fs3 hr3
    have hne : hostLocation attr_old ≠ hostLocation (mapped_attr_dir ctx newpath) := by
      intro e
      have hp : (hostLocation attr_new).dropLast.isPrefixOf (hostLocation attr_new) = true :=
        List.isPrefixOf_iff_prefix.mpr (List.dropLast_prefix _)
      rw [hpar.2, ← e, h1.1] at hp
      exact absurd hp (by decide)
    rw [local_rename_mapped_file_eq fsHost ctx _ _ _ _ w hmf hao han, if_neg hneg]
    obtain ⟨k1, k2, _⟩ := create_mapped_attr_dir_keeps ctx newpath w hneg
    have hsrc : fsGet (local_create_mapped_attr_dir fsHost ctx newpath w).2.hs
        (hostLocation attr_old) = none := by
      rw [k2 _ hne]; exact hnorec
    have hobj1 : fsGet (local_create_mapped_attr_dir fsHost ctx newpath w).2.hs
        (hostLocation (rpath ctx oldpath)) = some node := by
      rw [k1 _ (by rw [hobj]; simp)]; exact hobj
    rcases sys_rename_cases (local_create_mapped_attr_dir fsHost ctx newpath w).2 attr_old attr_new
      with ⟨fs2, hr, _, _⟩ | ⟨e, hr, hret, herr, hhs⟩
    · rw [fsRename_error_of_missing _ _ _ hsrc] at hr
      cases hr
    · rw [fsRename_error_of_missing _ _ _ hsrc] at hr
      injection hr with hr
      rw [if_neg (by rw [herr, ← hr]; simp)]
      obtain ⟨f1, f2, f3⟩ := fsRename_ok_get _ _ _ _ hr3 h6
      rcases sys_rename_cases
          (sys fsHost (.rename attr_old attr_new) (local_create_mapped_attr_dir fsHost ctx newpath w).2).2
          (rpath ctx oldpath) (rpath ctx newpath)
        with ⟨fs4, hr4, hret4, hhs4⟩ | ⟨e4, hr4, _, _, _⟩
      · rw [hhs, hr3] at hr4
        injection hr4 with hr4
        refine ⟨_, by rw [hret4], by rw [hhs4, hr4], ?_, f2, ?_⟩
        · rw [f1, hobj1]
        · rw [f3 _ h2 h4, hsrc]
      · rw [hhs, hr3] at hr4
        cases hr4

/-- C10 at a concrete tree: `/d/f` with the record `virtfs.uid=1000` is
renamed to `/d/g`; the record is then at `/export/d/.virtfs_metadata/g` and
no longer at `/export/d/.virtfs_metadata/f`, the file is at `/export/d/g`. -/
theorem local_rename_moves_record_witness :
    fsGet exRenamed.hs ["export".toList, "d".toList, VIRTFS_META_DIR, "g".toList]
      = some (.file "virtfs.uid=1000\n".toList) ∧
    fsGet exRenamed.hs ["export".toList, "d".toList, VIRTFS_META_DIR, "f".toList] = none ∧
    fsGet exRenamed.hs ["export".toList, "d".toList, "g".toList] = some (.file "data".toList) ∧
    fsGet exRenamed.hs ["export".toList, "d".toList, "f".toList] = none :=
  (local_rename_moves_record exCtxMappedFile "/d/f".toList "/d/g".toList
    "/export//d/.virtfs_metadata/f".toList "/export//d/.virtfs_metadata/g".toList
    exRenameWorld exRenamed (.file "data".toList)
    (by decide) (by decide) (by decide) ⟨by decide, by decide⟩
    (by decide) (by decide) (by decide) (by decide) (by decide) (by decide) (by decide)).1
    "virtfs.uid=1000\n".toList (by decide) (by rfl)

/-- C10, the claim as written fails when the object is a hidden directory:
in `exTree` the directory `/d/.virtfs_metadata` has the shadow record
`/export/d/.virtfs_metadata/.virtfs_metadata`; `local_rename` of it to `/d/m`
returns 0, yet afterwards no record is at the location derived from the new
path, `/export/d/.virtfs_metadata/m`: the record went along with the directory
to `/export/d/m/m`. -/
theorem local_rename_hidden_dir_loses_record :
    local_mapped_attr_path exCtxMappedFile "/d/.virtfs_metadata".toList
      = some "/export//d/.virtfs_metadata/.virtfs_metadata".toList ∧
    local_mapped_attr_path exCtxMappedFile "/d/m".toList
      = some "/export//d/.virtfs_metadata/m".toList ∧
    fsGet exTree (hostLocation "/export//d/.virtfs_metadata/.virtfs_metadata".toList)
      = some (.file "virtfs.mode=16877\n".toList) ∧
    (local_rename fsHost exCtxMappedFile "/d/.virtfs_metadata".toList "/d/m".toList
        exRenameWorld).map
      (fun r => (r.1, fsGet r.2.hs (hostLocation "/export//d/.virtfs_metadata/m".toList),
        fsGet r.2.hs ["export".toList, "d".toList, "m".toList, "m".toList]))
      = some (0, none, some (.file "virtfs.mode=16877\n".toList)) := by
  decide

/-! ## The record written by the code, read back -/

theorem digitChar_facts : ∀ m : Fin 10,
    isdigit (Nat.digitChar m.val) = true ∧ (Nat.digitChar m.val).toNat - '0'.toNat = m.val ∧
    isspace (Nat.digitChar m.val) = false ∧ Nat.digitChar m.val ≠ '-' ∧
    Nat.digitChar m.val ≠ '+' ∧ Nat.digitChar m.val ≠ '\n' ∧ Nat.digitChar m.val ≠ '\x00' := by
  decide

theorem toDigitsCore_append (fuel : Nat) :
    ∀ (n : Nat) (ds : List Char),
      Nat.toDigitsCore 10 fuel n ds = Nat.toDigitsCore 10 fuel n [] ++ ds := by
  induction fuel with
  | zero => intro n ds; simp [Nat.toDigitsCore]
  | succ k ih =>
    intro n ds
    simp only [Nat.toDigitsCore]
    split_ifs with h
    · simp
    · rw [ih (n / 10) (Nat.digitChar (n % 10) :: ds), ih (n / 10) [Nat.digitChar (n % 10)]]
      simp

theorem parseDigits_digitChar (acc m : Nat) (hm : m < 10) (ds : List Char) :
    parseDigits acc (Nat.digitChar m :: ds) = parseDigits (acc * 10 + m) ds := by
  obtain ⟨h1, h2, _⟩ := digitChar_facts ⟨m, hm⟩
  simp only at h1 h2
  simp only [parseDigits, h1, if_true, h2]

theorem parseDigits_toDigitsCore (fuel : Nat) :
    ∀ (n acc : Nat) (ds : List Char), n < fuel →
      ∃ k, parseDigits acc (Nat.toDigitsCore 10 fuel n ds) = parseDigits (acc * 10 ^ k + n) ds := by
  induction fuel with
  | zero => intro n acc ds h; omega
  | succ f ih =>
    intro n acc ds h
    simp only [Nat.toDigitsCore]
    split_ifs with h0
    · refine ⟨1, ?_⟩
      rw [parseDigits_digitChar acc (n % 10) (Nat.mod_lt _ (by decide)) ds]
      congr 1
      omega
    · obtain ⟨k, hk⟩ := ih (n / 10) acc (Nat.digitChar (n % 10) :: ds) (by omega)
      refine ⟨k + 1, ?_⟩
      rw [hk, parseDigits_digitChar _ (n % 10) (Nat.mod_lt _ (by decide)) ds]
      congr 1
      rw [pow_succ]
      have := Nat.div_add_mod n 10
      nlinarith [this]

theorem parseDigits_toDigits (n : Nat) (rest : List Char) :
    parseDigits 0 (Nat.toDigits 10 n ++ rest) = parseDigits n rest := by
  unfold Nat.toDigits
  rw [← toDigitsCore_append]
  obtain ⟨k, hk⟩ := parseDigits_toDigitsCore (n + 1) n 0 rest (by omega)
  rw [hk]
  simp

theorem toDigitsCore_head (fuel : Nat) :
    ∀ (n : Nat) (ds : List Char), n < fuel →
      ∃ m, m < 10 ∧ ∃ tl, Nat.toDigitsCore 10 fuel n ds = Nat.digitChar m :: tl := by
  induction fuel with
  | zero => intro n ds h; omega
  | succ f ih =>
    intro n ds h
    simp only [Nat.toDigitsCore]
    split_ifs with h0
    · exact ⟨n % 10, Nat.mod_lt _ (by decide), ds, rfl⟩
    · exact ih (n / 10) _ (by omega)

theorem toDigitsCore_all_digits (fuel : Nat) :
    ∀ (n : Nat) (ds : List Char), (∀ c ∈ ds, isdigit c = true) →
      ∀ c ∈ Nat.toDigitsCore 10 fuel n ds, isdigit c = true := by
  induction fuel with
  | zero => intro n ds h; simpa [Nat.toDigitsCore] using h
  | succ f ih =>
    intro n ds h
    have hd : isdigit (Nat.digitChar (n % 10)) = true :=
      (digitChar_facts ⟨n % 10, Nat.mod_lt _ (by decide)⟩).1
    simp only [Nat.toDigitsCore]
    split_ifs with h0
    · intro c hc
      rcases List.mem_cons.mp hc with e | e
      · rw [e]; exact hd
      · exact h c e
    · apply ih
      intro c hc
      rcases List.mem_cons.mp hc with e | e
      · rw [e]; exact hd
      · exact h c e

theorem parseDigits_newline (n : Nat) (rest : List Char) : parseDigits n ('\n' :: rest) = n := by
  simp [parseDigits, isdigit]

theorem long_clamp (v : Int) (h1 : -2147483648 ≤ v) (h2 : v < 2147483648) :
    max (-9223372036854775808) (min 9223372036854775807 v) = v := by
  rw [min_eq_right (by omega), max_eq_right (by omega)]

theorem toInt32_id (v : Int) (h1 : -2147483648 ≤ v) (h2 : v < 2147483648) : toInt32 v = v := by
  unfold toInt32
  omega

theorem strtol_fmt_d (v : Int) (h1 : -2147483648 ≤ v) (h2 : v < 2147483648) (rest : List Char) :
    strtol (fmt_d v ++ '\n' :: rest) = v := by
  unfold strtol fmt_d
  by_cases hv : v < 0
  · rw [if_pos hv]
    have hsp : List.dropWhile isspace ('-' :: Nat.toDigits 10 (-v).toNat ++ '\n' :: rest)
        = '-' :: (Nat.toDigits 10 (-v).toNat ++ '\n' :: rest) := by
      simp [List.dropWhile, isspace]
    rw [hsp]
    simp only
    rw [parseDigits_toDigits, parseDigits_newline]
    have e : -((-v).toNat : Int) = v := by omega
    rw [e]
    exact long_clamp v h1 h2
  · rw [if_neg hv]
    obtain ⟨m, hm, tl, htl⟩ := toDigitsCore_head (v.toNat + 1) v.toNat [] (by omega)
    obtain ⟨_, _, f3, f4, f5, _, _⟩ := digitChar_facts ⟨m, hm⟩
    simp only at f3 f4 f5
    have hd : Nat.toDigits 10 v.toNat = Nat.digitChar m :: tl := htl
    have hsp : List.dropWhile isspace (Nat.toDigits 10 v.toNat ++ '\n' :: rest)
        = Nat.toDigits 10 v.toNat ++ '\n' :: rest := by
      rw [hd]
      simp [List.dropWhile, f3]
    rw [hsp]
    have hp : parseDigits 0 (Nat.toDigits 10 v.toNat ++ '\n' :: rest) = v.toNat := by
      rw [parseDigits_toDigits, parseDigits_newline]
    have e : ((v.toNat : Nat) : Int) = v := by omega
    split
    · rename_i t heq
      rw [hd] at heq
      simp at heq
      exact absurd heq.1 f4
    · rename_i t heq
      rw [hd] at heq
      simp at heq
      exact absurd heq.1 f5
    · rw [hp, e]
      exact long_clamp v h1 h2

theorem atoi_fmt_d (v : Int) (h1 : -2147483648 ≤ v) (h2 : v < 2147483648) (rest : List Char) :
    atoi (fmt_d v ++ '\n' :: rest) = v := by
  unfold atoi
  rw [strtol_fmt_d v h1 h2 rest, toInt32_id v h1 h2]

theorem fgets_line (body : List Char) :
    ∀ (n : Nat) (rest : List Char), (∀ c ∈ body, c ≠ '\n') → body.length + 2 ≤ n →
      fgets n (body ++ '\n' :: rest) = (body ++ ['\n'], rest) := by
  induction body with
  | nil =>
    intro n rest _ hn
    match n, hn with
    | k + 2, _ => simp [fgets]
  | cons c body ih =>
    intro n rest hb hn
    have hc : c ≠ '\n' := hb c (List.mem_cons_self _ _)
    match n, hn with
    | k + 2, hn =>
      have hk := ih (k + 1) rest (fun x hx => hb x (List.mem_cons_of_mem _ hx))
        (by simp at hn; omega)
      simp [fgets, hc, hk]

theorem fgets_length_le (s : List Char) : ∀ n : Nat, (fgets n s).2.length ≤ s.length := by
  induction s with
  | nil =>
    intro n
    match n with
    | 0 => simp [fgets]
    | 1 => simp [fgets]
    | k + 2 => simp [fgets]
  | cons c s ih =>
    intro n
    match n with
    | 0 => simp [fgets]
    | 1 => simp [fgets]
    | k + 2 =>
      simp only [fgets]
      split_ifs
      · simp
      · have := ih (k + 1)
        simp only [List.length_cons]
        omega

theorem fgets_length_lt (s : List Char) (n : Nat) (hn : 2 ≤ n) (hs : s ≠ []) :
    (fgets n s).2.length < s.length := by
  match n, hn, s, hs with
  | k + 2, _, c :: s, _ =>
    simp only [fgets]
    split_ifs
    · simp
    · have := fgets_length_le s (k + 1)
      simp only [List.length_cons]
      omega

/-- Enough fuel: once the fuel reaches the length of the stream, more fuel
does not change the buffers the `fgets` loop sees. -/
theorem fgetsLoop_fuel (fuel1 : Nat) :
    ∀ (fuel2 : Nat) (s : List Char), s.length ≤ fuel1 → s.length ≤ fuel2 →
      fgetsLoop fuel1 s = fgetsLoop fuel2 s := by
  induction fuel1 with
  | zero =>
    intro fuel2 s h1 _
    have hs : s = [] := List.length_eq_zero.mp (by omega)
    subst hs
    cases fuel2 <;> simp [fgetsLoop]
  | succ k ih =>
    intro fuel2 s h1 h2
    by_cases hs : s = []
    · subst hs
      cases fuel2 <;> simp [fgetsLoop]
    · match fuel2, h2 with
      | 0, h2 => exact absurd (List.length_eq_zero.mp (by omega)) hs
      | j + 1, h2 =>
        have hlt := fgets_length_lt s ATTR_MAX (by decide) hs
        simp only [fgetsLoop, hs, if_false]
        rw [ih j _ (by omega) (by omega)]

theorem fgetsAll_line (body rest : List Char) (hb : ∀ c ∈ body, c ≠ '\n')
    (hl : body.length + 2 ≤ ATTR_MAX) :
    fgetsAll (body ++ '\n' :: rest) = (body ++ ['\n']) :: fgetsAll rest := by
  unfold fgetsAll
  have hlen : (body ++ '\n' :: rest).length = (body.length + rest.length) + 1 := by
    simp; omega
  rw [hlen]
  simp only [fgetsLoop]
  rw [if_neg (by simp), fgets_line body ATTR_MAX rest hb hl]
  simp only
  rw [fgetsLoop_fuel (body.length + rest.length) rest.length rest (by omega) (le_refl _)]

theorem fmt_d_chars (v : Int) : ∀ c ∈ fmt_d v, c = '-' ∨ isdigit c = true := by
  intro c hc
  unfold fmt_d at hc
  have hall : ∀ n : Nat, ∀ c ∈ Nat.toDigits 10 n, isdigit c = true := fun n =>
    toDigitsCore_all_digits (n + 1) n [] (by simp)
  split_ifs at hc
  · rcases List.mem_cons.mp hc with e | e
    · exact Or.inl e
    · exact Or.inr (hall _ c e)
  · exact Or.inr (hall _ c hc)

theorem fmt_d_no_newline (v : Int) : ∀ c ∈ fmt_d v, c ≠ '\n' := by
  intro c hc e
  rcases fmt_d_chars v c hc with h | h
  · rw [e] at h; exact absurd h (by decide)
  · rw [e] at h; exact absurd h (by decide)

theorem toDigits_length_le (n : Nat) (h : n ≤ 2147483648) : (Nat.toDigits 10 n).length ≤ 10 :=
  Nat.toDigitsCore_length 10 (by decide) (n + 1) n 10 (by omega) (by decide)

theorem fmt_d_length (v : Int) (h1 : -2147483648 ≤ v) (h2 : v < 2147483648) :
    (fmt_d v).length ≤ 11 := by
  unfold fmt_d
  split_ifs
  · have := toDigits_length_le (-v).toNat (by omega)
    simp only [List.length_cons]
    omega
  · have := toDigits_length_le v.toNat (by omega)
    omega

theorem fgetsAll_nil : fgetsAll [] = [] := rfl

theorem fgetsAll_render_field (key : CStr) (hk : ∀ c ∈ key, c ≠ '\n') (hkl : key.length ≤ 11)
    (o : Option Int) (ho : ∀ v, o = some v → -2147483648 ≤ v ∧ v < 2147483648) (rest : CStr) :
    fgetsAll (spec_render_field key o ++ rest) = spec_field_lines key o ++ fgetsAll rest := by
  cases o with
  | none => rfl
  | some v =>
    obtain ⟨h1, h2⟩ := ho v rfl
    have hlen := fmt_d_length v h1 h2
    have hb : ∀ c ∈ key ++ "=".toList ++ fmt_d v, c ≠ '\n' := by
      intro c hc
      rcases List.mem_append.mp hc with hc | hc
      · rcases List.mem_append.mp hc with hc | hc
        · exact hk c hc
        · simp at hc; rw [hc]; decide
      · exact fmt_d_no_newline v c hc
    have e := fgetsAll_line (key ++ "=".toList ++ fmt_d v) rest hb
      (by simp [ATTR_MAX]; omega)
    simp only [spec_render_field, spec_field_lines]
    have e2 : key ++ "=".toList ++ fmt_d v ++ "\n".toList ++ rest
        = (key ++ "=".toList ++ fmt_d v) ++ '\n' :: rest := by simp
    rw [e2, e]
    simp

theorem cstr_append (key rest : CStr) (hk : ∀ c ∈ key, c ≠ '\x00') :
    cstr (key ++ rest) = key ++ cstr rest := by
  induction key with
  | nil => rfl
  | cons c key ih =>
    have hc : c ≠ '\x00' := hk c (List.mem_cons_self _ _)
    have := ih (fun x hx => hk x (List.mem_cons_of_mem _ hx))
    have hb : (c != '\x00') = true := by simpa using hc
    unfold cstr at this ⊢
    simp only [List.cons_append, List.takeWhile, hb]
    exact congrArg (List.cons c) this

theorem strncmp0_key_line (key rest : CStr) (hk : ∀ c ∈ key, c ≠ '\x00') :
    strncmp0 (key ++ rest) key key.length = true := by
  unfold strncmp0
  have e1 := cstr_append key rest hk
  have e2 := cstr_append key [] hk
  simp only [List.append_nil] at e2
  rw [e1, e2]
  simp [cstr]

theorem fold_field_lines_same (key : CStr) (hk : ∀ c ∈ key, c ≠ '\x00') (o : Option Int)
    (ho : ∀ v, o = some v → -2147483648 ≤ v ∧ v < 2147483648) (acc : Option Int) :
    (spec_field_lines key o).foldl
      (fun acc buf => if strncmp0 buf key key.length then some (atoi (buf.drop (key.length + 1)))
        else acc) acc
      = o.orElse (fun _ => acc) := by
  cases o with
  | none => rfl
  | some v =>
    obtain ⟨h1, h2⟩ := ho v rfl
    have e : key ++ "=".toList ++ fmt_d v ++ "\n".toList = key ++ ('=' :: (fmt_d v ++ ['\n'])) := by
      simp
    have hd : (key ++ ('=' :: (fmt_d v ++ ['\n']))).drop (key.length + 1) = fmt_d v ++ ['\n'] := by
      rw [List.drop_append_eq_append_drop]
      simp
    simp only [spec_field_lines, List.foldl_cons, List.foldl_nil, e,
      strncmp0_key_line key _ hk, if_true, hd, atoi_fmt_d v h1 h2 [], Option.orElse]

theorem fold_field_lines_other (key other : CStr) (hk : ∀ c ∈ other, c ≠ '\x00')
    (hex : ∀ buf, strncmp0 buf other other.length = true → strncmp0 buf key key.length = false)
    (o : Option Int) (acc : Option Int) :
    (spec_field_lines other o).foldl
      (fun acc buf => if strncmp0 buf key key.length then some (atoi (buf.drop (key.length + 1)))
        else acc) acc
      = acc := by
  cases o with
  | none => rfl
  | some v =>
    have e : other ++ "=".toList ++ fmt_d v ++ "\n".toList = other ++ ('=' :: (fmt_d v ++ ['\n'])) := by
      simp
    have h := hex _ (strncmp0_key_line other ('=' :: (fmt_d v ++ ['\n'])) hk)
    simp only [spec_field_lines, List.foldl_cons, List.foldl_nil, e, h, Bool.false_eq_true, if_false]

theorem fgetsAll_spec_render (f : SpecFields) (hf : f.inRange) :
    fgetsAll (spec_render f) =
      spec_field_lines "virtfs.uid".toList f.uid ++ (spec_field_lines "virtfs.gid".toList f.gid ++
        (spec_field_lines "virtfs.mode".toList f.mode ++
          (spec_field_lines "virtfs.rdev".toList f.rdev ++ []))) := by
  obtain ⟨hu, hg, hm, hd⟩ := hf
  have e : spec_render f =
      spec_render_field "virtfs.uid".toList f.uid ++ (spec_render_field "virtfs.gid".toList f.gid ++
        (spec_render_field "virtfs.mode".toList f.mode ++
          (spec_render_field "virtfs.rdev".toList f.rdev ++ []))) := by
    simp [spec_render]
  rw [e, fgetsAll_render_field _ (by decide) (by decide) _ hu,
    fgetsAll_render_field _ (by decide) (by decide) _ hg,
    fgetsAll_render_field _ (by decide) (by decide) _ hm,
    fgetsAll_render_field _ (by decide) (by decide) _ hd, fgetsAll_nil]

/-- A record rendered from fields in the range of `int` reads back as those
fields: each key yields the value of its field, and no value for an absent
field. -/
theorem read_loop_value_render (f : SpecFields) (hf : f.inRange) :
    read_loop_value "virtfs.uid".toList (spec_render f) = f.uid ∧
    read_loop_value "virtfs.gid".toList (spec_render f) = f.gid ∧
    read_loop_value "virtfs.mode".toList (spec_render f) = f.mode ∧
    read_loop_value "virtfs.rdev".toList (spec_render f) = f.rdev := by
  have hl := fgetsAll_spec_render f hf
  obtain ⟨hu, hg, hm, hd⟩ := hf
  have x12 : ∀ buf, strncmp0 buf "virtfs.uid".toList "virtfs.uid".toList.length = true →
      strncmp0 buf "virtfs.gid".toList "virtfs.gid".toList.length = false :=
    fun buf => strncmp0_excl buf _ _ 10 10 (by decide)
  have x13 : ∀ buf, strncmp0 buf "virtfs.uid".toList "virtfs.uid".toList.length = true →
      strncmp0 buf "virtfs.mode".toList "virtfs.mode".toList.length = false :=
    fun buf => strncmp0_excl buf _ _ 10 11 (by decide)
  have x14 : ∀ buf, strncmp0 buf "virtfs.uid".toList "virtfs.uid".toList.length = true →
      strncmp0 buf "virtfs.rdev".toList "virtfs.rdev".toList.length = false :=
    fun buf => strncmp0_excl buf _ _ 10 11 (by decide)
  have x21 : ∀ buf, strncmp0 buf "virtfs.gid".toList "virtfs.gid".toList.length = true →
      strncmp0 buf "virtfs.uid".toList "virtfs.uid".toList.length = false :=
    fun buf => strncmp0_excl buf _ _ 10 10 (by decide)
  have x23 : ∀ buf, strncmp0 buf "virtfs.gid".toList "virtfs.gid".toList.length = true →
      strncmp0 buf "virtfs.mode".toList "virtfs.mode".toList.length = false :=
    fun buf => strncmp0_excl buf _ _ 10 11 (by decide)
  have x24 : ∀ buf, strncmp0 buf "virtfs.gid".toList "virtfs.gid".toList.length = true →
      strncmp0 buf "virtfs.rdev".toList "virtfs.rdev".toList.length = false :=
    fun buf => strncmp0_excl buf _ _ 10 11 (by decide)
  have x31 : ∀ buf, strncmp0 buf "virtfs.mode".toList "virtfs.mode".toList.length = true →
      strncmp0 buf "virtfs.uid".toList "virtfs.uid".toList.length = false :=
    fun buf => strncmp0_excl buf _ _ 11 10 (by decide)
  have x32 : ∀ buf, strncmp0 buf "virtfs.mode".toList "virtfs.mode".toList.length = true →
      strncmp0 buf "virtfs.gid".toList "virtfs.gid".toList.length = false :=
    fun buf => strncmp0_excl buf _ _ 11 10 (by decide)
  have x34 : ∀ buf, strncmp0 buf "virtfs.mode".toList "virtfs.mode".toList.length = true →
      strncmp0 buf "virtfs.rdev".toList "virtfs.rdev".toList.length = false :=
    fun buf => strncmp0_excl buf _ _ 11 11 (by decide)
  have x41 : ∀ buf, strncmp0 buf "virtfs.rdev".toList "virtfs.rdev".toList.length = true →
      strncmp0 buf "virtfs.uid".toList "virtfs.uid".toList.length = false :=
    fun buf => strncmp0_excl buf _ _ 11 10 (by decide)
  have x42 : ∀ buf, strncmp0 buf "virtfs.rdev".toList "virtfs.rdev".toList.length = true →
      strncmp0 buf "virtfs.gid".toList "virtfs.gid".toList.length = false :=
    fun buf => strncmp0_excl buf _ _ 11 10 (by decide)
  have x43 : ∀ buf, strncmp0 buf "virtfs.rdev".toList "virtfs.rdev".toList.length = true →
      strncmp0 buf "virtfs.mode".toList "virtfs.mode".toList.length = false :=
    fun buf => strncmp0_excl buf _ _ 11 11 (by decide)
  have n1 : ∀ c ∈ "virtfs.uid".toList, c ≠ '\x00' := by decide
  have n2 : ∀ c ∈ "virtfs.gid".toList, c ≠ '\x00' := by decide
  have n3 : ∀ c ∈ "virtfs.mode".toList, c ≠ '\x00' := by decide
  have n4 : ∀ c ∈ "virtfs.rdev".toList, c ≠ '\x00' := by decide
  unfold read_loop_value
  rw [hl]
  simp only [List.foldl_append, List.foldl_nil]
  refine ⟨?_, ?_, ?_, ?_⟩
  · rw [fold_field_lines_same _ n1 _ hu, fold_field_lines_other _ _ n2 x21,
      fold_field_lines_other _ _ n3 x31, fold_field_lines_other _ _ n4 x41]
    cases f.uid <;> rfl
  · rw [fold_field_lines_other _ _ n1 x12, fold_field_lines_same _ n2 _ hg,
      fold_field_lines_other _ _ n3 x32, fold_field_lines_other _ _ n4 x42]
    cases f.gid <;> rfl
  · rw [fold_field_lines_other _ _ n1 x13, fold_field_lines_other _ _ n2 x23,
      fold_field_lines_same _ n3 _ hm, fold_field_lines_other _ _ n4 x43]
    cases f.mode <;> rfl
  · rw [fold_field_lines_other _ _ n1 x14, fold_field_lines_other _ _ n2 x24,
      fold_field_lines_other _ _ n3 x34, fold_field_lines_same _ n4 _ hd]
    cases f.rdev <;> rfl

theorem toInt32_range (v : Int) : -2147483648 ≤ toInt32 v ∧ toInt32 v < 2147483648 := by
  unfold toInt32
  omega

theorem toU32_toInt32 (v : Nat) (h : v < 4294967296) : toU32 (toInt32 v) = v := by
  unfold toU32 toInt32
  omega

theorem toU64_toInt32 (v : Nat) (h : v < 2147483648) : toU64 (toInt32 v) = v := by
  unfold toU64 toInt32
  omega

theorem spec_cred_field_map (v : Nat) (h : v < 4294967296) :
    (spec_cred_field v).map toU32 = spec_cred_value U32_MINUS_ONE v := by
  unfold spec_cred_field spec_cred_value
  by_cases e : v = U32_MINUS_ONE
  · rw [if_pos e, if_pos e]; rfl
  · rw [if_neg e, if_neg e, Option.map_some', toU32_toInt32 v h]

theorem spec_cred_rdev_map (v : Nat) (h : v < 2147483648 ∨ v = U64_MINUS_ONE) :
    (spec_cred_rdev v).map toU64 = spec_cred_value U64_MINUS_ONE v := by
  unfold spec_cred_rdev spec_cred_value
  by_cases e : v = U64_MINUS_ONE
  · rw [if_pos e, if_pos e]; rfl
  · rw [if_neg e, if_neg e, Option.map_some']
    rcases h with h | h
    · rw [toU64_toInt32 v h]
    · exact absurd h e

theorem spec_cred_field_range (v : Nat) (x : Int) (h : spec_cred_field v = some x) :
    -2147483648 ≤ x ∧ x < 2147483648 := by
  unfold spec_cred_field at h
  by_cases e : v = U32_MINUS_ONE
  · rw [if_pos e] at h; exact absurd h (by simp)
  · rw [if_neg e, Option.some.injEq] at h
    rw [← h]
    exact toInt32_range _

theorem spec_cred_rdev_range (v : Nat) (x : Int) (h : spec_cred_rdev v = some x) :
    -2147483648 ≤ x ∧ x < 2147483648 := by
  unfold spec_cred_rdev at h
  by_cases e : v = U64_MINUS_ONE
  · rw [if_pos e] at h; exact absurd h (by simp)
  · rw [if_neg e, Option.some.injEq] at h
    rw [← h]
    exact toInt32_range _

theorem read_loop_merge_none (credp : FsCred) :
    read_loop_merge none credp =
      { uid := spec_cred_field credp.fc_uid, gid := spec_cred_field credp.fc_gid,
        mode := spec_cred_field credp.fc_mode, rdev := spec_cred_rdev credp.fc_rdev } := by
  unfold read_loop_merge read_loop_prev_field
  cases h1 : spec_cred_field credp.fc_uid <;> cases h2 : spec_cred_field credp.fc_gid <;>
    cases h3 : spec_cred_field credp.fc_mode <;> cases h4 : spec_cred_rdev credp.fc_rdev <;> rfl

/-- The round trip that does hold (the part of C4 and C7 the code keeps): a
credential whose device number is unset or below 2^31, written with no
previous record and read back over a host stat, replaces exactly the fields
the credential sets, by exactly the credential's values (0 stays 0), and
leaves every other field to the host. -/
theorem mapped_file_round_trip (credp : FsCred) (host : Stat) (hwf : credp.wf)
    (hrdev : credp.fc_rdev < 2147483648 ∨ credp.fc_rdev = U64_MINUS_ONE) :
    mapped_file_attr_read (set_attr_content none credp) host =
      spec_overlay host (spec_cred_value U32_MINUS_ONE credp.fc_uid)
        (spec_cred_value U32_MINUS_ONE credp.fc_gid) (spec_cred_value U32_MINUS_ONE credp.fc_mode)
        (spec_cred_value U64_MINUS_ONE credp.fc_rdev) := by
  have hr : (read_loop_merge none credp).inRange := by
    rw [read_loop_merge_none]
    exact ⟨spec_cred_field_range _, spec_cred_field_range _, spec_cred_field_range _,
      spec_cred_rdev_range _⟩
  obtain ⟨r1, r2, r3, r4⟩ := read_loop_value_render (read_loop_merge none credp) hr
  rw [set_attr_content_render none credp hwf hrdev, mapped_file_attr_read_eq_loop]
  unfold read_loop_overlay
  rw [r1, r2, r3, r4, read_loop_merge_none]
  simp only
  rw [spec_cred_field_map _ hwf.1, spec_cred_field_map _ hwf.2.1, spec_cred_field_map _ hwf.2.2.1,
    spec_cred_rdev_map _ hrdev]

/-- The round trip at a concrete credential: uid 0, mode 0644, gid and device
unset. -/
theorem mapped_file_round_trip_example :
    mapped_file_attr_read (set_attr_content none ⟨0, U32_MINUS_ONE, 0o644, U64_MINUS_ONE⟩)
        ⟨1000, 100, 0o100600, 7, 9⟩ = ⟨0, 100, 0o644, 7, 9⟩ :=
  (mapped_file_round_trip ⟨0, U32_MINUS_ONE, 0o644, U64_MINUS_ONE⟩ ⟨1000, 100, 0o100600, 7, 9⟩
    (by decide) (by decide)).trans (by decide)

/-- C13: under the mapped-file model (the mapped bit clear, the mapped-file
bit set) `local_fstat` on a file or directory handle returns -1 with `errno`
set to `EOPNOTSUPP` whenever the host `fstat` succeeds, after that one host
call; when the host `fstat` fails its return value is returned and `errno`
is the host's; so the call never returns 0. -/
theorem local_fstat_mapped_file_unsupported {σ : Type} (H : Host σ) (fs_ctx : FsContext)
    (fid_type : Nat) (fs : V9fsFidOpenState) (stbuf0 : Stat) (w : World σ)
    (hm : flagSet fs_ctx.export_flags V9FS_SM_MAPPED = false)
    (hf : flagSet fs_ctx.export_flags V9FS_SM_MAPPED_FILE = true) :
    ((sys H (.fstat (if fid_type = P9_FID_DIR then fs.dir_stream_fd else fs.fd)) w).1.ret = 0 →
      (local_fstat H fs_ctx fid_type fs stbuf0 w).1 = -1 ∧
      (local_fstat H fs_ctx fid_type fs stbuf0 w).2.2.errno = EOPNOTSUPP ∧
      (local_fstat H fs_ctx fid_type fs stbuf0 w).2.2.trace =
        w.trace ++ [.fstat (if fid_type = P9_FID_DIR then fs.dir_stream_fd else fs.fd)]) ∧
    ((sys H (.fstat (if fid_type = P9_FID_DIR then fs.dir_stream_fd else fs.fd)) w).1.ret ≠ 0 →
      (local_fstat H fs_ctx fid_type fs stbuf0 w).1 =
        (sys H (.fstat (if fid_type = P9_FID_DIR then fs.dir_stream_fd else fs.fd)) w).1.ret ∧
      (local_fstat H fs_ctx fid_type fs stbuf0 w).2.2 =
        (sys H (.fstat (if fid_type = P9_FID_DIR then fs.dir_stream_fd else fs.fd)) w).2) ∧
    (local_fstat H fs_ctx fid_type fs stbuf0 w).1 ≠ 0 := by
  unfold local_fstat
  simp only [hm, hf, Bool.false_eq_true, ↓reduceIte]
  generalize (if fid_type = P9_FID_DIR then fs.dir_stream_fd else fs.fd) = fd
  have ht : (sys H (.fstat fd) w).2.trace = w.trace ++ [.fstat fd] := rfl
  generalize sys H (.fstat fd) w = r at ht ⊢
  by_cases h : r.1.ret = 0
  · simp [h, ht]
  · simp [h]

/-- C13 at concrete handles: a file handle and a directory handle under
mapped-file, the host `fstat` succeeding. -/
theorem local_fstat_mapped_file_unsupported_witness :
    (local_fstat scriptHost exCtxMappedFile 1 ⟨7, 0⟩ ⟨0, 0, 0, 0, 0⟩
        (scriptWorld [statRes 0o100644])).1 = -1 ∧
    (local_fstat scriptHost exCtxMappedFile P9_FID_DIR ⟨0, 8⟩ ⟨0, 0, 0, 0, 0⟩
        (scriptWorld [statRes 0o040755])).2.2.errno = EOPNOTSUPP :=
  ⟨((local_fstat_mapped_file_unsupported scriptHost exCtxMappedFile 1 ⟨7, 0⟩ ⟨0, 0, 0, 0, 0⟩
      (scriptWorld [statRes 0o100644]) (by decide) (by decide)).1 (by decide)).1,
   ((local_fstat_mapped_file_unsupported scriptHost exCtxMappedFile P9_FID_DIR ⟨0, 8⟩ ⟨0, 0, 0, 0, 0⟩
      (scriptWorld [statRes 0o040755]) (by decide) (by decide)).1 (by decide)).2.1⟩

/-- C14: `local_post_create_passthrough` returns 0 or -1, and 0 exactly when
the host `chmod` succeeds and the host `lchown` succeeded or the security
model is none.  The mode handed to `chmod` is `fc_mode & 07777`.  Under none
the `chmod` is attempted whatever `lchown` answered; under any other model
(passthrough among them) a failed `lchown` ends the call with -1 before any
`chmod`; a failed `chmod` gives -1 under every model. -/
theorem local_post_create_passthrough_spec {σ : Type} (H : Host σ) (fs_ctx : FsContext)
    (path : CStr) (credp : FsCred) (w : World σ) :
    ((local_post_create_passthrough H fs_ctx path credp w).1 = 0 ∨
      (local_post_create_passthrough H fs_ctx path credp w).1 = -1) ∧
    ((local_post_create_passthrough H fs_ctx path credp w).1 = 0 ↔
      0 ≤ (sys H (.chmod (rpath fs_ctx path) (credp.fc_mode &&& 0o7777))
            (sys H (.lchown (rpath fs_ctx path) credp.fc_uid credp.fc_gid) w).2).1.ret ∧
      (0 ≤ (sys H (.lchown (rpath fs_ctx path) credp.fc_uid credp.fc_gid) w).1.ret ∨
        fs_ctx.export_flags &&& V9FS_SEC_MASK = V9FS_SM_NONE)) ∧
    (0 ≤ (sys H (.lchown (rpath fs_ctx path) credp.fc_uid credp.fc_gid) w).1.ret ∨
        fs_ctx.export_flags &&& V9FS_SEC_MASK = V9FS_SM_NONE →
      (local_post_create_passthrough H fs_ctx path credp w).2.trace =
        w.trace ++ [.lchown (rpath fs_ctx path) credp.fc_uid credp.fc_gid,
                    .chmod (rpath fs_ctx path) (credp.fc_mode &&& 0o7777)]) ∧
    ((sys H (.lchown (rpath fs_ctx path) credp.fc_uid credp.fc_gid) w).1.ret < 0 →
      fs_ctx.export_flags &&& V9FS_SEC_MASK ≠ V9FS_SM_NONE →
      (local_post_create_passthrough H fs_ctx path credp w).1 = -1 ∧
      (local_post_create_passthrough H fs_ctx path credp w).2.trace =
        w.trace ++ [.lchown (rpath fs_ctx path) credp.fc_uid credp.fc_gid]) ∧
    ((sys H (.chmod (rpath fs_ctx path) (credp.fc_mode &&& 0o7777))
            (sys H (.lchown (rpath fs_ctx path) credp.fc_uid credp.fc_gid) w).2).1.ret < 0 →
      (local_post_create_passthrough H fs_ctx path credp w).1 = -1) ∧
    V9FS_SM_PASSTHROUGH ≠ V9FS_SM_NONE := by
  simp only [local_post_create_passthrough]
  have ht1 : (sys H (.lchown (rpath fs_ctx path) credp.fc_uid credp.fc_gid) w).2.trace =
      w.trace ++ [.lchown (rpath fs_ctx path) credp.fc_uid credp.fc_gid] := rfl
  generalize sys H (.lchown (rpath fs_ctx path) credp.fc_uid credp.fc_gid) w = r at ht1 ⊢
  have ht2 : (sys H (.chmod (rpath fs_ctx path) (credp.fc_mode &&& 0o7777)) r.2).2.trace =
      r.2.trace ++ [.chmod (rpath fs_ctx path) (credp.fc_mode &&& 0o7777)] := rfl
  generalize sys H (.chmod (rpath fs_ctx path) (credp.fc_mode &&& 0o7777)) r.2 = c at ht2 ⊢
  generalize fs_ctx.export_flags &&& V9FS_SEC_MASK = m
  by_cases h1 : r.1.ret < 0 <;> by_cases h2 : m = V9FS_SM_NONE <;> by_cases h3 : c.1.ret < 0 <;>
    simp [h1, h2, h3, ht1, ht2] <;>
    first
    | omega
    | decide
    | exact ⟨by omega, by decide⟩

/-- C15 (amended): under the none model `local_chown` issues exactly one host
call, `lchown` on the root-prefixed path with the credential's uid and gid,
and returns the host's answer; a failure of the host call is returned, not
swallowed. -/
theorem local_chown_none_returns_host_result {σ : Type} (H : Host σ) (fs_ctx : FsContext)
    (path : CStr) (credp : FsCred) (w : World σ)
    (hn : flagSet fs_ctx.export_flags V9FS_SM_NONE = true) :
    local_chown H fs_ctx path credp w =
      some ((sys H (.lchown (rpath fs_ctx path) credp.fc_uid credp.fc_gid) w).1.ret,
            (sys H (.lchown (rpath fs_ctx path) credp.fc_uid credp.fc_gid) w).2) ∧
    (sys H (.lchown (rpath fs_ctx path) credp.fc_uid credp.fc_gid) w).2.trace =
      w.trace ++ [.lchown (rpath fs_ctx path) credp.fc_uid credp.fc_gid] := by
  unfold local_chown
  simp only [hn, or_true, ↓reduceIte, true_and]
  rfl

/-- C15 (amended) at a concrete input: the host `lchown` succeeds and
`local_chown` returns 0. -/
theorem local_chown_none_returns_host_result_witness :
    (local_chown scriptHost exCtxNone "/f".toList exCred (scriptWorld [okRes 0])).map
      (fun r => r.1) = some 0 := by
  rw [(local_chown_none_returns_host_result scriptHost exCtxNone "/f".toList exCred
    (scriptWorld [okRes 0]) (by decide)).1]
  decide

/-- C15 as stated fails: under the none model, when the host `lchown` fails
(here with EPERM), `local_chown` returns -1 and leaves the host's `errno`. -/
theorem local_chown_none_failure_not_swallowed :
    (sys scriptHost (.lchown (rpath exCtxNone "/f".toList) 1000 100) (scriptWorld [failRes 1])).1.ret
      = -1 ∧
    (local_chown scriptHost exCtxNone "/f".toList exCred (scriptWorld [failRes 1])).map
      (fun r => (r.1, r.2.errno)) = some (-1, 1) ∧
    ¬ (local_chown scriptHost exCtxNone "/f".toList exCred (scriptWorld [failRes 1])).map
      (fun r => r.1) = some 0 := by
  decide

/-- C11, the code's behaviour: under mapped-file, when the host link of the
object succeeds, the hidden directory of the destination is created or
exists, and the link of the shadow record fails with ENOENT (the source has
no record), `local_link` returns -1 with `errno` ENOENT: the value of the
failed record link is returned unchanged. -/
theorem local_link_missing_record_returns_error {σ : Type} (H : Host σ) (ctx : FsContext)
    (oldpath dirpath name attr_old attr_new : CStr) (w : World σ)
    (hf : flagSet ctx.export_flags V9FS_SM_MAPPED_FILE = true)
    (hold : local_mapped_attr_path ctx oldpath = some attr_old)
    (hnew : local_mapped_attr_path ctx (fullname dirpath name) = some attr_new)
    (hlink : (sys H (.link (rpath ctx oldpath) (rpath ctx (fullname dirpath name))) w).1.ret = 0)
    (hdir : (local_create_mapped_attr_dir H ctx (fullname dirpath name)
      (sys H (.link (rpath ctx oldpath) (rpath ctx (fullname dirpath name))) w).2).1 = 0)
    (hrec : (sys H (.link attr_old attr_new)
      (local_create_mapped_attr_dir H ctx (fullname dirpath name)
        (sys H (.link (rpath ctx oldpath) (rpath ctx (fullname dirpath name))) w).2).2).1.ret = -1)
    (herr : (sys H (.link attr_old attr_new)
      (local_create_mapped_attr_dir H ctx (fullname dirpath name)
        (sys H (.link (rpath ctx oldpath) (rpath ctx (fullname dirpath name))) w).2).2).2.errno
        = ENOENT) :
    ∃ w2, local_link H ctx oldpath dirpath name w = some (-1, w2) ∧ w2.errno = ENOENT := by
  refine ⟨_, ?_, herr⟩
  simp only [local_link, hlink, hf, and_self, ↓reduceIte, hdir, lt_self_iff_false, hold, hnew,
    hrec, ite_self]

/-- C11 at a concrete host: the object link and the `mkdir` of the hidden
directory succeed, the record link fails with ENOENT. -/
theorem local_link_missing_record_returns_error_witness :
    ∃ w2, local_link scriptHost exCtxMappedFile "/d/a".toList "/d".toList "b".toList
        (scriptWorld [okRes 0, okRes 0, failRes ENOENT]) = some (-1, w2) ∧ w2.errno = ENOENT :=
  local_link_missing_record_returns_error scriptHost exCtxMappedFile "/d/a".toList "/d".toList
    "b".toList "/export//d/.virtfs_metadata/a".toList "/export//d/.virtfs_metadata/b".toList
    (scriptWorld [okRes 0, okRes 0, failRes ENOENT])
    (by decide) (by decide) (by decide) (by decide) (by decide) (by decide) (by decide)

theorem strcmp0_iff (a b : CStr) : strcmp0 a b = true ↔ cstr a = cstr b := by
  unfold strcmp0
  simp

theorem local_parse_opts_eq (opts : QemuOpts) (fse : FsDriverEntry) :
    local_parse_opts opts fse =
      match opts.qemu_opt_get "security_model".toList with
      | none => (-1, fse)
      | some sm =>
        match spec_sec_models.lookup (cstr sm) with
        | none => (-1, fse)
        | some bit =>
          match opts.qemu_opt_get "path".toList with
          | none => (-1, { fse with export_flags := fse.export_flags ||| bit })
          | some p => (0, { path := some (cstr p), export_flags := fse.export_flags ||| bit }) := by
  unfold local_parse_opts
  cases hs : opts.qemu_opt_get "security_model".toList with
  | none => rfl
  | some sm =>
    have e1 : cstr "passthrough".toList = "passthrough".toList := by decide
    have e2 : cstr "mapped".toList = "mapped".toList := by decide
    have e3 : cstr "mapped-xattr".toList = "mapped-xattr".toList := by decide
    have e4 : cstr "none".toList = "none".toList := by decide
    have e5 : cstr "mapped-file".toList = "mapped-file".toList := by decide
    simp only [Bool.or_eq_true, strcmp0_iff, e1, e2, e3, e4, e5]
    generalize cstr sm = s
    by_cases h1 : s = "passthrough".toList
    · subst h1; cases opts.qemu_opt_get "path".toList <;> rfl
    by_cases h2 : s = "mapped".toList
    · subst h2; cases opts.qemu_opt_get "path".toList <;> rfl
    by_cases h3 : s = "mapped-xattr".toList
    · subst h3; cases opts.qemu_opt_get "path".toList <;> rfl
    by_cases h4 : s = "none".toList
    · subst h4; cases opts.qemu_opt_get "path".toList <;> rfl
    by_cases h5 : s = "mapped-file".toList
    · subst h5; cases opts.qemu_opt_get "path".toList <;> rfl
    have hl : spec_sec_models.lookup s = none := by
      simp only [spec_sec_models, List.lookup_cons, List.lookup_nil]
      have b1 : (s == "passthrough".toList) = false := by simpa using h1
      have b2 : (s == "mapped".toList) = false := by simpa using h2
      have b3 : (s == "mapped-xattr".toList) = false := by simpa using h3
      have b4 : (s == "none".toList) = false := by simpa using h4
      have b5 : (s == "mapped-file".toList) = false := by simpa using h5
      rw [b1, b2, b3, b4, b5]
    rw [hl]
    simp only [h1, h2, h3, h4, h5, or_self, ↓reduceIte]

/-- C19: with a path given, `local_parse_opts` returns 0 for each accepted
spelling of the security model (`passthrough`, `mapped`, `mapped-xattr`,
`mapped-file`, `none`), the flags afterwards are the flags before with the
one bit of that model added (passthrough, mapped, mapped, mapped-file, none)
and every other bit as it was, the path recorded is a copy of the option,
and `mapped-xattr` gives the same result as `mapped`. -/
theorem local_parse_opts_accepts (opts : QemuOpts) (fse : FsDriverEntry) (sm p : CStr) (bit : Nat)
    (hp : opts.qemu_opt_get "path".toList = some p)
    (hs : opts.qemu_opt_get "security_model".toList = some sm)
    (hmem : (cstr sm, bit) ∈ spec_sec_models) :
    local_parse_opts opts fse =
      (0, { path := some (cstr p), export_flags := fse.export_flags ||| bit }) ∧
    (∃ k, bit = 2 ^ k ∧ ∀ i, (fse.export_flags ||| bit).testBit i =
      (fse.export_flags.testBit i || decide (i = k))) ∧
    (∀ opts2 : QemuOpts, opts2.qemu_opt_get "path".toList = some p →
      cstr sm = "mapped".toList →
      opts2.qemu_opt_get "security_model".toList = some "mapped-xattr".toList →
      local_parse_opts opts2 fse = local_parse_opts opts fse) := by
  have hbit : ∀ k i : Nat, (fse.export_flags ||| 2 ^ k).testBit i =
      (fse.export_flags.testBit i || decide (i = k)) := by
    intro k i
    rw [Nat.testBit_or, Nat.testBit_two_pow]
    congr 1
    by_cases h : k = i
    · subst h; simp
    · have h2 : ¬ i = k := fun e => h e.symm
      simp [h, h2]
  have hl : spec_sec_models.lookup (cstr sm) = some bit := by
    simp only [spec_sec_models, List.mem_cons, Prod.mk.injEq, List.mem_singleton,
      List.not_mem_nil, or_false] at hmem
    rcases hmem with ⟨h, hb⟩ | ⟨h, hb⟩ | ⟨h, hb⟩ | ⟨h, hb⟩ | ⟨h, hb⟩ <;> rw [h, hb] <;> decide
  have hres : local_parse_opts opts fse =
      (0, { path := some (cstr p), export_flags := fse.export_flags ||| bit }) := by
    rw [local_parse_opts_eq, hs]
    simp only [hl, hp]
  refine ⟨hres, ?_, ?_⟩
  · simp only [spec_sec_models, List.mem_cons, Prod.mk.injEq, List.mem_singleton,
      List.not_mem_nil, or_false] at hmem
    rcases hmem with ⟨_, hb⟩ | ⟨_, hb⟩ | ⟨_, hb⟩ | ⟨_, hb⟩ | ⟨_, hb⟩
    · exact ⟨2, hb, by rw [hb]; exact hbit 2⟩
    · exact ⟨3, hb, by rw [hb]; exact hbit 3⟩
    · exact ⟨3, hb, by rw [hb]; exact hbit 3⟩
    · exact ⟨5, hb, by rw [hb]; exact hbit 5⟩
    · exact ⟨4, hb, by rw [hb]; exact hbit 4⟩
  · intro opts2 hp2 hm hs2
    rw [hm] at hl
    have hb : bit = V9FS_SM_MAPPED := by
      have : spec_sec_models.lookup "mapped".toList = some V9FS_SM_MAPPED := by decide
      rw [this] at hl
      exact (Option.some.inj hl).symm
    rw [hres, local_parse_opts_eq, hs2]
    have hx : spec_sec_models.lookup (cstr "mapped-xattr".toList) = some V9FS_SM_MAPPED := by decide
    simp only [hx, hp2, hb]

/-- C19 at concrete option sets: `mapped-file` with a path, and the alias
`mapped-xattr`. -/
theorem local_parse_opts_accepts_witness :
    local_parse_opts (exOpts (some "mapped-file".toList) (some "/srv/export".toList)) ⟨none, 1⟩ =
      (0, { path := some "/srv/export".toList, export_flags := 33 }) ∧
    local_parse_opts (exOpts (some "mapped-xattr".toList) (some "/srv/export".toList)) ⟨none, 1⟩ =
      local_parse_opts (exOpts (some "mapped".toList) (some "/srv/export".toList)) ⟨none, 1⟩ :=
  ⟨(local_parse_opts_accepts (exOpts (some "mapped-file".toList) (some "/srv/export".toList))
      ⟨none, 1⟩ "mapped-file".toList "/srv/export".toList V9FS_SM_MAPPED_FILE
      (by decide) (by decide) (by decide)).1.trans (by decide),
   (local_parse_opts_accepts (exOpts (some "mapped".toList) (some "/srv/export".toList))
      ⟨none, 1⟩ "mapped".toList "/srv/export".toList V9FS_SM_MAPPED
      (by decide) (by decide) (by decide)).2.2
      (exOpts (some "mapped-xattr".toList) (some "/srv/export".toList))
      (by decide) (by decide) (by decide)⟩

/-- C20: `local_parse_opts` returns -1 or 0, and -1 exactly when the
`security_model` option is missing, or its value is none of the accepted
spellings (compared character by character, so `Mapped` and `none ` with a
trailing blank are rejected), or the `path` option is missing. -/
theorem local_parse_opts_fails_iff (opts : QemuOpts) (fse : FsDriverEntry) :
    ((local_parse_opts opts fse).1 = -1 ∨ (local_parse_opts opts fse).1 = 0) ∧
    ((local_parse_opts opts fse).1 = -1 ↔
      (opts.qemu_opt_get "security_model".toList = none ∨
       (∃ sm, opts.qemu_opt_get "security_model".toList = some sm ∧
          cstr sm ∉ spec_sec_models.map Prod.fst) ∨
       opts.qemu_opt_get "path".toList = none)) ∧
    (∀ p : CStr, (local_parse_opts (exOpts (some "Mapped".toList) (some p)) fse).1 = -1) ∧
    (∀ p : CStr, (local_parse_opts (exOpts (some "none ".toList) (some p)) fse).1 = -1) ∧
    (∀ p : CStr, (local_parse_opts (exOpts (some "none".toList) (some p)) fse).1 = 0) := by
  have key : ∀ o : QemuOpts, ((local_parse_opts o fse).1 = -1 ∨ (local_parse_opts o fse).1 = 0) ∧
      ((local_parse_opts o fse).1 = -1 ↔
        (o.qemu_opt_get "security_model".toList = none ∨
         (∃ sm, o.qemu_opt_get "security_model".toList = some sm ∧
            cstr sm ∉ spec_sec_models.map Prod.fst) ∨
         o.qemu_opt_get "path".toList = none)) := by
    intro o
    rw [local_parse_opts_eq]
    cases hs : o.qemu_opt_get "security_model".toList with
    | none => simp
    | some sm =>
      dsimp only
      cases hl : spec_sec_models.lookup (cstr sm) with
      | none =>
        have hn : cstr sm ∉ spec_sec_models.map Prod.fst := by
          intro hmem
          rw [List.mem_map] at hmem
          obtain ⟨⟨a, b⟩, hab, ha⟩ := hmem
          rw [List.lookup_eq_none_iff] at hl
          have h1 := hl (a, b) hab
          rw [← ha] at h1
          simp at h1
        exact ⟨Or.inl rfl, fun _ => Or.inr (Or.inl ⟨sm, rfl, hn⟩), fun _ => rfl⟩
      | some bit =>
        have hy : cstr sm ∈ spec_sec_models.map Prod.fst := by
          by_contra hn
          have : spec_sec_models.lookup (cstr sm) = none := by
            rw [List.lookup_eq_none_iff]
            intro e he
            by_contra hk
            have hk2 : cstr sm = e.1 := by simpa using hk
            exact hn (List.mem_map.mpr ⟨e, he, hk2.symm⟩)
          rw [this] at hl
          exact absurd hl (by simp)
        cases hp : o.qemu_opt_get "path".toList with
        | none => exact ⟨Or.inl rfl, fun _ => Or.inr (Or.inr rfl), fun _ => rfl⟩
        | some p =>
          refine ⟨Or.inr rfl, fun h => absurd (show (0 : Int) = -1 from h) (by decide), fun h => ?_⟩
          rcases h with h | ⟨sm2, h1, h2⟩ | h
          · cases h
          · cases h1
            exact absurd hy h2
          · cases h
  refine ⟨(key opts).1, (key opts).2, ?_, ?_, ?_⟩
  · intro p
    exact ((key (exOpts (some "Mapped".toList) (some p))).2).mpr
      (Or.inr (Or.inl ⟨"Mapped".toList, rfl, by decide⟩))
  · intro p
    exact ((key (exOpts (some "none ".toList) (some p))).2).mpr
      (Or.inr (Or.inl ⟨"none ".toList, rfl, by decide⟩))
  · intro p
    rw [local_parse_opts_eq]
    rfl

theorem sys_trace {σ : Type} (H : Host σ) (c : HostCall) (w : World σ) :
    (sys H c w).2.trace = w.trace ++ [c] := rfl

theorem fprintfAll_trace {σ : Type} (H : Host σ) (fp : Int) (ts : List CStr) (w : World σ) :
    (fprintfAll H fp ts w).trace = w.trace ++ ts.map (fun t => HostCall.fprintf fp t) := by
  induction ts generalizing w with
  | nil => simp [fprintfAll]
  | cons t ts ih => simp [fprintfAll, ih, sys_trace]

theorem filter_create_fprintf (fp : Int) (ts : List CStr) :
    (ts.map (fun t => HostCall.fprintf fp t)).filter isCreateCall = [] := by
  induction ts with
  | nil => rfl
  | cons t ts ih => simp [List.filter, isCreateCall, ih]

theorem set_xattr_step_trace {σ : Type} (H : Host σ) (b : Bool) (p n : CStr) (v s f : Nat)
    (w : World σ) :
    ∃ rest, (set_xattr_step H b (.setxattr p n v s f) w).2.trace = w.trace ++ rest ∧
      rest.filter isCreateCall = [] := by
  unfold set_xattr_step
  cases b
  · exact ⟨[], by simp, rfl⟩
  · refine ⟨[.setxattr p n v s f], ?_, rfl⟩
    simp only [↓reduceIte]
    split <;> rfl

theorem local_set_xattr_trace {σ : Type} (H : Host σ) (path : CStr) (credp : FsCred)
    (w : World σ) :
    ∃ rest, (local_set_xattr H path credp w).2.trace = w.trace ++ rest ∧
      rest.filter isCreateCall = [] := by
  simp only [local_set_xattr]
  obtain ⟨r1, e1, f1⟩ := set_xattr_step_trace H (credp.fc_uid != U32_MINUS_ONE) path
    "user.virtfs.uid".toList credp.fc_uid 4 0 w
  generalize set_xattr_step H (credp.fc_uid != U32_MINUS_ONE)
    (.setxattr path "user.virtfs.uid".toList credp.fc_uid 4 0) w = s1 at e1 ⊢
  obtain ⟨r2, e2, f2⟩ := set_xattr_step_trace H (credp.fc_gid != U32_MINUS_ONE) path
    "user.virtfs.gid".toList credp.fc_gid 4 0 s1.2
  generalize set_xattr_step H (credp.fc_gid != U32_MINUS_ONE)
    (.setxattr path "user.virtfs.gid".toList credp.fc_gid 4 0) s1.2 = s2 at e2 ⊢
  obtain ⟨r3, e3, f3⟩ := set_xattr_step_trace H (credp.fc_mode != U32_MINUS_ONE) path
    "user.virtfs.mode".toList credp.fc_mode 4 0 s2.2
  generalize set_xattr_step H (credp.fc_mode != U32_MINUS_ONE)
    (.setxattr path "user.virtfs.mode".toList credp.fc_mode 4 0) s2.2 = s3 at e3 ⊢
  obtain ⟨r4, e4, f4⟩ := set_xattr_step_trace H (credp.fc_rdev != U64_MINUS_ONE) path
    "user.virtfs.rdev".toList credp.fc_rdev 8 0 s3.2
  generalize set_xattr_step H (credp.fc_rdev != U64_MINUS_ONE)
    (.setxattr path "user.virtfs.rdev".toList credp.fc_rdev 8 0) s3.2 = s4 at e4 ⊢
  cases s1.1 with
  | some err => exact ⟨r1, e1, f1⟩
  | none =>
    cases s2.1 with
    | some err => exact ⟨r1 ++ r2, by simp only [e2, e1, List.append_assoc], by simp [f1, f2]⟩
    | none =>
      cases s3.1 with
      | some err =>
        exact ⟨r1 ++ r2 ++ r3, by simp only [e3, e2, e1, List.append_assoc], by simp [f1, f2, f3]⟩
      | none =>
        cases s4.1 with
        | some err =>
          exact ⟨r1 ++ r2 ++ r3 ++ r4, by simp only [e4, e3, e2, e1, List.append_assoc],
            by simp [f1, f2, f3, f4]⟩
        | none =>
          exact ⟨r1 ++ r2 ++ r3 ++ r4, by simp only [e4, e3, e2, e1, List.append_assoc],
            by simp [f1, f2, f3, f4]⟩

theorem local_create_mapped_attr_dir_trace {σ : Type} (H : Host σ) (ctx : FsContext) (path : CStr)
    (w : World σ) :
    (local_create_mapped_attr_dir H ctx path w).2.trace =
      w.trace ++ [.mkdir (mapped_attr_dir ctx path) 0o700] := by
  simp only [local_create_mapped_attr_dir, mapped_attr_dir]
  split <;> rfl

theorem local_set_mapped_file_attr_isSome {σ : Type} (H : Host σ) (ctx : FsContext) (path : CStr)
    (credp : FsCred) (w : World σ) :
    (local_set_mapped_file_attr H ctx path credp w).isSome = (local_mapped_attr_path ctx path).isSome := by
  simp only [local_set_mapped_file_attr]
  cases local_mapped_attr_path ctx path with
  | none => rfl
  | some a =>
    simp only
    split_ifs <;> rfl

/-- The host calls of `local_set_mapped_file_attr` extend the trace, and the
only call among them that creates an object with a mode is the `mkdir` of the
hidden directory, made exactly when there is no previous record. -/
theorem local_set_mapped_file_attr_trace {σ : Type} (H : Host σ) (ctx : FsContext) (path : CStr)
    (credp : FsCred) (w : World σ) (attr_path : CStr) (r : Int × World σ)
    (hp : local_mapped_attr_path ctx path = some attr_path)
    (h : local_set_mapped_file_attr H ctx path credp w = some r) :
    ∃ rest, r.2.trace = w.trace ++ rest ∧
      rest.filter isCreateCall =
        if (sys H (.fopen attr_path "r".toList) w).1.ret = 0 then
          [.mkdir (mapped_attr_dir ctx path) 0o700] else [] := by
  simp only [local_set_mapped_file_attr, hp] at h
  have t0 := sys_trace H (.fopen attr_path "r".toList) w
  generalize sys H (.fopen attr_path "r".toList) w = o at h t0 ⊢
  by_cases h0 : o.1.ret = 0
  · simp only [h0, ↓reduceIte] at h ⊢
    have t1 := local_create_mapped_attr_dir_trace H ctx path o.2
    generalize local_create_mapped_attr_dir H ctx path o.2 = d at h t1
    by_cases h1 : d.1 < 0
    · simp only [h1, ↓reduceIte, Option.some.injEq] at h
      subst h
      exact ⟨[.fopen attr_path "r".toList, .mkdir (mapped_attr_dir ctx path) 0o700],
        by simp [t1, t0], rfl⟩
    · simp only [h1, ↓reduceIte] at h
      have t2 := sys_trace H (.fopen attr_path "w".toList) d.2
      generalize sys H (.fopen attr_path "w".toList) d.2 = f at h t2
      by_cases h2 : f.1.ret = 0
      · simp only [h2, ↓reduceIte, Option.some.injEq] at h
        subst h
        exact ⟨[.fopen attr_path "r".toList, .mkdir (mapped_attr_dir ctx path) 0o700,
          .fopen attr_path "w".toList], by simp [t2, t1, t0], rfl⟩
      · simp only [h2, ↓reduceIte, Option.some.injEq] at h
        subst h
        refine ⟨[.fopen attr_path "r".toList, .mkdir (mapped_attr_dir ctx path) 0o700,
          .fopen attr_path "w".toList] ++
          (set_attr_prints (set_attr_merge (set_attr_read none) credp)).map
            (fun t => HostCall.fprintf f.1.ret t) ++ [.fclose f.1.ret], ?_, ?_⟩
        · simp [sys_trace, fprintfAll_trace, t2, t1, t0]
        · simp [List.filter_append, filter_create_fprintf, List.filter, isCreateCall]
  · simp only [h0, ↓reduceIte] at h ⊢
    have t1 := sys_trace H (.fclose o.1.ret) o.2
    generalize sys H (.fclose o.1.ret) o.2 = d at h t1
    simp only [lt_self_iff_false, ↓reduceIte] at h
    have t2 := sys_trace H (.fopen attr_path "w".toList) d.2
    generalize sys H (.fopen attr_path "w".toList) d.2 = f at h t2
    by_cases h2 : f.1.ret = 0
    · simp only [h2, ↓reduceIte, Option.some.injEq] at h
      subst h
      exact ⟨[.fopen attr_path "r".toList, .fclose o.1.ret, .fopen attr_path "w".toList],
        by simp [t2, t1, t0], rfl⟩
    · simp only [h2, ↓reduceIte, Option.some.injEq] at h
      subst h
      refine ⟨[.fopen attr_path "r".toList, .fclose o.1.ret, .fopen attr_path "w".toList] ++
        (set_attr_prints (set_attr_merge (set_attr_read (some o.1.data)) credp)).map
          (fun t => HostCall.fprintf f.1.ret t) ++ [.fclose f.1.ret], ?_, ?_⟩
      · simp [sys_trace, fprintfAll_trace, t2, t1, t0]
      · simp [List.filter_append, filter_create_fprintf, List.filter, isCreateCall]

theorem hiddenDirCreation_mem {σ : Type} (H : Host σ) (ctx : FsContext) (path : CStr)
    (w : World σ) (c : HostCall) (h : c ∈ hiddenDirCreation H ctx path w) :
    c = .mkdir (mapped_attr_dir ctx path) 0o700 := by
  unfold hiddenDirCreation at h
  split at h
  · simp at h
  · split at h
    · simp at h
    · split at h
      · simpa using h
      · simp at h

theorem write_retry_trace {σ : Type} (H : Host σ) (fd : Int) (data : CStr) (fuel : Nat)
    (w : World σ) (r : Int × World σ) (h : write_retry H fd data fuel w = some r) :
    ∃ rest, r.2.trace = w.trace ++ rest ∧ rest.filter isCreateCall = [] := by
  induction fuel generalizing w with
  | zero => simp [write_retry] at h
  | succ n ih =>
    simp only [write_retry] at h
    split at h
    · obtain ⟨rest, e, f⟩ := ih _ h
      exact ⟨.write fd data :: rest, by simp [e, sys_trace], by simp [List.filter, isCreateCall, f]⟩
    · simp only [Option.some.injEq] at h
      subst h
      exact ⟨[.write fd data], rfl, rfl⟩

/-- The calls of the first phase of `local_symlink` under the mapped models:
the `open` that creates the file with the fixed mode, then calls that create
nothing. -/
theorem symlink_store_target_trace {σ : Type} (H : Host σ) (ctx : FsContext)
    (oldpath newpath : CStr) (fuel : Nat) (w : World σ) (x : Sum (Int × World σ) (World σ))
    (h : symlink_store_target H ctx oldpath newpath fuel w = some x) :
    ∃ rest, (match x with | Sum.inl e => e.2 | Sum.inr w1 => w1).trace =
        w.trace ++ .open_ (rpath ctx newpath) (O_CREAT ||| O_EXCL ||| O_RDWR) SM_LOCAL_MODE_BITS :: rest ∧
      rest.filter isCreateCall = [] := by
  simp only [symlink_store_target] at h
  have t0 := sys_trace H (.open_ (rpath ctx newpath) (O_CREAT ||| O_EXCL ||| O_RDWR)
    SM_LOCAL_MODE_BITS) w
  generalize sys H (.open_ (rpath ctx newpath) (O_CREAT ||| O_EXCL ||| O_RDWR)
    SM_LOCAL_MODE_BITS) w = o at h t0
  by_cases h0 : o.1.ret = -1
  · simp only [h0, ↓reduceIte, Option.some.injEq] at h
    subst h
    exact ⟨[], by simp [t0], rfl⟩
  · simp only [h0, ↓reduceIte] at h
    cases hw : write_retry H o.1.ret oldpath fuel o.2 with
    | none => simp [hw] at h
    | some wr =>
      obtain ⟨rest, e, f⟩ := write_retry_trace H o.1.ret oldpath fuel o.2 wr hw
      simp only [hw] at h
      split at h
      · simp only [Option.some.injEq] at h
        subst h
        refine ⟨rest ++ [.close o.1.ret, .remove (rpath ctx newpath)], ?_, ?_⟩
        · simp [err_end, sys_trace, e, t0]
        · simp [List.filter_append, f, List.filter, isCreateCall]
      · simp only [Option.some.injEq] at h
        subst h
        refine ⟨rest ++ [.close o.1.ret], ?_, ?_⟩
        · simp [sys_trace, e, t0]
        · simp [List.filter_append, f, List.filter, isCreateCall]

/-- Persisting the credential under a mapped model (the xattr store under
mapped, the shadow record under mapped-file) extends the trace, and the
object-creating calls it adds are `hiddenDirCreation`, whatever the
credential. -/
theorem persist_trace {σ : Type} (H : Host σ) (ctx : FsContext) (path : CStr) (credp : FsCred)
    (w1 : World σ) (p : Int × World σ)
    (hp : (if flagSet ctx.export_flags V9FS_SM_MAPPED = true
      then some (local_set_xattr H (rpath ctx path) credp w1)
      else local_set_mapped_file_attr H ctx path credp w1) = some p) :
    ∃ rest, p.2.trace = w1.trace ++ rest ∧
      rest.filter isCreateCall = hiddenDirCreation H ctx path w1 := by
  cases hm : flagSet ctx.export_flags V9FS_SM_MAPPED
  · simp only [hm, Bool.false_eq_true, ↓reduceIte] at hp
    have hsome : (local_mapped_attr_path ctx path).isSome = true := by
      rw [← local_set_mapped_file_attr_isSome H ctx path credp w1, hp]; rfl
    obtain ⟨a, ha⟩ := Option.isSome_iff_exists.mp hsome
    obtain ⟨rest, e, f⟩ := local_set_mapped_file_attr_trace H ctx path credp w1 a p ha hp
    refine ⟨rest, e, ?_⟩
    rw [f]
    simp only [hiddenDirCreation, hm, Bool.false_eq_true, ↓reduceIte, ha]
  · simp only [hm, ↓reduceIte, Option.some.injEq] at hp
    subst hp
    obtain ⟨rest, e, f⟩ := local_set_xattr_trace H (rpath ctx path) credp w1
    refine ⟨rest, e, ?_⟩
    rw [f]
    simp only [hiddenDirCreation, hm, ↓reduceIte]

theorem local_mknod_creation {σ : Type} (H : Host σ) (ctx : FsContext) (dir_path name : CStr)
    (w : World σ)
    (hmodel : flagSet ctx.export_flags V9FS_SM_MAPPED = true ∨
      flagSet ctx.export_flags V9FS_SM_MAPPED_FILE = true) :
    ∃ extra : List HostCall,
      (∀ c ∈ extra, c = .mkdir (mapped_attr_dir ctx (fullname dir_path name)) 0o700) ∧
      ∀ (credp : FsCred) (r : Int × World σ), local_mknod H ctx dir_path name credp w = some r →
        ∃ rest, r.2.trace = w.trace ++
            .mknod (rpath ctx (fullname dir_path name)) (SM_LOCAL_MODE_BITS ||| S_IFREG) 0 :: rest ∧
          rest.filter isCreateCall = extra := by
  have t0 := sys_trace H (.mknod (rpath ctx (fullname dir_path name))
    (SM_LOCAL_MODE_BITS ||| S_IFREG) 0) w
  refine ⟨if (sys H (.mknod (rpath ctx (fullname dir_path name))
      (SM_LOCAL_MODE_BITS ||| S_IFREG) 0) w).1.ret = -1 then []
    else hiddenDirCreation H ctx (fullname dir_path name)
      (sys H (.mknod (rpath ctx (fullname dir_path name)) (SM_LOCAL_MODE_BITS ||| S_IFREG) 0) w).2,
    ?_, ?_⟩
  · intro c hc
    split at hc
    · simp at hc
    · exact hiddenDirCreation_mem _ _ _ _ _ hc
  · intro credp r h
    simp only [local_mknod] at h
    generalize sys H (.mknod (rpath ctx (fullname dir_path name))
      (SM_LOCAL_MODE_BITS ||| S_IFREG) 0) w = m at h t0 ⊢
    by_cases h0 : m.1.ret = -1
    · have hr : r = (m.1.ret, m.2) := by
        cases hm : flagSet ctx.export_flags V9FS_SM_MAPPED
        · have hf : flagSet ctx.export_flags V9FS_SM_MAPPED_FILE = true := by simpa [hm] using hmodel
          simpa [hm, hf, h0] using h.symm
        · simpa [hm, h0] using h.symm
      subst hr
      exact ⟨[], by simp [t0], by simp [h0]⟩
    · simp only [h0, ↓reduceIte]
      have key : ∃ p, (if flagSet ctx.export_flags V9FS_SM_MAPPED = true
            then some (local_set_xattr H (rpath ctx (fullname dir_path name)) credp m.2)
            else local_set_mapped_file_attr H ctx (fullname dir_path name) credp m.2) = some p ∧
          (r = p ∨ r = (p.1, err_end H ctx (fullname dir_path name) p.2.errno p.2)) := by
        cases hm : flagSet ctx.export_flags V9FS_SM_MAPPED
        · have hf : flagSet ctx.export_flags V9FS_SM_MAPPED_FILE = true := by simpa [hm] using hmodel
          simp only [hm, hf, h0, Bool.false_eq_true, ↓reduceIte] at h ⊢
          cases hs : local_set_mapped_file_attr H ctx (fullname dir_path name) credp m.2 with
          | none => simp [hs] at h
          | some p =>
            simp only [hs] at h
            refine ⟨p, rfl, ?_⟩
            split at h
            · exact Or.inr (Option.some.inj h).symm
            · exact Or.inl (Option.some.inj h).symm
        · simp only [hm, h0, ↓reduceIte] at h ⊢
          refine ⟨_, rfl, ?_⟩
          split at h
          · exact Or.inr (Option.some.inj h).symm
          · exact Or.inl (Option.some.inj h).symm
      obtain ⟨p, hp, hr⟩ := key
      obtain ⟨rest, e, f⟩ := persist_trace H ctx (fullname dir_path name) credp m.2 p hp
      rcases hr with hr | hr
      · subst hr
        exact ⟨rest, by simp [e, t0], f⟩
      · subst hr
        refine ⟨rest ++ [.remove (rpath ctx (fullname dir_path name))], ?_, ?_⟩
        · simp [err_end, sys_trace, e, t0]
        · simp [List.filter_append, f, List.filter, isCreateCall]

theorem local_mkdir_creation {σ : Type} (H : Host σ) (ctx : FsContext) (dir_path name : CStr)
    (w : World σ)
    (hmodel : flagSet ctx.export_flags V9FS_SM_MAPPED = true ∨
      flagSet ctx.export_flags V9FS_SM_MAPPED_FILE = true) :
    ∃ extra : List HostCall,
      (∀ c ∈ extra, c = .mkdir (mapped_attr_dir ctx (fullname dir_path name)) 0o700) ∧
      ∀ (credp : FsCred) (r : Int × World σ), local_mkdir H ctx dir_path name credp w = some r →
        ∃ rest, r.2.trace = w.trace ++
            .mkdir (rpath ctx (fullname dir_path name)) SM_LOCAL_DIR_MODE_BITS :: rest ∧
          rest.filter isCreateCall = extra := by
  have t0 := sys_trace H (.mkdir (rpath ctx (fullname dir_path name)) SM_LOCAL_DIR_MODE_BITS) w
  refine ⟨if (sys H (.mkdir (rpath ctx (fullname dir_path name))
      SM_LOCAL_DIR_MODE_BITS) w).1.ret = -1 then []
    else hiddenDirCreation H ctx (fullname dir_path name)
      (sys H (.mkdir (rpath ctx (fullname dir_path name)) SM_LOCAL_DIR_MODE_BITS) w).2,
    ?_, ?_⟩
  · intro c hc
    split at hc
    · simp at hc
    · exact hiddenDirCreation_mem _ _ _ _ _ hc
  · intro credp r h
    simp only [local_mkdir] at h
    generalize sys H (.mkdir (rpath ctx (fullname dir_path name)) SM_LOCAL_DIR_MODE_BITS) w = m
      at h t0 ⊢
    by_cases h0 : m.1.ret = -1
    · have hr : r = (m.1.ret, m.2) := by
        cases hm : flagSet ctx.export_flags V9FS_SM_MAPPED
        · have hf : flagSet ctx.export_flags V9FS_SM_MAPPED_FILE = true := by simpa [hm] using hmodel
          simpa [hm, hf, h0] using h.symm
        · simpa [hm, h0] using h.symm
      subst hr
      exact ⟨[], by simp [t0], by simp [h0]⟩
    · simp only [h0, ↓reduceIte]
      have key : ∃ p, (if flagSet ctx.export_flags V9FS_SM_MAPPED = true
            then some (local_set_xattr H (rpath ctx (fullname dir_path name))
              { credp with fc_mode := credp.fc_mode ||| S_IFDIR } m.2)
            else local_set_mapped_file_attr H ctx (fullname dir_path name)
              { credp with fc_mode := credp.fc_mode ||| S_IFDIR } m.2) = some p ∧
          (r = p ∨ r = (p.1, err_end H ctx (fullname dir_path name) p.2.errno p.2)) := by
        cases hm : flagSet ctx.export_flags V9FS_SM_MAPPED
        · have hf : flagSet ctx.export_flags V9FS_SM_MAPPED_FILE = true := by simpa [hm] using hmodel
          simp only [hm, hf, h0, Bool.false_eq_true, ↓reduceIte] at h ⊢
          cases hs : local_set_mapped_file_attr H ctx (fullname dir_path name)
              { credp with fc_mode := credp.fc_mode ||| S_IFDIR } m.2 with
          | none => simp [hs] at h
          | some p =>
            simp only [hs] at h
            refine ⟨p, rfl, ?_⟩
            split at h
            · exact Or.inr (Option.some.inj h).symm
            · exact Or.inl (Option.some.inj h).symm
        · simp only [hm, h0, ↓reduceIte] at h ⊢
          refine ⟨_, rfl, ?_⟩
          split at h
          · exact Or.inr (Option.some.inj h).symm
          · exact Or.inl (Option.some.inj h).symm
      obtain ⟨p, hp, hr⟩ := key
      obtain ⟨rest, e, f⟩ := persist_trace H ctx (fullname dir_path name) _ m.2 p hp
      rcases hr with hr | hr
      · subst hr
        exact ⟨rest, by simp [e, t0], f⟩
      · subst hr
        refine ⟨rest ++ [.remove (rpath ctx (fullname dir_path name))], ?_, ?_⟩
        · simp [err_end, sys_trace, e, t0]
        · simp [List.filter_append, f, List.filter, isCreateCall]

theorem local_open2_creation {σ : Type} (H : Host σ) (ctx : FsContext) (dir_path name : CStr)
    (flags : Nat) (w : World σ)
    (hmodel : flagSet ctx.export_flags V9FS_SM_MAPPED = true ∨
      flagSet ctx.export_flags V9FS_SM_MAPPED_FILE = true) :
    ∃ extra : List HostCall,
      (∀ c ∈ extra, c = .mkdir (mapped_attr_dir ctx (fullname dir_path name)) 0o700) ∧
      ∀ (credp : FsCred) (r : Int × Option Int × World σ),
        local_open2 H ctx dir_path name flags credp w = some r →
        ∃ rest, r.2.2.trace = w.trace ++
            .open_ (rpath ctx (fullname dir_path name)) flags SM_LOCAL_MODE_BITS :: rest ∧
          rest.filter isCreateCall = extra := by
  have t0 := sys_trace H (.open_ (rpath ctx (fullname dir_path name)) flags SM_LOCAL_MODE_BITS) w
  refine ⟨if (sys H (.open_ (rpath ctx (fullname dir_path name)) flags
      SM_LOCAL_MODE_BITS) w).1.ret = -1 then []
    else hiddenDirCreation H ctx (fullname dir_path name)
      (sys H (.open_ (rpath ctx (fullname dir_path name)) flags SM_LOCAL_MODE_BITS) w).2,
    ?_, ?_⟩
  · intro c hc
    split at hc
    · simp at hc
    · exact hiddenDirCreation_mem _ _ _ _ _ hc
  · intro credp r h
    simp only [local_open2] at h
    generalize sys H (.open_ (rpath ctx (fullname dir_path name)) flags SM_LOCAL_MODE_BITS) w = m
      at h t0 ⊢
    by_cases h0 : m.1.ret = -1
    · have hr : r.2.2 = m.2 := by
        cases hm : flagSet ctx.export_flags V9FS_SM_MAPPED
        · have hf : flagSet ctx.export_flags V9FS_SM_MAPPED_FILE = true := by simpa [hm] using hmodel
          simp only [hm, hf, h0, Bool.false_eq_true, ↓reduceIte, Option.some.injEq] at h
          rw [← h]
        · simp only [hm, h0, ↓reduceIte, Option.some.injEq] at h
          rw [← h]
      exact ⟨[], by simp [hr, t0], by simp [h0]⟩
    · simp only [h0, ↓reduceIte]
      have key : ∃ p, (if flagSet ctx.export_flags V9FS_SM_MAPPED = true
            then some (local_set_xattr H (rpath ctx (fullname dir_path name))
              { credp with fc_mode := credp.fc_mode ||| S_IFREG } m.2)
            else local_set_mapped_file_attr H ctx (fullname dir_path name)
              { credp with fc_mode := credp.fc_mode ||| S_IFREG } m.2) = some p ∧
          (r.2.2 = p.2 ∨
            r.2.2 = err_end_open2 H ctx (fullname dir_path name) m.1.ret p.2.errno p.2) := by
        cases hm : flagSet ctx.export_flags V9FS_SM_MAPPED
        · have hf : flagSet ctx.export_flags V9FS_SM_MAPPED_FILE = true := by simpa [hm] using hmodel
          simp only [hm, hf, h0, Bool.false_eq_true, ↓reduceIte] at h ⊢
          cases hs : local_set_mapped_file_attr H ctx (fullname dir_path name)
              { credp with fc_mode := credp.fc_mode ||| S_IFREG } m.2 with
          | none => simp [hs] at h
          | some p =>
            simp only [hs] at h
            refine ⟨p, rfl, ?_⟩
            split at h
            · exact Or.inr (by rw [← Option.some.inj h])
            · exact Or.inl (by rw [← Option.some.inj h])
        · simp only [hm, h0, ↓reduceIte] at h ⊢
          refine ⟨_, rfl, ?_⟩
          split at h
          · exact Or.inr (by rw [← Option.some.inj h])
          · exact Or.inl (by rw [← Option.some.inj h])
      obtain ⟨p, hp, hr⟩ := key
      obtain ⟨rest, e, f⟩ := persist_trace H ctx (fullname dir_path name) _ m.2 p hp
      rcases hr with hr | hr
      · exact ⟨rest, by simp [hr, e, t0], f⟩
      · refine ⟨rest ++ [.close m.1.ret, .remove (rpath ctx (fullname dir_path name))], ?_, ?_⟩
        · simp [hr, err_end_open2, sys_trace, e, t0]
        · simp [List.filter_append, f, List.filter, isCreateCall]

theorem local_symlink_creation {σ : Type} (H : Host σ) (ctx : FsContext)
    (oldpath dir_path name : CStr) (fuel : Nat) (w : World σ)
    (hmodel : flagSet ctx.export_flags V9FS_SM_MAPPED = true ∨
      flagSet ctx.export_flags V9FS_SM_MAPPED_FILE = true) :
    ∃ extra : List HostCall,
      (∀ c ∈ extra, c = .mkdir (mapped_attr_dir ctx (fullname dir_path name)) 0o700) ∧
      ∀ (credp : FsCred) (r : Int × World σ),
        local_symlink H ctx oldpath dir_path name credp fuel w = some r →
        ∃ rest, r.2.trace = w.trace ++
            .open_ (rpath ctx (fullname dir_path name)) (O_CREAT ||| O_EXCL ||| O_RDWR)
              SM_LOCAL_MODE_BITS :: rest ∧
          rest.filter isCreateCall = extra := by
  refine ⟨match symlink_store_target H ctx oldpath (fullname dir_path name) fuel w with
    | some (Sum.inr w1) => hiddenDirCreation H ctx (fullname dir_path name) w1
    | _ => [], ?_, ?_⟩
  · intro c hc
    split at hc
    · exact hiddenDirCreation_mem _ _ _ _ _ hc
    · simp at hc
  · intro credp r h
    simp only [local_symlink] at h
    cases hs : symlink_store_target H ctx oldpath (fullname dir_path name) fuel w with
    | none =>
      cases hm : flagSet ctx.export_flags V9FS_SM_MAPPED
      · have hf : flagSet ctx.export_flags V9FS_SM_MAPPED_FILE = true := by simpa [hm] using hmodel
        simp [hm, hf, hs] at h
      · simp [hm, hs] at h
    | some x =>
      obtain ⟨rest0, e0, f0⟩ := symlink_store_target_trace H ctx oldpath (fullname dir_path name)
        fuel w x hs
      cases x with
      | inl early =>
        have hr : r = early := by
          cases hm : flagSet ctx.export_flags V9FS_SM_MAPPED
          · have hf : flagSet ctx.export_flags V9FS_SM_MAPPED_FILE = true := by
              simpa [hm] using hmodel
            simpa [hm, hf, hs] using h.symm
          · simpa [hm, hs] using h.symm
        subst hr
        exact ⟨rest0, e0, f0⟩
      | inr w1 =>
        simp only at e0 ⊢
        have key : ∃ p, (if flagSet ctx.export_flags V9FS_SM_MAPPED = true
              then some (local_set_xattr H (rpath ctx (fullname dir_path name))
                { credp with fc_mode := credp.fc_mode ||| S_IFLNK } w1)
              else local_set_mapped_file_attr H ctx (fullname dir_path name)
                { credp with fc_mode := credp.fc_mode ||| S_IFLNK } w1) = some p ∧
            (r = p ∨ r = (p.1, err_end H ctx (fullname dir_path name) p.2.errno p.2)) := by
          cases hm : flagSet ctx.export_flags V9FS_SM_MAPPED
          · have hf : flagSet ctx.export_flags V9FS_SM_MAPPED_FILE = true := by
              simpa [hm] using hmodel
            simp only [hm, hf, hs, Bool.false_eq_true, ↓reduceIte] at h ⊢
            cases hp : local_set_mapped_file_attr H ctx (fullname dir_path name)
                { credp with fc_mode := credp.fc_mode ||| S_IFLNK } w1 with
            | none => simp [hp] at h
            | some p =>
              simp only [hp] at h
              refine ⟨p, rfl, ?_⟩
              split at h
              · exact Or.inr (Option.some.inj h).symm
              · exact Or.inl (Option.some.inj h).symm
          · simp only [hm, hs, ↓reduceIte] at h ⊢
            refine ⟨_, rfl, ?_⟩
            split at h
            · exact Or.inr (Option.some.inj h).symm
            · exact Or.inl (Option.some.inj h).symm
        obtain ⟨p, hp, hr⟩ := key
        obtain ⟨rest, e, f⟩ := persist_trace H ctx (fullname dir_path name) _ w1 p hp
        rcases hr with hr | hr
        · subst hr
          exact ⟨rest0 ++ rest, by simp [e, e0], by simp [List.filter_append, f0, f]⟩
        · subst hr
          refine ⟨rest0 ++ rest ++ [.remove (rpath ctx (fullname dir_path name))], ?_, ?_⟩
          · simp [err_end, sys_trace, e, e0]
          · simp [List.filter_append, f0, f, List.filter, isCreateCall]

theorem local_mknod_isSome {σ : Type} (H : Host σ) (ctx : FsContext) (dir_path name : CStr)
    (c1 : FsCred) (w : World σ)
    (hmodel : flagSet ctx.export_flags V9FS_SM_MAPPED = true ∨
      flagSet ctx.export_flags V9FS_SM_MAPPED_FILE = true) :
    (local_mknod H ctx dir_path name c1 w).isSome =
      (flagSet ctx.export_flags V9FS_SM_MAPPED ||
        decide ((sys H (.mknod (rpath ctx (fullname dir_path name))
          (SM_LOCAL_MODE_BITS ||| S_IFREG) 0) w).1.ret = -1) ||
        (local_mapped_attr_path ctx (fullname dir_path name)).isSome) := by
  simp only [local_mknod]
  cases hm : flagSet ctx.export_flags V9FS_SM_MAPPED
  · have hf : flagSet ctx.export_flags V9FS_SM_MAPPED_FILE = true := by simpa [hm] using hmodel
    simp only [hf, Bool.false_eq_true, ↓reduceIte, Bool.false_or]
    by_cases h0 : (sys H (.mknod (rpath ctx (fullname dir_path name))
        (SM_LOCAL_MODE_BITS ||| S_IFREG) 0) w).1.ret = -1
    · simp [h0]
    · have hs := local_set_mapped_file_attr_isSome H ctx (fullname dir_path name) c1
        (sys H (.mknod (rpath ctx (fullname dir_path name)) (SM_LOCAL_MODE_BITS ||| S_IFREG) 0) w).2
      simp only [h0, ↓reduceIte, decide_False, Bool.false_or]
      rw [← hs]
      cases local_set_mapped_file_attr H ctx (fullname dir_path name) c1
        (sys H (.mknod (rpath ctx (fullname dir_path name)) (SM_LOCAL_MODE_BITS ||| S_IFREG) 0) w).2 with
      | none => rfl
      | some p => simp only; split <;> rfl
  · simp only [↓reduceIte, Bool.true_or]
    split
    · rfl
    · split <;> rfl

theorem local_mkdir_isSome {σ : Type} (H : Host σ) (ctx : FsContext) (dir_path name : CStr)
    (c1 : FsCred) (w : World σ)
    (hmodel : flagSet ctx.export_flags V9FS_SM_MAPPED = true ∨
      flagSet ctx.export_flags V9FS_SM_MAPPED_FILE = true) :
    (local_mkdir H ctx dir_path name c1 w).isSome =
      (flagSet ctx.export_flags V9FS_SM_MAPPED ||
        decide ((sys H (.mkdir (rpath ctx (fullname dir_path name))
          SM_LOCAL_DIR_MODE_BITS) w).1.ret = -1) ||
        (local_mapped_attr_path ctx (fullname dir_path name)).isSome) := by
  simp only [local_mkdir]
  cases hm : flagSet ctx.export_flags V9FS_SM_MAPPED
  · have hf : flagSet ctx.export_flags V9FS_SM_MAPPED_FILE = true := by simpa [hm] using hmodel
    simp only [hf, Bool.false_eq_true, ↓reduceIte, Bool.false_or]
    by_cases h0 : (sys H (.mkdir (rpath ctx (fullname dir_path name))
        SM_LOCAL_DIR_MODE_BITS) w).1.ret = -1
    · simp [h0]
    · have hs := local_set_mapped_file_attr_isSome H ctx (fullname dir_path name)
        { c1 with fc_mode := c1.fc_mode ||| S_IFDIR }
        (sys H (.mkdir (rpath ctx (fullname dir_path name)) SM_LOCAL_DIR_MODE_BITS) w).2
      simp only [h0, ↓reduceIte, decide_False, Bool.false_or]
      rw [← hs]
      cases local_set_mapped_file_attr H ctx (fullname dir_path name)
        { c1 with fc_mode := c1.fc_mode ||| S_IFDIR }
        (sys H (.mkdir (rpath ctx (fullname dir_path name)) SM_LOCAL_DIR_MODE_BITS) w).2 with
      | none => rfl
      | some p => simp only; split <;> rfl
  · simp only [↓reduceIte, Bool.true_or]
    split
    · rfl
    · split <;> rfl

theorem local_open2_isSome {σ : Type} (H : Host σ) (ctx : FsContext) (dir_path name : CStr)
    (flags : Nat) (c1 : FsCred) (w : World σ)
    (hmodel : flagSet ctx.export_flags V9FS_SM_MAPPED = true ∨
      flagSet ctx.export_flags V9FS_SM_MAPPED_FILE = true) :
    (local_open2 H ctx dir_path name flags c1 w).isSome =
      (flagSet ctx.export_flags V9FS_SM_MAPPED ||
        decide ((sys H (.open_ (rpath ctx (fullname dir_path name)) flags
          SM_LOCAL_MODE_BITS) w).1.ret = -1) ||
        (local_mapped_attr_path ctx (fullname dir_path name)).isSome) := by
  simp only [local_open2]
  cases hm : flagSet ctx.export_flags V9FS_SM_MAPPED
  · have hf : flagSet ctx.export_flags V9FS_SM_MAPPED_FILE = true := by simpa [hm] using hmodel
    simp only [hf, Bool.false_eq_true, ↓reduceIte, Bool.false_or]
    by_cases h0 : (sys H (.open_ (rpath ctx (fullname dir_path name)) flags
        SM_LOCAL_MODE_BITS) w).1.ret = -1
    · simp [h0]
    · have hs := local_set_mapped_file_attr_isSome H ctx (fullname dir_path name)
        { c1 with fc_mode := c1.fc_mode ||| S_IFREG }
        (sys H (.open_ (rpath ctx (fullname dir_path name)) flags SM_LOCAL_MODE_BITS) w).2
      simp only [h0, ↓reduceIte, decide_False, Bool.false_or]
      rw [← hs]
      cases local_set_mapped_file_attr H ctx (fullname dir_path name)
        { c1 with fc_mode := c1.fc_mode ||| S_IFREG }
        (sys H (.open_ (rpath ctx (fullname dir_path name)) flags SM_LOCAL_MODE_BITS) w).2 with
      | none => rfl
      | some p => simp only; split <;> rfl
  · simp only [↓reduceIte, Bool.true_or]
    split
    · rfl
    · split <;> rfl

theorem local_symlink_isSome {σ : Type} (H : Host σ) (ctx : FsContext)
    (oldpath dir_path name : CStr) (c1 : FsCred) (fuel : Nat) (w : World σ)
    (hmodel : flagSet ctx.export_flags V9FS_SM_MAPPED = true ∨
      flagSet ctx.export_flags V9FS_SM_MAPPED_FILE = true) :
    (local_symlink H ctx oldpath dir_path name c1 fuel w).isSome =
      match symlink_store_target H ctx oldpath (fullname dir_path name) fuel w with
      | none => false
      | some (Sum.inl _) => true
      | some (Sum.inr _) =>
        (flagSet ctx.export_flags V9FS_SM_MAPPED ||
          (local_mapped_attr_path ctx (fullname dir_path name)).isSome) := by
  simp only [local_symlink]
  cases hs : symlink_store_target H ctx oldpath (fullname dir_path name) fuel w with
  | none =>
    cases hm : flagSet ctx.export_flags V9FS_SM_MAPPED
    · have hf : flagSet ctx.export_flags V9FS_SM_MAPPED_FILE = true := by simpa [hm] using hmodel
      simp [hf]
    · simp
  | some x =>
    cases x with
    | inl e =>
      cases hm : flagSet ctx.export_flags V9FS_SM_MAPPED
      · have hf : flagSet ctx.export_flags V9FS_SM_MAPPED_FILE = true := by simpa [hm] using hmodel
        simp [hf]
      · simp
    | inr w1 =>
      cases hm : flagSet ctx.export_flags V9FS_SM_MAPPED
      · have hf : flagSet ctx.export_flags V9FS_SM_MAPPED_FILE = true := by simpa [hm] using hmodel
        have hi := local_set_mapped_file_attr_isSome H ctx (fullname dir_path name)
          { c1 with fc_mode := c1.fc_mode ||| S_IFLNK } w1
        simp only [hf, Bool.false_eq_true, ↓reduceIte, Bool.false_or]
        rw [← hi]
        cases local_set_mapped_file_attr H ctx (fullname dir_path name)
          { c1 with fc_mode := c1.fc_mode ||| S_IFLNK } w1 with
        | none => rfl
        | some p => simp only; split <;> rfl
      · simp only [↓reduceIte, Bool.true_or]
        split <;> rfl

theorem takeWhile_append_stop {α : Type} (p : α → Bool) (l r : List α) (x : α)
    (h : ∀ a ∈ l, p a = true) (hx : p x = false) : (l ++ x :: r).takeWhile p = l := by
  induction l with
  | nil => simp [List.takeWhile, hx]
  | cons a l ih =>
    have ha : p a = true := h a (List.mem_cons_self a l)
    simp only [List.cons_append, List.takeWhile, ha]
    exact congrArg (List.cons a) (ih (fun b hb => h b (List.mem_cons_of_mem a hb)))

theorem stripTrailingSlashes_id (s : CStr) (h : s.getLast? ≠ some '/') :
    stripTrailingSlashes s = s := by
  unfold stripTrailingSlashes
  cases hr : s.reverse with
  | nil =>
    have : s = [] := by simpa using hr
    subst this
    rfl
  | cons a t =>
    have hs : s = t.reverse ++ [a] := by
      have := congrArg List.reverse hr
      simpa using this
    have ha : a ≠ '/' := by
      intro e
      apply h
      rw [hs, e]
      simp
    have hb : (a == '/') = false := by simpa using ha
    rw [List.dropWhile_cons_of_neg (by simp [hb]), ← hr, List.reverse_reverse]

theorem getLast_append_leaf (D N : CStr) (hN : N ≠ []) (hs : '/' ∉ N) :
    (D ++ '/' :: N).getLast? ≠ some '/' := by
  intro h
  have hne : '/' :: N ≠ [] := by simp
  rw [List.getLast?_append_of_ne_nil D hne] at h
  cases N with
  | nil => exact hN rfl
  | cons b l =>
    rw [List.getLast?_cons_cons] at h
    exact hs (List.mem_of_getLast?_eq_some h)

theorem basenameSplit_leaf (D N : CStr) (hN : N ≠ []) (hs : '/' ∉ N) :
    basenameSplit (D ++ '/' :: N) = some (D, N) := by
  have hstrip := stripTrailingSlashes_id (D ++ '/' :: N) (getLast_append_leaf D N hN hs)
  have htw : ((D ++ '/' :: N).reverse.takeWhile (fun c => c != '/')) = N.reverse := by
    have : (D ++ '/' :: N).reverse = N.reverse ++ '/' :: D.reverse := by simp
    rw [this]
    apply takeWhile_append_stop
    · intro a ha
      have : a ∈ N := List.mem_reverse.mp ha
      have hne : a ≠ '/' := fun e => hs (e ▸ this)
      simpa using hne
    · simp
  unfold basenameSplit
  have h1 : D ++ '/' :: N ≠ [] := by simp
  simp only [h1, ↓reduceIte, hstrip, htw, List.reverse_reverse, List.length_append,
    List.length_cons]
  have h2 : ¬ N.length = D.length + (N.length + 1) := by omega
  have h3 : D.length + (N.length + 1) - N.length - 1 = D.length := by omega
  simp only [h2, ↓reduceIte, h3, List.take_left']

theorem lastSlash_leaf (D N : CStr) (hs : '/' ∉ N) :
    lastSlash (D ++ '/' :: N) = some D.length := by
  have htw : ((D ++ '/' :: N).reverse.takeWhile (fun c => c != '/')) = N.reverse := by
    have : (D ++ '/' :: N).reverse = N.reverse ++ '/' :: D.reverse := by simp
    rw [this]
    apply takeWhile_append_stop
    · intro a ha
      have : a ∈ N := List.mem_reverse.mp ha
      have hne : a ≠ '/' := fun e => hs (e ▸ this)
      simpa using hne
    · simp
  unfold lastSlash
  simp only [htw, List.length_reverse, List.length_append, List.length_cons]
  have h2 : ¬ N.length = D.length + (N.length + 1) := by omega
  have h3 : D.length + (N.length + 1) - N.length - 1 = D.length := by omega
  simp only [h2, ↓reduceIte, h3]

theorem dirname_leaf (D N : CStr) (hN : N ≠ []) (hs : '/' ∉ N) (hD : D ≠ [])
    (hl : D.getLast? ≠ some '/') : dirname (D ++ '/' :: N) = D := by
  have hNl : 0 < N.length := List.length_pos.mpr hN
  have hDl : 0 < D.length := List.length_pos.mpr hD
  have ht : (D ++ '/' :: N).take D.length = D := by simp
  unfold dirname
  simp only [lastSlash_leaf D N hs, List.length_append, List.length_cons, ht,
    stripTrailingSlashes_id D hl]
  have h1 : ¬ (D.length ≠ 0 ∧ D.length + 1 = D.length + (N.length + 1)) := by omega
  have h2 : ¬ D.length = 0 := by omega
  simp only [h1, ↓reduceIte, h2]
  rw [ht, stripTrailingSlashes_id D hl, if_neg h2, ht]

theorem snprintf_PATH_MAX_fits (text : CStr) (h : text.length < PATH_MAX) :
    snprintf_PATH_MAX text = text := by
  unfold snprintf_PATH_MAX
  apply List.take_of_length_le
  omega

/-- C18: for a leaf name `N` (non-empty, without `/`) in the directory string
`D`, the record of `D/N` is `root/D/.virtfs_metadata/N`, cut to the buffer,
and exactly that string when it fits in `PATH_MAX`; when moreover `D` is
non-empty and does not end in `/`, the one host call of
`local_create_mapped_attr_dir` for the same path is `mkdir` of
`root/D/.virtfs_metadata` with mode 0700, and the record is that directory
followed by `/N`. -/
theorem local_mapped_attr_path_layout (ctx : FsContext) (D N : CStr) (hN : N ≠ [])
    (hs : '/' ∉ N) :
    local_mapped_attr_path ctx (fullname D N) =
      some (snprintf_PATH_MAX (ctx.fs_root ++ "/".toList ++ D ++ "/".toList ++ VIRTFS_META_DIR ++
        "/".toList ++ N)) ∧
    ((ctx.fs_root ++ "/".toList ++ D ++ "/".toList ++ VIRTFS_META_DIR ++ "/".toList ++ N).length
        < PATH_MAX →
      local_mapped_attr_path ctx (fullname D N) =
        some (ctx.fs_root ++ "/".toList ++ D ++ "/".toList ++ VIRTFS_META_DIR ++ "/".toList ++ N) ∧
      (D ≠ [] → D.getLast? ≠ some '/' →
        ∀ (σ : Type) (H : Host σ) (w : World σ),
          (local_create_mapped_attr_dir H ctx (fullname D N) w).2.trace =
            w.trace ++ [.mkdir (ctx.fs_root ++ "/".toList ++ D ++ "/".toList ++ VIRTFS_META_DIR) 0o700] ∧
          local_mapped_attr_path ctx (fullname D N) =
            some ((ctx.fs_root ++ "/".toList ++ D ++ "/".toList ++ VIRTFS_META_DIR) ++
              "/".toList ++ N))) := by
  have hfull : fullname D N = D ++ '/' :: N := by simp [fullname]
  have h1 : local_mapped_attr_path ctx (fullname D N) =
      some (snprintf_PATH_MAX (ctx.fs_root ++ "/".toList ++ D ++ "/".toList ++ VIRTFS_META_DIR ++
        "/".toList ++ N)) := by
    unfold local_mapped_attr_path
    rw [hfull, basenameSplit_leaf D N hN hs]
  refine ⟨h1, fun hfit => ?_⟩
  have h2 := snprintf_PATH_MAX_fits _ hfit
  refine ⟨by rw [h1, h2], fun hD hl σ H w => ⟨?_, by rw [h1, h2]⟩⟩
  rw [local_create_mapped_attr_dir_trace, mapped_attr_dir, hfull, dirname_leaf D N hN hs hD hl]
  have hfit2 : (ctx.fs_root ++ "/".toList ++ D ++ "/".toList ++ VIRTFS_META_DIR).length < PATH_MAX := by
    simp only [List.length_append] at hfit ⊢
    omega
  rw [snprintf_PATH_MAX_fits _ hfit2]

/-- C18 at a concrete path: `/d/f` under the export `/export`. -/
theorem local_mapped_attr_path_layout_witness :
    local_mapped_attr_path exCtxMappedFile "/d/f".toList =
      some "/export//d/.virtfs_metadata/f".toList ∧
    (local_create_mapped_attr_dir scriptHost exCtxMappedFile "/d/f".toList
        (scriptWorld [okRes 0])).2.trace = [.mkdir "/export//d/.virtfs_metadata".toList 0o700] :=
  ⟨((local_mapped_attr_path_layout exCtxMappedFile "/d".toList "f".toList (by decide)
      (by decide)).2 (by decide)).1,
   (((local_mapped_attr_path_layout exCtxMappedFile "/d".toList "f".toList (by decide)
      (by decide)).2 (by decide)).2 (by decide) (by decide) _ scriptHost
      (scriptWorld [okRes 0])).1⟩

/-- C12, the code's behaviour when the parent directory has no hidden
directory: under mapped-file, for the removal of a file (`flags` 0), when
`openat_dir` of `.virtfs_metadata` fails, its result -1 is used as the
directory descriptor of the record's `unlinkat`; when the host rejects that
call with an `errno` other than ENOENT (EBADF for the invalid descriptor),
`local_unlinkat_common` returns the failure and never issues the `unlinkat`
of the object. -/
theorem local_unlinkat_common_no_hidden_dir {σ : Type} (H : Host σ) (ctx : FsContext)
    (dirfd : Int) (name : CStr) (w : World σ)
    (hf : flagSet ctx.export_flags V9FS_SM_MAPPED_FILE = true)
    (hopen : (openat_dir H dirfd VIRTFS_META_DIR w).1 = -1)
    (hun : (sys H (.unlinkat (-1) name 0) (openat_dir H dirfd VIRTFS_META_DIR w).2).1.ret < 0)
    (herr : (sys H (.unlinkat (-1) name 0) (openat_dir H dirfd VIRTFS_META_DIR w).2).2.errno
      ≠ ENOENT) :
    (local_unlinkat_common H ctx dirfd name 0 w).1 =
      (sys H (.unlinkat (-1) name 0) (openat_dir H dirfd VIRTFS_META_DIR w).2).1.ret ∧
    (local_unlinkat_common H ctx dirfd name 0 w).2.errno =
      (sys H (.unlinkat (-1) name 0) (openat_dir H dirfd VIRTFS_META_DIR w).2).2.errno ∧
    (local_unlinkat_common H ctx dirfd name 0 w).2.trace =
      w.trace ++ [.openat dirfd VIRTFS_META_DIR
        (O_DIRECTORY ||| O_RDONLY ||| O_NOFOLLOW ||| O_PATH_9P_UTIL) 0,
        .unlinkat (-1) name 0, .close (-1)] := by
  have h0 : (0 : Nat) ≠ AT_REMOVEDIR := by decide
  have hm : unlinkat_own_meta H dirfd name 0 w = Sum.inr w := by
    simp only [unlinkat_own_meta, h0, ↓reduceIte]
  have ht : (openat_dir H dirfd VIRTFS_META_DIR w).2.trace = w.trace ++ [.openat dirfd VIRTFS_META_DIR
      (O_DIRECTORY ||| O_RDONLY ||| O_NOFOLLOW ||| O_PATH_9P_UTIL) 0] := rfl
  simp only [local_unlinkat_common, hf, ↓reduceIte, hm]
  generalize openat_dir H dirfd VIRTFS_META_DIR w = m at hopen hun herr ht ⊢
  rw [hopen]
  have hc : (close_preserve_errno H (-1) (sys H (.unlinkat (-1) name 0) m.2).2).errno =
      (sys H (.unlinkat (-1) name 0) m.2).2.errno := rfl
  have hct : (close_preserve_errno H (-1) (sys H (.unlinkat (-1) name 0) m.2).2).trace =
      (sys H (.unlinkat (-1) name 0) m.2).2.trace ++ [.close (-1)] := rfl
  have hcond : (sys H (.unlinkat (-1) name 0) m.2).1.ret < 0 ∧
      (close_preserve_errno H (-1) (sys H (.unlinkat (-1) name 0) m.2).2).errno ≠ ENOENT :=
    ⟨hun, by rw [hc]; exact herr⟩
  rw [if_pos hcond]
  refine ⟨rfl, hc, ?_⟩
  rw [hct, sys_trace, ht]
  simp

/-- C12 at a concrete host tree: `/export/d` holds the file `f` and no hidden
directory; `local_unlinkat_common` on the open directory returns -1 with
EBADF and the file is still there. -/
theorem local_unlinkat_common_no_hidden_dir_witness :
    (local_unlinkat_common fsysHost exCtxMappedFile 5 "f".toList 0 (fsysWorld exAlienTree)).1 = -1 ∧
    (local_unlinkat_common fsysHost exCtxMappedFile 5 "f".toList 0 (fsysWorld exAlienTree)).2.errno
      = EBADF ∧
    tGet (local_unlinkat_common fsysHost exCtxMappedFile 5 "f".toList 0
      (fsysWorld exAlienTree)).2.hs.tree ["export".toList, "d".toList, "f".toList]
      = some (.file "data".toList) ∧
    tGet exAlienTree.tree ["export".toList, "d".toList, VIRTFS_META_DIR] = none :=
  ⟨(local_unlinkat_common_no_hidden_dir fsysHost exCtxMappedFile 5 "f".toList
      (fsysWorld exAlienTree) (by decide) (by decide) (by decide) (by decide)).1.trans (by decide),
   (local_unlinkat_common_no_hidden_dir fsysHost exCtxMappedFile 5 "f".toList
      (fsysWorld exAlienTree) (by decide) (by decide) (by decide) (by decide)).2.1.trans (by decide),
   by decide, by decide⟩

/-- The part of C12 the code keeps: under mapped-file, for the removal of a
file, when the hidden directory can be opened and the record's `unlinkat`
fails with ENOENT (no record), the object's `unlinkat` is issued and its
result returned. -/
theorem local_unlinkat_common_missing_record {σ : Type} (H : Host σ) (ctx : FsContext)
    (dirfd : Int) (name : CStr) (w : World σ)
    (hf : flagSet ctx.export_flags V9FS_SM_MAPPED_FILE = true)
    (herr : (sys H (.unlinkat (openat_dir H dirfd VIRTFS_META_DIR w).1 name 0)
      (openat_dir H dirfd VIRTFS_META_DIR w).2).2.errno = ENOENT) :
    local_unlinkat_common H ctx dirfd name 0 w =
      ((sys H (.unlinkat dirfd name 0)
        (close_preserve_errno H (openat_dir H dirfd VIRTFS_META_DIR w).1
          (sys H (.unlinkat (openat_dir H dirfd VIRTFS_META_DIR w).1 name 0)
            (openat_dir H dirfd VIRTFS_META_DIR w).2).2)).1.ret,
       (sys H (.unlinkat dirfd name 0)
        (close_preserve_errno H (openat_dir H dirfd VIRTFS_META_DIR w).1
          (sys H (.unlinkat (openat_dir H dirfd VIRTFS_META_DIR w).1 name 0)
            (openat_dir H dirfd VIRTFS_META_DIR w).2).2)).2) := by
  have h0 : (0 : Nat) ≠ AT_REMOVEDIR := by decide
  have hm : unlinkat_own_meta H dirfd name 0 w = Sum.inr w := by
    simp only [unlinkat_own_meta, h0, ↓reduceIte]
  simp only [local_unlinkat_common, hf, ↓reduceIte, hm]
  generalize openat_dir H dirfd VIRTFS_META_DIR w = m at herr ⊢
  have hc : (close_preserve_errno H m.1 (sys H (.unlinkat m.1 name 0) m.2).2).errno =
      (sys H (.unlinkat m.1 name 0) m.2).2.errno := rfl
  have hcond : ¬ ((sys H (.unlinkat m.1 name 0) m.2).1.ret < 0 ∧
      (close_preserve_errno H m.1 (sys H (.unlinkat m.1 name 0) m.2).2).errno ≠ ENOENT) := by
    rw [hc, herr]
    simp
  rw [if_neg hcond]

/-! ### The file-tree host: trees, handles, and the calls of the symlink store -/

theorem tGet_ne_nil_of_none (t : List (List CStr × Node)) (loc : List CStr)
    (h : tGet t loc = none) : loc ≠ [] := by
  intro e
  rw [e] at h
  simp [tGet] at h

theorem tGet_tSet_same (t : List (List CStr × Node)) (loc : List CStr) (n : Node)
    (h : loc ≠ []) : tGet (tSet t loc n) loc = some n := by
  simp [tGet, tSet, h, List.lookup_cons]

theorem tGet_tSet_other (t : List (List CStr × Node)) (loc q : List CStr) (n : Node)
    (h : q ≠ loc) : tGet (tSet t loc n) q = tGet t q := by
  unfold tGet tSet
  by_cases hq : q = []
  · simp [hq]
  · have hb : (q == loc) = false := by simpa using h
    simp [hq, List.lookup_cons, hb]

theorem sys_hs {σ : Type} (H : Host σ) (c : HostCall) (w : World σ) :
    (sys H c w).2.hs = (H.step w.hs c).2 := rfl

theorem sys_res {σ : Type} (H : Host σ) (c : HostCall) (w : World σ) :
    (sys H c w).1 = (H.step w.hs c).1 := rfl

theorem sys_errno {σ : Type} (H : Host σ) (c : HostCall) (w : World σ) :
    (sys H c w).2.errno = (H.step w.hs c).1.err.getD w.errno := rfl

/-- The `open` with `O_CREAT | O_EXCL | O_RDWR` on the file-tree host: when it
does not fail, the location was free, and afterwards it holds an empty file
and the descriptor returned refers to it at offset 0. -/
theorem fsysOpen_creat_excl (s : Fsys) (loc : List CStr)
    (h : (fsysOpen s loc (O_CREAT ||| O_EXCL ||| O_RDWR)).1.ret ≠ -1) :
    tGet s.tree loc = none ∧
    fsysOpen s loc (O_CREAT ||| O_EXCL ||| O_RDWR) =
      fsysAlloc s (tSet s.tree loc (.file [])) (.fileAt loc 0 O_RDWR) := by
  have f1 : (O_CREAT ||| O_EXCL ||| O_RDWR) &&& O_CREAT ≠ 0 := by decide
  have f2 : (O_CREAT ||| O_EXCL ||| O_RDWR) &&& O_EXCL ≠ 0 := by decide
  have f3 : (O_CREAT ||| O_EXCL ||| O_RDWR) &&& 3 = O_RDWR := by decide
  unfold fsysOpen at h ⊢
  cases hg : tGet s.tree loc with
  | some n =>
    cases n <;> simp [hg, f1, f2, failRes] at h
  | none =>
    simp only [hg, f1, ↓reduceIte, f3] at h ⊢
    cases hp : tGet s.tree loc.dropLast with
    | none => simp [hp, failRes] at h
    | some n =>
      cases n with
      | file c => simp [hp, failRes] at h
      | dir => simp

theorem fsysClose_tree (s : Fsys) (fd : Int) : (fsysClose s fd).2.tree = s.tree := by
  unfold fsysClose
  split <;> rfl

theorem fsysWrite_fresh (s : Fsys) (loc : List CStr) (data : CStr) (acc : Nat)
    (t : List (List CStr × Node)) (c : CStr) (hacc : acc ≠ O_RDONLY)
    (ht : tGet t loc = some (.file c)) (hl : loc ≠ []) :
    (fsysWrite (fsysAlloc s t (.fileAt loc 0 acc)).2 ((s.next : Int) + 1) data).1 =
      okRes data.length ∧
    tGet (fsysWrite (fsysAlloc s t (.fileAt loc 0 acc)).2 ((s.next : Int) + 1) data).2.tree loc =
      some (.file (data ++ c.drop data.length)) := by
  unfold fsysWrite fsysAlloc
  simp only [List.lookup_cons, beq_self_eq_true, hacc, ↓reduceIte, ht, List.take_zero,
    List.nil_append, Nat.zero_add]
  exact ⟨trivial, tGet_tSet_same _ _ _ hl⟩

/-- The first phase of `local_symlink` under the mapped models on the
file-tree host: when it reaches the credential step, the location of the new
name was free before and holds a regular file with the target as content. -/
theorem symlink_store_target_fsys (ctx : FsContext) (T newpath : CStr) (fuel : Nat)
    (w w1 : World Fsys)
    (h : symlink_store_target fsysHost ctx T newpath fuel w = some (Sum.inr w1)) :
    tGet w.hs.tree (hostLocation (rpath ctx newpath)) = none ∧
    tGet w1.hs.tree (hostLocation (rpath ctx newpath)) = some (.file T) := by
  simp only [symlink_store_target] at h
  by_cases h0 : (sys fsysHost (.open_ (rpath ctx newpath) (O_CREAT ||| O_EXCL ||| O_RDWR)
      SM_LOCAL_MODE_BITS) w).1.ret = -1
  · simp [h0] at h
  · simp only [h0, ↓reduceIte] at h
    have hop := fsysOpen_creat_excl w.hs (hostLocation (rpath ctx newpath)) h0
    have hl := tGet_ne_nil_of_none _ _ hop.1
    have hres : (sys fsysHost (.open_ (rpath ctx newpath) (O_CREAT ||| O_EXCL ||| O_RDWR)
        SM_LOCAL_MODE_BITS) w).1.ret = (w.hs.next : Int) + 1 := by
      rw [sys_res]
      show (fsysOpen w.hs (hostLocation (rpath ctx newpath)) (O_CREAT ||| O_EXCL ||| O_RDWR)).1.ret = _
      rw [hop.2]
      rfl
    have hhs : (sys fsysHost (.open_ (rpath ctx newpath) (O_CREAT ||| O_EXCL ||| O_RDWR)
        SM_LOCAL_MODE_BITS) w).2.hs =
        (fsysAlloc w.hs (tSet w.hs.tree (hostLocation (rpath ctx newpath)) (.file []))
          (.fileAt (hostLocation (rpath ctx newpath)) 0 O_RDWR)).2 := by
      rw [sys_hs]
      show (fsysOpen w.hs (hostLocation (rpath ctx newpath)) (O_CREAT ||| O_EXCL ||| O_RDWR)).2 = _
      rw [hop.2]
    generalize sys fsysHost (.open_ (rpath ctx newpath) (O_CREAT ||| O_EXCL ||| O_RDWR)
        SM_LOCAL_MODE_BITS) w = o at h hres hhs
    refine ⟨hop.1, ?_⟩
    cases fuel with
    | zero => simp [write_retry] at h
    | succ n =>
      have hw := fsysWrite_fresh w.hs (hostLocation (rpath ctx newpath)) T O_RDWR
        (tSet w.hs.tree (hostLocation (rpath ctx newpath)) (.file [])) [] (by decide)
        (tGet_tSet_same _ _ _ hl) hl
      have hwr : (sys fsysHost (.write o.1.ret T) o.2).1 = okRes T.length := by
        rw [sys_res, hhs, hres]
        exact hw.1
      have hwt : tGet (sys fsysHost (.write o.1.ret T) o.2).2.hs.tree
          (hostLocation (rpath ctx newpath)) = some (.file T) := by
        rw [sys_hs, hhs, hres]
        have := hw.2
        simpa using this
      have hne : ¬ ((sys fsysHost (.write o.1.ret T) o.2).1.ret = -1 ∧
          (sys fsysHost (.write o.1.ret T) o.2).2.errno = EINTR) := by
        rw [hwr]
        simp [okRes]
      simp only [write_retry, hne, ↓reduceIte] at h
      have hlen : (sys fsysHost (.write o.1.ret T) o.2).1.ret = T.length := by rw [hwr]; rfl
      simp only [hlen, ne_eq, not_true_eq_false, ↓reduceIte, Option.some.injEq,
        Sum.inr.injEq] at h
      rw [← h, sys_hs]
      show tGet (fsysClose _ _).2.tree _ = _
      rw [fsysClose_tree]
      exact hwt

theorem set_xattr_step_fsys_hs (b : Bool) (p n : CStr) (v s f : Nat) (w : World Fsys) :
    (set_xattr_step fsysHost b (.setxattr p n v s f) w).2.hs = w.hs := by
  unfold set_xattr_step
  cases b
  · rfl
  · have hh : (sys fsysHost (.setxattr p n v s f) w).2.hs = w.hs := by
      rw [sys_hs]
      show (match tGet w.hs.tree (hostLocation p) with
        | none => (failRes ENOENT, w.hs)
        | some _ => (okRes 0, w.hs)).2 = w.hs
      split <;> rfl
    simp only [↓reduceIte]
    split <;> exact hh

/-- On the file-tree host `local_set_xattr` leaves the tree and the handles as
they are. -/
theorem local_set_xattr_fsys_hs (path : CStr) (credp : FsCred) (w : World Fsys) :
    (local_set_xattr fsysHost path credp w).2.hs = w.hs := by
  simp only [local_set_xattr]
  have e1 := set_xattr_step_fsys_hs (credp.fc_uid != U32_MINUS_ONE) path
    "user.virtfs.uid".toList credp.fc_uid 4 0 w
  generalize set_xattr_step fsysHost (credp.fc_uid != U32_MINUS_ONE)
    (.setxattr path "user.virtfs.uid".toList credp.fc_uid 4 0) w = s1 at e1 ⊢
  have e2 := set_xattr_step_fsys_hs (credp.fc_gid != U32_MINUS_ONE) path
    "user.virtfs.gid".toList credp.fc_gid 4 0 s1.2
  generalize set_xattr_step fsysHost (credp.fc_gid != U32_MINUS_ONE)
    (.setxattr path "user.virtfs.gid".toList credp.fc_gid 4 0) s1.2 = s2 at e2 ⊢
  have e3 := set_xattr_step_fsys_hs (credp.fc_mode != U32_MINUS_ONE) path
    "user.virtfs.mode".toList credp.fc_mode 4 0 s2.2
  generalize set_xattr_step fsysHost (credp.fc_mode != U32_MINUS_ONE)
    (.setxattr path "user.virtfs.mode".toList credp.fc_mode 4 0) s2.2 = s3 at e3 ⊢
  have e4 := set_xattr_step_fsys_hs (credp.fc_rdev != U64_MINUS_ONE) path
    "user.virtfs.rdev".toList credp.fc_rdev 8 0 s3.2
  generalize set_xattr_step fsysHost (credp.fc_rdev != U64_MINUS_ONE)
    (.setxattr path "user.virtfs.rdev".toList credp.fc_rdev 8 0) s3.2 = s4 at e4 ⊢
  cases s1.1 with
  | some err => exact e1
  | none =>
    cases s2.1 with
    | some err => exact e2.trans e1
    | none =>
      cases s3.1 with
      | some err => exact e3.trans (e2.trans e1)
      | none =>
        cases s4.1 with
        | some err => exact e4.trans (e3.trans (e2.trans e1))
        | none => exact e4.trans (e3.trans (e2.trans e1))

theorem fsysAlloc_tree (s : Fsys) (t : List (List CStr × Node)) (h : Handle) :
    (fsysAlloc s t h).2.tree = t := rfl

theorem fsysFopen_frame (s : Fsys) (loc q : List CStr) (mode : CStr) (hq : loc ≠ q) :
    tGet (fsysFopen s loc mode).2.tree q = tGet s.tree q := by
  have hq2 : q ≠ loc := fun e => hq e.symm
  unfold fsysFopen
  split
  · split <;> rfl
  · split
    · split
      · rfl
      · rw [fsysAlloc_tree, tGet_tSet_other _ _ _ _ hq2]
      · split
        · rfl
        · rfl
        · rw [fsysAlloc_tree, tGet_tSet_other _ _ _ _ hq2]
    · rfl

theorem fsysMkdir_frame (s : Fsys) (loc q : List CStr) (hex : tGet s.tree q ≠ none) :
    tGet (fsysMkdir s loc).2.tree q = tGet s.tree q := by
  unfold fsysMkdir
  cases hg : tGet s.tree loc with
  | some n => rfl
  | none =>
    have hne : q ≠ loc := by
      intro e
      rw [e] at hex
      exact hex hg
    simp only
    split
    · rfl
    · rfl
    · exact tGet_tSet_other _ _ _ _ hne

theorem fsysWrite_frame (s : Fsys) (fd : Int) (data : CStr) (loc q : List CStr)
    (hh : ∃ pos acc, s.handles.lookup fd = some (.fileAt loc pos acc)) (hq : loc ≠ q) :
    tGet (fsysWrite s fd data).2.tree q = tGet s.tree q ∧
    ∃ pos acc, (fsysWrite s fd data).2.handles.lookup fd = some (.fileAt loc pos acc) := by
  have hq2 : q ≠ loc := fun e => hq e.symm
  obtain ⟨pos, acc, hl⟩ := hh
  unfold fsysWrite
  simp only [hl]
  split
  · exact ⟨rfl, pos, acc, hl⟩
  · split
    · refine ⟨tGet_tSet_other _ _ _ _ hq2, pos + data.length, acc, ?_⟩
      simp [List.lookup_cons]
    · exact ⟨rfl, pos, acc, hl⟩

theorem fprintfAll_fsys_frame (fp : Int) (ts : List CStr) (w : World Fsys) (loc q : List CStr)
    (hh : ∃ pos acc, w.hs.handles.lookup fp = some (.fileAt loc pos acc)) (hq : loc ≠ q) :
    tGet (fprintfAll fsysHost fp ts w).hs.tree q = tGet w.hs.tree q := by
  induction ts generalizing w with
  | nil => rfl
  | cons t ts ih =>
    simp only [fprintfAll]
    have hstep := fsysWrite_frame w.hs fp t loc q hh hq
    have hhs : (sys fsysHost (.fprintf fp t) w).2.hs = (fsysWrite w.hs fp t).2 := rfl
    rw [ih (sys fsysHost (.fprintf fp t) w).2 (by rw [hhs]; exact hstep.2), hhs]
    exact hstep.1

theorem fsysFopen_w_handle (s : Fsys) (loc : List CStr)
    (h : (fsysFopen s loc "w".toList).1.ret ≠ 0) :
    ∃ pos acc, (fsysFopen s loc "w".toList).2.handles.lookup (fsysFopen s loc "w".toList).1.ret =
      some (.fileAt loc pos acc) := by
  have hm : ¬ ("w".toList = "r".toList) := by decide
  unfold fsysFopen at h ⊢
  simp only [hm, ↓reduceIte] at h ⊢
  cases hg : tGet s.tree loc with
  | some n =>
    cases n with
    | dir => simp [hg, failRes] at h
    | file c =>
      simp only [fsysAlloc, okRes]
      exact ⟨0, O_WRONLY, by simp [List.lookup_cons]⟩
  | none =>
    simp only [hg] at h ⊢
    cases hp : tGet s.tree loc.dropLast with
    | none => simp [hp, failRes] at h
    | some n =>
      cases n with
      | file c => simp [hp, failRes] at h
      | dir =>
        simp only [fsysAlloc, okRes]
        exact ⟨0, O_WRONLY, by simp [List.lookup_cons]⟩

/-- On the file-tree host `local_set_mapped_file_attr` changes nothing at a
location that holds an object and is not the location of the record. -/
theorem local_set_mapped_file_attr_fsys_frame (ctx : FsContext) (path : CStr) (credp : FsCred)
    (w : World Fsys) (r : Int × World Fsys) (a : CStr) (q : List CStr)
    (hp : local_mapped_attr_path ctx path = some a) (hq : hostLocation a ≠ q)
    (hex : tGet w.hs.tree q ≠ none)
    (h : local_set_mapped_file_attr fsysHost ctx path credp w = some r) :
    tGet r.2.hs.tree q = tGet w.hs.tree q := by
  simp only [local_set_mapped_file_attr, hp] at h
  have f0 : tGet (sys fsysHost (.fopen a "r".toList) w).2.hs.tree q = tGet w.hs.tree q :=
    fsysFopen_frame w.hs (hostLocation a) q "r".toList hq
  generalize sys fsysHost (.fopen a "r".toList) w = o at h f0
  -- the state at `update_map_file`
  have key : ∀ (pre : Option CStr × Int × World Fsys),
      tGet pre.2.2.hs.tree q = tGet w.hs.tree q →
      (if pre.2.1 < 0 then some (pre.2.1, pre.2.2)
        else
          if (sys fsysHost (.fopen a "w".toList) pre.2.2).1.ret = 0 then
            some (-1, (sys fsysHost (.fopen a "w".toList) pre.2.2).2)
          else
            some (pre.2.1, (sys fsysHost (.fclose (sys fsysHost (.fopen a "w".toList) pre.2.2).1.ret)
              (fprintfAll fsysHost (sys fsysHost (.fopen a "w".toList) pre.2.2).1.ret
                (set_attr_prints (set_attr_merge (set_attr_read pre.1) credp))
                (sys fsysHost (.fopen a "w".toList) pre.2.2).2)).2)) = some r →
      tGet r.2.hs.tree q = tGet w.hs.tree q := by
    intro pre hpre hr
    split at hr
    · rw [← Option.some.inj hr]
      exact hpre
    · have f1 : tGet (sys fsysHost (.fopen a "w".toList) pre.2.2).2.hs.tree q =
          tGet pre.2.2.hs.tree q := fsysFopen_frame pre.2.2.hs (hostLocation a) q "w".toList hq
      split at hr
      · rw [← Option.some.inj hr, f1]
        exact hpre
      · rename_i hne
        have hh := fsysFopen_w_handle pre.2.2.hs (hostLocation a) hne
        rw [← Option.some.inj hr]
        show tGet (fsysClose _ _).2.tree q = _
        rw [fsysClose_tree, fprintfAll_fsys_frame _ _ _ (hostLocation a) q hh hq, f1]
        exact hpre
  by_cases h0 : o.1.ret = 0
  · simp only [h0, ↓reduceIte] at h
    refine key (none, local_create_mapped_attr_dir fsysHost ctx path o.2) ?_ h
    have hd : (local_create_mapped_attr_dir fsysHost ctx path o.2).2.hs =
        (fsysMkdir o.2.hs (hostLocation (mapped_attr_dir ctx path))).2 := by
      rw [local_create_mapped_attr_dir_eq]
      split <;> rfl
    show tGet (local_create_mapped_attr_dir fsysHost ctx path o.2).2.hs.tree q = _
    rw [hd, fsysMkdir_frame _ _ _ (by rw [f0]; exact hex), f0]
  · simp only [h0, ↓reduceIte] at h
    refine key (some o.1.data, (0, (sys fsysHost (.fclose o.1.ret) o.2).2)) ?_ h
    show tGet (fsysClose _ _).2.tree q = _
    rw [fsysClose_tree]
    exact f0

theorem fsysOpen_rdonly_file (s : Fsys) (loc : List CStr) (T : CStr)
    (h : tGet s.tree loc = some (.file T)) :
    fsysOpen s loc (O_RDONLY ||| O_NOFOLLOW) = fsysAlloc s s.tree (.fileAt loc 0 O_RDONLY) := by
  have f1 : ¬ ((O_RDONLY ||| O_NOFOLLOW) &&& O_CREAT ≠ 0 ∧ (O_RDONLY ||| O_NOFOLLOW) &&& O_EXCL ≠ 0) := by
    decide
  have f2 : ¬ ((O_RDONLY ||| O_NOFOLLOW) &&& O_DIRECTORY ≠ 0) := by decide
  have f3 : (O_RDONLY ||| O_NOFOLLOW) &&& 3 = O_RDONLY := by decide
  unfold fsysOpen
  simp only [h, f1, f2, ↓reduceIte, f3]

theorem fsysRead_fresh (s : Fsys) (loc : List CStr) (T : CStr) (count : Nat)
    (h : tGet s.tree loc = some (.file T)) :
    (fsysRead (fsysAlloc s s.tree (.fileAt loc 0 O_RDONLY)).2 ((s.next : Int) + 1) count).1.ret =
      (T.take count).length ∧
    (fsysRead (fsysAlloc s s.tree (.fileAt loc 0 O_RDONLY)).2 ((s.next : Int) + 1) count).1.data =
      T.take count ∧
    (fsysRead (fsysAlloc s s.tree (.fileAt loc 0 O_RDONLY)).2 ((s.next : Int) + 1) count).2.tree =
      s.tree := by
  have ha : ¬ (O_RDONLY = O_WRONLY) := by decide
  unfold fsysRead fsysAlloc
  simp only [List.lookup_cons, beq_self_eq_true, ha, ↓reduceIte, h, List.drop_zero]
  exact ⟨trivial, trivial, trivial⟩

/-- On the file-tree host, under the mapped models, `local_readlink` of a
path whose location holds a regular file returns the length and the bytes of
the content that fit into the buffer, and leaves the tree as it is. -/
theorem local_readlink_fsys (ctx : FsContext) (path T : CStr) (bufsz fuel : Nat) (w : World Fsys)
    (hmodel : flagSet ctx.export_flags V9FS_SM_MAPPED = true ∨
      flagSet ctx.export_flags V9FS_SM_MAPPED_FILE = true)
    (hfile : tGet w.hs.tree (hostLocation (rpath ctx path)) = some (.file T))
    (hfuel : fuel ≠ 0) :
    ∃ w3, local_readlink fsysHost ctx path bufsz fuel w =
      some (((T.take bufsz).length : Int), T.take bufsz, w3) ∧ w3.hs.tree = w.hs.tree := by
  have hm : (flagSet ctx.export_flags V9FS_SM_MAPPED ||
      flagSet ctx.export_flags V9FS_SM_MAPPED_FILE) = true := by
    rcases hmodel with h | h <;> simp [h]
  have hop := fsysOpen_rdonly_file w.hs _ T hfile
  have hres : (sys fsysHost (.open_ (rpath ctx path) (O_RDONLY ||| O_NOFOLLOW) 0) w).1.ret =
      (w.hs.next : Int) + 1 := by
    rw [sys_res]
    show (fsysOpen w.hs (hostLocation (rpath ctx path)) (O_RDONLY ||| O_NOFOLLOW)).1.ret = _
    rw [hop]
    rfl
  have hhs : (sys fsysHost (.open_ (rpath ctx path) (O_RDONLY ||| O_NOFOLLOW) 0) w).2.hs =
      (fsysAlloc w.hs w.hs.tree (.fileAt (hostLocation (rpath ctx path)) 0 O_RDONLY)).2 := by
    rw [sys_hs]
    show (fsysOpen w.hs (hostLocation (rpath ctx path)) (O_RDONLY ||| O_NOFOLLOW)).2 = _
    rw [hop]
  simp only [local_readlink, hm, ↓reduceIte]
  generalize sys fsysHost (.open_ (rpath ctx path) (O_RDONLY ||| O_NOFOLLOW) 0) w = o at hres hhs ⊢
  have h1 : ¬ o.1.ret = -1 := by rw [hres]; omega
  simp only [h1, ↓reduceIte]
  cases fuel with
  | zero => exact absurd rfl hfuel
  | succ n =>
    have hr := fsysRead_fresh w.hs (hostLocation (rpath ctx path)) T bufsz hfile
    have hret : (sys fsysHost (.read o.1.ret bufsz) o.2).1.ret = (T.take bufsz).length := by
      rw [sys_res, hhs, hres]; exact hr.1
    have hdata : (sys fsysHost (.read o.1.ret bufsz) o.2).1.data = T.take bufsz := by
      rw [sys_res, hhs, hres]; exact hr.2.1
    have htree : (sys fsysHost (.read o.1.ret bufsz) o.2).2.hs.tree = w.hs.tree := by
      rw [sys_hs, hhs, hres]; exact hr.2.2
    have hne : ¬ ((sys fsysHost (.read o.1.ret bufsz) o.2).1.ret = -1 ∧
        (sys fsysHost (.read o.1.ret bufsz) o.2).2.errno = EINTR) := by
      rw [hret]
      intro hc
      have := hc.1
      omega
    simp only [read_retry, hne, ↓reduceIte, hret, hdata]
    refine ⟨_, rfl, ?_⟩
    show (fsysClose _ _).2.tree = _
    rw [fsysClose_tree, htree]

theorem symlink_store_target_early {σ : Type} (H : Host σ) (ctx : FsContext)
    (T newpath : CStr) (fuel : Nat) (w : World σ) (e : Int × World σ)
    (h : symlink_store_target H ctx T newpath fuel w = some (Sum.inl e)) : e.1 = -1 := by
  simp only [symlink_store_target] at h
  split at h
  · rename_i h0
    simp only [Option.some.injEq, Sum.inl.injEq] at h
    rw [← h]
    exact h0
  · split at h
    · simp at h
    · split at h
      · simp only [Option.some.injEq, Sum.inl.injEq] at h
        rw [← h]
      · simp at h

/-- The round trip of C17 where it holds: on the file-tree host, under mapped
or mapped-file, when under mapped-file the record of the new name lies at
another location than the new name itself, a successful `local_symlink`
(return value 0) of the target `T` at a name that was free leaves a regular
file with content `T` there, and `local_readlink` with a buffer of at least
`|T|` bytes returns `|T|` and delivers `T`. -/
theorem local_symlink_readlink_fsys (ctx : FsContext) (T dir_path name : CStr) (credp : FsCred)
    (fuel bufsz fuel2 : Nat) (w w2 : World Fsys)
    (hmodel : flagSet ctx.export_flags V9FS_SM_MAPPED = true ∨
      flagSet ctx.export_flags V9FS_SM_MAPPED_FILE = true)
    (hdist : flagSet ctx.export_flags V9FS_SM_MAPPED = false →
      ∀ a, local_mapped_attr_path ctx (fullname dir_path name) = some a →
        hostLocation a ≠ hostLocation (rpath ctx (fullname dir_path name)))
    (hsucc : local_symlink fsysHost ctx T dir_path name credp fuel w = some (0, w2))
    (hbuf : T.length ≤ bufsz) (hfuel2 : fuel2 ≠ 0) :
    tGet w.hs.tree (hostLocation (rpath ctx (fullname dir_path name))) = none ∧
    tGet w2.hs.tree (hostLocation (rpath ctx (fullname dir_path name))) = some (.file T) ∧
    ∃ w3, local_readlink fsysHost ctx (fullname dir_path name) bufsz fuel2 w2 =
      some ((T.length : Int), T, w3) := by
  have main : tGet w.hs.tree (hostLocation (rpath ctx (fullname dir_path name))) = none ∧
      tGet w2.hs.tree (hostLocation (rpath ctx (fullname dir_path name))) = some (.file T) := by
    simp only [local_symlink] at hsucc
    cases hs : symlink_store_target fsysHost ctx T (fullname dir_path name) fuel w with
    | none =>
      cases hm : flagSet ctx.export_flags V9FS_SM_MAPPED
      · have hf : flagSet ctx.export_flags V9FS_SM_MAPPED_FILE = true := by simpa [hm] using hmodel
        simp [hm, hf, hs] at hsucc
      · simp [hm, hs] at hsucc
    | some x =>
      cases x with
      | inl e =>
        have he := symlink_store_target_early fsysHost ctx T _ fuel w e hs
        cases hm : flagSet ctx.export_flags V9FS_SM_MAPPED
        · have hf : flagSet ctx.export_flags V9FS_SM_MAPPED_FILE = true := by
            simpa [hm] using hmodel
          simp only [hm, hf, hs, Bool.false_eq_true, ↓reduceIte, Option.some.injEq] at hsucc
          rw [hsucc] at he
          exact absurd (show (0 : Int) = -1 from he) (by decide)
        · simp only [hm, hs, ↓reduceIte, Option.some.injEq] at hsucc
          rw [hsucc] at he
          exact absurd (show (0 : Int) = -1 from he) (by decide)
      | inr w1 =>
        obtain ⟨hfree, hT⟩ := symlink_store_target_fsys ctx T _ fuel w w1 hs
        refine ⟨hfree, ?_⟩
        cases hm : flagSet ctx.export_flags V9FS_SM_MAPPED
        · have hf : flagSet ctx.export_flags V9FS_SM_MAPPED_FILE = true := by
            simpa [hm] using hmodel
          simp only [hm, hf, hs, Bool.false_eq_true, ↓reduceIte] at hsucc
          cases hp : local_set_mapped_file_attr fsysHost ctx (fullname dir_path name)
              { credp with fc_mode := credp.fc_mode ||| S_IFLNK } w1 with
          | none => simp [hp] at hsucc
          | some p =>
            simp only [hp] at hsucc
            have hsome : (local_mapped_attr_path ctx (fullname dir_path name)).isSome = true := by
              rw [← local_set_mapped_file_attr_isSome fsysHost ctx (fullname dir_path name)
                { credp with fc_mode := credp.fc_mode ||| S_IFLNK } w1, hp]
              rfl
            obtain ⟨a, ha⟩ := Option.isSome_iff_exists.mp hsome
            have hfr := local_set_mapped_file_attr_fsys_frame ctx (fullname dir_path name)
              { credp with fc_mode := credp.fc_mode ||| S_IFLNK } w1 p a
              (hostLocation (rpath ctx (fullname dir_path name))) ha (hdist hm a ha)
              (by rw [hT]; simp) hp
            split at hsucc
            · rename_i h1
              simp only [Option.some.injEq, Prod.mk.injEq] at hsucc
              rw [hsucc.1] at h1
              exact absurd h1 (by decide)
            · simp only [Option.some.injEq, Prod.mk.injEq] at hsucc
              rw [← hsucc.2, hfr, hT]
        · simp only [hm, hs, ↓reduceIte] at hsucc
          split at hsucc
          · rename_i h1
            simp only [Option.some.injEq, Prod.mk.injEq] at hsucc
            rw [hsucc.1] at h1
            exact absurd h1 (by decide)
          · simp only [Option.some.injEq, Prod.mk.injEq] at hsucc
            rw [← hsucc.2, local_set_xattr_fsys_hs, hT]
  refine ⟨main.1, main.2, ?_⟩
  obtain ⟨w3, h3, _⟩ := local_readlink_fsys ctx (fullname dir_path name) T bufsz fuel2 w2 hmodel
    main.2 hfuel2
  have ht : T.take bufsz = T := List.take_of_length_le hbuf
  rw [ht] at h3
  exact ⟨w3, h3⟩

theorem fprintfAll_fsys_content (fp : Int) (ts : List CStr) (w : World Fsys) (loc : List CStr)
    (c : CStr) (hh : w.hs.handles.lookup fp = some (.fileAt loc c.length O_WRONLY))
    (hc : tGet w.hs.tree loc = some (.file c)) (hl : loc ≠ []) :
    tGet (fprintfAll fsysHost fp ts w).hs.tree loc = some (.file (c ++ ts.flatten)) := by
  induction ts generalizing w c with
  | nil => simpa [fprintfAll] using hc
  | cons t ts ih =>
    simp only [fprintfAll, List.flatten_cons]
    have ha : ¬ (O_WRONLY = O_RDONLY) := by decide
    have hstep : (sys fsysHost (.fprintf fp t) w).2.hs =
        { w.hs with
          tree := tSet w.hs.tree loc (.file (c ++ t)),
          handles := (fp, .fileAt loc ((c ++ t).length) O_WRONLY) :: w.hs.handles } := by
      rw [sys_hs]
      show (fsysWrite w.hs fp t).2 = _
      unfold fsysWrite
      simp only [hh, ha, ↓reduceIte, hc, List.take_length, List.length_append]
      have hd : c.drop (c.length + t.length) = [] := List.drop_eq_nil_of_le (by omega)
      rw [hd, List.append_nil]
    have := ih (sys fsysHost (.fprintf fp t) w).2 (c ++ t)
      (by rw [hstep]; simp [List.lookup_cons])
      (by rw [hstep]; exact tGet_tSet_same _ _ _ hl)
    rw [this, List.append_assoc]

/-- On the file-tree host, `local_set_mapped_file_attr` for a path whose
record exists with content `prev` returns 0 and leaves the record with the
content `set_attr_content (some prev) credp`. -/
theorem local_set_mapped_file_attr_fsys_update (ctx : FsContext) (path : CStr) (credp : FsCred)
    (w : World Fsys) (a prev : CStr)
    (hp : local_mapped_attr_path ctx path = some a)
    (hfile : tGet w.hs.tree (hostLocation a) = some (.file prev)) :
    ∃ w2, local_set_mapped_file_attr fsysHost ctx path credp w = some (0, w2) ∧
      tGet w2.hs.tree (hostLocation a) = some (.file (set_attr_content (some prev) credp)) := by
  have hl : hostLocation a ≠ [] := by
    intro e
    rw [e] at hfile
    simp [tGet] at hfile
  have hmr : ("r".toList = "r".toList) := rfl
  have hmw : ¬ ("w".toList = "r".toList) := by decide
  -- fopen for reading
  have ho : fsysHost.step w.hs (.fopen a "r".toList) =
      ({ (fsysAlloc w.hs w.hs.tree (.fileAt (hostLocation a) 0 O_RDONLY)).1 with data := prev },
       (fsysAlloc w.hs w.hs.tree (.fileAt (hostLocation a) 0 O_RDONLY)).2) := by
    show fsysFopen w.hs (hostLocation a) "r".toList = _
    unfold fsysFopen
    simp only [↓reduceIte, hfile]
  have hor : (sys fsysHost (.fopen a "r".toList) w).1.ret = (w.hs.next : Int) + 1 := by
    rw [sys_res, ho]; rfl
  have hod : (sys fsysHost (.fopen a "r".toList) w).1.data = prev := by
    rw [sys_res, ho]
  have hot : (sys fsysHost (.fopen a "r".toList) w).2.hs.tree = w.hs.tree := by
    rw [sys_hs, ho]; rfl
  simp only [local_set_mapped_file_attr, hp]
  generalize sys fsysHost (.fopen a "r".toList) w = o at hor hod hot ⊢
  have h0 : ¬ o.1.ret = 0 := by rw [hor]; omega
  simp only [h0, ↓reduceIte, lt_self_iff_false, hod]
  have hct : (sys fsysHost (.fclose o.1.ret) o.2).2.hs.tree = w.hs.tree := by
    rw [sys_hs]
    show (fsysClose _ _).2.tree = _
    rw [fsysClose_tree, hot]
  generalize (sys fsysHost (.fclose o.1.ret) o.2).2 = w1 at hct ⊢
  have hf1 : tGet w1.hs.tree (hostLocation a) = some (.file prev) := by rw [hct]; exact hfile
  -- fopen for writing
  have hfw : fsysHost.step w1.hs (.fopen a "w".toList) =
      fsysAlloc w1.hs (tSet w1.hs.tree (hostLocation a) (.file []))
        (.fileAt (hostLocation a) 0 O_WRONLY) := by
    show fsysFopen w1.hs (hostLocation a) "w".toList = _
    unfold fsysFopen
    simp only [hmw, ↓reduceIte, hf1]
  have hfr : (sys fsysHost (.fopen a "w".toList) w1).1.ret = (w1.hs.next : Int) + 1 := by
    rw [sys_res, hfw]; rfl
  have hfs : (sys fsysHost (.fopen a "w".toList) w1).2.hs =
      (fsysAlloc w1.hs (tSet w1.hs.tree (hostLocation a) (.file []))
        (.fileAt (hostLocation a) 0 O_WRONLY)).2 := by
    rw [sys_hs, hfw]
  generalize sys fsysHost (.fopen a "w".toList) w1 = f at hfr hfs ⊢
  have h1 : ¬ f.1.ret = 0 := by rw [hfr]; omega
  simp only [h1, ↓reduceIte]
  refine ⟨_, rfl, ?_⟩
  rw [sys_hs]
  show tGet (fsysClose _ _).2.tree _ = _
  rw [fsysClose_tree]
  have := fprintfAll_fsys_content f.1.ret
    (set_attr_prints (set_attr_merge (set_attr_read (some prev)) credp)) f.2 (hostLocation a) []
    (by rw [hfs, hfr]; simp [fsysAlloc, List.lookup_cons])
    (by rw [hfs]; exact tGet_tSet_same _ _ _ hl) hl
  rw [this]
  rfl

theorem fsysOpen_creat_excl_free (s : Fsys) (loc : List CStr) (hfree : tGet s.tree loc = none)
    (hpar : tGet s.tree loc.dropLast = some .dir) :
    fsysOpen s loc (O_CREAT ||| O_EXCL ||| O_RDWR) =
      fsysAlloc s (tSet s.tree loc (.file [])) (.fileAt loc 0 O_RDWR) := by
  have f1 : (O_CREAT ||| O_EXCL ||| O_RDWR) &&& O_CREAT ≠ 0 := by decide
  have f3 : (O_CREAT ||| O_EXCL ||| O_RDWR) &&& 3 = O_RDWR := by decide
  unfold fsysOpen
  simp only [hfree, f1, ↓reduceIte, hpar, f3]

/-- The first phase of `local_symlink` on the file-tree host succeeds at a
free location in an existing directory. -/
theorem symlink_store_target_fsys_free (ctx : FsContext) (T newpath : CStr) (fuel : Nat)
    (w : World Fsys) (hfuel : fuel ≠ 0)
    (hfree : tGet w.hs.tree (hostLocation (rpath ctx newpath)) = none)
    (hpar : tGet w.hs.tree (hostLocation (rpath ctx newpath)).dropLast = some .dir) :
    ∃ w1, symlink_store_target fsysHost ctx T newpath fuel w = some (Sum.inr w1) := by
  have hop := fsysOpen_creat_excl_free w.hs _ hfree hpar
  have hl := tGet_ne_nil_of_none _ _ hfree
  have hres : (sys fsysHost (.open_ (rpath ctx newpath) (O_CREAT ||| O_EXCL ||| O_RDWR)
      SM_LOCAL_MODE_BITS) w).1.ret = (w.hs.next : Int) + 1 := by
    rw [sys_res]
    show (fsysOpen w.hs (hostLocation (rpath ctx newpath)) (O_CREAT ||| O_EXCL ||| O_RDWR)).1.ret = _
    rw [hop]
    rfl
  have hhs : (sys fsysHost (.open_ (rpath ctx newpath) (O_CREAT ||| O_EXCL ||| O_RDWR)
      SM_LOCAL_MODE_BITS) w).2.hs =
      (fsysAlloc w.hs (tSet w.hs.tree (hostLocation (rpath ctx newpath)) (.file []))
        (.fileAt (hostLocation (rpath ctx newpath)) 0 O_RDWR)).2 := by
    rw [sys_hs]
    show (fsysOpen w.hs (hostLocation (rpath ctx newpath)) (O_CREAT ||| O_EXCL ||| O_RDWR)).2 = _
    rw [hop]
  simp only [symlink_store_target]
  generalize sys fsysHost (.open_ (rpath ctx newpath) (O_CREAT ||| O_EXCL ||| O_RDWR)
      SM_LOCAL_MODE_BITS) w = o at hres hhs ⊢
  have h0 : ¬ o.1.ret = -1 := by rw [hres]; omega
  simp only [h0, ↓reduceIte]
  cases fuel with
  | zero => exact absurd rfl hfuel
  | succ n =>
    have hw := fsysWrite_fresh w.hs (hostLocation (rpath ctx newpath)) T O_RDWR
      (tSet w.hs.tree (hostLocation (rpath ctx newpath)) (.file [])) [] (by decide)
      (tGet_tSet_same _ _ _ hl) hl
    have hwr : (sys fsysHost (.write o.1.ret T) o.2).1 = okRes T.length := by
      rw [sys_res, hhs, hres]
      exact hw.1
    have hne : ¬ ((sys fsysHost (.write o.1.ret T) o.2).1.ret = -1 ∧
        (sys fsysHost (.write o.1.ret T) o.2).2.errno = EINTR) := by
      rw [hwr]
      simp [okRes]
    have hlen : (sys fsysHost (.write o.1.ret T) o.2).1.ret = T.length := by rw [hwr]; rfl
    have hneg : ¬ ((T.length : Int) = -1) := by omega
    simp only [write_retry, hlen, hneg, false_and, ↓reduceIte, ne_eq, not_true_eq_false]
    exact ⟨_, rfl⟩

theorem splitSlash_ne_nil (p : CStr) : splitSlash p ≠ [] := by
  cases p with
  | nil => simp [splitSlash]
  | cons c s =>
    simp only [splitSlash]
    split
    · simp
    · split <;> simp

theorem splitSlash_leaf (N : CStr) (hs : '/' ∉ N) : splitSlash N = [N] := by
  induction N with
  | nil => rfl
  | cons c s ih =>
    have hc : c ≠ '/' := fun e => hs (by simp [e])
    have hs2 : '/' ∉ s := fun h => hs (List.mem_cons_of_mem c h)
    simp only [splitSlash, hc, ↓reduceIte, ih hs2]

theorem splitSlash_append_leaf (p N : CStr) (hs : '/' ∉ N) :
    splitSlash (p ++ '/' :: N) = splitSlash p ++ [N] := by
  induction p with
  | nil => simp [splitSlash, splitSlash_leaf N hs]
  | cons c s ih =>
    by_cases hc : c = '/'
    · simp only [List.cons_append, splitSlash, hc, ↓reduceIte, List.append_eq, ih]
    · simp only [List.cons_append, splitSlash, hc, ↓reduceIte, List.append_eq, ih]
      cases hsp : splitSlash s with
      | nil => exact absurd hsp (splitSlash_ne_nil s)
      | cons h t => rfl

/-- The location of `p/N` for a leaf name `N` other than `.` and `..`: the
location of `p` followed by `N`. -/
theorem hostLocation_append_leaf (p N : CStr) (hs : '/' ∉ N) (h0 : N ≠ [])
    (h1 : N ≠ ".".toList) (h2 : N ≠ "..".toList) :
    hostLocation (p ++ '/' :: N) = hostLocation p ++ [N] := by
  unfold hostLocation
  rw [splitSlash_append_leaf p N hs, List.foldl_append]
  simp only [List.foldl_cons, List.foldl_nil, h0, h1, h2, or_self, ↓reduceIte]

theorem exLongDir_length : exLongDir.length = 4089 := by
  unfold exLongDir
  simp only [List.length_append, List.length_cons, List.length_replicate, List.length_flatten,
    List.map_replicate, List.sum_replicate, smul_eq_mul]

theorem exLongPath_eq : exLongPath = exLongDir ++ '/' :: ".v".toList := by
  simp [exLongPath, fullname]

theorem exLongPath_rpath :
    rpath exCtxShortRoot exLongPath = "/e/".toList ++ exLongDir ++ '/' :: ".v".toList := by
  have hlen : ("/e".toList ++ "/".toList ++ exLongPath).length < PATH_MAX := by
    rw [exLongPath_eq]
    simp only [List.length_append, List.length_cons, exLongDir_length]
    decide
  have hr : exCtxShortRoot.fs_root = "/e".toList := rfl
  unfold rpath
  rw [hr, snprintf_PATH_MAX_fits _ hlen, exLongPath_eq]
  simp

theorem exLongPath_attr :
    local_mapped_attr_path exCtxShortRoot exLongPath = some (rpath exCtxShortRoot exLongPath) := by
  rw [exLongPath_rpath, exLongPath_eq]
  unfold local_mapped_attr_path
  rw [basenameSplit_leaf exLongDir ".v".toList (by decide) (by decide)]
  simp only [Option.some.injEq]
  unfold snprintf_PATH_MAX
  have e : exCtxShortRoot.fs_root ++ "/".toList ++ exLongDir ++ "/".toList ++ VIRTFS_META_DIR ++
      "/".toList ++ ".v".toList =
      ("/e/".toList ++ exLongDir ++ "/".toList) ++ (VIRTFS_META_DIR ++ "/".toList ++ ".v".toList) := by
    have hr : exCtxShortRoot.fs_root = "/e".toList := rfl
    rw [hr]
    simp
  have hl : ("/e/".toList ++ exLongDir ++ "/".toList).length = 4093 := by
    simp only [List.length_append, exLongDir_length]
    decide
  have hp : PATH_MAX - 1 = ("/e/".toList ++ exLongDir ++ "/".toList).length + 2 := by
    rw [hl]; decide
  rw [e, hp, List.take_append]
  have : List.take 2 (VIRTFS_META_DIR ++ "/".toList ++ ".v".toList) = ".v".toList := by decide
  rw [this]
  simp

theorem exLongPath_loc :
    hostLocation (rpath exCtxShortRoot exLongPath) =
      hostLocation ("/e/".toList ++ exLongDir) ++ [".v".toList] := by
  rw [exLongPath_rpath]
  exact hostLocation_append_leaf _ _ (by decide) (by decide) (by decide) (by decide)

theorem lookup_map_const_mem {α β : Type} [BEq α] [LawfulBEq α] (ls : List α) (b : β) (l : α)
    (h : l ∈ ls) : (ls.map (fun x => (x, b))).lookup l = some b := by
  induction ls with
  | nil => simp at h
  | cons x xs ih =>
    simp only [List.map_cons, List.lookup_cons]
    by_cases e : l = x
    · simp [e]
    · have hb : (l == x) = false := by simpa using e
      rw [hb]
      exact ih (by simpa [e] using h)

theorem lookup_map_const_not_mem {α β : Type} [BEq α] [LawfulBEq α] (ls : List α) (b : β) (l : α)
    (h : l ∉ ls) : (ls.map (fun x => (x, b))).lookup l = none := by
  induction ls with
  | nil => rfl
  | cons x xs ih =>
    simp only [List.map_cons, List.lookup_cons]
    have e : l ≠ x := fun e => h (by simp [e])
    have hb : (l == x) = false := by simpa using e
    rw [hb]
    exact ih (fun hm => h (List.mem_cons_of_mem x hm))

theorem exLongTree_free :
    tGet exLongTree.tree (hostLocation (rpath exCtxShortRoot exLongPath)) = none ∧
    tGet exLongTree.tree (hostLocation (rpath exCtxShortRoot exLongPath)).dropLast = some .dir := by
  have hloc := exLongPath_loc
  have hne : hostLocation (rpath exCtxShortRoot exLongPath) ≠ [] := by
    rw [hloc]; simp
  constructor
  · unfold tGet exLongTree
    simp only [hne, ↓reduceIte]
    apply lookup_map_const_not_mem
    intro hm
    rw [List.mem_inits] at hm
    have := hm.length_le
    rw [hloc] at this
    simp at this
  · unfold tGet
    split
    · rfl
    · show List.lookup _ (List.map (fun l => (l, Node.dir)) _) = _
      apply lookup_map_const_mem
      rw [List.mem_inits]

/-- C17, evaluation at a failing input.  Under mapped-file with the export
root `/e`, the name `.v` in a directory whose host path has 4093 characters
(every component at most 254 characters long): the host path of the new name
has 4095 characters and fits the buffer, while the path of its shadow
record, `.../.virtfs_metadata/.v`, is cut by `snprintf` to the same 4095
characters.  On the file-tree host `local_symlink` of the target `target`
returns 0, but the record was written over the file that stores the target:
the host object holds the record text, and `local_readlink` with a buffer of
4096 bytes returns that text, not the target. -/
theorem local_symlink_overlong_path_loses_target :
    (rpath exCtxShortRoot exLongPath).length = 4095 ∧
    local_mapped_attr_path exCtxShortRoot exLongPath = some (rpath exCtxShortRoot exLongPath) ∧
    tGet exLongTree.tree (hostLocation (rpath exCtxShortRoot exLongPath)) = none ∧
    ∃ w2, local_symlink fsysHost exCtxShortRoot "target".toList exLongDir ".v".toList exCred 1
        (fsysWorld exLongTree) = some (0, w2) ∧
      tGet w2.hs.tree (hostLocation (rpath exCtxShortRoot exLongPath)) = some (.file exLinkRecord) ∧
      exLinkRecord ≠ "target".toList ∧
      ∃ w3, local_readlink fsysHost exCtxShortRoot exLongPath 4096 1 w2 =
        some ((exLinkRecord.length : Int), exLinkRecord, w3) := by
  obtain ⟨hfree, hpar⟩ := exLongTree_free
  have hlen : (rpath exCtxShortRoot exLongPath).length = 4095 := by
    rw [exLongPath_rpath]
    simp only [List.length_append, List.length_cons, exLongDir_length]
    decide
  have hm : flagSet exCtxShortRoot.export_flags V9FS_SM_MAPPED = false := by decide
  have hf : flagSet exCtxShortRoot.export_flags V9FS_SM_MAPPED_FILE = true := by decide
  obtain ⟨w1, hs⟩ := symlink_store_target_fsys_free exCtxShortRoot "target".toList exLongPath 1
    (fsysWorld exLongTree) (by decide) hfree hpar
  have hT := (symlink_store_target_fsys exCtxShortRoot "target".toList exLongPath 1
    (fsysWorld exLongTree) w1 hs).2
  obtain ⟨w2, hset, hrec⟩ := local_set_mapped_file_attr_fsys_update exCtxShortRoot exLongPath
    { exCred with fc_mode := exCred.fc_mode ||| S_IFLNK } w1 _ "target".toList exLongPath_attr hT
  have hcontent : set_attr_content (some "target".toList)
      { exCred with fc_mode := exCred.fc_mode ||| S_IFLNK } = exLinkRecord := by decide
  rw [hcontent] at hrec
  refine ⟨hlen, exLongPath_attr, hfree, w2, ?_, hrec, by decide, ?_⟩
  · have hp : fullname exLongDir ".v".toList = exLongPath := rfl
    simp only [local_symlink, hm, hf, Bool.false_eq_true, ↓reduceIte, hp, hs, hset]
    rfl
  · obtain ⟨w3, h3, _⟩ := local_readlink_fsys exCtxShortRoot exLongPath exLinkRecord 4096 1 w2
      (Or.inr hf) hrec (by decide)
    have ht : exLinkRecord.take 4096 = exLinkRecord := by decide
    rw [ht] at h3
    exact ⟨w3, h3⟩

/-- The round trip at a concrete tree under mapped-file: the link `/d/ln` with
target `target` is stored as a regular file, its record lies beside it in
the hidden directory, and `local_readlink` with a buffer of 6 bytes returns
6 and the target. -/
theorem local_symlink_readlink_fsys_example :
    tGet exLinked.hs.tree ["export".toList, "d".toList, "ln".toList] = some (.file "target".toList) ∧
    tGet exLinked.hs.tree ["export".toList, "d".toList, VIRTFS_META_DIR, "ln".toList] =
      some (.file exLinkRecord) ∧
    ∃ w3, local_readlink fsysHost exCtxMappedFile "/d/ln".toList 6 1 exLinked =
      some (6, "target".toList, w3) := by
  have h := local_symlink_readlink_fsys exCtxMappedFile "target".toList "/d".toList "ln".toList
    exCred 1 6 1 (fsysWorld exLinkTree) exLinked (Or.inr (by decide))
    (fun _ a ha => by
      have e : a = "/export//d/.virtfs_metadata/ln".toList := by
        have h2 : local_mapped_attr_path exCtxMappedFile (fullname "/d".toList "ln".toList) =
            some "/export//d/.virtfs_metadata/ln".toList := by decide
        rw [h2] at ha
        exact (Option.some.inj ha).symm
      rw [e]
      decide)
    (by decide) (by decide) (by decide)
  exact ⟨h.2.1, by decide, h.2.2⟩

theorem skip_leading_slashes_eq (p : CStr) (fuel : Nat) (h : p.length < fuel) :
    skip_leading_slashes fuel p = some (p.dropWhile (fun c => c == '/')) := by
  induction p generalizing fuel with
  | nil =>
    cases fuel with
    | zero => simp at h
    | succ n => rfl
  | cons c rest ih =>
    cases fuel with
    | zero => simp at h
    | succ n =>
      simp only [skip_leading_slashes]
      by_cases hc : c = '/'
      · simp only [hc, ↓reduceIte, List.dropWhile_cons_of_pos, beq_self_eq_true]
        exact ih n (by simpa using h)
      · have hb : (c == '/') = false := by simpa using hc
        simp only [hc, ↓reduceIte]
        rw [List.dropWhile_cons_of_neg (by simp [hb])]

theorem dropWhile_slash_split (p : CStr) :
    ∃ k, p = List.replicate k '/' ++ p.dropWhile (fun c => c == '/') := by
  induction p with
  | nil => exact ⟨0, rfl⟩
  | cons c rest ih =>
    by_cases hc : c = '/'
    · obtain ⟨k, hk⟩ := ih
      refine ⟨k + 1, ?_⟩
      rw [List.dropWhile_cons_of_pos (by simp [hc]), List.replicate_succ, List.cons_append, ← hk, hc]
    · have hb : (c == '/') = false := by simpa using hc
      exact ⟨0, by rw [List.dropWhile_cons_of_neg (by simp [hb])]; rfl⟩

theorem dropWhile_slash_head (p : CStr) :
    (p.dropWhile (fun c => c == '/')).head? ≠ some '/' := by
  induction p with
  | nil => simp
  | cons c rest ih =>
    by_cases hc : c = '/'
    · rw [List.dropWhile_cons_of_pos (by simp [hc])]
      exact ih
    · have hb : (c == '/') = false := by simpa using hc
      rw [List.dropWhile_cons_of_neg (by simp [hb])]
      simpa using hc

theorem dropWhile_slash_longest (p s : CStr) (hs : s <:+ p) (hh : s.head? ≠ some '/') :
    s <:+ p.dropWhile (fun c => c == '/') := by
  induction p with
  | nil => simpa using hs
  | cons c rest ih =>
    by_cases hc : c = '/'
    · rw [List.dropWhile_cons_of_pos (by simp [hc])]
      rcases List.suffix_cons_iff.mp hs with h | h
      · rw [h, hc] at hh
        simp at hh
      · exact ih h
    · have hb : (c == '/') = false := by simpa using hc
      rw [List.dropWhile_cons_of_neg (by simp [hb])]
      exact hs

/-- C21: `local_open_nofollow` makes one host call, the confined open
`relative_openat_nofollow`, with the root descriptor `mountfd`, the caller's
flags and mode, and the path without its leading slashes, and returns the
host's answer.  The stripped path is what the loop `while (*path == '/')`
leaves, and the loop ends within `length + 1` tests for every string.  The
path is some number of slashes followed by the stripped path, the stripped
path does not begin with a slash, every suffix of the path that does not
begin with a slash is a suffix of the stripped path, and a path made only of
slashes is stripped to the empty string. -/
theorem local_open_nofollow_strips_leading_slashes {σ : Type} (H : Host σ) (fs_ctx : FsContext)
    (path : CStr) (flags mode : Nat) (w : World σ) :
    (∀ fuel, path.length < fuel →
      skip_leading_slashes fuel path = some (path.dropWhile (fun c => c == '/'))) ∧
    local_open_nofollow H fs_ctx path flags mode w =
      ((sys H (.relative_openat_nofollow fs_ctx.mountfd (path.dropWhile (fun c => c == '/'))
          flags mode) w).1.ret,
       (sys H (.relative_openat_nofollow fs_ctx.mountfd (path.dropWhile (fun c => c == '/'))
          flags mode) w).2) ∧
    (local_open_nofollow H fs_ctx path flags mode w).2.trace =
      w.trace ++ [.relative_openat_nofollow fs_ctx.mountfd (path.dropWhile (fun c => c == '/'))
        flags mode] ∧
    (∃ k, path = List.replicate k '/' ++ path.dropWhile (fun c => c == '/')) ∧
    (path.dropWhile (fun c => c == '/')).head? ≠ some '/' ∧
    (∀ s : CStr, s <:+ path → s.head? ≠ some '/' → s <:+ path.dropWhile (fun c => c == '/')) ∧
    (∀ k : Nat, (List.replicate k '/').dropWhile (fun c => c == '/') = []) ∧
    local_opendir_nofollow H fs_ctx path w =
      local_open_nofollow H fs_ctx path (O_DIRECTORY ||| O_RDONLY) 0 w := by
  refine ⟨fun fuel h => skip_leading_slashes_eq path fuel h, rfl, rfl,
    dropWhile_slash_split path, dropWhile_slash_head path,
    fun s hs hh => dropWhile_slash_longest path s hs hh, ?_, rfl⟩
  intro k
  induction k with
  | zero => rfl
  | succ n ih => rw [List.replicate_succ, List.dropWhile_cons_of_pos (by simp)]; exact ih

/-- C22: on a Linux host `errno_to_dotl` returns every code unchanged.  On a
macOS host, whose six codes named by the function are distinct except that
`ENOTSUP` and `EOPNOTSUPP` both stand for "not supported", it maps
`ENAMETOOLONG` to 36, `ENOTEMPTY` to 39, `ELOOP` to 40, `ENOATTR` to 61,
`ENOTSUP` and `EOPNOTSUPP` to 95, and returns every other code unchanged. -/
theorem errno_to_dotl_spec (e : HostErrno)
    (h1 : e.ENOTEMPTY ≠ e.ENAMETOOLONG)
    (h2 : e.ELOOP ≠ e.ENAMETOOLONG ∧ e.ELOOP ≠ e.ENOTEMPTY)
    (h3 : e.ENOATTR ≠ e.ENAMETOOLONG ∧ e.ENOATTR ≠ e.ENOTEMPTY ∧ e.ENOATTR ≠ e.ELOOP)
    (h4 : e.ENOTSUP ≠ e.ENAMETOOLONG ∧ e.ENOTSUP ≠ e.ENOTEMPTY ∧ e.ENOTSUP ≠ e.ELOOP ∧
      e.ENOTSUP ≠ e.ENOATTR)
    (h5 : e.EOPNOTSUPP ≠ e.ENAMETOOLONG ∧ e.EOPNOTSUPP ≠ e.ENOTEMPTY ∧ e.EOPNOTSUPP ≠ e.ELOOP ∧
      e.EOPNOTSUPP ≠ e.ENOATTR) :
    (∀ err, errno_to_dotl .linux e err = some err) ∧
    errno_to_dotl .darwin e e.ENAMETOOLONG = some 36 ∧
    errno_to_dotl .darwin e e.ENOTEMPTY = some 39 ∧
    errno_to_dotl .darwin e e.ELOOP = some 40 ∧
    errno_to_dotl .darwin e e.ENOATTR = some 61 ∧
    errno_to_dotl .darwin e e.ENOTSUP = some 95 ∧
    errno_to_dotl .darwin e e.EOPNOTSUPP = some 95 ∧
    (∀ err, err ≠ e.ENAMETOOLONG → err ≠ e.ENOTEMPTY → err ≠ e.ELOOP → err ≠ e.ENOATTR →
      err ≠ e.ENOTSUP → err ≠ e.EOPNOTSUPP → errno_to_dotl .darwin e err = some err) := by
  refine ⟨fun _ => rfl, ?_, ?_, ?_, ?_, ?_, ?_, ?_⟩
  · simp [errno_to_dotl]
  · simp [errno_to_dotl, h1]
  · simp [errno_to_dotl, h2.1, h2.2]
  · simp [errno_to_dotl, h3.1, h3.2.1, h3.2.2]
  · simp [errno_to_dotl, h4.1, h4.2.1, h4.2.2.1, h4.2.2.2]
  · simp only [errno_to_dotl, h5.1, h5.2.1, h5.2.2.1, h5.2.2.2, ↓reduceIte, ite_self]
  · intro err a b c d f g
    simp [errno_to_dotl, a, b, c, d, f, g]

/-- C22 with the error codes of macOS: 63, 66, 62, 93, 45 and 102 are mapped
to 36, 39, 40, 61, 95 and 95; the code 2 (`ENOENT`) is returned unchanged. -/
theorem errno_to_dotl_spec_witness :
    errno_to_dotl .darwin macosErrno 63 = some 36 ∧
    errno_to_dotl .darwin macosErrno 66 = some 39 ∧
    errno_to_dotl .darwin macosErrno 62 = some 40 ∧
    errno_to_dotl .darwin macosErrno 93 = some 61 ∧
    errno_to_dotl .darwin macosErrno 45 = some 95 ∧
    errno_to_dotl .darwin macosErrno 102 = some 95 ∧
    errno_to_dotl .darwin macosErrno 2 = some 2 ∧
    errno_to_dotl .linux macosErrno 63 = some 63 :=
  have h := errno_to_dotl_spec macosErrno (by decide) (by decide) (by decide) (by decide)
    (by decide)
  ⟨h.2.1, h.2.2.1, h.2.2.2.1, h.2.2.2.2.1, h.2.2.2.2.2.1, h.2.2.2.2.2.2.1,
   h.2.2.2.2.2.2.2 2 (by decide) (by decide) (by decide) (by decide) (by decide) (by decide),
   h.1 63⟩

theorem testBit_mask_fff (i : Nat) : (0xfff : Nat).testBit i = decide (i < 12) := by
  have : (0xfff : Nat) = 2 ^ 12 - 1 := by norm_num
  rw [this, Nat.testBit_two_pow_sub_one]

theorem testBit_mask_ff (i : Nat) : (0xff : Nat).testBit i = decide (i < 8) := by
  have : (0xff : Nat) = 2 ^ 8 - 1 := by norm_num
  rw [this, Nat.testBit_two_pow_sub_one]

theorem testBit_mask_fffff000 (i : Nat) :
    (0xfffff000 : Nat).testBit i = (decide (12 ≤ i) && decide (i < 32)) := by
  have : (0xfffff000 : Nat) = (2 ^ 20 - 1) <<< 12 := by decide
  rw [this, Nat.testBit_shiftLeft, Nat.testBit_two_pow_sub_one]
  by_cases h : 12 ≤ i
  · by_cases h2 : i < 32
    · have : i - 12 < 20 := by omega
      simp [h, h2, this]
    · have : ¬ i - 12 < 20 := by omega
      simp [h, h2, this]
  · simp [h]

theorem testBit_mask_ffffff00 (i : Nat) :
    (0xffffff00 : Nat).testBit i = (decide (8 ≤ i) && decide (i < 32)) := by
  have : (0xffffff00 : Nat) = (2 ^ 24 - 1) <<< 8 := by decide
  rw [this, Nat.testBit_shiftLeft, Nat.testBit_two_pow_sub_one]
  by_cases h : 8 ≤ i
  · by_cases h2 : i < 32
    · have : i - 8 < 24 := by omega
      simp [h, h2, this]
    · have : ¬ i - 8 < 24 := by omega
      simp [h, h2, this]
  · simp [h]

theorem testBit_high_false (x n i : Nat) (h : x < 2 ^ n) (hi : n ≤ i) : x.testBit i = false := by
  apply Nat.testBit_lt_two_pow
  exact lt_of_lt_of_le h (Nat.pow_le_pow_right (by norm_num) hi)

/-- The bits of `makedev_dotl`: the low 8 bits of the minor, the low 12 bits
of the major, the high 24 bits of the minor, the high 20 bits of the major. -/
theorem makedev_dotl_testBit (M m i : Nat) :
    (makedev_dotl M m).testBit i =
      if i < 8 then m.testBit i
      else if i < 20 then M.testBit (i - 8)
      else if i < 44 then m.testBit (i - 12)
      else if i < 64 then M.testBit (i - 32)
      else false := by
  simp only [makedev_dotl, Nat.testBit_or, Nat.testBit_and, Nat.testBit_shiftLeft,
    testBit_mask_fff, testBit_mask_ff, testBit_mask_fffff000, testBit_mask_ffffff00,
    Nat.shiftLeft_zero]
  by_cases h1 : i < 8
  · have a1 : ¬ 8 ≤ i := by omega
    have a2 : ¬ 32 ≤ i := by omega
    have a3 : ¬ 12 ≤ i := by omega
    simp [h1, a1, a2, a3]
  · by_cases h2 : i < 20
    · have a1 : 8 ≤ i := by omega
      have a2 : ¬ 32 ≤ i := by omega
      have a3 : i - 8 < 12 := by omega
      have a4 : ¬ (12 ≤ i ∧ 8 ≤ i - 12) := by omega
      simp [h1, h2, a1, a2, a3]
      intro h12 h8
      omega
    · by_cases h3 : i < 44
      · have a1 : 8 ≤ i := by omega
        have a3 : ¬ i - 8 < 12 := by omega
        have a4 : 12 ≤ i := by omega
        have a5 : 8 ≤ i - 12 := by omega
        have a6 : i - 12 < 32 := by omega
        have a7 : ¬ (32 ≤ i ∧ 12 ≤ i - 32) := by omega
        simp [h1, h2, h3, a1, a3, a4, a5, a6]
        intro h32 h12
        omega
      · by_cases h4 : i < 64
        · have a1 : 8 ≤ i := by omega
          have a3 : ¬ i - 8 < 12 := by omega
          have a4 : 12 ≤ i := by omega
          have a6 : ¬ i - 12 < 32 := by omega
          have a7 : 32 ≤ i := by omega
          have a8 : 12 ≤ i - 32 := by omega
          have a9 : i - 32 < 32 := by omega
          simp [h1, h2, h3, h4, a1, a3, a4, a6, a7, a8, a9]
        · have a1 : 8 ≤ i := by omega
          have a3 : ¬ i - 8 < 12 := by omega
          have a4 : 12 ≤ i := by omega
          have a6 : ¬ i - 12 < 32 := by omega
          have a7 : 32 ≤ i := by omega
          have a9 : ¬ i - 32 < 32 := by omega
          simp [h1, h2, h3, h4, a1, a3, a4, a6, a7, a9]

theorem spec_major_makedev_dotl (M m : Nat) (hM : M < 2 ^ 32) :
    spec_major (makedev_dotl M m) = M := by
  apply Nat.eq_of_testBit_eq
  intro i
  simp only [spec_major, Nat.testBit_or, Nat.testBit_and, Nat.testBit_shiftRight,
    testBit_mask_fff, testBit_mask_fffff000, makedev_dotl_testBit]
  by_cases h1 : i < 12
  · have a1 : ¬ 12 ≤ i := by omega
    have a2 : ¬ 8 + i < 8 := by omega
    have a3 : 8 + i < 20 := by omega
    have a4 : 8 + i - 8 = i := by omega
    simp [h1, a1, a2, a3, a4]
  · by_cases h2 : i < 32
    · have a1 : 12 ≤ i := by omega
      have a2 : ¬ 32 + i < 8 := by omega
      have a3 : ¬ 32 + i < 20 := by omega
      have a4 : ¬ 32 + i < 44 := by omega
      have a5 : 32 + i < 64 := by omega
      have a6 : 32 + i - 32 = i := by omega
      simp [h1, h2, a1, a2, a3, a4, a5, a6]
    · have a1 : 12 ≤ i := by omega
      have hf := testBit_high_false M 32 i hM (by omega)
      simp [h1, h2, hf]

theorem spec_minor_makedev_dotl (M m : Nat) (hm : m < 2 ^ 32) :
    spec_minor (makedev_dotl M m) = m := by
  apply Nat.eq_of_testBit_eq
  intro i
  simp only [spec_minor, Nat.testBit_or, Nat.testBit_and, Nat.testBit_shiftRight,
    testBit_mask_ff, testBit_mask_ffffff00, makedev_dotl_testBit]
  by_cases h1 : i < 8
  · have a1 : ¬ 8 ≤ i := by omega
    simp [h1, a1]
  · by_cases h2 : i < 32
    · have a1 : 8 ≤ i := by omega
      have a2 : ¬ 12 + i < 8 := by omega
      have a3 : ¬ 12 + i < 20 := by omega
      have a4 : 12 + i < 44 := by omega
      have a6 : 12 + i - 12 = i := by omega
      simp [h1, h2, a1, a2, a3, a4, a6]
    · have hf := testBit_high_false m 32 i hm (by omega)
      simp [h1, h2, hf]

theorem makedev_dotl_lt (M m : Nat) : makedev_dotl M m < 2 ^ 64 := by
  apply Nat.lt_pow_two_of_testBit
  intro i hi
  rw [makedev_dotl_testBit]
  have a1 : ¬ i < 8 := by omega
  have a2 : ¬ i < 20 := by omega
  have a3 : ¬ i < 44 := by omega
  have a4 : ¬ i < 64 := by omega
  simp [a1, a2, a3, a4]

theorem makedev_dotl_linux (M m : Nat) (hM : M < 2 ^ 12) (hm : m < 2 ^ 20) :
    makedev_dotl M m < 2 ^ 32 ∧ makedev_dotl M m = spec_linux_dev M m := by
  constructor
  · apply Nat.lt_pow_two_of_testBit
    intro i hi
    rw [makedev_dotl_testBit]
    have a1 : ¬ i < 8 := by omega
    have a2 : ¬ i < 20 := by omega
    have h1 := testBit_high_false m 20 (i - 12) hm (by omega)
    by_cases h3 : i < 44
    · simp [a1, a2, h3, h1]
    · have h2 := testBit_high_false M 12 (i - 32) hM (by omega)
      simp [a1, a2, h3, h2]
  · apply Nat.eq_of_testBit_eq
    intro i
    rw [makedev_dotl_testBit]
    simp only [spec_linux_dev, Nat.testBit_or, Nat.testBit_and, Nat.testBit_shiftLeft,
      testBit_mask_ff, testBit_mask_ffffff00]
    by_cases h1 : i < 8
    · have a1 : ¬ 8 ≤ i := by omega
      have a2 : ¬ 12 ≤ i := by omega
      simp [h1, a1, a2]
    · by_cases h2 : i < 20
      · have a1 : 8 ≤ i := by omega
        have a3 : ¬ (12 ≤ i ∧ 8 ≤ i - 12) := by omega
        simp [h1, h2, a1]
        intro h12 _ h8
        omega
      · have a1 : 8 ≤ i := by omega
        have a2 : 12 ≤ i := by omega
        have a3 : 8 ≤ i - 12 := by omega
        have hM2 := testBit_high_false M 12 (i - 8) hM (by omega)
        by_cases h3 : i < 44
        · have a4 : i - 12 < 32 := by omega
          simp [h1, h2, h3, a1, a2, a3, a4, hM2]
        · have hm2 := testBit_high_false m 20 (i - 12) hm (by omega)
          have hM3 := testBit_high_false M 12 (i - 32) hM (by omega)
          simp [h1, h2, h3, hM2, hm2, hM3]

/-- C23: for 32-bit major and minor numbers `makedev_dotl` fits 64 bits and is
the device number encoding of glibc: the major and the minor extracted from
it are the arguments, so two different pairs never give the same device
number; and for a major below 2^12 and a minor below 2^20 the result is
below 2^32 and equals the 32-bit Linux format
`(minor & 0xff) | (major << 8) | ((minor & ~0xff) << 12)`. -/
theorem makedev_dotl_glibc_encoding (M m : Nat) (hM : M < 2 ^ 32) (hm : m < 2 ^ 32) :
    makedev_dotl M m < 2 ^ 64 ∧
    spec_major (makedev_dotl M m) = M ∧
    spec_minor (makedev_dotl M m) = m ∧
    (∀ M2 m2 : Nat, M2 < 2 ^ 32 → m2 < 2 ^ 32 → makedev_dotl M m = makedev_dotl M2 m2 →
      M = M2 ∧ m = m2) ∧
    (M < 2 ^ 12 → m < 2 ^ 20 →
      makedev_dotl M m < 2 ^ 32 ∧ makedev_dotl M m = spec_linux_dev M m) := by
  refine ⟨makedev_dotl_lt M m, spec_major_makedev_dotl M m hM, spec_minor_makedev_dotl M m hm,
    ?_, fun h1 h2 => makedev_dotl_linux M m h1 h2⟩
  intro M2 m2 hM2 hm2 he
  constructor
  · rw [← spec_major_makedev_dotl M m hM, he, spec_major_makedev_dotl M2 m2 hM2]
  · rw [← spec_minor_makedev_dotl M m hm, he, spec_minor_makedev_dotl M2 m2 hm2]

/-- C23 at concrete numbers: major 8, minor 1 gives 0x801; major 0x12345,
minor 0x6789ab gives 0x12006789345ab, and both are recovered. -/
theorem makedev_dotl_glibc_encoding_witness :
    makedev_dotl 8 1 = 0x801 ∧
    makedev_dotl 0x12345 0x6789ab = 0x12006789345ab ∧
    spec_major (makedev_dotl 0x12345 0x6789ab) = 0x12345 ∧
    spec_minor (makedev_dotl 0x12345 0x6789ab) = 0x6789ab :=
  ⟨by decide, by decide,
   (makedev_dotl_glibc_encoding 0x12345 0x6789ab (by decide) (by decide)).2.1,
   (makedev_dotl_glibc_encoding 0x12345 0x6789ab (by decide) (by decide)).2.2.1⟩

theorem local_opendir_nofollow_fds {σ : Type} (H : Host σ) (ctx : FsContext) (path : CStr)
    (w : World σ) :
    (local_opendir_nofollow H ctx path w).2.fds =
      if (local_opendir_nofollow H ctx path w).1 = -1 then w.fds
      else (local_opendir_nofollow H ctx path w).1 :: w.fds := rfl

/-- C24, the code's behaviour: whenever the confined open of the parent
directory returns a descriptor other than 0, the valid descriptors 1, 2, 3,
... included, `local_remove` takes the exit `if (dirfd) goto out;`: it
returns -1 after that one host call, makes no `fstatat`, no removal and no
`close`, and a descriptor that was opened stays open.  The sibling
`local_unlinkat` tests `dirfd == -1` and goes on to `local_unlinkat_common`
and to the `close`. -/
theorem local_remove_nonzero_descriptor_fails {σ : Type} (H : Host σ) (ctx : FsContext)
    (path : CStr) (w : World σ)
    (hd : (local_opendir_nofollow H ctx (g_path_get_dirname path) w).1 ≠ 0) :
    local_remove H ctx path w =
      (-1, (local_opendir_nofollow H ctx (g_path_get_dirname path) w).2) ∧
    (local_remove H ctx path w).2.trace =
      w.trace ++ [.relative_openat_nofollow ctx.mountfd
        ((g_path_get_dirname path).dropWhile (fun c => c == '/')) (O_DIRECTORY ||| O_RDONLY) 0] ∧
    ((local_opendir_nofollow H ctx (g_path_get_dirname path) w).1 ≠ -1 →
      (local_opendir_nofollow H ctx (g_path_get_dirname path) w).1 ∈
        (local_remove H ctx path w).2.fds) ∧
    (∀ (dir name : CStr) (flags : Nat), (local_opendir_nofollow H ctx dir w).1 ≠ -1 →
      local_unlinkat H ctx dir name flags w =
        ((local_unlinkat_common H ctx (local_opendir_nofollow H ctx dir w).1 name flags
            (local_opendir_nofollow H ctx dir w).2).1,
         close_preserve_errno H (local_opendir_nofollow H ctx dir w).1
          (local_unlinkat_common H ctx (local_opendir_nofollow H ctx dir w).1 name flags
            (local_opendir_nofollow H ctx dir w).2).2)) := by
  have h1 : local_remove H ctx path w =
      (-1, (local_opendir_nofollow H ctx (g_path_get_dirname path) w).2) := by
    simp only [local_remove, hd, ne_eq, not_false_eq_true, ↓reduceIte]
  refine ⟨h1, ?_, ?_, ?_⟩
  · rw [h1]
    rfl
  · intro hne
    rw [h1]
    show _ ∈ (local_opendir_nofollow H ctx (g_path_get_dirname path) w).2.fds
    rw [local_opendir_nofollow_fds, if_neg hne]
    exact List.mem_cons_self _ _
  · intro dir name flags hne
    simp only [local_unlinkat, hne, ↓reduceIte]

/-- C24 at a concrete host: the parent `/d` of `/d/f` is opened with
descriptor 5, the object exists; `local_remove` returns -1 after the open,
descriptor 5 is left open, and nothing was removed or closed. -/
theorem local_remove_nonzero_descriptor_fails_witness :
    local_remove scriptHost exCtxMappedFile "/d/f".toList
        (scriptWorld [okRes 5, statRes 0o100644, okRes 0]) =
      (-1, { hs := [statRes 0o100644, okRes 0], errno := 0,
             trace := [.relative_openat_nofollow 3 "d".toList (O_DIRECTORY ||| O_RDONLY) 0],
             fds := [5] }) :=
  (local_remove_nonzero_descriptor_fails scriptHost exCtxMappedFile "/d/f".toList
    (scriptWorld [okRes 5, statRes 0o100644, okRes 0]) (by decide)).1.trans (by decide)

/-- C27, the code's behaviour: when the confined open succeeds with the
descriptor `d` and `fdopendir` fails (returns `NULL`), `local_opendir`
returns -1 and leaves the stream unset, but makes no `close`: `d` is still
open afterwards, so the open descriptors are the ones before the call and
`d`.  When the confined open itself fails the open descriptors are
unchanged. -/
theorem local_opendir_fdopendir_failure_leaks {σ : Type} (H : Host σ) (ctx : FsContext)
    (path : CStr) (w : World σ)
    (hd : (local_opendir_nofollow H ctx path w).1 ≠ -1)
    (hs : (sys H (.fdopendir (local_opendir_nofollow H ctx path w).1)
      (local_opendir_nofollow H ctx path w).2).1.ret = 0) :
    (local_opendir H ctx path w).1 = -1 ∧
    (local_opendir H ctx path w).2.1 = none ∧
    (local_opendir H ctx path w).2.2.fds = (local_opendir_nofollow H ctx path w).1 :: w.fds ∧
    (local_opendir H ctx path w).2.2.trace =
      w.trace ++ [.relative_openat_nofollow ctx.mountfd (path.dropWhile (fun c => c == '/'))
        (O_DIRECTORY ||| O_RDONLY) 0, .fdopendir (local_opendir_nofollow H ctx path w).1] ∧
    ((local_opendir_nofollow H ctx path w).1 ∉ w.fds →
      (local_opendir H ctx path w).2.2.fds ≠ w.fds) ∧
    (∀ path2 : CStr, (local_opendir_nofollow H ctx path2 w).1 = -1 →
      (local_opendir H ctx path2 w).1 = -1 ∧ (local_opendir H ctx path2 w).2.2.fds = w.fds) := by
  have hfds : (local_opendir_nofollow H ctx path w).2.fds =
      (local_opendir_nofollow H ctx path w).1 :: w.fds := by
    rw [local_opendir_nofollow_fds, if_neg hd]
  have hres : local_opendir H ctx path w = (-1, none,
      (sys H (.fdopendir (local_opendir_nofollow H ctx path w).1)
        (local_opendir_nofollow H ctx path w).2).2) := by
    simp only [local_opendir, hd, ↓reduceIte, hs]
  have hf : (local_opendir H ctx path w).2.2.fds =
      (local_opendir_nofollow H ctx path w).1 :: w.fds := by
    rw [hres]
    have h0 : (sys H (.fdopendir (local_opendir_nofollow H ctx path w).1)
        (local_opendir_nofollow H ctx path w).2).2.fds =
        (local_opendir_nofollow H ctx path w).2.fds := rfl
    show (sys H (.fdopendir (local_opendir_nofollow H ctx path w).1)
        (local_opendir_nofollow H ctx path w).2).2.fds = _
    rw [h0, hfds]
  refine ⟨by rw [hres], by rw [hres], hf, ?_, ?_, ?_⟩
  · rw [hres]
    have h0 : (local_opendir_nofollow H ctx path w).2.trace =
        w.trace ++ [.relative_openat_nofollow ctx.mountfd (path.dropWhile (fun c => c == '/'))
          (O_DIRECTORY ||| O_RDONLY) 0] := rfl
    show (sys H (.fdopendir (local_opendir_nofollow H ctx path w).1)
        (local_opendir_nofollow H ctx path w).2).2.trace = _
    rw [sys_trace, h0, List.append_assoc]
    rfl
  · intro hnm he
    rw [hf] at he
    have : (local_opendir_nofollow H ctx path w).1 ∈ w.fds := by
      rw [← he]
      exact List.mem_cons_self _ _
    exact hnm this
  · intro path2 h2
    simp only [local_opendir, h2, ↓reduceIte, true_and]
    rw [local_opendir_nofollow_fds, if_pos h2]

/-- C27 at a concrete host: the confined open of `/d` returns descriptor 5,
`fdopendir` fails with ENOMEM; `local_opendir` returns -1 and descriptor 5 is
still open, with no `close` in the trace. -/
theorem local_opendir_fdopendir_failure_leaks_witness :
    local_opendir scriptHost exCtxMappedFile "/d".toList
        (scriptWorld [okRes 5, { failRes 12 with ret := 0 }]) =
      (-1, none, { hs := [], errno := 12,
                   trace := [.relative_openat_nofollow 3 "d".toList (O_DIRECTORY ||| O_RDONLY) 0,
                             .fdopendir 5],
                   fds := [5] }) ∧
    (local_opendir scriptHost exCtxMappedFile "/d".toList
        (scriptWorld [okRes 5, { failRes 12 with ret := 0 }])).2.2.fds ≠
      (scriptWorld [okRes 5, { failRes 12 with ret := 0 }]).fds :=
  ⟨by decide,
   (local_opendir_fdopendir_failure_leaks scriptHost exCtxMappedFile "/d".toList
    (scriptWorld [okRes 5, { failRes 12 with ret := 0 }]) (by decide) (by decide)).2.2.2.2.1
    (by decide)⟩

/-- C25: under mapped-file `local_unlinkat_common` with `AT_REMOVEDIR` works
in three steps.  Step 1 opens the directory and removes its own hidden
directory (`unlinkat(fd, ".virtfs_metadata", AT_REMOVEDIR)`), step 2 opens
the hidden directory of the parent and removes the record of the directory
(`unlinkat(map_dirfd, name, 0)`), step 3 removes the directory
(`unlinkat(dirfd, name, AT_REMOVEDIR)`).  When the directory cannot be
opened, or the `unlinkat` of step 1 or of step 2 fails (returns -1) with an
`errno` other than ENOENT, the call returns -1 with that `errno` and the
trace ends with the failed step: the `unlinkat` of the directory is not
issued.  Otherwise all three steps are issued in this order and the result
of step 3 is returned. -/
theorem local_unlinkat_common_rmdir_order {σ : Type} (H : Host σ) (ctx : FsContext) (dirfd : Int)
    (name : CStr) (w : World σ)
    (hf : flagSet ctx.export_flags V9FS_SM_MAPPED_FILE = true) :
    let o := sys H (.openat dirfd name (O_RDONLY ||| O_DIRECTORY ||| O_PATH) 0) w
    let u1 := sys H (.unlinkat o.1.ret VIRTFS_META_DIR AT_REMOVEDIR) o.2
    let w1 := close_preserve_errno H o.1.ret u1.2
    let m := openat_dir H dirfd VIRTFS_META_DIR w1
    let u2 := sys H (.unlinkat m.1 name 0) m.2
    let w2 := close_preserve_errno H m.1 u2.2
    let f := sys H (.unlinkat dirfd name AT_REMOVEDIR) w2
    (o.1.ret = -1 →
      local_unlinkat_common H ctx dirfd name AT_REMOVEDIR w = (-1, o.2) ∧
      o.2.trace = w.trace ++ [.openat dirfd name (O_RDONLY ||| O_DIRECTORY ||| O_PATH) 0]) ∧
    (o.1.ret ≠ -1 → u1.1.ret = -1 → u1.2.errno ≠ ENOENT →
      local_unlinkat_common H ctx dirfd name AT_REMOVEDIR w = (-1, w1) ∧
      w1.errno = u1.2.errno ∧
      w1.trace = w.trace ++ [.openat dirfd name (O_RDONLY ||| O_DIRECTORY ||| O_PATH) 0,
        .unlinkat o.1.ret VIRTFS_META_DIR AT_REMOVEDIR, .close o.1.ret]) ∧
    (o.1.ret ≠ -1 → ¬ (u1.1.ret < 0 ∧ u1.2.errno ≠ ENOENT) → u2.1.ret = -1 →
        u2.2.errno ≠ ENOENT →
      local_unlinkat_common H ctx dirfd name AT_REMOVEDIR w = (-1, w2) ∧
      w2.errno = u2.2.errno ∧
      w2.trace = w.trace ++ [.openat dirfd name (O_RDONLY ||| O_DIRECTORY ||| O_PATH) 0,
        .unlinkat o.1.ret VIRTFS_META_DIR AT_REMOVEDIR, .close o.1.ret,
        .openat dirfd VIRTFS_META_DIR (O_DIRECTORY ||| O_RDONLY ||| O_NOFOLLOW ||| O_PATH_9P_UTIL) 0,
        .unlinkat m.1 name 0, .close m.1]) ∧
    (o.1.ret ≠ -1 → ¬ (u1.1.ret < 0 ∧ u1.2.errno ≠ ENOENT) →
        ¬ (u2.1.ret < 0 ∧ u2.2.errno ≠ ENOENT) →
      local_unlinkat_common H ctx dirfd name AT_REMOVEDIR w = (f.1.ret, f.2) ∧
      f.2.trace = w.trace ++ [.openat dirfd name (O_RDONLY ||| O_DIRECTORY ||| O_PATH) 0,
        .unlinkat o.1.ret VIRTFS_META_DIR AT_REMOVEDIR, .close o.1.ret,
        .openat dirfd VIRTFS_META_DIR (O_DIRECTORY ||| O_RDONLY ||| O_NOFOLLOW ||| O_PATH_9P_UTIL) 0,
        .unlinkat m.1 name 0, .close m.1, .unlinkat dirfd name AT_REMOVEDIR]) := by
  intro o u1 w1 m u2 w2 f
  have e1 : w1.errno = u1.2.errno := rfl
  have e2 : w2.errno = u2.2.errno := rfl
  have t0 : o.2.trace = w.trace ++ [.openat dirfd name (O_RDONLY ||| O_DIRECTORY ||| O_PATH) 0] := rfl
  have t1 : w1.trace = w.trace ++ [.openat dirfd name (O_RDONLY ||| O_DIRECTORY ||| O_PATH) 0,
      .unlinkat o.1.ret VIRTFS_META_DIR AT_REMOVEDIR, .close o.1.ret] := by
    show ((o.2.trace ++ [_]) ++ [_]) = _
    rw [t0]
    simp
  have t2 : w2.trace = w.trace ++ [.openat dirfd name (O_RDONLY ||| O_DIRECTORY ||| O_PATH) 0,
      .unlinkat o.1.ret VIRTFS_META_DIR AT_REMOVEDIR, .close o.1.ret,
      .openat dirfd VIRTFS_META_DIR (O_DIRECTORY ||| O_RDONLY ||| O_NOFOLLOW ||| O_PATH_9P_UTIL) 0,
      .unlinkat m.1 name 0, .close m.1] := by
    show (((w1.trace ++ [_]) ++ [_]) ++ [_]) = _
    rw [t1]
    simp
  have t3 : f.2.trace = w.trace ++ [.openat dirfd name (O_RDONLY ||| O_DIRECTORY ||| O_PATH) 0,
      .unlinkat o.1.ret VIRTFS_META_DIR AT_REMOVEDIR, .close o.1.ret,
      .openat dirfd VIRTFS_META_DIR (O_DIRECTORY ||| O_RDONLY ||| O_NOFOLLOW ||| O_PATH_9P_UTIL) 0,
      .unlinkat m.1 name 0, .close m.1, .unlinkat dirfd name AT_REMOVEDIR] := by
    show (w2.trace ++ [_]) = _
    rw [t2]
    simp
  have hown_fail : o.1.ret = -1 → unlinkat_own_meta H dirfd name AT_REMOVEDIR w = Sum.inl (-1, o.2) := by
    intro h
    have h' : (sys H (.openat dirfd name (O_RDONLY ||| O_DIRECTORY ||| O_PATH) 0) w).1.ret = -1 := h
    simp only [unlinkat_own_meta, ↓reduceIte, h']
  have hown1 : o.1.ret ≠ -1 → (u1.1.ret < 0 ∧ u1.2.errno ≠ ENOENT) →
      unlinkat_own_meta H dirfd name AT_REMOVEDIR w = Sum.inl (u1.1.ret, w1) := by
    intro h hc
    have h' : ¬ (sys H (.openat dirfd name (O_RDONLY ||| O_DIRECTORY ||| O_PATH) 0) w).1.ret = -1 := h
    simp only [unlinkat_own_meta, ↓reduceIte, h']
    exact if_pos hc
  have hown2 : o.1.ret ≠ -1 → ¬ (u1.1.ret < 0 ∧ u1.2.errno ≠ ENOENT) →
      unlinkat_own_meta H dirfd name AT_REMOVEDIR w = Sum.inr w1 := by
    intro h hc
    have h' : ¬ (sys H (.openat dirfd name (O_RDONLY ||| O_DIRECTORY ||| O_PATH) 0) w).1.ret = -1 := h
    simp only [unlinkat_own_meta, ↓reduceIte, h']
    exact if_neg hc
  refine ⟨?_, ?_, ?_, ?_⟩
  · intro h
    refine ⟨?_, t0⟩
    simp only [local_unlinkat_common, hf, ↓reduceIte, hown_fail h]
  · intro h hr he
    refine ⟨?_, e1, t1⟩
    have hc : u1.1.ret < 0 ∧ u1.2.errno ≠ ENOENT := ⟨by rw [hr]; decide, he⟩
    simp only [local_unlinkat_common, hf, ↓reduceIte, hown1 h hc, hr]
  · intro h hc hr he
    refine ⟨?_, e2, t2⟩
    have hc2 : u2.1.ret < 0 ∧ u2.2.errno ≠ ENOENT := ⟨by rw [hr]; decide, he⟩
    simp only [local_unlinkat_common, hf, ↓reduceIte, hown2 h hc]
    refine (if_pos hc2).trans ?_
    show (u2.1.ret, w2) = (-1, w2)
    rw [hr]
  · intro h hc hc2
    refine ⟨?_, t3⟩
    simp only [local_unlinkat_common, hf, ↓reduceIte, hown2 h hc]
    exact if_neg hc2

/-- Witness for C25 on the tree host: the directory `/export/d/sub` holds a
file and the record of that file, so step 1 (removing the hidden directory of
`sub`) fails with ENOTEMPTY; the call returns -1 with that `errno` after
three host calls, and the directory and its record are still there. -/
theorem local_unlinkat_common_rmdir_order_witness :
    flagSet exCtxMappedFile.export_flags V9FS_SM_MAPPED_FILE = true ∧
    (sys fsysHost (.openat 5 "sub".toList (O_RDONLY ||| O_DIRECTORY ||| O_PATH) 0)
      (fsysWorld exRmdirTree)).1.ret = 6 ∧
    (local_unlinkat_common fsysHost exCtxMappedFile 5 "sub".toList AT_REMOVEDIR
      (fsysWorld exRmdirTree)).1 = -1 ∧
    (local_unlinkat_common fsysHost exCtxMappedFile 5 "sub".toList AT_REMOVEDIR
      (fsysWorld exRmdirTree)).2.errno = ENOTEMPTY ∧
    (local_unlinkat_common fsysHost exCtxMappedFile 5 "sub".toList AT_REMOVEDIR
      (fsysWorld exRmdirTree)).2.trace =
      [.openat 5 "sub".toList (O_RDONLY ||| O_DIRECTORY ||| O_PATH) 0,
       .unlinkat 6 VIRTFS_META_DIR AT_REMOVEDIR, .close 6] ∧
    tGet (local_unlinkat_common fsysHost exCtxMappedFile 5 "sub".toList AT_REMOVEDIR
      (fsysWorld exRmdirTree)).2.hs.tree ["export".toList, "d".toList, "sub".toList] =
      some .dir := by
  have h := (local_unlinkat_common_rmdir_order fsysHost exCtxMappedFile 5 "sub".toList
    (fsysWorld exRmdirTree) (by decide)).2.1 (by decide) (by decide) (by decide)
  refine ⟨by decide, by decide, ?_, ?_, ?_, by decide⟩
  · rw [h.1]
  · rw [h.1]; decide
  · rw [h.1]; exact h.2.2

/-! ## C26: `local_rename` undoes nothing -/

/-- C26, the claim as written fails: in `exNestTree` the directory `/d/a` has
the record `/export/d/.virtfs_metadata/a`.  `local_rename` of `/d/a` to
`/d/a/b` creates `/export/d/a/.virtfs_metadata`, moves the record to
`/export/d/a/.virtfs_metadata/b`, and then the host rename of the directory
into itself fails with EINVAL: the call returns -1, the record is at the
location derived from the new path and no longer at the one derived from the
old path, and the object is at the old path and not at the new one. -/
theorem local_rename_failure_leaves_record_moved :
    local_mapped_attr_path exCtxMappedFile "/d/a".toList
      = some "/export//d/.virtfs_metadata/a".toList ∧
    local_mapped_attr_path exCtxMappedFile "/d/a/b".toList
      = some "/export//d/a/.virtfs_metadata/b".toList ∧
    fsGet exNestTree (hostLocation (rpath exCtxMappedFile "/d/a".toList)) = some .dir ∧
    fsGet exNestTree (hostLocation "/export//d/.virtfs_metadata/a".toList)
      = some (.file "virtfs.mode=16877\n".toList) ∧
    (local_rename fsHost exCtxMappedFile "/d/a".toList "/d/a/b".toList exNestWorld).map
      (fun r => (r.1, r.2.errno,
        fsGet r.2.hs (hostLocation "/export//d/a/.virtfs_metadata/b".toList)))
      = some (-1, EINVAL, some (.file "virtfs.mode=16877\n".toList)) ∧
    (local_rename fsHost exCtxMappedFile "/d/a".toList "/d/a/b".toList exNestWorld).map
      (fun r => (fsGet r.2.hs (hostLocation (rpath exCtxMappedFile "/d/a/b".toList)),
        fsGet r.2.hs (hostLocation "/export//d/.virtfs_metadata/a".toList),
        fsGet r.2.hs (hostLocation (rpath exCtxMappedFile "/d/a".toList))))
      = some (none, none, some .dir) := by
  decide

/-- A successful `rename` leaves alone every location that lies neither at or
below the source nor at or below the destination. -/
theorem fsRename_ok_get_other (fs fs2 : HostFS) (src dst q : List CStr)
    (h : fsRename fs src dst = .ok fs2) (hsd : src.isPrefixOf dst = false)
    (h1 : src.isPrefixOf q = false) (h2 : dst.isPrefixOf q = false) :
    fsGet fs2 q = fsGet fs q := by
  obtain ⟨_, _, _, hfs⟩ := fsRename_ok_effect fs fs2 src dst h hsd
  subst hfs
  by_cases hq : q = []
  · subst hq; simp [fsGet]
  · rw [fsGet_of_ne_nil _ _ hq, fsGet_of_ne_nil _ _ hq]
    simp [h1, h2]

/-- When `local_create_mapped_attr_dir` fails on the tree host, the tree is
unchanged. -/
theorem create_mapped_attr_dir_fail_tree (ctx : FsContext) (path : CStr) (w : World HostFS)
    (h : (local_create_mapped_attr_dir fsHost ctx path w).1 < 0) :
    (local_create_mapped_attr_dir fsHost ctx path w).2.hs = w.hs := by
  rw [local_create_mapped_attr_dir_eq] at h ⊢
  generalize mapped_attr_dir ctx path = p at h ⊢
  rcases fsMkdir_cases w.hs (hostLocation p) with ⟨h1, h2⟩ | ⟨h1, ⟨e, he, h2⟩ | h2⟩
  · rw [sys_mkdir_err w p _ _ h2]
    simp [failRes]
  · rw [sys_mkdir_err w p _ _ h2]
    simp [failRes, he]
  · exfalso
    rw [sys_mkdir_ok w p _ _ h2] at h
    simp [okRes] at h

/-- C26 (amended): under mapped-file on a host file tree `local_rename` moves
the shadow record first and the object second and moves nothing back.  For an
existing object with a shadow record, the two record locations un-nested and
neither of them at or above the old path of the object: (1) when creating the
hidden directory fails, that result is returned after the one `mkdir` and the
tree is unchanged; (2) when the rename of the record fails with an `errno`
other than ENOENT, -1 is returned, the object rename is not issued, and record
and object are at their old locations; (3) when the rename of the record
succeeded and the host rename of the object fails, -1 is returned with no
call after the failed rename, the object is at the old path, and the record
is at the location derived from the new path and absent at the one derived
from the old path. -/
theorem local_rename_moves_nothing_back (ctx : FsContext)
    (oldpath newpath attr_old attr_new : CStr) (w : World HostFS) (node : Node) (content : CStr)
    (hmf : flagSet ctx.export_flags V9FS_SM_MAPPED_FILE = true)
    (hao : local_mapped_attr_path ctx oldpath = some attr_old)
    (han : local_mapped_attr_path ctx newpath = some attr_new)
    (h1 : unnested (hostLocation attr_old) (hostLocation attr_new))
    (h2 : (hostLocation attr_old).isPrefixOf (hostLocation (rpath ctx oldpath)) = false)
    (h3 : (hostLocation attr_new).isPrefixOf (hostLocation (rpath ctx oldpath)) = false)
    (hobj : fsGet w.hs (hostLocation (rpath ctx oldpath)) = some node)
    (hrec : fsGet w.hs (hostLocation attr_old) = some (.file content)) :
    let d := local_create_mapped_attr_dir fsHost ctx newpath w
    let r := sys fsHost (.rename attr_old attr_new) d.2
    let o := sys fsHost (.rename (rpath ctx oldpath) (rpath ctx newpath)) r.2
    (d.1 < 0 →
      local_rename fsHost ctx oldpath newpath w = some (d.1, d.2) ∧
      d.2.trace = w.trace ++ [.mkdir (mapped_attr_dir ctx newpath) 0o700] ∧
      d.2.hs = w.hs) ∧
    (¬ d.1 < 0 → r.1.ret < 0 → r.2.errno ≠ ENOENT →
      local_rename fsHost ctx oldpath newpath w = some (-1, r.2) ∧
      r.2.trace = w.trace ++ [.mkdir (mapped_attr_dir ctx newpath) 0o700,
        .rename attr_old attr_new] ∧
      fsGet r.2.hs (hostLocation attr_old) = some (.file content) ∧
      fsGet r.2.hs (hostLocation (rpath ctx oldpath)) = some node) ∧
    (¬ d.1 < 0 → r.1.ret = 0 → o.1.ret < 0 →
      local_rename fsHost ctx oldpath newpath w = some (-1, o.2) ∧
      o.2.trace = w.trace ++ [.mkdir (mapped_attr_dir ctx newpath) 0o700,
        .rename attr_old attr_new, .rename (rpath ctx oldpath) (rpath ctx newpath)] ∧
      fsGet o.2.hs (hostLocation attr_new) = some (.file content) ∧
      fsGet o.2.hs (hostLocation attr_old) = none ∧
      fsGet o.2.hs (hostLocation (rpath ctx oldpath)) = some node) := by
  intro d r o
  have heq : local_rename fsHost ctx oldpath newpath w =
      if d.1 < 0 then some (d.1, d.2)
      else if r.1.ret < 0 ∧ r.2.errno ≠ ENOENT then some (r.1.ret, r.2)
      else some (o.1.ret, o.2) :=
    local_rename_mapped_file_eq fsHost ctx _ _ _ _ w hmf hao han
  have td : d.2.trace = w.trace ++ [.mkdir (mapped_attr_dir ctx newpath) 0o700] :=
    local_create_mapped_attr_dir_trace fsHost ctx newpath w
  have tr : r.2.trace = w.trace ++ [.mkdir (mapped_attr_dir ctx newpath) 0o700,
      .rename attr_old attr_new] := by
    show d.2.trace ++ [_] = _
    rw [td]
    simp
  have tob : o.2.trace = w.trace ++ [.mkdir (mapped_attr_dir ctx newpath) 0o700,
      .rename attr_old attr_new, .rename (rpath ctx oldpath) (rpath ctx newpath)] := by
    show r.2.trace ++ [_] = _
    rw [tr]
    simp
  have hrc : (∃ fs2, fsRename d.2.hs (hostLocation attr_old) (hostLocation attr_new) = .ok fs2 ∧
        r.1.ret = 0 ∧ r.2.hs = fs2) ∨
      (∃ e, fsRename d.2.hs (hostLocation attr_old) (hostLocation attr_new) = .error e ∧
        r.1.ret = -1 ∧ r.2.errno = e ∧ r.2.hs = d.2.hs) :=
    sys_rename_cases d.2 attr_old attr_new
  have hoc : (∃ fs3, fsRename r.2.hs (hostLocation (rpath ctx oldpath))
          (hostLocation (rpath ctx newpath)) = .ok fs3 ∧ o.1.ret = 0 ∧ o.2.hs = fs3) ∨
      (∃ e, fsRename r.2.hs (hostLocation (rpath ctx oldpath))
          (hostLocation (rpath ctx newpath)) = .error e ∧
        o.1.ret = -1 ∧ o.2.errno = e ∧ o.2.hs = r.2.hs) :=
    sys_rename_cases r.2 (rpath ctx oldpath) (rpath ctx newpath)
  have keep : ¬ d.1 < 0 → fsGet d.2.hs (hostLocation attr_old) = some (.file content) ∧
      fsGet d.2.hs (hostLocation (rpath ctx oldpath)) = some node := by
    intro hneg
    have k1 : ∀ q, fsGet w.hs q ≠ none → fsGet d.2.hs q = fsGet w.hs q :=
      (create_mapped_attr_dir_keeps ctx newpath w hneg).1
    exact ⟨by rw [k1 _ (by rw [hrec]; simp)]; exact hrec,
      by rw [k1 _ (by rw [hobj]; simp)]; exact hobj⟩
  refine ⟨?_, ?_, ?_⟩
  · intro hd
    refine ⟨?_, td, create_mapped_attr_dir_fail_tree ctx newpath w hd⟩
    rw [heq, if_pos hd]
  · intro hneg hr he
    obtain ⟨kr, ko⟩ := keep hneg
    rcases hrc with ⟨fs2, _, hret, _⟩ | ⟨e, _, hret, _, hhs⟩
    · rw [hret] at hr
      exact absurd hr (by decide)
    · refine ⟨?_, tr, by rw [hhs]; exact kr, by rw [hhs]; exact ko⟩
      rw [heq, if_neg hneg, if_pos ⟨hr, he⟩, hret]
  · intro hneg hr ho
    obtain ⟨kr, ko⟩ := keep hneg
    rcases hrc with ⟨fs2, hren, _, hhs⟩ | ⟨e, _, hret, _, _⟩
    · obtain ⟨g1, g2, _⟩ := fsRename_ok_get _ _ _ _ hren h1
      have g3 := fsRename_ok_get_other _ _ _ _ _ hren h1.1 h2 h3
      rcases hoc with ⟨fs3, _, hret3, _⟩ | ⟨e3, _, hret3, _, hhs3⟩
      · rw [hret3] at ho
        exact absurd ho (by decide)
      · refine ⟨?_, tob, ?_, ?_, ?_⟩
        · rw [heq, if_neg hneg, if_neg (by rw [hr]; simp), hret3]
        · rw [hhs3, hhs, g1, kr]
        · rw [hhs3, hhs, g2]
        · rw [hhs3, hhs, g3, ko]
    · rw [hret] at hr
      exact absurd hr (by decide)

/-- Witness for C26 (amended) on `exNestTree`: the rename of the directory
`/d/a` to `/d/a/b` returns -1 after the record was moved; the record is at
`/export/d/a/.virtfs_metadata/b`, not at `/export/d/.virtfs_metadata/a`, and
the directory is at `/export/d/a`. -/
theorem local_rename_moves_nothing_back_witness :
    flagSet exCtxMappedFile.export_flags V9FS_SM_MAPPED_FILE = true ∧
    unnested (hostLocation "/export//d/.virtfs_metadata/a".toList)
      (hostLocation "/export//d/a/.virtfs_metadata/b".toList) ∧
    (local_rename fsHost exCtxMappedFile "/d/a".toList "/d/a/b".toList exNestWorld).map
      (fun x => x.1) = some (-1) ∧
    (local_rename fsHost exCtxMappedFile "/d/a".toList "/d/a/b".toList exNestWorld).map
      (fun x => x.2.trace) = some [.mkdir "/export//d/a/.virtfs_metadata".toList 0o700,
        .rename "/export//d/.virtfs_metadata/a".toList "/export//d/a/.virtfs_metadata/b".toList,
        .rename "/export//d/a".toList "/export//d/a/b".toList] ∧
    (local_rename fsHost exCtxMappedFile "/d/a".toList "/d/a/b".toList exNestWorld).map
      (fun x => fsGet x.2.hs ["export".toList, "d".toList, "a".toList, VIRTFS_META_DIR,
        "b".toList]) = some (some (.file "virtfs.mode=16877\n".toList)) ∧
    (local_rename fsHost exCtxMappedFile "/d/a".toList "/d/a/b".toList exNestWorld).map
      (fun x => fsGet x.2.hs ["export".toList, "d".toList, VIRTFS_META_DIR, "a".toList])
      = some none ∧
    (local_rename fsHost exCtxMappedFile "/d/a".toList "/d/a/b".toList exNestWorld).map
      (fun x => fsGet x.2.hs ["export".toList, "d".toList, "a".toList]) = some (some .dir) := by
  have h := (local_rename_moves_nothing_back exCtxMappedFile "/d/a".toList "/d/a/b".toList
    "/export//d/.virtfs_metadata/a".toList "/export//d/a/.virtfs_metadata/b".toList
    exNestWorld .dir "virtfs.mode=16877\n".toList
    (by decide) (by decide) (by decide) (by decide) (by decide) (by decide) (by decide)
    (by decide)).2.2 (by decide) (by decide) (by decide)
  refine ⟨by decide, by decide, ?_, ?_, ?_, ?_, ?_⟩
  · rw [h.1]; rfl
  · rw [h.1]; exact congrArg some h.2.1
  · rw [h.1]; exact congrArg some h.2.2.1
  · rw [h.1]; exact congrArg some h.2.2.2.1
  · rw [h.1]; exact congrArg some h.2.2.2.2

/-! ## The read loop and the lines of a record -/

theorem spec_decimal_eq (t : CStr) (v : Int) (h : spec_decimal t = some v) : t = fmt_d v := by
  unfold spec_decimal at h
  split_ifs at h with e
  rw [Option.some.injEq] at h
  rw [← h]
  exact e.symm

theorem parseDigits_nil (n : Nat) : parseDigits n [] = n := rfl

theorem spec_decimal_candidate_fmt_d (v : Int) : spec_decimal_candidate (fmt_d v) = v := by
  have hp : ∀ n : Nat, parseDigits 0 (Nat.toDigits 10 n) = n := by
    intro n
    have := parseDigits_toDigits n []
    rwa [List.append_nil, parseDigits_nil] at this
  by_cases hv : v < 0
  · have hf : fmt_d v = '-' :: Nat.toDigits 10 (-v).toNat := by
      unfold fmt_d; rw [if_pos hv]
    rw [hf]
    unfold spec_decimal_candidate
    simp only
    rw [hp, Int.toNat_of_nonneg (by omega), neg_neg]
  · have hf : fmt_d v = Nat.toDigits 10 v.toNat := by
      unfold fmt_d; rw [if_neg hv]
    obtain ⟨m, hm, tl, htl⟩ := toDigitsCore_head (v.toNat + 1) v.toNat [] (by omega)
    obtain ⟨_, _, _, f4, _, _, _⟩ := digitChar_facts ⟨m, hm⟩
    simp only at f4
    have hd : Nat.toDigits 10 v.toNat = Nat.digitChar m :: tl := htl
    have e : (parseDigits 0 (Nat.digitChar m :: tl) : Int) = v := by
      rw [← hd, hp]
      exact Int.toNat_of_nonneg (by omega)
    rw [hf, hd]
    unfold spec_decimal_candidate
    split
    · rename_i d heq
      rw [List.cons.injEq] at heq
      exact absurd heq.1 f4
    · exact e

/-- The decimal texts are exactly the renderings: a text denotes `v` exactly
when it is the decimal rendering of `v`. -/
theorem spec_decimal_iff (t : CStr) (v : Int) : spec_decimal t = some v ↔ t = fmt_d v := by
  constructor
  · exact spec_decimal_eq t v
  · intro h
    subst h
    unfold spec_decimal
    rw [spec_decimal_candidate_fmt_d, if_pos rfl]

theorem spec_line_value_eq (key line : CStr) (v : Int) (h : spec_line_value key line = some v) :
    line = key ++ '=' :: fmt_d v := by
  unfold spec_line_value at h
  split_ifs at h with e
  obtain ⟨t, ht⟩ := List.isPrefixOf_iff_prefix.mp e
  have hd : line.drop (key.length + 1) = t := by
    rw [← ht]
    have : (key ++ "=".toList).length = key.length + 1 := by simp
    rw [← this, List.drop_left]
  rw [hd] at h
  rw [← ht, spec_decimal_eq t v h]
  simp

theorem prefix_of_append_tail (key : CStr) :
    ∀ (body tail : CStr), (∀ c ∈ tail, c ∉ key) → key <+: body ++ tail → key <+: body := by
  induction key with
  | nil => intro body tail _ _; exact List.nil_prefix
  | cons k ks ih =>
    intro body tail ht hp
    cases body with
    | nil =>
      exfalso
      simp only [List.nil_append] at hp
      cases tail with
      | nil => simp at hp
      | cons x xs =>
        rw [List.cons_prefix_cons] at hp
        exact ht x (List.mem_cons_self _ _) (hp.1 ▸ List.mem_cons_self _ _)
    | cons b bs =>
      simp only [List.cons_append] at hp
      rw [List.cons_prefix_cons] at hp ⊢
      exact ⟨hp.1, ih bs tail (fun c hc hk => ht c hc (List.mem_cons_of_mem _ hk)) hp.2⟩

theorem cstr_id (key : CStr) (hk : ∀ c ∈ key, c ≠ '\x00') : cstr key = key := by
  have := cstr_append key [] hk
  simpa [cstr] using this

theorem strncmp0_key_start (buf key : CStr) (hk : ∀ c ∈ key, c ≠ '\x00')
    (h : strncmp0 buf key key.length = true) : key <+: buf := by
  unfold strncmp0 at h
  rw [cstr_id key hk] at h
  simp only [beq_iff_eq, List.take_left'] at h
  have h1 : key <+: cstr buf ++ ['\x00'] := by
    rw [← h]
    exact List.take_prefix _ _
  have h2 : key <+: cstr buf :=
    prefix_of_append_tail key (cstr buf) ['\x00']
      (fun c hc hk2 => by
        simp only [List.mem_singleton] at hc
        exact hk c hk2 hc) h1
  exact h2.trans (List.takeWhile_prefix _)

theorem strtol_fmt_d_end (v : Int) (h1 : -2147483648 ≤ v) (h2 : v < 2147483648) :
    strtol (fmt_d v) = v := by
  unfold strtol fmt_d
  by_cases hv : v < 0
  · rw [if_pos hv]
    have hsp : List.dropWhile isspace ('-' :: Nat.toDigits 10 (-v).toNat)
        = '-' :: Nat.toDigits 10 (-v).toNat := by
      simp [List.dropWhile, isspace]
    rw [hsp]
    simp only
    have hp := parseDigits_toDigits (-v).toNat []
    rw [List.append_nil, parseDigits_nil] at hp
    rw [hp]
    have e : -((-v).toNat : Int) = v := by omega
    rw [e]
    exact long_clamp v h1 h2
  · rw [if_neg hv]
    obtain ⟨m, hm, tl, htl⟩ := toDigitsCore_head (v.toNat + 1) v.toNat [] (by omega)
    obtain ⟨_, _, f3, f4, f5, _, _⟩ := digitChar_facts ⟨m, hm⟩
    simp only at f3 f4 f5
    have hd : Nat.toDigits 10 v.toNat = Nat.digitChar m :: tl := htl
    have hsp : List.dropWhile isspace (Nat.toDigits 10 v.toNat) = Nat.toDigits 10 v.toNat := by
      rw [hd]
      simp [List.dropWhile, f3]
    rw [hsp]
    have hp : parseDigits 0 (Nat.toDigits 10 v.toNat) = v.toNat := by
      have := parseDigits_toDigits v.toNat []
      rwa [List.append_nil, parseDigits_nil] at this
    have e : ((v.toNat : Nat) : Int) = v := by omega
    split
    · rename_i t heq
      rw [hd] at heq
      simp at heq
      exact absurd heq.1 f4
    · rename_i t heq
      rw [hd] at heq
      simp at heq
      exact absurd heq.1 f5
    · rw [hp, e]
      exact long_clamp v h1 h2

/-- The number `atoi` reads from a decimal rendering that ends the buffer or is
followed by the newline. -/
theorem atoi_fmt_d_tail (v : Int) (h1 : -2147483648 ≤ v) (h2 : v < 2147483648) (tail : CStr)
    (ht : tail = [] ∨ tail = ['\n']) : atoi (fmt_d v ++ tail) = v := by
  rcases ht with ht | ht
  · subst ht
    unfold atoi
    rw [List.append_nil, strtol_fmt_d_end v h1 h2, toInt32_id v h1 h2]
  · subst ht
    exact atoi_fmt_d v h1 h2 []

/-- One buffer of the read loop against one line of the record: on a line
that, when it begins with the key, has the form `key=value` with a value in
the range of `int`, the branch of the loop for the key does what the
specification says. -/
theorem read_step_eq_spec (key body tail : CStr) (acc : Option Int)
    (hk0 : ∀ c ∈ key, c ≠ '\x00') (hkn : ∀ c ∈ key, c ≠ '\n')
    (ht : tail = [] ∨ tail = ['\n'])
    (hwf : key.isPrefixOf body = true →
      ∃ v, spec_line_value key body = some v ∧ -2147483648 ≤ v ∧ v < 2147483648) :
    (if strncmp0 (body ++ tail) key key.length then
        some (atoi ((body ++ tail).drop (key.length + 1))) else acc)
      = (spec_line_value key body).orElse (fun _ => acc) := by
  by_cases hp : key.isPrefixOf body = true
  · obtain ⟨v, hv, h1, h2⟩ := hwf hp
    have hb := spec_line_value_eq key body v hv
    have hs : strncmp0 (body ++ tail) key key.length = true := by
      rw [hb, List.append_assoc]
      exact strncmp0_key_line key _ hk0
    have hd : (body ++ tail).drop (key.length + 1) = fmt_d v ++ tail := by
      rw [hb]
      have e : key ++ '=' :: fmt_d v ++ tail = (key ++ ['=']) ++ (fmt_d v ++ tail) := by simp
      have l : (key ++ ['=']).length = key.length + 1 := by simp
      rw [e, ← l, List.drop_left]
    rw [if_pos hs, hd, atoi_fmt_d_tail v h1 h2 tail ht, hv]
    rfl
  · have hs : ¬ strncmp0 (body ++ tail) key key.length = true := by
      intro hs
      apply hp
      apply List.isPrefixOf_iff_prefix.mpr
      apply prefix_of_append_tail key body tail _ (strncmp0_key_start _ key hk0 hs)
      intro c hc hck
      rcases ht with ht | ht
      · subst ht; simp at hc
      · subst ht
        simp only [List.mem_singleton] at hc
        exact hkn c hck hc
    have hnone : spec_line_value key body = none := by
      unfold spec_line_value
      rw [if_neg]
      intro hq
      apply hp
      obtain ⟨t, ht2⟩ := List.isPrefixOf_iff_prefix.mp hq
      exact List.isPrefixOf_iff_prefix.mpr ⟨"=".toList ++ t, by rw [← ht2]; simp⟩
    rw [if_neg hs, hnone]
    rfl

theorem fgets_whole (body : List Char) :
    ∀ (n : Nat), (∀ c ∈ body, c ≠ '\n') → body.length + 2 ≤ n → fgets n body = (body, []) := by
  induction body with
  | nil =>
    intro n _ hn
    match n, hn with
    | k + 2, _ => simp [fgets]
  | cons c body ih =>
    intro n hb hn
    have hc : c ≠ '\n' := hb c (List.mem_cons_self _ _)
    match n, hn with
    | k + 2, hn =>
      have hk := ih (k + 1) (fun x hx => hb x (List.mem_cons_of_mem _ hx)) (by simp at hn; omega)
      simp [fgets, hc, hk]

theorem fgetsLoop_nil (fuel : Nat) : fgetsLoop fuel [] = [] := by
  cases fuel <;> simp [fgetsLoop]

/-- A last line without newline is read as one buffer. -/
theorem fgetsAll_last (body : List Char) (hne : body ≠ []) (hb : ∀ c ∈ body, c ≠ '\n')
    (hl : body.length + 2 ≤ ATTR_MAX) : fgetsAll body = [body] := by
  unfold fgetsAll
  cases hlen : body.length with
  | zero => exact absurd (List.length_eq_zero.mp hlen) hne
  | succ k =>
    simp only [fgetsLoop]
    rw [if_neg hne, fgets_whole body ATTR_MAX hb hl]
    simp only
    rw [fgetsLoop_nil]

/-- The lines of a text: it is empty, or a first line ended by a newline and
the rest, or one line without a newline. -/
theorem spec_lines_cases (s : CStr) :
    s = [] ∨
    (∃ body rest, (∀ c ∈ body, c ≠ '\n') ∧ s = body ++ '\n' :: rest ∧
      spec_lines s = body :: spec_lines rest) ∨
    ((∀ c ∈ s, c ≠ '\n') ∧ s ≠ [] ∧ spec_lines s = [s]) := by
  induction s with
  | nil => exact Or.inl rfl
  | cons c s ih =>
    right
    by_cases hc : c = '\n'
    · left
      refine ⟨[], s, by simp, by simp [hc], ?_⟩
      simp [spec_lines, hc]
    · rcases ih with h | ⟨body, rest, hb, hs, hl⟩ | ⟨hb, hne, hl⟩
      · right
        subst h
        refine ⟨?_, by simp, ?_⟩
        · intro x hx
          simp only [List.mem_singleton] at hx
          rw [hx]; exact hc
        · simp [spec_lines, hc]
      · left
        refine ⟨c :: body, rest, ?_, by rw [hs]; rfl, ?_⟩
        · intro x hx
          rcases List.mem_cons.mp hx with e | e
          · rw [e]; exact hc
          · exact hb x e
        · simp only [spec_lines, hc, ↓reduceIte, hl]
      · right
        refine ⟨?_, by simp, ?_⟩
        · intro x hx
          rcases List.mem_cons.mp hx with e | e
          · rw [e]; exact hc
          · exact hb x e
        · simp only [spec_lines, hc, ↓reduceIte, hl]

theorem well_formed_line_facts (line : CStr) (h : well_formed_line line = true) :
    line.length + 2 ≤ ATTR_MAX ∧
    ∀ key ∈ record_keys, key.isPrefixOf line = true →
      ∃ v, spec_line_value key line = some v ∧ -2147483648 ≤ v ∧ v < 2147483648 := by
  unfold well_formed_line at h
  rw [Bool.and_eq_true, decide_eq_true_eq, List.all_eq_true] at h
  refine ⟨h.1, ?_⟩
  intro key hk hp
  have := h.2 key hk
  rw [hp] at this
  simp only [Bool.not_true, Bool.false_or] at this
  cases hv : spec_line_value key line with
  | none => rw [hv] at this; exact absurd this (by simp)
  | some v =>
    rw [hv] at this
    simp only [decide_eq_true_eq] at this
    exact ⟨v, rfl, this⟩

theorem foldl_orElse_getLast (g : CStr → Option Int) (l : List CStr) :
    ∀ acc : Option Int,
      l.foldl (fun acc line => (g line).orElse (fun _ => acc)) acc
        = ((l.filterMap g).getLast?).orElse (fun _ => acc) := by
  induction l with
  | nil => intro acc; rfl
  | cons x xs ih =>
    intro acc
    simp only [List.foldl_cons]
    rw [ih]
    cases hx : g x with
    | none =>
      rw [List.filterMap_cons_none hx]
      rfl
    | some v =>
      rw [List.filterMap_cons_some hx]
      cases hl : (xs.filterMap g).getLast? with
      | none =>
        have : xs.filterMap g = [] := List.getLast?_eq_none_iff.mp hl
        rw [this]
        rfl
      | some u =>
        have hne : xs.filterMap g ≠ [] := by
          intro e; rw [e] at hl; simp at hl
        obtain ⟨y, ys, hys⟩ := List.exists_cons_of_ne_nil hne
        rw [hys, List.getLast?_cons_cons, ← hys, hl]
        rfl

/-- On a well-formed record the branch of the read loop for a key computes
the value the specification gives the key. -/
theorem read_loop_value_eq_spec (key : CStr) (hmem : key ∈ record_keys) :
    ∀ (n : Nat) (content : CStr), content.length ≤ n → well_formed_record content = true →
      ∀ acc : Option Int,
        (fgetsAll content).foldl
          (fun acc buf => if strncmp0 buf key key.length then
            some (atoi (buf.drop (key.length + 1))) else acc) acc
        = (spec_lines content).foldl (fun acc line => (spec_line_value key line).orElse (fun _ => acc))
            acc := by
  have hk0 : ∀ c ∈ key, c ≠ '\x00' := by
    revert key; decide
  have hkn : ∀ c ∈ key, c ≠ '\n' := by
    revert key; decide
  intro n
  induction n with
  | zero =>
    intro content hl _ acc
    have : content = [] := List.length_eq_zero.mp (by omega)
    subst this
    rfl
  | succ n ih =>
    intro content hl hwf acc
    rcases spec_lines_cases content with h | ⟨body, rest, hb, hs, hlines⟩ | ⟨hb, hne, hlines⟩
    · subst h; rfl
    · unfold well_formed_record at hwf
      rw [hlines, List.all_cons, Bool.and_eq_true] at hwf
      obtain ⟨hlen, hform⟩ := well_formed_line_facts body hwf.1
      rw [hlines, hs, fgetsAll_line body rest hb hlen]
      simp only [List.foldl_cons]
      rw [read_step_eq_spec key body ['\n'] acc hk0 hkn (Or.inr rfl) (hform key hmem)]
      apply ih rest
      · rw [hs] at hl
        simp at hl
        omega
      · exact hwf.2
    · unfold well_formed_record at hwf
      rw [hlines, List.all_cons, Bool.and_eq_true] at hwf
      obtain ⟨hlen, hform⟩ := well_formed_line_facts content hwf.1
      rw [hlines, fgetsAll_last content hne hb hlen]
      simp only [List.foldl_cons, List.foldl_nil]
      have := read_step_eq_spec key content [] acc hk0 hkn (Or.inl rfl) (hform key hmem)
      rw [List.append_nil] at this
      exact this

theorem read_loop_value_spec (key : CStr) (hmem : key ∈ record_keys) (content : CStr)
    (hwf : well_formed_record content = true) :
    read_loop_value key content = spec_record_value key content := by
  unfold read_loop_value spec_record_value
  rw [read_loop_value_eq_spec key hmem content.length content (le_refl _) hwf none,
    foldl_orElse_getLast]
  cases ((spec_lines content).filterMap (spec_line_value key)).getLast? <;> rfl

/-! ## C5: the record `local_set_mapped_file_attr` writes -/

theorem read_loop_merge_spec (prev : Option CStr) (credp : FsCred)
    (hprev : ∀ content, prev = some content → well_formed_record content = true) :
    read_loop_merge prev credp = spec_merge prev credp := by
  cases prev with
  | none => rfl
  | some content =>
    have hwf := hprev content rfl
    unfold read_loop_merge spec_merge read_loop_prev_field spec_prev_field
    simp only
    rw [read_loop_value_spec _ (by decide) content hwf, read_loop_value_spec _ (by decide) content hwf,
      read_loop_value_spec _ (by decide) content hwf, read_loop_value_spec _ (by decide) content hwf]

theorem read_loop_overlay_spec (host : Stat) (content : CStr)
    (hwf : well_formed_record content = true) :
    read_loop_overlay host content = spec_record_overlay host content := by
  unfold read_loop_overlay spec_record_overlay
  rw [read_loop_value_spec _ (by decide) content hwf, read_loop_value_spec _ (by decide) content hwf,
    read_loop_value_spec _ (by decide) content hwf, read_loop_value_spec _ (by decide) content hwf]

/-- The texts `local_set_mapped_file_attr` prints make up the rendering of
the merged fields, the previous record read as the specification reads it. -/
theorem set_attr_content_spec (prev : Option CStr) (credp : FsCred) (hwf : credp.wf)
    (hrdev : credp.fc_rdev < 2147483648 ∨ credp.fc_rdev = U64_MINUS_ONE)
    (hprev : ∀ content, prev = some content → well_formed_record content = true) :
    set_attr_content prev credp = spec_render (spec_merge prev credp) := by
  rw [set_attr_content_render prev credp hwf hrdev, read_loop_merge_spec prev credp hprev]

/-- The host calls of a `local_set_mapped_file_attr` that returns 0: the
record is opened for reading, then the hidden directory is made (no record)
or the stream is closed, then the record is opened for writing, the texts are
printed, and the stream is closed. -/
theorem local_set_mapped_file_attr_calls {σ : Type} (H : Host σ) (ctx : FsContext) (path : CStr)
    (credp : FsCred) (w : World σ) (attr_path : CStr) (r : Int × World σ)
    (hp : local_mapped_attr_path ctx path = some attr_path)
    (h : local_set_mapped_file_attr H ctx path credp w = some r) (h0 : r.1 = 0) :
    ∃ second fp, r.2.trace = w.trace ++ .fopen attr_path "r".toList :: second ::
        .fopen attr_path "w".toList ::
        ((set_attr_prints (set_attr_merge (set_attr_read (prev_record H attr_path w)) credp)).map
          (fun t => HostCall.fprintf fp t) ++ [.fclose fp]) ∧
      (second = .mkdir (mapped_attr_dir ctx path) 0o700 ∨ ∃ s, second = .fclose s) := by
  simp only [local_set_mapped_file_attr, hp] at h
  unfold prev_record
  have t0 := sys_trace H (.fopen attr_path "r".toList) w
  generalize sys H (.fopen attr_path "r".toList) w = o at h t0 ⊢
  by_cases hz : o.1.ret = 0
  · simp only [hz, ↓reduceIte] at h ⊢
    have t1 := local_create_mapped_attr_dir_trace H ctx path o.2
    generalize local_create_mapped_attr_dir H ctx path o.2 = d at h t1
    by_cases h1 : d.1 < 0
    · simp only [h1, ↓reduceIte, Option.some.injEq] at h
      subst h
      exact absurd h0 (by simp only; omega)
    · simp only [h1, ↓reduceIte] at h
      have t2 := sys_trace H (.fopen attr_path "w".toList) d.2
      generalize sys H (.fopen attr_path "w".toList) d.2 = f at h t2
      by_cases h2 : f.1.ret = 0
      · simp only [h2, ↓reduceIte, Option.some.injEq] at h
        subst h
        exact absurd (show (-1 : Int) = 0 from h0) (by decide)
      · simp only [h2, ↓reduceIte, Option.some.injEq] at h
        subst h
        refine ⟨.mkdir (mapped_attr_dir ctx path) 0o700, f.1.ret, ?_, Or.inl rfl⟩
        simp [sys_trace, fprintfAll_trace, t2, t1, t0]
  · simp only [hz, ↓reduceIte] at h ⊢
    have t1 := sys_trace H (.fclose o.1.ret) o.2
    generalize sys H (.fclose o.1.ret) o.2 = d at h t1
    simp only [lt_self_iff_false, ↓reduceIte] at h
    have t2 := sys_trace H (.fopen attr_path "w".toList) d.2
    generalize sys H (.fopen attr_path "w".toList) d.2 = f at h t2
    by_cases h2 : f.1.ret = 0
    · simp only [h2, ↓reduceIte, Option.some.injEq] at h
      subst h
      exact absurd (show (-1 : Int) = 0 from h0) (by decide)
    · simp only [h2, ↓reduceIte, Option.some.injEq] at h
      subst h
      refine ⟨.fclose o.1.ret, f.1.ret, ?_, Or.inr ⟨_, rfl⟩⟩
      simp [sys_trace, fprintfAll_trace, t2, t1, t0]

/-- A successful `fopen` for writing on the file-tree host: the location is
not the root, it holds an empty file afterwards, and the stream refers to it
at offset 0. -/
theorem fsysFopen_w_ok (s : Fsys) (loc : List CStr)
    (h : (fsysFopen s loc "w".toList).1.ret ≠ 0) :
    loc ≠ [] ∧
    (fsysFopen s loc "w".toList).2.handles.lookup (fsysFopen s loc "w".toList).1.ret =
      some (.fileAt loc 0 O_WRONLY) ∧
    tGet (fsysFopen s loc "w".toList).2.tree loc = some (.file []) := by
  have hm : ¬ ("w".toList = "r".toList) := by decide
  have hl : loc ≠ [] := by
    intro e
    subst e
    apply h
    unfold fsysFopen
    simp [hm, tGet, failRes]
  refine ⟨hl, ?_⟩
  unfold fsysFopen at h ⊢
  simp only [hm, ↓reduceIte] at h ⊢
  cases hg : tGet s.tree loc with
  | some n =>
    cases n with
    | dir => simp [hg, failRes] at h
    | file c =>
      simp only [fsysAlloc, okRes]
      exact ⟨by simp [List.lookup_cons], tGet_tSet_same _ _ _ hl⟩
  | none =>
    simp only [hg] at h ⊢
    cases hp : tGet s.tree loc.dropLast with
    | none => simp [hp, failRes] at h
    | some n =>
      cases n with
      | file c => simp [hp, failRes] at h
      | dir =>
        simp only [fsysAlloc, okRes]
        exact ⟨by simp [List.lookup_cons], tGet_tSet_same _ _ _ hl⟩

/-- On the file-tree host, after a `local_set_mapped_file_attr` that returns
0 the record holds exactly the texts printed. -/
theorem local_set_mapped_file_attr_fsys_content (ctx : FsContext) (path : CStr) (credp : FsCred)
    (w : World Fsys) (a : CStr) (r : Int × World Fsys)
    (hp : local_mapped_attr_path ctx path = some a)
    (h : local_set_mapped_file_attr fsysHost ctx path credp w = some r) (h0 : r.1 = 0) :
    tGet r.2.hs.tree (hostLocation a) =
      some (.file (set_attr_content (prev_record fsysHost a w) credp)) := by
  simp only [local_set_mapped_file_attr, hp] at h
  unfold prev_record set_attr_content
  generalize sys fsysHost (.fopen a "r".toList) w = o at h ⊢
  have key : ∀ (pre : Option CStr × Int × World Fsys),
      (if pre.2.1 < 0 then some (pre.2.1, pre.2.2)
        else
          if (sys fsysHost (.fopen a "w".toList) pre.2.2).1.ret = 0 then
            some (-1, (sys fsysHost (.fopen a "w".toList) pre.2.2).2)
          else
            some (pre.2.1, (sys fsysHost (.fclose (sys fsysHost (.fopen a "w".toList) pre.2.2).1.ret)
              (fprintfAll fsysHost (sys fsysHost (.fopen a "w".toList) pre.2.2).1.ret
                (set_attr_prints (set_attr_merge (set_attr_read pre.1) credp))
                (sys fsysHost (.fopen a "w".toList) pre.2.2).2)).2)) = some r →
      tGet r.2.hs.tree (hostLocation a) =
        some (.file (set_attr_prints (set_attr_merge (set_attr_read pre.1) credp)).flatten) := by
    intro pre hr
    split at hr
    · rename_i hneg
      rw [← Option.some.inj hr] at h0
      simp only at h0
      omega
    · split at hr
      · rw [← Option.some.inj hr] at h0
        exact absurd (show (-1 : Int) = 0 from h0) (by decide)
      · rename_i hne
        have hne2 : (fsysFopen pre.2.2.hs (hostLocation a) "w".toList).1.ret ≠ 0 := hne
        obtain ⟨hl, hh, hc⟩ := fsysFopen_w_ok pre.2.2.hs (hostLocation a) hne2
        rw [← Option.some.inj hr]
        show tGet (fsysClose _ _).2.tree _ = _
        rw [fsysClose_tree]
        have := fprintfAll_fsys_content (sys fsysHost (.fopen a "w".toList) pre.2.2).1.ret
          (set_attr_prints (set_attr_merge (set_attr_read pre.1) credp))
          (sys fsysHost (.fopen a "w".toList) pre.2.2).2 (hostLocation a) [] hh hc hl
        rw [this]
        rfl
  by_cases hz : o.1.ret = 0
  · simp only [hz, ↓reduceIte] at h ⊢
    exact key (none, local_create_mapped_attr_dir fsysHost ctx path o.2) h
  · simp only [hz, ↓reduceIte] at h ⊢
    exact key (some o.1.data, (0, (sys fsysHost (.fclose o.1.ret) o.2).2)) h

theorem prev_record_fsys_file (w : World Fsys) (a prev : CStr)
    (hfile : tGet w.hs.tree (hostLocation a) = some (.file prev)) :
    prev_record fsysHost a w = some prev := by
  have ho : fsysHost.step w.hs (.fopen a "r".toList) =
      ({ (fsysAlloc w.hs w.hs.tree (.fileAt (hostLocation a) 0 O_RDONLY)).1 with data := prev },
       (fsysAlloc w.hs w.hs.tree (.fileAt (hostLocation a) 0 O_RDONLY)).2) := by
    show fsysFopen w.hs (hostLocation a) "r".toList = _
    unfold fsysFopen
    simp only [↓reduceIte, hfile]
  have hor : (sys fsysHost (.fopen a "r".toList) w).1.ret = (w.hs.next : Int) + 1 := by
    rw [sys_res, ho]; rfl
  have hod : (sys fsysHost (.fopen a "r".toList) w).1.data = prev := by
    rw [sys_res, ho]
  unfold prev_record
  rw [if_neg (by rw [hor]; omega), hod]

/-- C5 (amended): the record `local_set_mapped_file_attr` writes is the
rendering of the merged fields.  For a credential whose device number is
unset or below 2^31 and a previous record that is well formed (no line longer
than 98 characters, and every line that begins with the characters of a key
is a line `virtfs.<field>=<value>` with a decimal value in the range of
`int`), or no previous record: a field is taken from the credential when the
credential has it (it is not `-1`), else from the previous record when the
record has a line for it with a value other than `-1`, else it is absent; the
record is one line `virtfs.<field>=<value>` per present field in the order
uid, gid, mode, rdev, and nothing else.  On every host, when the call returns
0 it has opened the record for writing, printed texts that make up exactly
this rendering, and closed the stream, the previous record being what the
host delivered for reading.  On the file-tree host the record then holds
exactly this rendering, and the call on an existing record returns 0. -/
theorem local_set_mapped_file_attr_record (ctx : FsContext) (path attr_path : CStr)
    (credp : FsCred)
    (hp : local_mapped_attr_path ctx path = some attr_path)
    (hwf : credp.wf)
    (hrdev : credp.fc_rdev < 2147483648 ∨ credp.fc_rdev = U64_MINUS_ONE) :
    (∀ (σ : Type) (H : Host σ) (w : World σ) (r : Int × World σ),
      (∀ content, prev_record H attr_path w = some content → well_formed_record content = true) →
      local_set_mapped_file_attr H ctx path credp w = some r → r.1 = 0 →
      ∃ (second : HostCall) (fp : Int) (texts : List CStr),
        r.2.trace = w.trace ++ .fopen attr_path "r".toList :: second ::
          .fopen attr_path "w".toList ::
          (texts.map (fun t => HostCall.fprintf fp t) ++ [.fclose fp]) ∧
        (second = .mkdir (mapped_attr_dir ctx path) 0o700 ∨ ∃ s, second = .fclose s) ∧
        texts.flatten = spec_render (spec_merge (prev_record H attr_path w) credp)) ∧
    (∀ (w : World Fsys) (r : Int × World Fsys),
      (∀ content, prev_record fsysHost attr_path w = some content →
        well_formed_record content = true) →
      local_set_mapped_file_attr fsysHost ctx path credp w = some r → r.1 = 0 →
      tGet r.2.hs.tree (hostLocation attr_path) =
        some (.file (spec_render (spec_merge (prev_record fsysHost attr_path w) credp)))) ∧
    (∀ (w : World Fsys) (prev : CStr),
      tGet w.hs.tree (hostLocation attr_path) = some (.file prev) →
      prev_record fsysHost attr_path w = some prev ∧
      ∃ w2, local_set_mapped_file_attr fsysHost ctx path credp w = some (0, w2)) := by
  refine ⟨?_, ?_, ?_⟩
  · intro σ H w r hprev h h0
    obtain ⟨second, fp, ht, hs⟩ := local_set_mapped_file_attr_calls H ctx path credp w attr_path r
      hp h h0
    exact ⟨second, fp, _, ht, hs, set_attr_content_spec _ credp hwf hrdev hprev⟩
  · intro w r hprev h h0
    rw [local_set_mapped_file_attr_fsys_content ctx path credp w attr_path r hp h h0,
      set_attr_content_spec _ credp hwf hrdev hprev]
  · intro w prev hfile
    obtain ⟨w2, h2, _⟩ := local_set_mapped_file_attr_fsys_update ctx path credp w attr_path prev
      hp hfile
    exact ⟨prev_record_fsys_file w attr_path prev hfile, w2, h2⟩

/-- C5 at a concrete tree: the record of `/d/f` holds a uid line, an unknown
line and a mode line holding -1; a credential that sets only the gid is
stored; the call returns 0 and the record then holds the uid line and the gid
line. -/
theorem local_set_mapped_file_attr_record_witness :
    ∃ w2, local_set_mapped_file_attr fsysHost exCtxMappedFile "/d/f".toList
        ⟨U32_MINUS_ONE, 7, U32_MINUS_ONE, U64_MINUS_ONE⟩
        (fsysWorld (exRecordTree "virtfs.uid=5\nfoo\nvirtfs.mode=-1\n".toList)) = some (0, w2) ∧
      tGet w2.hs.tree ["export".toList, "d".toList, VIRTFS_META_DIR, "f".toList] =
        some (.file "virtfs.uid=5\nvirtfs.gid=7\n".toList) := by
  have T := local_set_mapped_file_attr_record exCtxMappedFile "/d/f".toList
    "/export//d/.virtfs_metadata/f".toList ⟨U32_MINUS_ONE, 7, U32_MINUS_ONE, U64_MINUS_ONE⟩
    (by decide) (by decide) (by decide)
  obtain ⟨hprev, w2, h2⟩ := T.2.2
    (fsysWorld (exRecordTree "virtfs.uid=5\nfoo\nvirtfs.mode=-1\n".toList))
    "virtfs.uid=5\nfoo\nvirtfs.mode=-1\n".toList (by decide)
  have hc := T.2.1 (fsysWorld (exRecordTree "virtfs.uid=5\nfoo\nvirtfs.mode=-1\n".toList)) (0, w2)
    (by
      intro c hcq
      rw [hprev] at hcq
      rw [← Option.some.inj hcq]
      decide)
    h2 rfl
  refine ⟨w2, h2, ?_⟩
  have hl : hostLocation "/export//d/.virtfs_metadata/f".toList =
      ["export".toList, "d".toList, VIRTFS_META_DIR, "f".toList] := by decide
  rw [hl, hprev] at hc
  rw [hc]
  decide

/-- C5, the claim as written fails: the record of `/d/f` is the one line
`virtfs.uid=-1` (a well-formed record that holds the uid -1) and the
credential sets nothing, so the claim asks for the record `virtfs.uid=-1`;
`local_set_mapped_file_attr` returns 0 and leaves an empty record. -/
theorem local_set_mapped_file_attr_drops_minus_one :
    well_formed_record "virtfs.uid=-1\n".toList = true ∧
    spec_record_value "virtfs.uid".toList "virtfs.uid=-1\n".toList = some (-1) ∧
    spec_render (spec_merge_literal (some "virtfs.uid=-1\n".toList)
        ⟨U32_MINUS_ONE, U32_MINUS_ONE, U32_MINUS_ONE, U64_MINUS_ONE⟩) = "virtfs.uid=-1\n".toList ∧
    (local_set_mapped_file_attr fsysHost exCtxMappedFile "/d/f".toList
        ⟨U32_MINUS_ONE, U32_MINUS_ONE, U32_MINUS_ONE, U64_MINUS_ONE⟩
        (fsysWorld (exRecordTree "virtfs.uid=-1\n".toList))).map
      (fun r => (r.1, tGet r.2.hs.tree ["export".toList, "d".toList, VIRTFS_META_DIR, "f".toList]))
      = some (0, some (.file [])) := by
  decide

/-! ## C7: the overlay of `local_lstat` -/

/-- What `local_lstat` returns when the host `lstat` succeeds.  Under
passthrough and none (neither mapped bit set) it is the raw host stat.  Under
mapped each of uid, gid, mode, rdev is replaced by the value of its reserved
attribute exactly when `getxattr` delivers one (returns a positive size), so
with no reserved attribute the host stat is returned unchanged.  Under
mapped-file with no record (`fopen` fails) the host stat is returned
unchanged, and with a well-formed record the fields are replaced that the
record holds a line `virtfs.<field>=<value>` for.  The other stat fields are
always the host's. -/
theorem local_lstat_overlay_well_formed {σ : Type} (H : Host σ) (ctx : FsContext) (path : CStr)
    (stbuf0 : Stat) (w : World σ)
    (hok : (sys H (.lstat (rpath ctx path)) w).1.ret = 0) :
    (flagSet ctx.export_flags V9FS_SM_MAPPED = false →
      flagSet ctx.export_flags V9FS_SM_MAPPED_FILE = false →
        local_lstat H ctx path stbuf0 w =
          some (0, (sys H (.lstat (rpath ctx path)) w).1.stat, (sys H (.lstat (rpath ctx path)) w).2)) ∧
    (flagSet ctx.export_flags V9FS_SM_MAPPED = true →
        local_lstat H ctx path stbuf0 w =
          some (0,
            spec_overlay (lstat_answers H ctx path w).1.stat
              (xattrValue (lstat_answers H ctx path w).2.1)
              (xattrValue (lstat_answers H ctx path w).2.2.1)
              (xattrValue (lstat_answers H ctx path w).2.2.2.1)
              (xattrValue (lstat_answers H ctx path w).2.2.2.2.1),
            (lstat_answers H ctx path w).2.2.2.2.2) ∧
        ((lstat_answers H ctx path w).2.1.ret ≤ 0 → (lstat_answers H ctx path w).2.2.1.ret ≤ 0 →
          (lstat_answers H ctx path w).2.2.2.1.ret ≤ 0 →
          (lstat_answers H ctx path w).2.2.2.2.1.ret ≤ 0 →
          local_lstat H ctx path stbuf0 w =
            some (0, (sys H (.lstat (rpath ctx path)) w).1.stat,
              (lstat_answers H ctx path w).2.2.2.2.2))) ∧
    (flagSet ctx.export_flags V9FS_SM_MAPPED = false →
      flagSet ctx.export_flags V9FS_SM_MAPPED_FILE = true →
      ∀ attr_path, local_mapped_attr_path ctx path = some attr_path →
        ((sys H (.fopen attr_path "r".toList) (sys H (.lstat (rpath ctx path)) w).2).1.ret = 0 →
          local_lstat H ctx path stbuf0 w =
            some (0, (sys H (.lstat (rpath ctx path)) w).1.stat,
              (sys H (.fopen attr_path "r".toList) (sys H (.lstat (rpath ctx path)) w).2).2)) ∧
        ((sys H (.fopen attr_path "r".toList) (sys H (.lstat (rpath ctx path)) w).2).1.ret ≠ 0 →
          well_formed_record
            (sys H (.fopen attr_path "r".toList) (sys H (.lstat (rpath ctx path)) w).2).1.data
              = true →
          ∃ w2, local_lstat H ctx path stbuf0 w =
            some (0,
              spec_record_overlay (sys H (.lstat (rpath ctx path)) w).1.stat
                (sys H (.fopen attr_path "r".toList) (sys H (.lstat (rpath ctx path)) w).2).1.data,
              w2))) := by
  have hmapped : flagSet ctx.export_flags V9FS_SM_MAPPED = true →
        local_lstat H ctx path stbuf0 w =
          some (0,
            spec_overlay (lstat_answers H ctx path w).1.stat
              (xattrValue (lstat_answers H ctx path w).2.1)
              (xattrValue (lstat_answers H ctx path w).2.2.1)
              (xattrValue (lstat_answers H ctx path w).2.2.2.1)
              (xattrValue (lstat_answers H ctx path w).2.2.2.2.1),
            (lstat_answers H ctx path w).2.2.2.2.2) := by
    intro hm
    unfold local_lstat lstat_answers
    simp only [hok, ne_eq, not_true_eq_false, ↓reduceIte, hm, xattrValue, spec_overlay]
    split_ifs <;> rfl
  refine ⟨?_, ?_, ?_⟩
  · intro h1 h2
    unfold local_lstat
    simp only [hok, ne_eq, not_true_eq_false, ↓reduceIte, h1, h2, Bool.false_eq_true]
  · intro hm
    refine ⟨hmapped hm, ?_⟩
    intro a1 a2 a3 a4
    rw [hmapped hm]
    have x1 : xattrValue (lstat_answers H ctx path w).2.1 = none := by
      unfold xattrValue; rw [if_neg (by omega)]
    have x2 : xattrValue (lstat_answers H ctx path w).2.2.1 = none := by
      unfold xattrValue; rw [if_neg (by omega)]
    have x3 : xattrValue (lstat_answers H ctx path w).2.2.2.1 = none := by
      unfold xattrValue; rw [if_neg (by omega)]
    have x4 : xattrValue (lstat_answers H ctx path w).2.2.2.2.1 = none := by
      unfold xattrValue; rw [if_neg (by omega)]
    rw [x1, x2, x3, x4, spec_overlay_none]
    rfl
  · intro h1 h2 attr_path hp
    constructor
    · intro hf
      unfold local_lstat local_mapped_file_attr
      simp only [hok, ne_eq, not_true_eq_false, ↓reduceIte, h1, h2, Bool.false_eq_true, hp, hf]
    · intro hf hwf
      unfold local_lstat local_mapped_file_attr
      simp only [hok, ne_eq, not_true_eq_false, ↓reduceIte, h1, h2, Bool.false_eq_true, hp, hf,
        mapped_file_attr_read_eq_loop, read_loop_overlay_spec _ _ hwf]
      exact ⟨_, rfl⟩

/-- The overlay at a concrete host: under mapped-file the record
`virtfs.uid=0`, `virtfs.mode=33188` replaces uid and mode of the host stat and
leaves gid, rdev and the other fields. -/
theorem local_lstat_overlay_example :
    ∃ w2, local_lstat scriptHost exCtxMappedFile "/a/b".toList ⟨0, 0, 0, 0, 0⟩
        (exLstatWorld "virtfs.uid=0\nvirtfs.mode=33188\n".toList)
      = some (0, ⟨0, 100, 33188, 0, 9⟩, w2) :=
  ((local_lstat_overlay_well_formed scriptHost exCtxMappedFile "/a/b".toList ⟨0, 0, 0, 0, 0⟩
      (exLstatWorld "virtfs.uid=0\nvirtfs.mode=33188\n".toList) (by decide)).2.2
    (by decide) (by decide) "/export//a/.virtfs_metadata/b".toList (by decide)).2 (by decide)
    (by decide)

/-- C7, evaluation at failing inputs.  Under mapped-file the shadow record of
`/a/b` is the one line `virtfs.uidmap=7`, which is no line of the form
`virtfs.uid=<value>`: the record holds no field, so the stored overlay leaves
the host stat (uid 1000, gid 100) unchanged; `local_lstat` returns 0 with the
uid replaced by 0.  With a record whose one line is 99 characters followed by
`virtfs.gid=5`, again a record that holds no field, `local_lstat` returns the
gid 5 instead of the host's 100. -/
theorem local_lstat_overlays_unrecognized_line :
    spec_record_value "virtfs.uid".toList "virtfs.uidmap=7\n".toList = none ∧
    spec_record_overlay ⟨1000, 100, 0o100600, 0, 9⟩ "virtfs.uidmap=7\n".toList
      = ⟨1000, 100, 0o100600, 0, 9⟩ ∧
    (local_lstat scriptHost exCtxMappedFile "/a/b".toList ⟨0, 0, 0, 0, 0⟩
        (exLstatWorld "virtfs.uidmap=7\n".toList)).map (fun r => (r.1, r.2.1))
      = some (0, ⟨0, 100, 0o100600, 0, 9⟩) ∧
    spec_record_overlay ⟨1000, 100, 0o100600, 0, 9⟩
        (List.replicate 99 'x' ++ "virtfs.gid=5\n".toList) = ⟨1000, 100, 0o100600, 0, 9⟩ ∧
    (local_lstat scriptHost exCtxMappedFile "/a/b".toList ⟨0, 0, 0, 0, 0⟩
        (exLstatWorld (List.replicate 99 'x' ++ "virtfs.gid=5\n".toList))).map
          (fun r => (r.1, r.2.1))
      = some (0, ⟨1000, 5, 0o100600, 0, 9⟩) := by
  decide

/-! ## C16: the creation calls are issued -/

theorem local_mapped_attr_path_leaf_isSome (ctx : FsContext) (D N : CStr) (hN : N ≠ [])
    (hs : '/' ∉ N) : (local_mapped_attr_path ctx (fullname D N)).isSome = true := by
  have hfull : fullname D N = D ++ '/' :: N := by simp [fullname]
  unfold local_mapped_attr_path
  rw [hfull, basenameSplit_leaf D N hN hs]
  rfl

/-- Enough fuel: a `write` that is not interrupted ends the retry loop at
once. -/
theorem write_retry_not_interrupted {σ : Type} (H : Host σ) (fd : Int) (data : CStr) (fuel : Nat)
    (w : World σ) (hfuel : 0 < fuel)
    (h : ¬ ((sys H (.write fd data) w).1.ret = -1 ∧ (sys H (.write fd data) w).2.errno = EINTR)) :
    write_retry H fd data fuel w =
      some ((sys H (.write fd data) w).1.ret, (sys H (.write fd data) w).2) := by
  match fuel, hfuel with
  | n + 1, _ =>
    simp only [write_retry]
    rw [if_neg h]

/-- More fuel does not change the result of the retry loop. -/
theorem write_retry_more_fuel {σ : Type} (H : Host σ) (fd : Int) (data : CStr) (fuel k : Nat) :
    ∀ (w : World σ) (r : Int × World σ), write_retry H fd data fuel w = some r →
      write_retry H fd data (fuel + k) w = some r := by
  induction fuel with
  | zero => intro w r h; simp [write_retry] at h
  | succ n ih =>
    intro w r h
    have e : n + 1 + k = (n + k) + 1 := by omega
    rw [e]
    simp only [write_retry] at h ⊢
    split
    · rename_i hc
      rw [if_pos hc] at h
      exact ih _ _ h
    · rename_i hc
      rw [if_neg hc] at h
      exact h

theorem symlink_store_target_isSome {σ : Type} (H : Host σ) (ctx : FsContext)
    (oldpath newpath : CStr) (fuel : Nat) (w : World σ)
    (h : (sys H (.open_ (rpath ctx newpath) (O_CREAT ||| O_EXCL ||| O_RDWR) SM_LOCAL_MODE_BITS)
        w).1.ret = -1 ∨
      (write_retry H
        (sys H (.open_ (rpath ctx newpath) (O_CREAT ||| O_EXCL ||| O_RDWR) SM_LOCAL_MODE_BITS)
          w).1.ret oldpath fuel
        (sys H (.open_ (rpath ctx newpath) (O_CREAT ||| O_EXCL ||| O_RDWR) SM_LOCAL_MODE_BITS)
          w).2).isSome = true) :
    (symlink_store_target H ctx oldpath newpath fuel w).isSome = true := by
  simp only [symlink_store_target]
  generalize sys H (.open_ (rpath ctx newpath) (O_CREAT ||| O_EXCL ||| O_RDWR) SM_LOCAL_MODE_BITS)
    w = o at h ⊢
  by_cases h0 : o.1.ret = -1
  · rw [if_pos h0]; rfl
  · rw [if_neg h0]
    rcases h with h | h
    · exact absurd h h0
    · obtain ⟨wr, hwr⟩ := Option.isSome_iff_exists.mp h
      rw [hwr]
      simp only
      split <;> rfl

/-- Under the mapped and mapped-file models the four create operations
return and begin with the creation call of fixed mode: for every name under
mapped, and under mapped-file for a name that is not empty and holds no `/`
(for `local_symlink` when the `open` fails or the retry loop of the `write`
ends within the fuel). -/
theorem mapped_creation_issued {σ : Type} (H : Host σ) (ctx : FsContext)
    (oldpath dir_path name : CStr) (flags fuel : Nat) (w : World σ) (credp : FsCred)
    (hmodel : flagSet ctx.export_flags V9FS_SM_MAPPED = true ∨
      flagSet ctx.export_flags V9FS_SM_MAPPED_FILE = true)
    (hname : flagSet ctx.export_flags V9FS_SM_MAPPED = true ∨ (name ≠ [] ∧ '/' ∉ name)) :
    (∃ r rest, local_mknod H ctx dir_path name credp w = some r ∧
      r.2.trace = w.trace ++
        .mknod (rpath ctx (fullname dir_path name)) (SM_LOCAL_MODE_BITS ||| S_IFREG) 0 :: rest) ∧
    (∃ r rest, local_mkdir H ctx dir_path name credp w = some r ∧
      r.2.trace = w.trace ++
        .mkdir (rpath ctx (fullname dir_path name)) SM_LOCAL_DIR_MODE_BITS :: rest) ∧
    (∃ r rest, local_open2 H ctx dir_path name flags credp w = some r ∧
      r.2.2.trace = w.trace ++
        .open_ (rpath ctx (fullname dir_path name)) flags SM_LOCAL_MODE_BITS :: rest) ∧
    ((sys H (.open_ (rpath ctx (fullname dir_path name)) (O_CREAT ||| O_EXCL ||| O_RDWR)
          SM_LOCAL_MODE_BITS) w).1.ret = -1 ∨
      (write_retry H
        (sys H (.open_ (rpath ctx (fullname dir_path name)) (O_CREAT ||| O_EXCL ||| O_RDWR)
          SM_LOCAL_MODE_BITS) w).1.ret oldpath fuel
        (sys H (.open_ (rpath ctx (fullname dir_path name)) (O_CREAT ||| O_EXCL ||| O_RDWR)
          SM_LOCAL_MODE_BITS) w).2).isSome = true →
      ∃ r rest, local_symlink H ctx oldpath dir_path name credp fuel w = some r ∧
        r.2.trace = w.trace ++
          .open_ (rpath ctx (fullname dir_path name)) (O_CREAT ||| O_EXCL ||| O_RDWR)
            SM_LOCAL_MODE_BITS :: rest) := by
  have hattr : (flagSet ctx.export_flags V9FS_SM_MAPPED ||
      (local_mapped_attr_path ctx (fullname dir_path name)).isSome) = true := by
    rcases hname with h | ⟨h1, h2⟩
    · rw [h]; rfl
    · rw [local_mapped_attr_path_leaf_isSome ctx dir_path name h1 h2, Bool.or_true]
  refine ⟨?_, ?_, ?_, ?_⟩
  · have hs : (local_mknod H ctx dir_path name credp w).isSome = true := by
      rw [local_mknod_isSome H ctx dir_path name credp w hmodel]
      rcases hname with h | ⟨h1, h2⟩
      · rw [h]; rfl
      · rw [local_mapped_attr_path_leaf_isSome ctx dir_path name h1 h2, Bool.or_true]
    obtain ⟨r, hr⟩ := Option.isSome_iff_exists.mp hs
    obtain ⟨_, _, hall⟩ := local_mknod_creation H ctx dir_path name w hmodel
    obtain ⟨rest, ht, _⟩ := hall credp r hr
    exact ⟨r, rest, hr, ht⟩
  · have hs : (local_mkdir H ctx dir_path name credp w).isSome = true := by
      rw [local_mkdir_isSome H ctx dir_path name credp w hmodel]
      rcases hname with h | ⟨h1, h2⟩
      · rw [h]; rfl
      · rw [local_mapped_attr_path_leaf_isSome ctx dir_path name h1 h2, Bool.or_true]
    obtain ⟨r, hr⟩ := Option.isSome_iff_exists.mp hs
    obtain ⟨_, _, hall⟩ := local_mkdir_creation H ctx dir_path name w hmodel
    obtain ⟨rest, ht, _⟩ := hall credp r hr
    exact ⟨r, rest, hr, ht⟩
  · have hs : (local_open2 H ctx dir_path name flags credp w).isSome = true := by
      rw [local_open2_isSome H ctx dir_path name flags credp w hmodel]
      rcases hname with h | ⟨h1, h2⟩
      · rw [h]; rfl
      · rw [local_mapped_attr_path_leaf_isSome ctx dir_path name h1 h2, Bool.or_true]
    obtain ⟨r, hr⟩ := Option.isSome_iff_exists.mp hs
    obtain ⟨_, _, hall⟩ := local_open2_creation H ctx dir_path name flags w hmodel
    obtain ⟨rest, ht, _⟩ := hall credp r hr
    exact ⟨r, rest, hr, ht⟩
  · intro hw
    have hst := symlink_store_target_isSome H ctx oldpath (fullname dir_path name) fuel w hw
    have hs : (local_symlink H ctx oldpath dir_path name credp fuel w).isSome = true := by
      rw [local_symlink_isSome H ctx oldpath dir_path name credp fuel w hmodel]
      obtain ⟨x, hx⟩ := Option.isSome_iff_exists.mp hst
      rw [hx]
      cases x with
      | inl e => rfl
      | inr w1 => exact hattr
    obtain ⟨r, hr⟩ := Option.isSome_iff_exists.mp hs
    obtain ⟨_, _, hall⟩ := local_symlink_creation H ctx oldpath dir_path name fuel w hmodel
    obtain ⟨rest, ht, _⟩ := hall credp r hr
    exact ⟨r, rest, hr, ht⟩

/-- C16: under the mapped and mapped-file models the host call that creates
the object is fixed by the path alone.  Whatever the credential, the first
host call of `local_mknod` is `mknod` with mode `SM_LOCAL_MODE_BITS | S_IFREG`
and device 0, of `local_mkdir` is `mkdir` with `SM_LOCAL_DIR_MODE_BITS`, of
`local_open2` is `open` with the caller's flags and `SM_LOCAL_MODE_BITS`, and
of `local_symlink` is `open` with `O_CREAT | O_EXCL | O_RDWR` and
`SM_LOCAL_MODE_BITS`.  The object-creating calls after it are the same list
`extra` for every credential, and hold at most the `mkdir` of the hidden
directory with mode 0700.  Whether the call is defined does not depend on
the credential.  The calls are issued: under mapped for every name, and under
mapped-file for a name that is not empty and holds no `/`, each of
`local_mknod`, `local_mkdir` and `local_open2` returns, for every credential,
with a trace that begins with its creation call; so does `local_symlink`
when its `open` fails or the retry loop of its `write` ends within the fuel,
which it does with any fuel when the first `write` is not interrupted, and
more fuel never changes a result. -/
theorem mapped_creation_independent_of_credential {σ : Type} (H : Host σ) (ctx : FsContext)
    (oldpath dir_path name : CStr) (flags fuel : Nat) (w : World σ)
    (hmodel : flagSet ctx.export_flags V9FS_SM_MAPPED = true ∨
      flagSet ctx.export_flags V9FS_SM_MAPPED_FILE = true) :
    (∃ extra : List HostCall,
      (∀ c ∈ extra, c = .mkdir (mapped_attr_dir ctx (fullname dir_path name)) 0o700) ∧
      ∀ (credp : FsCred) (r : Int × World σ), local_mknod H ctx dir_path name credp w = some r →
        ∃ rest, r.2.trace = w.trace ++
            .mknod (rpath ctx (fullname dir_path name)) (SM_LOCAL_MODE_BITS ||| S_IFREG) 0 :: rest ∧
          rest.filter isCreateCall = extra) ∧
    (∃ extra : List HostCall,
      (∀ c ∈ extra, c = .mkdir (mapped_attr_dir ctx (fullname dir_path name)) 0o700) ∧
      ∀ (credp : FsCred) (r : Int × World σ), local_mkdir H ctx dir_path name credp w = some r →
        ∃ rest, r.2.trace = w.trace ++
            .mkdir (rpath ctx (fullname dir_path name)) SM_LOCAL_DIR_MODE_BITS :: rest ∧
          rest.filter isCreateCall = extra) ∧
    (∃ extra : List HostCall,
      (∀ c ∈ extra, c = .mkdir (mapped_attr_dir ctx (fullname dir_path name)) 0o700) ∧
      ∀ (credp : FsCred) (r : Int × Option Int × World σ),
        local_open2 H ctx dir_path name flags credp w = some r →
        ∃ rest, r.2.2.trace = w.trace ++
            .open_ (rpath ctx (fullname dir_path name)) flags SM_LOCAL_MODE_BITS :: rest ∧
          rest.filter isCreateCall = extra) ∧
    (∃ extra : List HostCall,
      (∀ c ∈ extra, c = .mkdir (mapped_attr_dir ctx (fullname dir_path name)) 0o700) ∧
      ∀ (credp : FsCred) (r : Int × World σ),
        local_symlink H ctx oldpath dir_path name credp fuel w = some r →
        ∃ rest, r.2.trace = w.trace ++
            .open_ (rpath ctx (fullname dir_path name)) (O_CREAT ||| O_EXCL ||| O_RDWR)
              SM_LOCAL_MODE_BITS :: rest ∧
          rest.filter isCreateCall = extra) ∧
    (∀ c1 c2 : FsCred,
      (local_mknod H ctx dir_path name c1 w).isSome = (local_mknod H ctx dir_path name c2 w).isSome ∧
      (local_mkdir H ctx dir_path name c1 w).isSome = (local_mkdir H ctx dir_path name c2 w).isSome ∧
      (local_open2 H ctx dir_path name flags c1 w).isSome =
        (local_open2 H ctx dir_path name flags c2 w).isSome ∧
      (local_symlink H ctx oldpath dir_path name c1 fuel w).isSome =
        (local_symlink H ctx oldpath dir_path name c2 fuel w).isSome) ∧
    (flagSet ctx.export_flags V9FS_SM_MAPPED = true ∨ (name ≠ [] ∧ '/' ∉ name) →
      ∀ credp : FsCred,
        (∃ r rest, local_mknod H ctx dir_path name credp w = some r ∧
          r.2.trace = w.trace ++
            .mknod (rpath ctx (fullname dir_path name)) (SM_LOCAL_MODE_BITS ||| S_IFREG) 0 :: rest) ∧
        (∃ r rest, local_mkdir H ctx dir_path name credp w = some r ∧
          r.2.trace = w.trace ++
            .mkdir (rpath ctx (fullname dir_path name)) SM_LOCAL_DIR_MODE_BITS :: rest) ∧
        (∃ r rest, local_open2 H ctx dir_path name flags credp w = some r ∧
          r.2.2.trace = w.trace ++
            .open_ (rpath ctx (fullname dir_path name)) flags SM_LOCAL_MODE_BITS :: rest) ∧
        ((sys H (.open_ (rpath ctx (fullname dir_path name)) (O_CREAT ||| O_EXCL ||| O_RDWR)
              SM_LOCAL_MODE_BITS) w).1.ret = -1 ∨
          (write_retry H
            (sys H (.open_ (rpath ctx (fullname dir_path name)) (O_CREAT ||| O_EXCL ||| O_RDWR)
              SM_LOCAL_MODE_BITS) w).1.ret oldpath fuel
            (sys H (.open_ (rpath ctx (fullname dir_path name)) (O_CREAT ||| O_EXCL ||| O_RDWR)
              SM_LOCAL_MODE_BITS) w).2).isSome = true →
          ∃ r rest, local_symlink H ctx oldpath dir_path name credp fuel w = some r ∧
            r.2.trace = w.trace ++
              .open_ (rpath ctx (fullname dir_path name)) (O_CREAT ||| O_EXCL ||| O_RDWR)
                SM_LOCAL_MODE_BITS :: rest)) ∧
    (∀ (fd : Int) (data : CStr) (w1 : World σ), 0 < fuel →
      ¬ ((sys H (.write fd data) w1).1.ret = -1 ∧ (sys H (.write fd data) w1).2.errno = EINTR) →
      (write_retry H fd data fuel w1).isSome = true) ∧
    (∀ (fd : Int) (data : CStr) (w1 : World σ) (k : Nat) (r : Int × World σ),
      write_retry H fd data fuel w1 = some r → write_retry H fd data (fuel + k) w1 = some r) := by
  refine ⟨local_mknod_creation H ctx dir_path name w hmodel,
    local_mkdir_creation H ctx dir_path name w hmodel,
    local_open2_creation H ctx dir_path name flags w hmodel,
    local_symlink_creation H ctx oldpath dir_path name fuel w hmodel, ?_,
    fun hname credp => mapped_creation_issued H ctx oldpath dir_path name flags fuel w credp
      hmodel hname,
    fun fd data w1 hfuel hni => by
      rw [write_retry_not_interrupted H fd data fuel w1 hfuel hni]; rfl,
    fun fd data w1 k r h => write_retry_more_fuel H fd data fuel k w1 r h⟩
  intro c1 c2
  refine ⟨?_, ?_, ?_, ?_⟩
  · rw [local_mknod_isSome H ctx dir_path name c1 w hmodel,
      local_mknod_isSome H ctx dir_path name c2 w hmodel]
  · rw [local_mkdir_isSome H ctx dir_path name c1 w hmodel,
      local_mkdir_isSome H ctx dir_path name c2 w hmodel]
  · rw [local_open2_isSome H ctx dir_path name flags c1 w hmodel,
      local_open2_isSome H ctx dir_path name flags c2 w hmodel]
  · rw [local_symlink_isSome H ctx oldpath dir_path name c1 fuel w hmodel,
      local_symlink_isSome H ctx oldpath dir_path name c2 fuel w hmodel]

/-- C16 at concrete inputs under mapped-file.  On a host that lets every
call succeed, `local_mknod` asked for a block device (mode 060660, device
0x801) returns 0 and begins with `mknod` of a regular file with mode 0600 and
device 0.  On the file-tree host with the directory `/export/d` present,
`local_mkdir` and `local_symlink` with the same credential return 0 and begin
with `mkdir` with mode 0700 and with `open` with mode 0600. -/
theorem mapped_creation_independent_of_credential_witness :
    (∃ r rest, local_mknod scriptHost exCtxMappedFile "/d".toList "n".toList
        ⟨0, 0, 0o060660, 0x801⟩
        (scriptWorld [okRes 0, okRes 0, okRes 0, okRes 9, okRes 0, okRes 0, okRes 0, okRes 0,
          okRes 0]) = some r ∧
      r.2.trace = [] ++ .mknod "/export//d/n".toList (SM_LOCAL_MODE_BITS ||| S_IFREG) 0 :: rest) ∧
    (local_mknod scriptHost exCtxMappedFile "/d".toList "n".toList ⟨0, 0, 0o060660, 0x801⟩
        (scriptWorld [okRes 0, okRes 0, okRes 0, okRes 9, okRes 0, okRes 0, okRes 0, okRes 0,
          okRes 0])).map (fun r => r.1) = some 0 ∧
    (∃ r rest, local_mkdir fsysHost exCtxMappedFile "/d".toList "n".toList
        ⟨0, 0, 0o060660, 0x801⟩ (fsysWorld exPlainTree) = some r ∧
      r.2.trace = [] ++ .mkdir "/export//d/n".toList SM_LOCAL_DIR_MODE_BITS :: rest) ∧
    (local_mkdir fsysHost exCtxMappedFile "/d".toList "n".toList ⟨0, 0, 0o060660, 0x801⟩
        (fsysWorld exPlainTree)).map (fun r => r.1) = some 0 ∧
    (∃ r rest, local_symlink fsysHost exCtxMappedFile "target".toList "/d".toList "n".toList
        ⟨0, 0, 0o060660, 0x801⟩ 1 (fsysWorld exPlainTree) = some r ∧
      r.2.trace = [] ++ .open_ "/export//d/n".toList (O_CREAT ||| O_EXCL ||| O_RDWR)
        SM_LOCAL_MODE_BITS :: rest) ∧
    (local_symlink fsysHost exCtxMappedFile "target".toList "/d".toList "n".toList
        ⟨0, 0, 0o060660, 0x801⟩ 1 (fsysWorld exPlainTree)).map (fun r => r.1) = some 0 :=
  ⟨((mapped_creation_independent_of_credential scriptHost exCtxMappedFile "target".toList
      "/d".toList "n".toList 0 1
      (scriptWorld [okRes 0, okRes 0, okRes 0, okRes 9, okRes 0, okRes 0, okRes 0, okRes 0,
        okRes 0]) (by decide)).2.2.2.2.2.1
      (Or.inr ⟨by decide, by decide⟩) ⟨0, 0, 0o060660, 0x801⟩).1,
   by decide,
   ((mapped_creation_independent_of_credential fsysHost exCtxMappedFile "target".toList
      "/d".toList "n".toList 0 1 (fsysWorld exPlainTree) (by decide)).2.2.2.2.2.1
      (Or.inr ⟨by decide, by decide⟩) ⟨0, 0, 0o060660, 0x801⟩).2.1,
   by decide,
   ((mapped_creation_independent_of_credential fsysHost exCtxMappedFile "target".toList
      "/d".toList "n".toList 0 1 (fsysWorld exPlainTree) (by decide)).2.2.2.2.2.1
      (Or.inr ⟨by decide, by decide⟩) ⟨0, 0, 0o060660, 0x801⟩).2.2.2 (Or.inr (by decide)),
   by decide⟩

end NinePLocal
